import Mathlib

/-!
# DistributionSocketLink

A shallow embedding of `src/DistributionSocketLink.cc` (the peer-to-peer
distribution link of Workrave) and theorems about it.

Conventions of the embedding.

* A `gchar *` is an `Option CString`: `none` is the NULL pointer, `some bs`
  the bytes of a NUL-terminated string (without the terminator).
* A `Client *` is the `id` of the record (its address); the peer table
  `clients` is the `std::list<Client *>` in list order.
* `gint`, `time_t` values are `Int`; values read from the wire are `Nat`
  below `65536`.
* Undefined behaviour of the C++ (`strcmp` on a NULL pointer, a call through
  a NULL provider, a dangling `Client *`, a failed `g_assert`) is the result
  `none`.
* Everything the link does to the outside world (socket writes, connects,
  listener callbacks, provider calls) is appended to `Link.trace`.
-/

namespace DistributionSocketLink

/-- A C string: the bytes before the terminating NUL. -/
abbrev CString := List Nat

/-! ## PacketBuffer -/

/-- Modelled from the spec: PacketBuffer (`PacketBuffer.cc/.hh` are not under
src/), a "typed byte buffer with independent read and write cursors".
`buffer` holds the bytes written so far (the write cursor is its length),
`read_pos` is the read cursor. -/
structure PacketBuffer where
  buffer : List Nat
  read_pos : Nat
deriving DecidableEq

namespace PacketBuffer

/-- Modelled from the spec: PacketBuffer::create, a fresh empty buffer. -/
def create : PacketBuffer := ⟨[], 0⟩

/-- Modelled from the spec: PacketBuffer::clear, both cursors back to the start. -/
def clear (_p : PacketBuffer) : PacketBuffer := ⟨[], 0⟩

/-- Modelled from the spec: PacketBuffer::bytes_written, the write cursor. -/
def bytes_written (p : PacketBuffer) : Nat := p.buffer.length

/-- Modelled from the spec: PacketBuffer::bytes_read, the read cursor. -/
def bytes_read (p : PacketBuffer) : Nat := p.read_pos

/-- Modelled from the spec: PacketBuffer::bytes_available, the bytes written
and not yet read. -/
def bytes_available (p : PacketBuffer) : Nat := p.buffer.length - p.read_pos

/-- Modelled from the spec: PacketBuffer::pack_byte, one 8-bit integer. -/
def pack_byte (p : PacketBuffer) (v : Nat) : PacketBuffer :=
  { p with buffer := p.buffer ++ [v % 256] }

/-- Modelled from the spec: PacketBuffer::pack_ushort, a 16-bit integer,
big-endian ("all multi-byte integers big-endian"). -/
def pack_ushort (p : PacketBuffer) (v : Nat) : PacketBuffer :=
  { p with buffer := p.buffer ++ [v / 256 % 256, v % 256] }

/-- Modelled from the spec: PacketBuffer::pack_string, "`u16 length` followed
by `length` bytes"; the NULL string is packed as the empty one. -/
def pack_string (p : PacketBuffer) (s : Option CString) : PacketBuffer :=
  let d := s.getD []
  { p with buffer := p.buffer ++ [d.length / 256 % 256, d.length % 256] ++ d }

/-- Modelled from the spec: PacketBuffer::pack_raw, the bytes themselves (the
STATEINFO layout puts `data[data_len]` right after `state_id`). -/
def pack_raw (p : PacketBuffer) (data : List Nat) : PacketBuffer :=
  { p with buffer := p.buffer ++ data }

/-- Modelled from the spec: PacketBuffer::peek_ushort, the 16-bit integer at
an arbitrary offset. -/
def peek_ushort (p : PacketBuffer) (pos : Nat) : Nat :=
  p.buffer.getD pos 0 * 256 + p.buffer.getD (pos + 1) 0

/-- Modelled from the spec: PacketBuffer::poke_ushort, overwrite the 16-bit
integer at an arbitrary offset ("late length back-patching"). -/
def poke_ushort (p : PacketBuffer) (pos : Nat) (v : Nat) : PacketBuffer :=
  { p with buffer := (p.buffer.set pos (v / 256 % 256)).set (pos + 1) (v % 256) }

/-- Modelled from the spec: PacketBuffer::unpack_byte; a truncated field
reads as 0 and leaves the cursor. -/
def unpack_byte (p : PacketBuffer) : Nat × PacketBuffer :=
  if p.read_pos + 1 ≤ p.buffer.length then
    (p.buffer.getD p.read_pos 0, { p with read_pos := p.read_pos + 1 })
  else (0, p)

/-- Modelled from the spec: PacketBuffer::unpack_ushort; a truncated field
reads as 0 and leaves the cursor. -/
def unpack_ushort (p : PacketBuffer) : Nat × PacketBuffer :=
  if p.read_pos + 2 ≤ p.buffer.length then
    (p.peek_ushort p.read_pos, { p with read_pos := p.read_pos + 2 })
  else (0, p)

/-- Modelled from the spec: PacketBuffer::unpack_string; a truncated string
is NULL (the handlers test the result against NULL), otherwise the C string
held in the `length` bytes, which ends at the first NUL if there is one. -/
def unpack_string (p : PacketBuffer) : Option CString × PacketBuffer :=
  if p.read_pos + 2 ≤ p.buffer.length then
    let n := p.peek_ushort p.read_pos
    if p.read_pos + 2 + n ≤ p.buffer.length then
      (some (((p.buffer.drop (p.read_pos + 2)).take n).takeWhile (fun b => b != 0)),
        { p with read_pos := p.read_pos + 2 + n })
    else (none, { p with read_pos := p.read_pos + 2 })
  else (none, p)

/-- Modelled from the spec: PacketBuffer::unpack_raw; `none` stands for the
result 0 ("Illegal state packet"). -/
def unpack_raw (p : PacketBuffer) (n : Nat) : Option (List Nat) × PacketBuffer :=
  if p.read_pos + n ≤ p.buffer.length then
    (some ((p.buffer.drop p.read_pos).take n), { p with read_pos := p.read_pos + n })
  else (none, p)

/-- Modelled from the spec: PacketBuffer::skip, move the read cursor. -/
def skip (p : PacketBuffer) (n : Int) : PacketBuffer :=
  { p with read_pos := ((p.read_pos : Int) + n).toNat }

end PacketBuffer

/-! ## Protocol constants -/

/-- Modelled from the spec: PacketCommand (declared in the header), HELLO (1). -/
def PACKET_HELLO : Nat := 1
/-- Modelled from the spec: PacketCommand (declared in the header), WELCOME (2). -/
def PACKET_WELCOME : Nat := 2
/-- Modelled from the spec: PacketCommand (declared in the header), CLIENT_LIST (3). -/
def PACKET_CLIENT_LIST : Nat := 3
/-- Modelled from the spec: PacketCommand (declared in the header), CLAIM (4). -/
def PACKET_CLAIM : Nat := 4
/-- Modelled from the spec: PacketCommand (declared in the header), NEW_MASTER (5). -/
def PACKET_NEW_MASTER : Nat := 5
/-- Modelled from the spec: PacketCommand (declared in the header), STATEINFO (6). -/
def PACKET_STATEINFO : Nat := 6
/-- Modelled from the spec: PacketCommand (declared in the header), DUPLICATE (7). -/
def PACKET_DUPLICATE : Nat := 7

/-- Modelled from the spec: client-list flag (declared in the header), FORWARDABLE=1. -/
def CLIENTLIST_FORWARDABLE : Nat := 1
/-- Modelled from the spec: client-list flag (declared in the header), I_AM_ACTIVE=2. -/
def CLIENTLIST_IAM_ACTIVE : Nat := 2
/-- Modelled from the spec: client-list flag (declared in the header), HAS_ACTIVE_REF=4. -/
def CLIENTLIST_HAS_ACTIVE_REF : Nat := 4

/-- The bitwise complement of a flag in a 32-bit `gint`. -/
def gint_not (v : Nat) : Nat := 4294967295 - v

/-- The conversion of a `gint` to the `guint16` that `pack_ushort` takes. -/
def to_ushort (v : Int) : Nat := (v % 65536).toNat

/-- The constants `DEFAULT_PORT`, `DEFAULT_ATTEMPTS`, `DEFAULT_INTERVAL` of the
header, which is not under src/. -/
structure Defaults where
  DEFAULT_PORT : Int
  DEFAULT_ATTEMPTS : Int
  DEFAULT_INTERVAL : Int
deriving DecidableEq

/-! ## Data model -/

/-- The `Client` record of a peer. `id` stands for the address of the record,
`socket` for the `SocketConnection *` (`none` is NULL). -/
structure Client where
  id : Nat
  socket : Option Nat
  hostname : Option CString
  port : Int
  reconnect_count : Int
  reconnect_time : Int
  packet : PacketBuffer
deriving DecidableEq

/-- Modelled from the spec: the Client constructor (declared in the header):
a new record has no socket, no identity and no reconnect schedule. -/
def Client.new (id : Nat) : Client :=
  { id := id, socket := none, hostname := none, port := 0,
    reconnect_count := 0, reconnect_time := 0, packet := PacketBuffer.create }

/-- What the link does to its collaborators, in the order it does it. -/
inductive Event where
  /-- The call `c->socket->write(buffer, size, _)` for the client `c`. -/
  | write (client : Nat) (data : List Nat)
  /-- The call `socket_driver->connect(host, port, client)`. -/
  | connect (host : Option CString) (port : Int) (client : Nat)
  /-- The call `socket_driver->listen(port, NULL)`. -/
  | listen (port : Int)
  /-- The call `dist_manager->active_changed(b)`. -/
  | active_changed (b : Bool)
  /-- The call `dist_manager->state_transfer_complete()`. -/
  | state_transfer_complete
  /-- The call `state_map[id]->set_state(id, will_i_become_active, data, datalen)`. -/
  | set_state (id : Nat) (will_i_become_active : Bool) (data : List Nat)
deriving DecidableEq

/-- The socket driver as far as the link consults it. -/
structure Driver where
  /-- The result of `socket_driver->canonicalize(host)`. -/
  canonicalize : Option CString → Option CString

/-- The fields of `DistributionSocketLink`. `dist_manager` tells whether a
listener is installed, `server_socket` whether the listen socket exists; a
state provider is represented by what its `get_state` returns (`none` for
`false`); `next_id` is the address the next `new Client` gets. -/
structure Link where
  dist_manager : Bool
  active_client : Option Nat
  active : Bool
  myname : Option CString
  server_port : Int
  server_socket : Bool
  server_enabled : Bool
  username : Option CString
  password : Option CString
  reconnect_attempts : Int
  reconnect_interval : Int
  heartbeat_count : Int
  clients : List Client
  state_map : List (Nat × Option (List Nat))
  next_id : Nat
  trace : List Event
deriving DecidableEq

/-- The constructor `DistributionSocketLink::DistributionSocketLink`. -/
def Link.construct (K : Defaults) : Link :=
  { dist_manager := false, active_client := none, active := false, myname := none,
    server_port := K.DEFAULT_PORT, server_socket := false, server_enabled := false,
    username := none, password := none,
    reconnect_attempts := K.DEFAULT_ATTEMPTS, reconnect_interval := K.DEFAULT_INTERVAL,
    heartbeat_count := 0, clients := [], state_map := [], next_id := 1, trace := [] }

/-- Dereference a `Client *`; `none` when no such record is in the table. -/
def Link.get_client (s : Link) (id : Nat) : Option Client :=
  s.clients.find? (fun c => c.id == id)

/-- Assign through a `Client *`. -/
def update_client (cl : List Client) (id : Nat) (f : Client → Client) : List Client :=
  cl.map (fun c => if c.id == id then f c else c)

/-- Append to the log of outside effects. -/
def Link.emit (s : Link) (es : List Event) : Link :=
  { s with trace := s.trace ++ es }

/-- `strcmp(a, b) == 0`; undefined when either pointer is NULL. -/
def strcmp_eq (a b : Option CString) : Option Bool :=
  match a, b with
  | some x, some y => some (x == y)
  | _, _ => none

/-- DistributionSocketLink::get_number_of_peers. -/
def get_number_of_peers (s : Link) : Nat :=
  (s.clients.filter (fun c => c.socket.isSome)).length

/-- DistributionSocketLink::client_is_me. -/
def client_is_me (s : Link) (host : Option CString) (port : Int) : Bool :=
  host.isSome && s.myname.isSome && port == s.server_port && host == s.myname

/-- The test `port == server_port && strcmp(host, myname) == 0` that
`exists_client`, `set_canonical` and `set_active` make. -/
def is_self (s : Link) (host : Option CString) (port : Int) : Option Bool :=
  if port == s.server_port then strcmp_eq host s.myname else some false

/-- The loop of `find_client_by_canonicalname`: the last record that matches
wins; `strcmp` is only reached on a record whose port matches. -/
def find_loop (name : Option CString) (port : Int) :
    List Client → Option Nat → Option (Option Nat)
  | [], ret => some ret
  | c :: cs, ret =>
    if c.port == port then
      match strcmp_eq c.hostname name with
      | none => none
      | some true => find_loop name port cs (some c.id)
      | some false => find_loop name port cs ret
    else find_loop name port cs ret

/-- DistributionSocketLink::find_client_by_canonicalname. -/
def find_client_by_canonicalname (s : Link) (name : Option CString) (port : Int) :
    Option (Option Nat) :=
  find_loop name port s.clients none

/-- DistributionSocketLink::exists_client. -/
def exists_client (s : Link) (host : Option CString) (port : Int) : Option Bool :=
  match is_self s host port with
  | none => none
  | some true => some true
  | some false =>
    match find_client_by_canonicalname s host port with
    | none => none
    | some c => some c.isSome

/-- DistributionSocketLink::add_client. The function is declared `bool` and
returns nothing; no caller reads a result. -/
def add_client (drv : Driver) (s : Link) (host : Option CString) (port : Int) : Option Link :=
  match exists_client s host port with
  | none => none
  | some true => some s
  | some false =>
    let canonical_host := drv.canonicalize host
    let skip_host : Option (Bool × Option CString) :=
      match canonical_host with
      | none => some (false, host)
      | some ch => (exists_client s (some ch) port).map (fun e => (e, some ch))
    match skip_host with
    | none => none
    | some (true, _) => some s
    | some (false, host1) =>
      let client := { Client.new s.next_id with hostname := host1, port := port }
      some ({ s with clients := s.clients ++ [client], next_id := s.next_id + 1 }.emit
        [Event.connect host1 port client.id])

/-- DistributionSocketLink::remove_client for a non-NULL argument: the
result and the new state. -/
def remove_client (s : Link) (client : Nat) : Bool × Link :=
  let ret0 := s.active_client == some client
  let ac := if ret0 then none else s.active_client
  (ret0 || s.clients.any (fun c => c.id == client),
    { s with active_client := ac, clients := s.clients.filter (fun c => !(c.id == client)) })

/-- DistributionSocketLink::set_active(Client *); `none` is `set_active(NULL)`. -/
def set_active (s : Link) (client : Option Nat) : Link :=
  let s1 := { s with active_client := client, active := false }
  if s1.dist_manager then s1.emit [Event.active_changed false] else s1

/-- DistributionSocketLink::set_me_active. -/
def set_me_active (s : Link) : Link :=
  let s1 := { s with active_client := none, active := true }
  if s1.dist_manager then s1.emit [Event.active_changed true] else s1

/-- DistributionSocketLink::set_active(gchar *, gint). -/
def set_active_name (s : Link) (hostname : Option CString) (port : Int) : Option Link :=
  match find_client_by_canonicalname s hostname port with
  | none => none
  | some (some c) => some (set_active s (some c))
  | some none =>
    match is_self s hostname port with
    | none => none
    | some true => some (set_me_active s)
    | some false => some s

/-- The assignment `client->hostname = g_strdup(host); client->port = port`
that ends `set_canonical`. -/
def assign_identity (s : Link) (client : Nat) (host : Option CString) (port : Int) : Link :=
  { s with
    clients := update_client s.clients client (fun c => { c with hostname := host, port := port }) }

/-- DistributionSocketLink::set_canonical. -/
def set_canonical (s : Link) (client : Nat) (host : Option CString) (port : Int) :
    Option (Bool × Link) :=
  let assign (s1 : Link) : Link := assign_identity s1 client host port
  match exists_client s host port with
  | none => none
  | some false => some (true, assign s)
  | some true =>
    match find_client_by_canonicalname s host port, is_self s host port with
    | none, _ => none
    | some none, _ => some (false, s)
    | some (some _), none => none
    | some (some old_client), some me =>
      if me then some (false, s)
      else if old_client != client then
        match s.get_client old_client with
        | none => none
        | some oc =>
          if oc.socket.isSome then some (false, s)
          else some (true, assign (remove_client s old_client).2)
      else some (true, assign s)

/-! ## Sending -/

/-- DistributionSocketLink::init_packet. -/
def init_packet (packet : PacketBuffer) (cmd : Nat) : PacketBuffer :=
  (((packet.pack_ushort 0).pack_byte 1).pack_byte 0).pack_ushort cmd

/-- DistributionSocketLink::send_packet_except; `none` for the client is the
NULL of `send_packet_broadcast`. The packet is handed back because the length
is poked into it. -/
def send_packet_except (s : Link) (packet : PacketBuffer) (client : Option Nat) :
    Link × PacketBuffer :=
  let size := packet.bytes_written
  let packet1 := packet.poke_ushort 0 size
  (s.emit ((s.clients.filter (fun c => some c.id != client && c.socket.isSome)).map
      (fun c => Event.write c.id packet1.buffer)), packet1)

/-- DistributionSocketLink::send_packet_broadcast. -/
def send_packet_broadcast (s : Link) (packet : PacketBuffer) : Link :=
  (send_packet_except s packet none).1

/-- DistributionSocketLink::send_packet. -/
def send_packet (s : Link) (client : Nat) (packet : PacketBuffer) : Option Link :=
  match s.get_client client with
  | none => none
  | some c =>
    if c.socket.isSome then
      some (s.emit [Event.write client (packet.poke_ushort 0 packet.bytes_written).buffer])
    else some s

/-- DistributionSocketLink::send_hello. -/
def send_hello (s : Link) (client : Nat) : Option Link :=
  let packet := init_packet PacketBuffer.create PACKET_HELLO
  let packet := packet.pack_string s.username
  let packet := packet.pack_string s.password
  let packet := packet.pack_string s.myname
  let packet := packet.pack_ushort (to_ushort s.server_port)
  send_packet s client packet

/-- DistributionSocketLink::send_duplicate. -/
def send_duplicate (s : Link) (client : Nat) : Option Link :=
  send_packet s client (init_packet PacketBuffer.create PACKET_DUPLICATE)

/-- DistributionSocketLink::send_welcome. -/
def send_welcome (s : Link) (client : Nat) : Option Link :=
  let packet := init_packet PacketBuffer.create PACKET_WELCOME
  let packet := packet.pack_string s.myname
  let packet := packet.pack_ushort (to_ushort s.server_port)
  send_packet s client packet

/-- The loop of `send_client_list` over the peer table: the entries appended
and their number. -/
def client_list_entries (client : Nat) : List Client → PacketBuffer → Nat → PacketBuffer × Nat
  | [], packet, count => (packet, count)
  | c :: cs, packet, count =>
    if c.id != client && c.socket.isSome then
      let pos := packet.bytes_written
      let packet := packet.pack_ushort 0
      let packet := packet.pack_string c.hostname
      let packet := packet.pack_ushort (to_ushort c.port)
      let packet := packet.poke_ushort pos (packet.bytes_written - pos)
      client_list_entries client cs packet (count + 1)
    else client_list_entries client cs packet count

/-- DistributionSocketLink::send_client_list. -/
def send_client_list (s : Link) (client : Nat) : Option Link :=
  if s.clients.length > 0 then
    let packet := init_packet PacketBuffer.create PACKET_CLIENT_LIST
    let flags := CLIENTLIST_FORWARDABLE
    let flags :=
      if s.active then flags ||| CLIENTLIST_IAM_ACTIVE
      else if s.active_client.isSome then flags ||| CLIENTLIST_HAS_ACTIVE_REF
      else flags
    let clients_pos := packet.bytes_written
    let packet := packet.pack_ushort 0
    let packet := packet.pack_ushort flags
    let packet : Option PacketBuffer :=
      if flags &&& CLIENTLIST_HAS_ACTIVE_REF != 0 then
        match s.active_client.bind s.get_client with
        | none => none
        | some ac => some ((packet.pack_string ac.hostname).pack_ushort (to_ushort ac.port))
      else some packet
    match packet with
    | none => none
    | some packet =>
      let (packet, count) := client_list_entries client s.clients packet 0
      let packet := packet.poke_ushort clients_pos count
      send_packet s client packet
  else some s

/-- DistributionSocketLink::send_claim. -/
def send_claim (s : Link) (client : Nat) : Option Link :=
  send_packet s client ((init_packet PacketBuffer.create PACKET_CLAIM).pack_ushort 0)

/-- The packet that `send_new_master` builds. -/
def new_master_packet (s : Link) : Option PacketBuffer :=
  let name_port : Option (Option CString × Int) :=
    match s.active_client with
    | none => some (s.myname, s.server_port)
    | some ac => (s.get_client ac).map (fun c => (c.hostname, c.port))
  name_port.map (fun np =>
    (((init_packet PacketBuffer.create PACKET_NEW_MASTER).pack_string np.1).pack_ushort
      (to_ushort np.2)).pack_ushort 0)

/-- DistributionSocketLink::send_new_master; `none` for the client is the
NULL of the call `send_new_master()`. -/
def send_new_master (s : Link) (client : Option Nat) : Option Link :=
  match new_master_packet s with
  | none => none
  | some packet =>
    match client with
    | some c => send_packet s c packet
    | none => some (send_packet_broadcast s packet)

/-- DistributionSocketLink::get_active: the result and the out-parameters. -/
def get_active (s : Link) : Option (Bool × Option CString × Int) :=
  if s.active then some (true, s.myname, s.server_port)
  else
    match s.active_client with
    | none => some (false, none, 0)
    | some ac => (s.get_client ac).map (fun c => (true, c.hostname, c.port))

/-- The loop of `send_state` over the state registry. -/
def state_entries : List (Nat × Option (List Nat)) → PacketBuffer → PacketBuffer
  | [], packet => packet
  | (id, itf) :: rest, packet =>
    match itf with
    | some data =>
      state_entries rest (((packet.pack_ushort data.length).pack_ushort id).pack_raw data)
    | none => state_entries rest ((packet.pack_ushort 0).pack_ushort id)

/-- The packet that `send_state` builds. -/
def state_packet (s : Link) : Option PacketBuffer :=
  (get_active s).map (fun r =>
    let packet := init_packet PacketBuffer.create PACKET_STATEINFO
    let packet := packet.pack_string r.2.1
    let packet := packet.pack_ushort (to_ushort r.2.2)
    let packet := packet.pack_ushort s.state_map.length
    state_entries s.state_map packet)

/-- DistributionSocketLink::send_state. -/
def send_state (s : Link) : Option Link :=
  (state_packet s).map (fun packet => send_packet_broadcast s packet)

/-! ## Handlers

A handler gets the link, the `Client *` of the sender and the sender's
reassembly buffer `client->packet` as left by `process_client_packet` (the
header consumed). The buffer is a local value while the handler runs:
`process_client_packet` clears it afterwards. -/

/-- One conjunct of the credential test of `handle_hello`:
`conf == NULL || (recv != NULL && strcmp(conf, recv) == 0)`. -/
def credential_ok (conf recv : Option CString) : Bool :=
  match conf, recv with
  | none, _ => true
  | some _, none => false
  | some u, some r => u == r

/-- DistributionSocketLink::handle_hello. -/
def handle_hello (s : Link) (client : Nat) (packet : PacketBuffer) : Option Link :=
  let (user, packet) := packet.unpack_string
  let (pass, packet) := packet.unpack_string
  let (name, packet) := packet.unpack_string
  let (port, _) := packet.unpack_ushort
  if credential_ok s.username user && credential_ok s.password pass then
    match set_canonical s client name port with
    | none => none
    | some (true, s1) => (send_welcome s1 client).bind (fun s2 => send_client_list s2 client)
    | some (false, s1) => (send_duplicate s1 client).map (fun s2 => (remove_client s2 client).2)
  else some (remove_client s client).2

/-- DistributionSocketLink::handle_duplicate. -/
def handle_duplicate (s : Link) (client : Nat) (_packet : PacketBuffer) : Option Link :=
  some (remove_client s client).2

/-- DistributionSocketLink::handle_welcome. -/
def handle_welcome (s : Link) (client : Nat) (packet : PacketBuffer) : Option Link :=
  let (name, packet) := packet.unpack_string
  let (port, _) := packet.unpack_ushort
  match set_canonical s client name port with
  | none => none
  | some (true, s1) => send_client_list (set_active s1 none) client
  | some (false, s1) => (send_duplicate s1 client).map (fun s2 => (remove_client s2 client).2)

/-- The loop "over remote clients" of `handle_client_list`. -/
def client_list_loop (drv : Driver) : Nat → Link → PacketBuffer → Option Link
  | 0, s, _ => some s
  | n + 1, s, packet =>
    let pos := packet.bytes_read
    let (size, packet) := packet.unpack_ushort
    let (name, packet) := packet.unpack_string
    let (port, packet) := packet.unpack_ushort
    let s1 : Option Link :=
      if name.isSome && port != 0 then
        match exists_client s name port with
        | none => none
        | some true => some s
        | some false => add_client drv s name port
      else some s
    match s1 with
    | none => none
    | some s1 =>
      client_list_loop drv n s1 (packet.skip ((size : Int) - ((packet.bytes_read : Int) - pos)))

/-- The part of `handle_client_list` that updates the view of the active
role from the flags: "Mark the sender as active" or "Find out how is active". -/
def client_list_role (s : Link) (client : Nat) (flags : Nat) (packet : PacketBuffer) :
    Option (Link × PacketBuffer) :=
  let sender_active := flags &&& CLIENTLIST_IAM_ACTIVE != 0
  let has_active_ref := flags &&& CLIENTLIST_HAS_ACTIVE_REF != 0
  if sender_active then some (set_active s (some client), packet)
  else if has_active_ref then
    let (hostname, packet) := packet.unpack_string
    let (port, packet) := packet.unpack_ushort
    (set_active_name s hostname port).map (fun s1 => (s1, packet))
  else some (s, packet)

/-- The part "Forward if required" of `handle_client_list`; `pos` is the
offset of the flags word. -/
def client_list_forward (s : Link) (client : Nat) (pos : Nat) (flags : Nat)
    (packet : PacketBuffer) : Link × PacketBuffer :=
  let forward := flags &&& CLIENTLIST_FORWARDABLE != 0
  if forward then
    let flags := flags &&& gint_not CLIENTLIST_FORWARDABLE
    send_packet_except s (packet.poke_ushort pos flags) (some client)
  else (s, packet)

/-- DistributionSocketLink::handle_client_list. -/
def handle_client_list (drv : Driver) (s : Link) (client : Nat) (packet : PacketBuffer) :
    Option Link :=
  let (num_clients, packet) := packet.unpack_ushort
  let pos := packet.bytes_read
  let (flags, packet) := packet.unpack_ushort
  match client_list_role s client flags packet with
  | none => none
  | some (s1, packet) =>
    let (s2, packet) := client_list_forward s1 client pos flags packet
    client_list_loop drv num_clients s2 packet

/-- DistributionSocketLink::handle_claim. -/
def handle_claim (s : Link) (client : Nat) (packet : PacketBuffer) : Option Link :=
  let (_count, _) := packet.unpack_ushort
  let was_active := s.active
  let s1 := set_active s (some client)
  let s2 : Option Link := if was_active then send_state s1 else some s1
  s2.bind (fun s2 => send_new_master s2 none)

/-- DistributionSocketLink::handle_new_master. -/
def handle_new_master (s : Link) (_client : Nat) (packet : PacketBuffer) : Option Link :=
  let (name, packet) := packet.unpack_string
  let (port, packet) := packet.unpack_ushort
  let (_count, _) := packet.unpack_ushort
  set_active_name s name port

/-- The loop of `handle_state` over the entries: the `set_state` calls made;
`state_map[id]` of an id that was never registered is a NULL provider. -/
def state_loop (s : Link) (will_i_become_active : Bool) :
    Nat → PacketBuffer → Option (List Event)
  | 0, _ => some []
  | n + 1, packet =>
    let (datalen, packet) := packet.unpack_ushort
    let (id, packet) := packet.unpack_ushort
    if datalen != 0 then
      match packet.unpack_raw datalen with
      | (some data, packet) =>
        match s.state_map.lookup id with
        | none => none
        | some _ =>
          (state_loop s will_i_become_active n packet).map
            (fun es => Event.set_state id will_i_become_active data :: es)
      | (none, _) => some []
    else state_loop s will_i_become_active n packet

/-- DistributionSocketLink::handle_state. -/
def handle_state (s : Link) (_client : Nat) (packet : PacketBuffer) : Option Link :=
  let (name, packet) := packet.unpack_string
  let (port, packet) := packet.unpack_ushort
  let will_i_become_active := if name.isSome then client_is_me s name port else false
  let (size, packet) := packet.unpack_ushort
  match state_loop s will_i_become_active size packet with
  | none => none
  | some es =>
    let s1 := s.emit es
    some (if s1.dist_manager then s1.emit [Event.state_transfer_complete] else s1)

/-- The `switch (type)` of `process_client_packet`; an unknown command is
ignored. -/
def dispatch (drv : Driver) (s : Link) (client : Nat) (type : Nat) (packet : PacketBuffer) :
    Option Link :=
  if type == PACKET_HELLO then handle_hello s client packet
  else if type == PACKET_CLAIM then handle_claim s client packet
  else if type == PACKET_WELCOME then handle_welcome s client packet
  else if type == PACKET_CLIENT_LIST then handle_client_list drv s client packet
  else if type == PACKET_NEW_MASTER then handle_new_master s client packet
  else if type == PACKET_STATEINFO then handle_state s client packet
  else if type == PACKET_DUPLICATE then handle_duplicate s client packet
  else some s

/-- The `packet.clear()` that ends `process_client_packet`, on the record of
a client that is still in the table. -/
def clear_packet (s : Link) (client : Nat) : Link :=
  { s with clients := update_client s.clients client (fun c => { c with packet := c.packet.clear }) }

/-- The part of `process_client_packet` after `g_assert(size == packet.bytes_written())`:
the rest of the header and the dispatch. -/
def process_body (drv : Driver) (s : Link) (client : Nat) (size : Nat) (packet : PacketBuffer) :
    Option Link :=
  let (_version, packet) := packet.unpack_byte
  let (_flags, packet) := packet.unpack_byte
  if (packet.bytes_available : Int) ≥ (size : Int) - 4 then
    let (type, packet) := packet.unpack_ushort
    dispatch drv s client type packet
  else some s

/-- DistributionSocketLink::process_client_packet. -/
def process_client_packet (drv : Driver) (s : Link) (client : Nat) : Option Link :=
  match s.get_client client with
  | none => none
  | some c =>
    let (size, packet) := c.packet.unpack_ushort
    if size != packet.bytes_written then none
    else
      -- `packet` is a reference into `*client`: when the handler has deleted
      -- the client, the final `packet.clear()` works on freed memory.
      (process_body drv s client size packet).bind (fun s1 =>
        (s1.get_client client).map (fun _ => clear_packet s1 client))

/-! ## Public operations and driver callbacks -/

/-- The loop of `heartbeat` over the peer table: the table afterwards and the
`connect` calls made. `current_time` is the value of `time(NULL)`. -/
def heartbeat_loop (current_time : Int) : List Client → List Client × List Event
  | [] => ([], [])
  | c :: cs =>
    let r := heartbeat_loop current_time cs
    if c.reconnect_count > 0 && c.reconnect_time != 0 && current_time ≥ c.reconnect_time
        && c.hostname.isSome then
      ({ c with reconnect_count := c.reconnect_count - 1, reconnect_time := 0 } :: r.1,
        Event.connect c.hostname c.port c.id :: r.2)
    else (c :: r.1, r.2)

/-- DistributionSocketLink::heartbeat. -/
def heartbeat (s : Link) (current_time : Int) : Option Link :=
  let s1 := { s with heartbeat_count := s.heartbeat_count + 1 }
  let r := heartbeat_loop current_time s1.clients
  let s2 := { s1 with clients := r.1 }.emit r.2
  if s2.heartbeat_count % 60 == 0 && s2.active then send_state s2 else some s2

/-- DistributionSocketLink::join; `url` is the result of `gnet_url_new`
(`none` for NULL), of which only host and port are used. -/
def join (drv : Driver) (s : Link) (url : Option (Option CString × Int)) : Option Link :=
  match url with
  | none => some s
  | some (host, port) => add_client drv s host port

/-- DistributionSocketLink::disconnect_all. -/
def disconnect_all (s : Link) : Bool × Link :=
  let s1 := { s with active_client := none }
  let s2 := { s1 with clients := s1.clients.map (fun c =>
    { c with socket := none, reconnect_count := 0, reconnect_time := 0 }) }
  (decide (s.clients.length > 0), set_me_active s2)

/-- DistributionSocketLink::reconnect_all. -/
def reconnect_all (s : Link) (current_time : Int) : Bool × Link :=
  (decide (s.clients.length > 0),
    { s with clients := s.clients.map (fun c =>
      { c with reconnect_count := s.reconnect_attempts, reconnect_time := current_time - 1 }) })

/-- DistributionSocketLink::claim. -/
def claim (s : Link) : Option (Bool × Link) :=
  match s.active_client with
  | some ac => (send_claim s ac).map (fun s1 => (false, s1))
  | none =>
    if !s.active && s.clients.length > 0 then
      (send_new_master s none).map (fun s1 => (true, { s1 with active := true }))
    else some (true, { s with active := true })

/-- DistributionSocketLink::set_user. -/
def set_user (s : Link) (user pw : CString) : Link :=
  { s with username := some user, password := some pw }

/-- DistributionSocketLink::set_distribution_manager; the argument tells
whether the pointer is non-NULL. -/
def set_distribution_manager (s : Link) (dll : Bool) : Link :=
  { s with dist_manager := dll }

/-- DistributionSocketLink::start_async_server; `listen_ok` tells whether
`socket_driver->listen` returned a socket. -/
def start_async_server (s : Link) (listen_ok : Bool) : Bool × Link :=
  (listen_ok, { s with server_socket := listen_ok }.emit [Event.listen s.server_port])

/-- DistributionSocketLink::set_enabled. -/
def set_enabled (s : Link) (enabled : Bool) (listen_ok : Bool) : Bool × Link :=
  let ret := s.server_enabled
  if !s.server_enabled && enabled then
    let r := start_async_server s listen_ok
    (ret, { r.2 with server_enabled := r.1 })
  else if s.server_enabled && !enabled then
    let s1 := { s with server_socket := false }
    let s2 := (disconnect_all s1).2
    let s3 := set_me_active s2
    (ret, { s3 with server_enabled := enabled })
  else (ret, { s with server_enabled := enabled })

/-- DistributionSocketLink::register_state: `state_map[id] = dist_state` on a
map ordered by key. -/
def register_state (s : Link) (id : Nat) (dist_state : Option (List Nat)) : Bool × Link :=
  (true, { s with state_map :=
    (s.state_map.filter (fun e => e.1 < id)) ++ [(id, dist_state)]
      ++ (s.state_map.filter (fun e => e.1 > id)) })

/-- DistributionSocketLink::unregister_state. -/
def unregister_state (s : Link) (_id : Nat) : Bool × Link := (false, s)

/-- What `read_configuration` finds: the environment variable `WORKRAVE_PORT`
through `atoi`, the configured values (`none` when a key is not set), and
whether a `listen` made while re-enabling succeeds. -/
structure ConfigInput where
  env_port : Option Int
  port : Option Int
  interval : Option Int
  attempts : Option Int
  username : Option CString
  password : Option CString
  listen_ok : Bool
deriving DecidableEq

/-- DistributionSocketLink::read_configuration. -/
def read_configuration (K : Defaults) (s : Link) (cfg : ConfigInput) : Link :=
  let old_port := s.server_port
  let s1 := { s with server_port :=
    match cfg.env_port with
    | some p => p
    | none => cfg.port.getD K.DEFAULT_PORT }
  let s2 :=
    if old_port != s1.server_port && s1.server_enabled then
      (set_enabled (set_enabled s1 false cfg.listen_ok).2 true cfg.listen_ok).2
    else s1
  { s2 with
    reconnect_interval := cfg.interval.getD K.DEFAULT_INTERVAL,
    reconnect_attempts := cfg.attempts.getD K.DEFAULT_ATTEMPTS,
    username := cfg.username,
    password := cfg.password }

/-- DistributionSocketLink::config_changed_notify. -/
def config_changed_notify (K : Defaults) (s : Link) (cfg : ConfigInput) : Link :=
  read_configuration K s cfg

/-- DistributionSocketLink::init; `my_canonical_name` is the result of
`socket_driver->get_my_canonical_name()`. -/
def init (K : Defaults) (s : Link) (my_canonical_name : Option CString) (cfg : ConfigInput) :
    Bool × Link :=
  let s1 := { s with myname := my_canonical_name, active_client := none, active := true }
  (true, read_configuration K s1 cfg)

/-- DistributionSocketLink::socket_accepted; `ccon` is the accepted
connection (`none` for NULL). -/
def socket_accepted (s : Link) (ccon : Option Nat) : Link :=
  match ccon with
  | none => s
  | some con =>
    let client : Client :=
      { id := s.next_id, socket := some con, hostname := none, port := 0,
        reconnect_count := 0, reconnect_time := 0, packet := PacketBuffer.create }
    { s with clients := s.clients ++ [client], next_id := s.next_id + 1 }

/-- The number of bytes `socket_io` asks the connection for. -/
def bytes_to_read (c : Client) : Int :=
  if c.packet.bytes_available ≥ 4 then (c.packet.peek_ushort 0 : Int) - 4 else 4

/-- The "Socket error. Disable client." part shared by `socket_io` and
`socket_closed`. -/
def disable_client (s : Link) (client : Nat) (current_time : Int) : Link :=
  let s1 := { s with clients := update_client s.clients client (fun c =>
    { c with socket := none, reconnect_count := s.reconnect_attempts,
             reconnect_time := current_time + s.reconnect_interval }) }
  if s1.active_client == some client then set_active s1 none else s1

/-- DistributionSocketLink::socket_io; `ok` and `data` are what `con->read`
returns (`data` are the `bytes_read` bytes it stored at the write cursor). -/
def socket_io (drv : Driver) (s : Link) (client : Nat) (ok : Bool) (data : List Nat)
    (current_time : Int) : Option Link :=
  match s.get_client client with
  | none => none
  | some _ =>
    if !ok then some (disable_client s client current_time)
    else if data.length == 0 then some (disable_client s client current_time)
    else
      let s1 := { s with clients := update_client s.clients client (fun c =>
        { c with packet := { c.packet with buffer := c.packet.buffer ++ data } }) }
      match s1.get_client client with
      | none => none
      | some c1 =>
        if c1.packet.peek_ushort 0 == c1.packet.bytes_written then
          process_client_packet drv s1 client
        else some s1

/-- DistributionSocketLink::socket_connected. -/
def socket_connected (s : Link) (client : Nat) (con : Nat) : Option Link :=
  match s.get_client client with
  | none => none
  | some _ =>
    send_hello { s with clients := update_client s.clients client (fun c =>
      { c with reconnect_count := 0, reconnect_time := 0, socket := some con }) } client

/-- DistributionSocketLink::socket_closed. -/
def socket_closed (s : Link) (client : Nat) (current_time : Int) : Option Link :=
  match s.get_client client with
  | none => none
  | some _ => some (disable_client s client current_time)

/-! ## The link as a transition system -/

/-- A public operation, a driver callback or the processing of a received
frame, with its arguments and with what the environment answers (read
results, the clock, the driver). -/
inductive Op where
  | init (name : Option CString) (cfg : ConfigInput)
  | heartbeat (current_time : Int)
  | join (drv : Driver) (url : Option (Option CString × Int))
  | disconnect_all
  | reconnect_all (current_time : Int)
  | claim
  | set_user (user pw : CString)
  | set_distribution_manager (dll : Bool)
  | set_enabled (enabled listen_ok : Bool)
  | register_state (id : Nat) (dist_state : Option (List Nat))
  | unregister_state (id : Nat)
  | config_changed_notify (cfg : ConfigInput)
  | socket_accepted (ccon : Option Nat)
  | socket_io (drv : Driver) (client : Nat) (ok : Bool) (data : List Nat) (current_time : Int)
  | socket_connected (client con : Nat)
  | socket_closed (client : Nat) (current_time : Int)
  | process_client_packet (drv : Driver) (client : Nat)

/-- The state in which an operation leaves the link; `none` when it runs into
undefined behaviour. -/
def run (K : Defaults) (s : Link) : Op → Option Link
  | Op.init name cfg => some (init K s name cfg).2
  | Op.heartbeat current_time => heartbeat s current_time
  | Op.join drv url => join drv s url
  | Op.disconnect_all => some (disconnect_all s).2
  | Op.reconnect_all current_time => some (reconnect_all s current_time).2
  | Op.claim => (claim s).map (fun r => r.2)
  | Op.set_user user pw => some (set_user s user pw)
  | Op.set_distribution_manager dll => some (set_distribution_manager s dll)
  | Op.set_enabled enabled listen_ok => some (set_enabled s enabled listen_ok).2
  | Op.register_state id dist_state => some (register_state s id dist_state).2
  | Op.unregister_state id => some (unregister_state s id).2
  | Op.config_changed_notify cfg => some (config_changed_notify K s cfg)
  | Op.socket_accepted ccon => some (socket_accepted s ccon)
  | Op.socket_io drv client ok data current_time => socket_io drv s client ok data current_time
  | Op.socket_connected client con => socket_connected s client con
  | Op.socket_closed client current_time => socket_closed s client current_time
  | Op.process_client_packet drv client => process_client_packet drv s client

/-- One public operation, driver callback or received frame takes the link
from the first state to the second. -/
def Step (K : Defaults) (s s1 : Link) : Prop := ∃ op, run K s op = some s1

/-- The states reachable from `init()` on a freshly constructed link. -/
inductive Reachable (K : Defaults) : Link → Prop where
  | init (name : Option CString) (cfg : ConfigInput) :
      Reachable K (init K (Link.construct K) name cfg).2
  | step (s s1 : Link) (op : Op) : Reachable K s → run K s op = some s1 → Reachable K s1

/-- The active-role invariant: the local node and a remote client are never
both marked active. -/
def Exclusive (s : Link) : Prop :=
  (s.active = true → s.active_client = none) ∧ (s.active_client ≠ none → s.active = false)

/-- The function leaves the pair (`active`, `active_client`) alone. -/
def SameRole (s s1 : Link) : Prop :=
  s1.active = s.active ∧ s1.active_client = s.active_client

/-- The socket writes in a log, in order: the receiving client and the bytes. -/
def writes : List Event → List (Nat × List Nat)
  | [] => []
  | Event.write c d :: es => (c, d) :: writes es
  | _ :: es => writes es

/-! ## Concrete nodes used to exercise the theorems -/

/-- Values for the constants of the header in the examples. -/
def demo_defaults : Defaults := ⟨27273, 5, 15⟩

/-- A configuration with nothing set. -/
def demo_config : ConfigInput := ⟨none, none, none, none, none, none, true⟩

/-- A driver whose `canonicalize` returns the name it is given. -/
def demo_driver : Driver := ⟨fun h => h⟩

/-- Node "a" after `init()`. -/
def demo_node : Link := (init demo_defaults (Link.construct demo_defaults) (some [97]) demo_config).2

/-- Node "a" after accepting one connection (client 1, connection 100). -/
def demo_accepted : Link := socket_accepted demo_node (some 100)

/-- A CLAIM frame. -/
def demo_claim_frame : List Nat := [0, 8, 1, 0, 0, 4, 0, 0]

/-- Node "a" after client 1 has sent it a CLAIM frame. -/
def demo_claimed : Link :=
  (socket_io demo_driver demo_accepted 1 true demo_claim_frame 0).getD demo_accepted

/-! ## The wire format as the specification gives it -/

/-- The spec's 16-bit integer on the wire: two bytes, big-endian. -/
def enc_u16 (v : Nat) : List Nat := [v / 256 % 256, v % 256]

/-- The spec's string on the wire: "`u16 length` followed by `length` bytes". -/
def enc_string (s : Option CString) : List Nat := enc_u16 (s.getD []).length ++ s.getD []

/-- The spec's frame: total length, version 1, flags 0, command, payload. -/
def frame (cmd : Nat) (payload : List Nat) : List Nat :=
  enc_u16 (6 + payload.length) ++ [1, 0] ++ enc_u16 cmd ++ payload

/-- The spec's CLAIM frame, `{u16 reserved=0}`. -/
def claim_frame : List Nat := frame PACKET_CLAIM (enc_u16 0)

/-- The spec's NEW_MASTER frame,
`{string new_active_host, u16 new_active_port, u16 reserved=0}`. -/
def new_master_frame (host : Option CString) (port : Int) : List Nat :=
  frame PACKET_NEW_MASTER (enc_string host ++ enc_u16 (to_ushort port) ++ enc_u16 0)

/-- One write of the same bytes to every peer of the table that has a live
socket and is not `except`, in table order. -/
def broadcast_except (clients : List Client) (except : Option Nat) (data : List Nat) :
    List Event :=
  (clients.filter (fun c => some c.id != except && c.socket.isSome)).map
    (fun c => Event.write c.id data)

/-- Node "a" after `join` of the peer "q", port 2 (client 1, not connected). -/
def demo_joined : Link :=
  (join demo_driver demo_node (some (some [113], 2))).getD demo_node

/-- Node "a" after `join` of "q" and one accepted connection (client 2). -/
def demo_joined_accepted : Link := socket_accepted demo_joined (some 100)

/-- Node "a" after client 2 has told it that "q", port 2, is the new master. -/
def demo_remote : Link :=
  (socket_io demo_driver demo_joined_accepted 2 true (new_master_frame (some [113]) 2) 0).getD
    demo_joined_accepted

/-- Node "a" after the connection of the active client 1 of `demo_claimed`
was closed, at time 50. -/
def demo_closed : Link := (socket_closed demo_claimed 1 50).getD demo_claimed

/-- Node "a" after the connection of the active client 1 of `demo_claimed`
was closed and another connection was accepted (client 2). -/
def demo_unknown : Link := socket_accepted demo_closed (some 101)

/-- The spec's STATEINFO entries: per registered state
`u16 data_len, u16 state_id, data[data_len]`, and `(0, id)` for a provider that
returns nothing. -/
def stateinfo_entries : List (Nat × Option (List Nat)) → List Nat
  | [] => []
  | (id, some d) :: rest => enc_u16 d.length ++ enc_u16 id ++ d ++ stateinfo_entries rest
  | (id, none) :: rest => enc_u16 0 ++ enc_u16 id ++ stateinfo_entries rest

/-- The spec's STATEINFO frame,
`{string active_host, u16 active_port, u16 n_entries, entries}`. -/
def stateinfo_frame (host : Option CString) (port : Int)
    (states : List (Nat × Option (List Nat))) : List Nat :=
  frame PACKET_STATEINFO
    (enc_string host ++ enc_u16 (to_ushort port) ++ enc_u16 states.length ++ stateinfo_entries states)

/-- The peer record has the identity (`h`, `port`). -/
def has_identity (h : CString) (port : Int) (c : Client) : Bool :=
  c.port == port && c.hostname == some h

/-- The last record of a table that has the identity (`h`, `port`), or `ret`
when there is none. -/
def last_match (h : CString) (port : Int) : List Client → Option Nat → Option Nat
  | [], ret => ret
  | c :: cs, ret => last_match h port cs (if has_identity h port c then some c.id else ret)

/-- Every record that the lookup of a name on `port` compares has a hostname:
`strcmp` is not called on NULL. -/
def LookupSafe (clients : List Client) (port : Int) : Prop :=
  ∀ c ∈ clients, c.port = port → c.hostname ≠ none

/-- The fields of a NEW_MASTER payload as `handle_new_master` reads them. -/
def new_master_fields (packet : PacketBuffer) : Option CString × Int :=
  (packet.unpack_string.1, (packet.unpack_string.2.unpack_ushort.1 : Int))

/-- The event is a socket write. -/
def Event.is_write : Event → Bool
  | Event.write _ _ => true
  | _ => false

/-- The event is a `connect` call on the driver. -/
def Event.is_connect : Event → Bool
  | Event.connect _ _ _ => true
  | _ => false

/-- The event is the listener callback `active_changed`. -/
def Event.is_active_changed : Event → Bool
  | Event.active_changed _ => true
  | _ => false

/-- What a listener that believed `active` to be `view` believes after one
more event: an `active_changed` callback tells it the new value. -/
def listener_hears (view : Bool) (e : Event) : Bool :=
  match e with
  | Event.active_changed b => b
  | _ => view

/-- What a listener that believed `active` to be `view` believes after the
events of a log. -/
def listener_view (view : Bool) (d : List Event) : Bool :=
  d.foldl listener_hears view

/-- The listener pointer is the same in `s` and `s1` and the log only grows
from `s` to `s1`, by events that all satisfy `P`. -/
def Grows (P : Event → Bool) (s s1 : Link) : Prop :=
  s1.dist_manager = s.dist_manager ∧ ∃ d, s1.trace = s.trace ++ d ∧ ∀ e ∈ d, P e = true

/-- The listener was kept up to date from `s` to `s1`: the listener pointer
is the same, the log only grows, and with a listener installed `active` in
`s1` is what a listener that knew `active` in `s` believes after the callbacks
made on the way. -/
def Notified (s s1 : Link) : Prop :=
  s1.dist_manager = s.dist_manager ∧
  ∃ d, s1.trace = s.trace ++ d ∧
    (s.dist_manager = true → s1.active = listener_view s.active d)

/-- The event is a call about distributed state: `set_state` on a provider or
`state_transfer_complete` on the listener. -/
def Event.is_state : Event → Bool
  | Event.set_state _ _ _ => true
  | Event.state_transfer_complete => true
  | _ => false

/-- The operations that assign `active` themselves instead of going through
`set_active` / `set_me_active`: `init()` and `claim()`. -/
def Op.sets_active_directly : Op → Bool
  | Op.init _ _ => true
  | Op.claim => true
  | _ => false

/-- Node "a" in state UNKNOWN with client 2 connected and a listener installed. -/
def demo_unknown_listening : Link := set_distribution_manager demo_unknown true

/-- Node "a" with client 1 connected and active, and a listener installed. -/
def demo_claimed_listening : Link := set_distribution_manager demo_claimed true

/-- Node "a", self-active, with client 1 connected and a listener installed. -/
def demo_accepted_listening : Link := set_distribution_manager demo_accepted true

/-- A DUPLICATE frame. -/
def demo_duplicate_frame : List Nat := frame PACKET_DUPLICATE []

/-- The flags word of a CLIENT_LIST frame: the 16-bit integer at offset 8
(after the 6-byte header and the count). -/
def frame_flags (fr : List Nat) : Nat := fr.getD 8 0 * 256 + fr.getD 9 0

/-- The frame with the FORWARDABLE bit (bit 0 of the low byte of the flags
word, at offset 9) cleared and every other byte as it was. -/
def clear_forwardable (fr : List Nat) : List Nat :=
  fr.set 9 (fr.getD 9 0 - fr.getD 9 0 % 2)

/-- The bytes came off a socket: each is below 256. -/
def WireBytes (fr : List Nat) : Prop := ∀ b ∈ fr, b < 256

/-- The lookups by name that the handlers make cannot hit a NULL pointer: the
local name is known and a peer without hostname (accepted, not yet through
the handshake) has port 0. -/
def SafeTable (s : Link) : Prop :=
  s.myname ≠ none ∧ ∀ c ∈ s.clients, c.hostname = none → c.port = 0

/-- The active reference of a CLIENT_LIST frame, when the handler reads it
(I_AM_ACTIVE clear, HAS_ACTIVE_REF set), is a complete string with a
non-zero port. -/
def ActiveRefSafe (fr : List Nat) : Prop :=
  frame_flags fr &&& CLIENTLIST_IAM_ACTIVE = 0 → frame_flags fr &&& CLIENTLIST_HAS_ACTIVE_REF ≠ 0 →
    (PacketBuffer.unpack_string ⟨fr, 10⟩).1 ≠ none ∧
    (PacketBuffer.unpack_string ⟨fr, 10⟩).2.unpack_ushort.1 ≠ 0

/-- The total length that a frame declares in its first two bytes. -/
def declared_length (fr : List Nat) : Nat := fr.getD 0 0 * 256 + fr.getD 1 0

/-- Node "a" after accepting two connections (clients 1 and 2). -/
def demo_two : Link := socket_accepted demo_accepted (some 101)

/-- A CLIENT_LIST frame with one entry ("q", port 2) and the flags
FORWARDABLE and I_AM_ACTIVE. -/
def demo_list_frame : List Nat := [0, 17, 1, 0, 0, 3, 0, 1, 0, 3, 0, 7, 0, 1, 113, 0, 2]

/-- The frame `demo_list_frame` as it is forwarded: flags I_AM_ACTIVE only. -/
def demo_forwarded_frame : List Nat := clear_forwardable demo_list_frame

/-- Node "a" with clients 1 and 2 after handling `demo_list_frame` from client 1. -/
def demo_listed : Link :=
  (handle_client_list demo_driver demo_two 1 ⟨demo_list_frame, 6⟩).getD demo_two

/-- Node "a" with clients 1 and 2 after handling the forwarded frame from client 2. -/
def demo_relisted : Link :=
  (handle_client_list demo_driver demo_two 2 ⟨demo_forwarded_frame, 6⟩).getD demo_two

/-- At most one record of the table has the identity (`h`, `port`). -/
def UniqueIdentity (clients : List Client) (h : CString) (port : Int) : Prop :=
  ∀ a ∈ clients, ∀ b ∈ clients,
    has_identity h port a = true → has_identity h port b = true → a.id = b.id

/-- Node "a" with clients 1 and 2 connected, client 1 known as "b", port 5. -/
def demo_named : Link :=
  ((set_canonical demo_two 1 (some [98]) 5).map (fun r => r.2)).getD demo_two

/-- No record of the peer table has the identity of the local node. -/
def NoSelfPeer (s : Link) : Prop :=
  ∀ c ∈ s.clients, client_is_me s c.hostname c.port = false

/-- The local identity (`myname`, `server_port`) is the same in both states. -/
def SameIdentity (s s1 : Link) : Prop :=
  s1.myname = s.myname ∧ s1.server_port = s.server_port

/-- Node "a" after the accepted client 2 took over the identity ("q", 2) of
the joined client 1. -/
def demo_renamed : Link :=
  ((set_canonical demo_joined_accepted 2 (some [113]) 2).map (fun r => r.2)).getD
    demo_joined_accepted

/-! ## Reconnection -/

/-- The condition under which `heartbeat` reconnects a peer. -/
def reconnect_due (current_time : Int) (c : Client) : Bool :=
  c.reconnect_count > 0 && c.reconnect_time != 0 && current_time ≥ c.reconnect_time
    && c.hostname.isSome

/-- What `heartbeat` does to the record of a peer that is due. -/
def reconnect_step (c : Client) : Client :=
  { c with reconnect_count := c.reconnect_count - 1, reconnect_time := 0 }

/-- The `connect` calls in a log, in order: host, port and the `Client *`. -/
def connects : List Event → List (Option CString × Int × Nat)
  | [] => []
  | Event.connect h p c :: es => (h, p, c) :: connects es
  | _ :: es => connects es

/-- Node "a" after the connect to the joined peer "q" (client 1) failed and
was reported closed at time 50. -/
def demo_retry : Link := (socket_closed demo_joined 1 50).getD demo_joined

/-- Node "a" after the heartbeat at time 65 has made the first reconnect
attempt to client 1. -/
def demo_retried : Link := (heartbeat demo_retry 65).getD demo_retry

/-- How many `connect` calls a log holds for the given `Client *`. -/
def connects_to (client : Nat) (es : List Event) : Nat :=
  ((connects es).filter (fun x => x.2.2 == client)).length

/-- The failure of the connection of `client` is reported through
`socket_closed` at time `t`, and the next heartbeat comes one reconnect
interval later; this is repeated `n` times, each attempt failing. -/
def retry_rounds (client : Nat) : Nat → Link → Int → Option Link
  | 0, s, _ => some s
  | n + 1, s, t =>
    (socket_closed s client t).bind (fun s1 =>
      (heartbeat s1 (t + s1.reconnect_interval)).bind (fun s2 =>
        retry_rounds client n s2 (t + s1.reconnect_interval)))

/-! ## HELLO -/

/-- The four fields `handle_hello` unpacks, in order: user, password, name
and port. -/
def hello_fields (packet : PacketBuffer) :
    Option CString × Option CString × Option CString × Nat :=
  let (user, packet) := packet.unpack_string
  let (pass, packet) := packet.unpack_string
  let (name, packet) := packet.unpack_string
  let (port, _) := packet.unpack_ushort
  (user, pass, name, port)

/-- The branch of `handle_hello` taken when the credentials are accepted. -/
def hello_accept (s : Link) (client : Nat) (name : Option CString) (port : Nat) :
    Option Link :=
  match set_canonical s client name port with
  | none => none
  | some (true, s1) => (send_welcome s1 client).bind (fun s2 => send_client_list s2 client)
  | some (false, s1) => (send_duplicate s1 client).map (fun s2 => (remove_client s2 client).2)

/-- The spec's HELLO frame, `{string username, string password, string
canonical_host, u16 listen_port}`. -/
def hello_frame (user pass name : Option CString) (port : Nat) : List Nat :=
  frame PACKET_HELLO (enc_string user ++ enc_string pass ++ enc_string name ++ enc_u16 port)

/-- A configuration whose username is set to the empty string. -/
def demo_config_empty_user : ConfigInput := ⟨none, none, none, none, some [], none, true⟩

/-- Node "a" configured with an empty username, after accepting one
connection (client 1, connection 100). -/
def demo_guarded : Link :=
  socket_accepted
    (init demo_defaults (Link.construct demo_defaults) (some [97]) demo_config_empty_user).2
    (some 100)

/-- The node of `demo_guarded` after `handle_hello` has handled a HELLO of
client 1 with username "x", an empty password, name "q" and port 2. -/
def demo_refused : Link :=
  (handle_hello demo_guarded 1 ⟨hello_frame (some [120]) (some []) (some [113]) 2, 6⟩).getD
    demo_guarded

/-! ## Reassembly -/

/-- The bytes of the frame being reassembled that have not arrived yet:
declared length minus bytes buffered. -/
def bytes_missing (c : Client) : Int :=
  (c.packet.peek_ushort 0 : Int) - (c.packet.bytes_written : Int)

/-- Node "a" after client 1 delivered the first 4 bytes of a CLAIM frame. -/
def demo_seg1 : Link :=
  (socket_io demo_driver demo_accepted 1 true [0, 8, 1, 0] 0).getD demo_accepted

/-- The node of `demo_seg1` after a read that delivered 2 more bytes. -/
def demo_seg2 : Link := (socket_io demo_driver demo_seg1 1 true [0, 4] 0).getD demo_seg1

/-- The node of `demo_seg2` after a read that delivered the 4 bytes asked for:
the last 2 bytes of the CLAIM frame and the first 2 of the next frame. -/
def demo_seg3 : Link := (socket_io demo_driver demo_seg2 1 true [0, 0, 0, 8] 0).getD demo_seg2

/-- The state after the `write_ptr += bytes_read` of `socket_io`: the bytes
read are appended to the buffer of the peer. -/
def buffer_bytes (s : Link) (client : Nat) (data : List Nat) : Link :=
  { s with clients := update_client s.clients client (fun c =>
    { c with packet := { c.packet with buffer := c.packet.buffer ++ data } }) }

/-! ## Identity of peers -/

/-- What identifies a record of the peer table: the `Client *`, the hostname
and the port. -/
def peer_keys (s : Link) : List (Nat × Option CString × Int) :=
  s.clients.map (fun c => (c.id, c.hostname, c.port))

/-- No two distinct records of the peer table with a known hostname have the
same (hostname, port). -/
def UniquePeers (s : Link) : Prop :=
  ∀ a ∈ s.clients, ∀ b ∈ s.clients,
    a.hostname ≠ none → a.hostname = b.hostname → a.port = b.port → a = b

/-- The invariant of the peer table: the records are distinct objects, each
allocated before `next_id`, and two records with the same known identity
are the same object. -/
def TableInv (s : Link) : Prop :=
  ((peer_keys s).map (fun k => k.1)).Nodup ∧ (∀ k ∈ peer_keys s, k.1 < s.next_id) ∧
  ∀ a ∈ peer_keys s, ∀ b ∈ peer_keys s, a.2.1 ≠ none → a.2 = b.2 → a.1 = b.1

/-- The peer table holds the same objects with the same identities. -/
def SamePeers (s s1 : Link) : Prop :=
  peer_keys s1 = peer_keys s ∧ s1.next_id = s.next_id

/-- A CLIENT_LIST frame that lists the identity ("q", port 2) twice, with the
flags FORWARDABLE and I_AM_ACTIVE. -/
def demo_twice_frame : List Nat :=
  [0, 24, 1, 0, 0, 3, 0, 2, 0, 3, 0, 7, 0, 1, 113, 0, 2, 0, 7, 0, 1, 113, 0, 2]

/-- Node "a" with clients 1 and 2 after handling `demo_twice_frame` from
client 1. -/
def demo_twice : Link :=
  (handle_client_list demo_driver demo_two 1 ⟨demo_twice_frame, 6⟩).getD demo_two

/-- Node "a" after the connect to the joined peer "q" succeeded (client 1,
connection 200). -/
def demo_connected : Link := (socket_connected demo_joined 1 200).getD demo_joined

/-! ## STATEINFO -/

/-- The spec's 16-bit integer, big-endian, at the start of a byte string. -/
def dec_u16 (bs : List Nat) : Nat := bs.getD 0 0 * 256 + bs.getD 1 0

/-- The spec's reading of `n` STATEINFO entries
`u16 data_len, u16 state_id, data[data_len]` from a byte string: the entries
(data_len, state_id, data) and the bytes left over; `none` when the bytes
run out. -/
def read_entries : Nat → List Nat → Option (List (Nat × Nat × List Nat) × List Nat)
  | 0, bs => some ([], bs)
  | n + 1, bs =>
    if 4 + dec_u16 bs ≤ bs.length then
      (read_entries n (bs.drop (4 + dec_u16 bs))).map (fun r =>
        ((dec_u16 bs, dec_u16 (bs.drop 2), (bs.drop 4).take (dec_u16 bs)) :: r.1, r.2))
    else none

/-- The entry (data_len, state_id, data) that the spec gives for a registered
state: the provider's data, or `(0, id)` with no bytes when the provider
returns nothing. -/
def entry_of (e : Nat × Option (List Nat)) : Nat × Nat × List Nat :=
  ((e.2.getD []).length, e.1, e.2.getD [])

/-- Every id and every data length of the registry fits the 16-bit field
that carries it, and so does the number of entries. -/
def StatesFit (states : List (Nat × Option (List Nat))) : Prop :=
  states.length < 65536 ∧ ∀ e ∈ states, e.1 < 65536 ∧ (e.2.getD []).length < 65536

/-- The active node "a" with one connected peer and one provider, for id 42,
that returns the bytes 01 02 03. -/
def demo_provider : Link := (register_state demo_accepted 42 (some [1, 2, 3])).2

/-- The `set_state` calls that `handle_state` makes for the entries of a
well-formed STATEINFO frame: one per entry with a non-zero `data_len`, in
frame order. -/
def set_state_calls (w : Bool) (states : List (Nat × Option (List Nat))) : List Event :=
  (states.filter (fun e => (e.2.getD []).length != 0)).map
    (fun e => Event.set_state e.1 w (e.2.getD []))

/-- The string has no NUL byte and its length fits the 16-bit field. -/
def CStringFits (h : CString) : Prop := h.length < 65536 ∧ ∀ b ∈ h, b ≠ 0

/-- Node "b": after `init()`, with a provider registered for id 42, a
listener installed, and one accepted connection (client 1). -/
def demo_b : Link :=
  socket_accepted
    (set_distribution_manager
      (register_state (init demo_defaults (Link.construct demo_defaults) (some [98]) demo_config).2
        42 (some [])).2 true)
    (some 100)

/-- The STATEINFO frame of the active node "a", port 27273, whose provider for
id 42 returns 01 02 03. -/
def demo_state_frame : List Nat := stateinfo_frame (some [97]) 27273 [(42, some [1, 2, 3])]

/-- The STATEINFO frame of the active node "a", port 27273, whose provider for
id 42 returns nothing. -/
def demo_empty_state_frame : List Nat := stateinfo_frame (some [97]) 27273 [(42, none)]

/-- The command that a frame carries: the 16-bit integer at offset 4. -/
def frame_command (fr : List Nat) : Nat := fr.getD 4 0 * 256 + fr.getD 5 0

/-- The spec's WELCOME frame, `{string canonical_host, u16 listen_port}`. -/
def welcome_frame (host : Option CString) (port : Int) : List Nat :=
  frame PACKET_WELCOME (enc_string host ++ enc_u16 (to_ushort port))

/-- The spec's DUPLICATE frame, which has no payload. -/
def duplicate_frame : List Nat := frame PACKET_DUPLICATE []

/-- The command bytes of the packet under construction. -/
def packet_command (p : PacketBuffer) : Nat := p.buffer.getD 4 0 * 256 + p.buffer.getD 5 0

/-- The announced identity (`h`, `port`) is the local node's, or belongs to a
peer other than `client` that has a live socket. -/
def hello_duplicate (s : Link) (client : Nat) (h : CString) (port : Int) : Prop :=
  client_is_me s (some h) port = true ∨
  ∃ q ∈ s.clients, q.id ≠ client ∧ has_identity h port q = true ∧ q.socket.isSome = true

/-- The active client, when there is one, is a record of the peer table. -/
def ActiveKnown (s : Link) : Prop :=
  ∀ a, s.active_client = some a → (s.get_client a).isSome = true

/-- Node "a" with the connected peer "q" (client 1) and one more accepted
connection (client 2, connection 100). -/
def demo_connected_accepted : Link := socket_accepted demo_connected (some 100)

/-- The HELLO frame of a peer without credentials that announces ("q", 2). -/
def demo_hello_frame : List Nat := hello_frame none none (some [113]) 2

/-! ## Disconnecting -/

/-- A run of heartbeat ticks at the given times, one after the other. -/
def ticks : List Int → Link → Option Link
  | [], s => some s
  | t :: ts, s => (heartbeat s t).bind (ticks ts)

/-- What `disconnect_all` does to a record of the table. -/
def disconnected (c : Client) : Client :=
  { c with socket := none, reconnect_count := 0, reconnect_time := 0 }

/-- What the link does to the record of a peer whose connection is lost at
`current_time`: the socket is dropped and the reconnect schedule is set from
the configured values. -/
def disabled (s : Link) (current_time : Int) (c : Client) : Client :=
  { c with socket := none, reconnect_count := s.reconnect_attempts,
           reconnect_time := current_time + s.reconnect_interval }

/-- Node "b" of `demo_b`, but without any registered provider: after
`init()`, with a listener installed and one accepted connection (client 1). -/
def demo_b_bare : Link :=
  socket_accepted
    (set_distribution_manager
      (init demo_defaults (Link.construct demo_defaults) (some [98]) demo_config).2 true)
    (some 100)

/-! ## Lookups -/

/-- A HELLO frame without credentials whose name field is truncated (it
declares 9 bytes and 2 follow) and which then reads as port 9. -/
def demo_truncated_hello : List Nat :=
  frame PACKET_HELLO (enc_string none ++ enc_string none ++ [0, 9] ++ enc_u16 9)

/-- Node "a" after client 1 sent `demo_truncated_hello`. -/
def demo_nameless : Link :=
  (socket_io demo_driver demo_accepted 1 true demo_truncated_hello 0).getD demo_accepted

/-! ## CLIENT_LIST -/

/-- The spec's CLIENT_LIST entry, `{u16 entry_len, string host, u16 port}`,
where `entry_len` counts the whole entry, its own two bytes included. -/
def client_list_entry (host : Option CString) (port : Int) : List Nat :=
  enc_u16 (2 + (enc_string host).length + 2) ++ enc_string host ++ enc_u16 (to_ushort port)

/-- The entries of the given peers, one after the other. -/
def client_list_entries_bytes : List Client → List Nat
  | [] => []
  | c :: cs => client_list_entry c.hostname c.port ++ client_list_entries_bytes cs

/-- The peers that the spec has a CLIENT_LIST for `client` enumerate: "every
other connected peer", in table order. -/
def listed_peers (s : Link) (client : Nat) : List Client :=
  s.clients.filter (fun c => c.id != client && c.socket.isSome)

/-- The spec's flags word of a CLIENT_LIST that a node builds itself:
FORWARDABLE, I_AM_ACTIVE iff self-active, otherwise HAS_ACTIVE_REF iff the
active client is known. -/
def client_list_flags (s : Link) : Nat :=
  CLIENTLIST_FORWARDABLE + (if s.active then CLIENTLIST_IAM_ACTIVE else 0)
    + (if !s.active && s.active_client.isSome then CLIENTLIST_HAS_ACTIVE_REF else 0)

/-- The active reference of a CLIENT_LIST, `{string host, u16 port}` of the
active client, present iff HAS_ACTIVE_REF is set. -/
def active_ref_bytes (s : Link) : List Nat :=
  if !s.active && s.active_client.isSome then
    match s.active_client.bind s.get_client with
    | some ac => enc_string ac.hostname ++ enc_u16 (to_ushort ac.port)
    | none => []
  else []

/-- The spec's CLIENT_LIST frame for the recipient `client`:
`{u16 count, u16 flags, [active reference], entries}`. -/
def client_list_frame (s : Link) (client : Nat) : List Nat :=
  frame PACKET_CLIENT_LIST
    (enc_u16 (listed_peers s client).length ++ enc_u16 (client_list_flags s)
      ++ active_ref_bytes s ++ client_list_entries_bytes (listed_peers s client))

/-- Node "a" with the connected peer "q" (client 1) as its active client and
one more accepted connection (client 2). -/
def demo_q_active : Link :=
  (socket_io demo_driver demo_connected_accepted 1 true demo_claim_frame 0).getD
    demo_connected_accepted

/-- The two fields `handle_welcome` unpacks: name and port. -/
def welcome_fields (packet : PacketBuffer) : Option CString × Nat :=
  (packet.unpack_string.1, packet.unpack_string.2.unpack_ushort.1)

/-- The WELCOME frame of node "q", port 2. -/
def demo_welcome_frame : List Nat := welcome_frame (some [113]) 2

/-- Node "a" (self-active, listener installed) connected to the joined peer
"q" (client 1). -/
def demo_listening_connected : Link := set_distribution_manager demo_connected true

/-- One pass of the loop of `handle_client_list`, as far as the packet is
concerned: the fields read (entry length, name, port), the amount of
"trailing junk" skipped, and the packet afterwards. -/
def read_entry (packet : PacketBuffer) : (Nat × Option CString × Nat × Int) × PacketBuffer :=
  let pos := packet.bytes_read
  let (size, packet) := packet.unpack_ushort
  let (name, packet) := packet.unpack_string
  let (port, packet) := packet.unpack_ushort
  ((size, name, port, (size : Int) - ((packet.bytes_read : Int) - pos)),
    packet.skip ((size : Int) - ((packet.bytes_read : Int) - pos)))

/-- The reads that `handle_client_list` makes before the loop: the count,
the flags, and the active reference when it is read (I_AM_ACTIVE clear and
HAS_ACTIVE_REF set); and the packet afterwards. -/
def read_header (packet : PacketBuffer) :
    Nat × Nat × Option (Option CString × Nat) × PacketBuffer :=
  let (num_clients, packet) := packet.unpack_ushort
  let (flags, packet) := packet.unpack_ushort
  if flags &&& CLIENTLIST_IAM_ACTIVE != 0 then (num_clients, flags, none, packet)
  else if flags &&& CLIENTLIST_HAS_ACTIVE_REF != 0 then
    let (hostname, packet) := packet.unpack_string
    let (port, packet) := packet.unpack_ushort
    (num_clients, flags, some (hostname, port), packet)
  else (num_clients, flags, none, packet)

/-- Node "a" of the two-node scenario: after `init()`, with a listener
installed and a provider for id 42 that returns the bytes 01 02 03. -/
def two_a0 : Link :=
  set_distribution_manager (register_state demo_node 42 (some [1, 2, 3])).2 true

/-- Node "b" of the two-node scenario: after `init()`, with a listener
installed and a provider registered for id 42. -/
def two_b0 : Link :=
  set_distribution_manager
    (register_state (init demo_defaults (Link.construct demo_defaults) (some [98]) demo_config).2
      42 (some [])).2 true

/-- Node "b" after `join` of "a", port 27273, and the completion of the
connection (client 1, socket 300): it has written its HELLO. -/
def two_b1 : Link :=
  ((join demo_driver two_b0 (some (some [97], 27273))).bind
    (fun s => socket_connected s 1 300)).getD two_b0

/-- The frames a run has written to the peer `client` since `start` events. -/
def written_to (s : Link) (start client : Nat) : List (List Nat) :=
  (s.trace.drop start).filterMap (fun e =>
    match e with
    | Event.write c data => if c = client then some data else none
    | _ => none)

/-- Delivery of the frames `frames`, one read each, to the peer `client`. -/
def deliver (s : Link) (client : Nat) : List (List Nat) → Option Link
  | [] => some s
  | fr :: rest => (socket_io demo_driver s client true fr 0).bind (fun s1 => deliver s1 client rest)

/-- Node "a" after accepting the connection of "b" (client 1, socket 100) and
reading the HELLO that "b" wrote: it has written WELCOME and CLIENT_LIST. -/
def two_a1 : Link :=
  (deliver (socket_accepted two_a0 (some 100)) 1 (written_to two_b1 0 1)).getD two_a0

/-- Node "b" after reading the WELCOME and the CLIENT_LIST that "a" wrote: it
has written its own CLIENT_LIST. -/
def two_b2 : Link := (deliver two_b1 1 (written_to two_a1 0 1)).getD two_b1

/-- Node "a" after reading the CLIENT_LIST that "b" wrote. -/
def two_a2 : Link :=
  (deliver two_a1 1 ((written_to two_b2 0 1).drop 1)).getD two_a1

/-- Node "b" after its `claim()`: it has written a CLAIM to "a". -/
def two_b3 : Link := ((claim two_b2).map Prod.snd).getD two_b2

/-- Node "a" after reading the CLAIM that "b" wrote: it has written STATEINFO
and NEW_MASTER. -/
def two_a3 : Link := (deliver two_a2 1 ((written_to two_b3 0 1).drop 2)).getD two_a2

/-- Node "b" after reading the STATEINFO and the NEW_MASTER that "a" wrote. -/
def two_b4 : Link := (deliver two_b3 1 ((written_to two_a3 0 1).drop 2)).getD two_b3

/-- The listener was told of every change of the active client from `s` to
`s1`: the listener pointer is the same, the log only grows, and with a
listener installed `active_client` is the same in `s1` unless
`active_changed` was called on the way. -/
def Heard (s s1 : Link) : Prop :=
  s1.dist_manager = s.dist_manager ∧
  ∃ d, s1.trace = s.trace ++ d ∧
    (s.dist_manager = true → (∀ e ∈ d, Event.is_active_changed e = false) →
      s1.active_client = s.active_client)

/-- The one change of the active client that is made without a call: the
record of the active client of `s` was deleted (`remove_client`), which
resets `active_client` to NULL. -/
def ActiveRemoved (s s1 : Link) : Prop :=
  s1.active_client = none ∧ ∃ a, s.active_client = some a ∧ s1.get_client a = none

/-- As `Heard`, but the active client may also have been deleted without a
call. -/
def Told (s s1 : Link) : Prop :=
  s1.dist_manager = s.dist_manager ∧
  ∃ d, s1.trace = s.trace ++ d ∧
    (s.dist_manager = true → (∀ e ∈ d, Event.is_active_changed e = false) →
      s1.active_client = s.active_client ∨ ActiveRemoved s s1)

/-- Node "a" whose active client is the joined, not connected peer "q"
(client 1), with the accepted connection client 2 and a listener installed. -/
def demo_remote_listening : Link := set_distribution_manager demo_remote true

/-- A state of 65539 bytes, one more than three above what a 16-bit length
can express. -/
def demo_big_state : List Nat := List.replicate 65539 7

/-- The active node "a" with one connected peer and one provider, for id 42,
that returns the 65539 bytes of `demo_big_state`. -/
def demo_big_provider : Link := (register_state demo_accepted 42 (some demo_big_state)).2

/-- The peer whose frame an operation processes, when it processes one. -/
def Op.sender : Op → Option Nat
  | Op.socket_io _ client _ _ _ => some client
  | Op.process_client_packet _ client => some client
  | _ => none

/-- From `s` to `s1` no record kept in the table has changed its identity,
the record `except` apart: a record of `s1` that was allocated in `s` (its
id is below `next_id` of `s`) and is not `except` is in `s` with the same
hostname and port. Records may have been removed and new ones added. -/
def KeysKept (except : Option Nat) (s s1 : Link) : Prop :=
  s.next_id ≤ s1.next_id ∧
  ∀ k ∈ peer_keys s1, k.1 < s.next_id → some k.1 ≠ except → k ∈ peer_keys s

/-! ## Theorems -/

theorem SameRole.role_refl (s : Link) : SameRole s s := ⟨rfl, rfl⟩

theorem SameRole.role_trans {a b c : Link} (h1 : SameRole a b) (h2 : SameRole b c) : SameRole a c :=
  ⟨h2.1.trans h1.1, h2.2.trans h1.2⟩

theorem Exclusive.of_sameRole {s s1 : Link} (e : Exclusive s) (h : SameRole s s1) :
    Exclusive s1 := by
  unfold Exclusive at *
  rw [h.1, h.2]
  exact e

theorem emit_sameRole (s : Link) (es : List Event) : SameRole s (s.emit es) := ⟨rfl, rfl⟩

theorem add_client_sameRole {drv : Driver} {s s1 : Link} {host : Option CString} {port : Int}
    (h : add_client drv s host port = some s1) : SameRole s s1 := by
  unfold add_client at h
  split at h
  · simp at h
  · simp at h; subst h; exact SameRole.role_refl _
  · simp only at h
    split at h
    · simp at h
    · simp at h; subst h; exact SameRole.role_refl _
    · simp at h; subst h; exact ⟨rfl, rfl⟩

theorem send_packet_sameRole {s s1 : Link} {client : Nat} {packet : PacketBuffer}
    (h : send_packet s client packet = some s1) : SameRole s s1 := by
  unfold send_packet at h
  split at h
  · simp at h
  · split at h <;> simp at h <;> subst h
    · exact ⟨rfl, rfl⟩
    · exact SameRole.role_refl _

theorem send_packet_except_sameRole (s : Link) (packet : PacketBuffer) (client : Option Nat) :
    SameRole s (send_packet_except s packet client).1 := ⟨rfl, rfl⟩

theorem send_packet_broadcast_sameRole (s : Link) (packet : PacketBuffer) :
    SameRole s (send_packet_broadcast s packet) := ⟨rfl, rfl⟩

theorem send_hello_sameRole {s s1 : Link} {client : Nat}
    (h : send_hello s client = some s1) : SameRole s s1 :=
  send_packet_sameRole h

theorem send_duplicate_sameRole {s s1 : Link} {client : Nat}
    (h : send_duplicate s client = some s1) : SameRole s s1 :=
  send_packet_sameRole h

theorem send_welcome_sameRole {s s1 : Link} {client : Nat}
    (h : send_welcome s client = some s1) : SameRole s s1 :=
  send_packet_sameRole h

theorem send_claim_sameRole {s s1 : Link} {client : Nat}
    (h : send_claim s client = some s1) : SameRole s s1 :=
  send_packet_sameRole h

theorem send_client_list_sameRole {s s1 : Link} {client : Nat}
    (h : send_client_list s client = some s1) : SameRole s s1 := by
  unfold send_client_list at h
  split at h
  · simp only at h
    split at h
    · simp at h
    · exact send_packet_sameRole h
  · simp at h; subst h; exact SameRole.role_refl _

theorem send_new_master_sameRole {s s1 : Link} {client : Option Nat}
    (h : send_new_master s client = some s1) : SameRole s s1 := by
  unfold send_new_master at h
  split at h
  · simp at h
  · split at h
    · exact send_packet_sameRole h
    · simp at h; subst h; exact send_packet_broadcast_sameRole _ _

theorem send_state_sameRole {s s1 : Link} (h : send_state s = some s1) : SameRole s s1 := by
  unfold send_state at h
  simp only [Option.map_eq_some'] at h
  obtain ⟨p, _, rfl⟩ := h
  exact send_packet_broadcast_sameRole _ _

theorem remove_client_exclusive {s : Link} (client : Nat) (e : Exclusive s) :
    Exclusive (remove_client s client).2 := by
  unfold Exclusive remove_client at *
  simp only
  constructor
  · intro h; simp [e.1 h]
  · intro h
    apply e.2
    intro h0
    simp [h0] at h

theorem set_active_exclusive (s : Link) (client : Option Nat) :
    Exclusive (set_active s client) := by
  unfold Exclusive set_active Link.emit
  simp only
  split <;> simp

theorem set_me_active_exclusive (s : Link) : Exclusive (set_me_active s) := by
  unfold Exclusive set_me_active Link.emit
  simp only
  split <;> simp

theorem set_active_name_exclusive {s s1 : Link} {hostname : Option CString} {port : Int}
    (e : Exclusive s) (h : set_active_name s hostname port = some s1) : Exclusive s1 := by
  unfold set_active_name at h
  split at h
  · simp at h
  · simp at h; subst h; exact set_active_exclusive _ _
  · split at h
    · simp at h
    · simp at h; subst h; exact set_me_active_exclusive _
    · simp at h; subst h; exact e

theorem set_canonical_exclusive {s s1 : Link} {client : Nat} {host : Option CString}
    {port : Int} {r : Bool} (e : Exclusive s)
    (h : set_canonical s client host port = some (r, s1)) : Exclusive s1 := by
  unfold set_canonical at h
  simp only at h
  split at h
  · simp at h
  · simp at h; obtain ⟨_, rfl⟩ := h; exact e
  · split at h
    · simp at h
    · simp at h; obtain ⟨_, rfl⟩ := h; exact e
    · simp at h
    · split at h
      · simp at h; obtain ⟨_, rfl⟩ := h; exact e
      · split at h
        · split at h
          · simp at h
          · split at h
            · simp at h; obtain ⟨_, rfl⟩ := h; exact e
            · simp at h; obtain ⟨_, rfl⟩ := h
              exact (remove_client_exclusive _ e).of_sameRole ⟨rfl, rfl⟩
        · simp at h; obtain ⟨_, rfl⟩ := h; exact e

theorem handle_hello_exclusive {s s1 : Link} {client : Nat} {packet : PacketBuffer}
    (e : Exclusive s) (h : handle_hello s client packet = some s1) : Exclusive s1 := by
  unfold handle_hello at h
  simp only at h
  split at h
  · split at h
    · simp at h
    · rename_i s2 hc
      simp only [Option.bind_eq_some] at h
      obtain ⟨s3, h3, h4⟩ := h
      exact ((set_canonical_exclusive e hc).of_sameRole (send_welcome_sameRole h3)).of_sameRole
        (send_client_list_sameRole h4)
    · rename_i s2 hc
      simp only [Option.map_eq_some'] at h
      obtain ⟨s3, h3, rfl⟩ := h
      exact remove_client_exclusive _
        ((set_canonical_exclusive e hc).of_sameRole (send_duplicate_sameRole h3))
  · simp at h; subst h; exact remove_client_exclusive _ e

theorem handle_duplicate_exclusive {s s1 : Link} {client : Nat} {packet : PacketBuffer}
    (e : Exclusive s) (h : handle_duplicate s client packet = some s1) : Exclusive s1 := by
  unfold handle_duplicate at h
  simp at h; subst h; exact remove_client_exclusive _ e

theorem handle_welcome_exclusive {s s1 : Link} {client : Nat} {packet : PacketBuffer}
    (e : Exclusive s) (h : handle_welcome s client packet = some s1) : Exclusive s1 := by
  unfold handle_welcome at h
  simp only at h
  split at h
  · simp at h
  · exact (set_active_exclusive _ _).of_sameRole (send_client_list_sameRole h)
  · rename_i s2 hc
    simp only [Option.map_eq_some'] at h
    obtain ⟨s3, h3, rfl⟩ := h
    exact remove_client_exclusive _
      ((set_canonical_exclusive e hc).of_sameRole (send_duplicate_sameRole h3))

theorem client_list_loop_sameRole {drv : Driver} (n : Nat) :
    ∀ {s s1 : Link} {packet : PacketBuffer},
      client_list_loop drv n s packet = some s1 → SameRole s s1 := by
  induction n with
  | zero =>
    intro s s1 packet h
    simp [client_list_loop] at h
    subst h; exact SameRole.role_refl _
  | succ n ih =>
    intro s s1 packet h
    unfold client_list_loop at h
    simp only at h
    split at h
    · simp at h
    · rename_i s2 hs2
      refine SameRole.role_trans ?_ (ih h)
      split at hs2
      · split at hs2
        · simp at hs2
        · simp at hs2; subst hs2; exact SameRole.role_refl _
        · exact add_client_sameRole hs2
      · simp at hs2; subst hs2; exact SameRole.role_refl _

theorem client_list_role_exclusive {s s1 : Link} {client flags : Nat}
    {packet p1 : PacketBuffer} (e : Exclusive s)
    (h : client_list_role s client flags packet = some (s1, p1)) : Exclusive s1 := by
  unfold client_list_role at h
  dsimp only at h
  split at h
  · simp at h; rw [← h.1]; exact set_active_exclusive _ _
  · split at h
    · simp only [Option.map_eq_some'] at h
      obtain ⟨s3, h3, h4⟩ := h
      simp at h4
      rw [← h4.1]; exact set_active_name_exclusive e h3
    · simp at h; rw [← h.1]; exact e

theorem client_list_forward_sameRole (s : Link) (client pos flags : Nat)
    (packet : PacketBuffer) : SameRole s (client_list_forward s client pos flags packet).1 := by
  unfold client_list_forward
  dsimp only
  split
  · exact send_packet_except_sameRole _ _ _
  · exact SameRole.role_refl _

theorem handle_client_list_exclusive {drv : Driver} {s s1 : Link} {client : Nat}
    {packet : PacketBuffer} (e : Exclusive s)
    (h : handle_client_list drv s client packet = some s1) : Exclusive s1 := by
  unfold handle_client_list at h
  dsimp only at h
  split at h
  · simp at h
  · rename_i s2 p2 hr
    exact ((client_list_role_exclusive e hr).of_sameRole
      (client_list_forward_sameRole _ _ _ _ _)).of_sameRole (client_list_loop_sameRole _ h)

theorem handle_claim_exclusive {s s1 : Link} {client : Nat} {packet : PacketBuffer}
    (h : handle_claim s client packet = some s1) : Exclusive s1 := by
  unfold handle_claim at h
  simp only [Option.bind_eq_some] at h
  obtain ⟨s2, h2, h3⟩ := h
  refine Exclusive.of_sameRole ?_ (send_new_master_sameRole h3)
  split at h2
  · exact (set_active_exclusive _ _).of_sameRole (send_state_sameRole h2)
  · simp at h2; subst h2; exact set_active_exclusive _ _

theorem handle_new_master_exclusive {s s1 : Link} {client : Nat} {packet : PacketBuffer}
    (e : Exclusive s) (h : handle_new_master s client packet = some s1) : Exclusive s1 := by
  unfold handle_new_master at h
  exact set_active_name_exclusive e h

theorem handle_state_sameRole {s s1 : Link} {client : Nat} {packet : PacketBuffer}
    (h : handle_state s client packet = some s1) : SameRole s s1 := by
  unfold handle_state at h
  simp only at h
  split at h
  · simp at h
  · simp at h; subst h
    split
    · exact ⟨rfl, rfl⟩
    · exact ⟨rfl, rfl⟩

theorem dispatch_exclusive {drv : Driver} {s s1 : Link} {client type : Nat}
    {packet : PacketBuffer} (e : Exclusive s)
    (h : dispatch drv s client type packet = some s1) : Exclusive s1 := by
  unfold dispatch at h
  split at h
  · exact handle_hello_exclusive e h
  · split at h
    · exact handle_claim_exclusive h
    · split at h
      · exact handle_welcome_exclusive e h
      · split at h
        · exact handle_client_list_exclusive e h
        · split at h
          · exact handle_new_master_exclusive e h
          · split at h
            · exact e.of_sameRole (handle_state_sameRole h)
            · split at h
              · exact handle_duplicate_exclusive e h
              · simp at h; subst h; exact e

theorem process_body_exclusive {drv : Driver} {s s1 : Link} {client size : Nat}
    {packet : PacketBuffer} (e : Exclusive s)
    (h : process_body drv s client size packet = some s1) : Exclusive s1 := by
  unfold process_body at h
  dsimp only at h
  split at h
  · exact dispatch_exclusive e h
  · simp at h; subst h; exact e

theorem process_client_packet_exclusive {drv : Driver} {s s1 : Link} {client : Nat}
    (e : Exclusive s) (h : process_client_packet drv s client = some s1) : Exclusive s1 := by
  unfold process_client_packet at h
  split at h
  · simp at h
  · dsimp only at h
    split at h
    · simp at h
    · simp only [Option.bind_eq_some, Option.map_eq_some'] at h
      obtain ⟨s2, h2, _, _, rfl⟩ := h
      exact (process_body_exclusive e h2).of_sameRole ⟨rfl, rfl⟩

theorem heartbeat_sameRole {s s1 : Link} {current_time : Int}
    (h : heartbeat s current_time = some s1) : SameRole s s1 := by
  unfold heartbeat at h
  dsimp only at h
  split at h
  · have h2 := send_state_sameRole h
    exact SameRole.role_trans ⟨rfl, rfl⟩ h2
  · simp at h; subst h; exact ⟨rfl, rfl⟩

theorem join_sameRole {drv : Driver} {s s1 : Link} {url : Option (Option CString × Int)}
    (h : join drv s url = some s1) : SameRole s s1 := by
  unfold join at h
  split at h
  · simp at h; subst h; exact SameRole.role_refl _
  · exact add_client_sameRole h

theorem disconnect_all_exclusive (s : Link) : Exclusive (disconnect_all s).2 :=
  set_me_active_exclusive _

theorem claim_exclusive {s s1 : Link} {r : Bool} (e : Exclusive s)
    (h : claim s = some (r, s1)) : Exclusive s1 := by
  unfold claim at h
  split at h
  · rename_i ac hac
    simp only [Option.map_eq_some'] at h
    obtain ⟨s2, h2, h3⟩ := h
    simp at h3
    rw [← h3.2]
    exact e.of_sameRole (send_claim_sameRole h2)
  · rename_i hac
    split at h
    · simp only [Option.map_eq_some'] at h
      obtain ⟨s2, h2, h3⟩ := h
      simp at h3
      rw [← h3.2]
      have := send_new_master_sameRole h2
      unfold Exclusive
      simp [this.2, hac]
    · simp at h
      rw [← h.2]
      unfold Exclusive
      simp [hac]

theorem set_enabled_exclusive {s : Link} (enabled listen_ok : Bool) (e : Exclusive s) :
    Exclusive (set_enabled s enabled listen_ok).2 := by
  unfold set_enabled
  dsimp only
  split
  · exact e.of_sameRole ⟨rfl, rfl⟩
  · split
    · exact (set_me_active_exclusive _).of_sameRole ⟨rfl, rfl⟩
    · exact e.of_sameRole ⟨rfl, rfl⟩

theorem read_configuration_exclusive {s : Link} (K : Defaults) (cfg : ConfigInput)
    (e : Exclusive s) : Exclusive (read_configuration K s cfg) := by
  unfold read_configuration
  dsimp only
  refine Exclusive.of_sameRole ?_ ⟨rfl, rfl⟩
  split
  · exact set_enabled_exclusive _ _ (set_enabled_exclusive _ _ (e.of_sameRole ⟨rfl, rfl⟩))
  · exact e.of_sameRole ⟨rfl, rfl⟩

theorem init_exclusive (K : Defaults) (s : Link) (name : Option CString) (cfg : ConfigInput) :
    Exclusive (init K s name cfg).2 := by
  unfold init
  apply read_configuration_exclusive
  unfold Exclusive
  simp

theorem disable_client_exclusive {s : Link} (client : Nat) (current_time : Int)
    (e : Exclusive s) : Exclusive (disable_client s client current_time) := by
  unfold disable_client
  dsimp only
  split
  · exact set_active_exclusive _ _
  · exact e.of_sameRole ⟨rfl, rfl⟩

theorem socket_io_exclusive {drv : Driver} {s s1 : Link} {client : Nat} {ok : Bool}
    {data : List Nat} {current_time : Int} (e : Exclusive s)
    (h : socket_io drv s client ok data current_time = some s1) : Exclusive s1 := by
  unfold socket_io at h
  split at h
  · simp at h
  · split at h
    · simp at h; subst h; exact disable_client_exclusive _ _ e
    · split at h
      · simp at h; subst h; exact disable_client_exclusive _ _ e
      · dsimp only at h
        split at h
        · simp at h
        · split at h
          · refine process_client_packet_exclusive ?_ h
            exact e.of_sameRole ⟨rfl, rfl⟩
          · simp at h; subst h; exact e.of_sameRole ⟨rfl, rfl⟩

theorem socket_connected_exclusive {s s1 : Link} {client con : Nat} (e : Exclusive s)
    (h : socket_connected s client con = some s1) : Exclusive s1 := by
  unfold socket_connected at h
  split at h
  · simp at h
  · have h2 := send_hello_sameRole h
    exact e.of_sameRole (SameRole.role_trans ⟨rfl, rfl⟩ h2)

theorem socket_closed_exclusive {s s1 : Link} {client : Nat} {current_time : Int}
    (e : Exclusive s) (h : socket_closed s client current_time = some s1) : Exclusive s1 := by
  unfold socket_closed at h
  split at h
  · simp at h
  · simp at h; subst h; exact disable_client_exclusive _ _ e

theorem run_exclusive {K : Defaults} {s s1 : Link} {op : Op} (e : Exclusive s)
    (h : run K s op = some s1) : Exclusive s1 := by
  cases op with
  | init name cfg => simp [run] at h; subst h; exact init_exclusive _ _ _ _
  | heartbeat ct => exact e.of_sameRole (heartbeat_sameRole h)
  | join drv url => exact e.of_sameRole (join_sameRole h)
  | disconnect_all => simp [run] at h; subst h; exact disconnect_all_exclusive _
  | reconnect_all ct => simp [run] at h; subst h; exact e.of_sameRole ⟨rfl, rfl⟩
  | claim =>
    simp only [run, Option.map_eq_some'] at h
    obtain ⟨r, hr, rfl⟩ := h
    exact claim_exclusive e hr
  | set_user user pw => simp [run] at h; subst h; exact e.of_sameRole ⟨rfl, rfl⟩
  | set_distribution_manager dll => simp [run] at h; subst h; exact e.of_sameRole ⟨rfl, rfl⟩
  | set_enabled enabled listen_ok => simp [run] at h; subst h; exact set_enabled_exclusive _ _ e
  | register_state id ds => simp [run] at h; subst h; exact e.of_sameRole ⟨rfl, rfl⟩
  | unregister_state id => simp [run] at h; subst h; exact e
  | config_changed_notify cfg =>
    simp [run] at h; subst h; exact read_configuration_exclusive _ _ e
  | socket_accepted ccon =>
    simp [run] at h; subst h
    unfold socket_accepted
    split
    · exact e
    · exact e.of_sameRole ⟨rfl, rfl⟩
  | socket_io drv client ok data ct => exact socket_io_exclusive e h
  | socket_connected client con => exact socket_connected_exclusive e h
  | socket_closed client ct => exact socket_closed_exclusive e h
  | process_client_packet drv client => exact process_client_packet_exclusive e h

/-- C1: in every state reachable from `init()` through public operations,
driver callbacks and received frames, `active` (self_active) and
`active_client` are never both set: `active` implies that `active_client`
is NULL, and a non-NULL `active_client` implies that `active` is false. -/
theorem reachable_active_exclusive (K : Defaults) (s : Link) (h : Reachable K s) :
    (s.active = true → s.active_client = none) ∧ (s.active_client ≠ none → s.active = false) := by
  induction h with
  | init name cfg => exact init_exclusive _ _ _ _
  | step s s1 op _ hs ih => exact run_exclusive ih hs

theorem init_packet_buffer (cmd : Nat) :
    (init_packet PacketBuffer.create cmd).buffer = [0, 0, 1, 0] ++ enc_u16 cmd := by
  simp [init_packet, PacketBuffer.create, PacketBuffer.pack_ushort, PacketBuffer.pack_byte,
    enc_u16]

theorem pack_ushort_buffer (p : PacketBuffer) (v : Nat) :
    (p.pack_ushort v).buffer = p.buffer ++ enc_u16 v := rfl

theorem pack_string_buffer (p : PacketBuffer) (s : Option CString) :
    (p.pack_string s).buffer = p.buffer ++ enc_string s := by
  simp [PacketBuffer.pack_string, enc_string, enc_u16]

theorem pack_raw_buffer (p : PacketBuffer) (d : List Nat) :
    (p.pack_raw d).buffer = p.buffer ++ d := rfl

/-- Back-patching the length of a packet started by `init_packet` gives the
frame of the specification. -/
theorem poke_length_frame (p : PacketBuffer) (cmd : Nat) (payload : List Nat)
    (h : p.buffer = [0, 0, 1, 0] ++ enc_u16 cmd ++ payload) :
    (p.poke_ushort 0 p.bytes_written).buffer = frame cmd payload := by
  simp [PacketBuffer.poke_ushort, PacketBuffer.bytes_written, h, frame, enc_u16]
  have e : payload.length + 1 + 1 + 1 + 1 + 1 + 1 = 6 + payload.length := by omega
  rw [e]
  exact ⟨rfl, rfl⟩

theorem send_packet_eq (s : Link) (client : Nat) (p : PacketBuffer) (c : Client)
    (hc : s.get_client client = some c) :
    send_packet s client p = some (s.emit
      (if c.socket.isSome then [Event.write client (p.poke_ushort 0 p.bytes_written).buffer]
       else [])) := by
  unfold send_packet
  rw [hc]
  dsimp only
  split
  · rfl
  · simp [Link.emit]

theorem send_packet_broadcast_eq (s : Link) (p : PacketBuffer) :
    send_packet_broadcast s p =
      s.emit (broadcast_except s.clients none (p.poke_ushort 0 p.bytes_written).buffer) := rfl

theorem claim_packet_frame :
    (((init_packet PacketBuffer.create PACKET_CLAIM).pack_ushort 0).poke_ushort 0
      ((init_packet PacketBuffer.create PACKET_CLAIM).pack_ushort 0).bytes_written).buffer
      = claim_frame := by
  decide

theorem new_master_packet_frame (host : Option CString) (port : Int) :
    (((((init_packet PacketBuffer.create PACKET_NEW_MASTER).pack_string host).pack_ushort
        (to_ushort port)).pack_ushort 0).poke_ushort 0
      ((((init_packet PacketBuffer.create PACKET_NEW_MASTER).pack_string host).pack_ushort
        (to_ushort port)).pack_ushort 0).bytes_written).buffer
      = new_master_frame host port := by
  apply poke_length_frame
  simp [pack_ushort_buffer, pack_string_buffer, init_packet_buffer]

theorem claim_eq_of_remote (s : Link) (p : Nat) (c : Client)
    (ha : s.active_client = some p) (hc : s.get_client p = some c) :
    claim s = some (false,
      s.emit (if c.socket.isSome then [Event.write p claim_frame] else [])) := by
  unfold claim
  rw [ha]
  dsimp only
  unfold send_claim
  rw [send_packet_eq s p _ c hc, claim_packet_frame]
  rfl

theorem send_new_master_broadcast_self (s : Link) (ha : s.active_client = none) :
    send_new_master s none = some (s.emit
      (broadcast_except s.clients none (new_master_frame s.myname s.server_port))) := by
  unfold send_new_master new_master_packet
  rw [ha]
  dsimp only [Option.map]
  rw [send_packet_broadcast_eq, new_master_packet_frame]

theorem broadcast_none_of_no_peers (s : Link) (d : List Nat) (h : get_number_of_peers s = 0) :
    broadcast_except s.clients none d = [] := by
  unfold get_number_of_peers at h
  unfold broadcast_except
  have h2 : s.clients.filter (fun c => c.socket.isSome) = [] := List.length_eq_zero.mp h
  have h3 : (fun c : Client => some c.id != none && c.socket.isSome)
      = (fun c : Client => c.socket.isSome) := by
    funext c; simp
  rw [h3, h2]; rfl

theorem clients_ne_nil_of_peers (s : Link) (h : 0 < get_number_of_peers s) :
    s.clients.length > 0 := by
  unfold get_number_of_peers at h
  have := List.length_filter_le (fun c : Client => c.socket.isSome) s.clients
  omega

theorem demo_remote_reachable : Reachable demo_defaults demo_remote :=
  Reachable.step demo_joined_accepted demo_remote
    (Op.socket_io demo_driver 2 true (new_master_frame (some [113]) 2) 0)
    (Reachable.step demo_joined demo_joined_accepted (Op.socket_accepted (some 100))
      (Reachable.step demo_node demo_joined (Op.join demo_driver (some (some [113], 2)))
        (Reachable.init (some [97]) demo_config) (by decide))
      rfl)
    (by decide)

/-- C2 (counterexample): on a reachable node (after `init`, a `join` of "q",
an accepted connection and a NEW_MASTER frame naming "q") whose active
client, client 1, has no live socket, `claim()` returns false and sends no
CLAIM frame at all: the state, log included, is unchanged. -/
theorem claim_remote_without_socket_sends_nothing :
    Reachable demo_defaults demo_remote ∧
    demo_remote.active_client = some 1 ∧
    (demo_remote.get_client 1).map (fun c => c.socket) = some none ∧
    claim demo_remote = some (false, demo_remote) ∧
    writes demo_remote.trace = [] :=
  ⟨demo_remote_reachable, by decide, by decide, by decide, by decide⟩

/-- C2 (amended): `claim()` with a remote active client `p` sends one CLAIM
frame to `p` when `p` has a live socket and none otherwise, leaves `active`
and `active_client` unchanged and returns false; with no remote active
client it returns true and leaves the node SELF_ACTIVE, having broadcast one
NEW_MASTER frame naming (`myname`, `server_port`) to the connected peers when
it was UNKNOWN and at least one peer is connected, and having sent nothing
when no peer is connected. -/
theorem claim_behaviour (s : Link) :
    (∀ p c, s.active_client = some p → s.get_client p = some c →
      ∃ s1, claim s = some (false, s1) ∧ s1.active = s.active ∧
        s1.active_client = s.active_client ∧
        s1.trace = s.trace ++ (if c.socket.isSome then [Event.write p claim_frame] else [])) ∧
    (s.active_client = none →
      ∃ s1, claim s = some (true, s1) ∧ s1.active = true ∧ s1.active_client = none ∧
        (s.active = false → 0 < get_number_of_peers s →
          s1.trace = s.trace ++
            broadcast_except s.clients none (new_master_frame s.myname s.server_port)) ∧
        (get_number_of_peers s = 0 → s1.trace = s.trace)) := by
  constructor
  · intro p c ha hc
    exact ⟨_, claim_eq_of_remote s p c ha hc, rfl, rfl, rfl⟩
  · intro ha
    unfold claim
    rw [ha]
    dsimp only
    split
    · rename_i hcond
      rw [send_new_master_broadcast_self s ha]
      refine ⟨_, rfl, rfl, ha, fun _ _ => rfl, fun h0 => ?_⟩
      simp [Link.emit, broadcast_none_of_no_peers s _ h0]
    · rename_i hcond
      refine ⟨_, rfl, rfl, rfl, fun hact hpos => ?_, fun _ => rfl⟩
      have := clients_ne_nil_of_peers s hpos
      simp [hact] at hcond
      simp [hcond] at this

/-- C2 (witness): the remote case at `demo_claimed` (client 1 is active and
connected) and the local case at `demo_unknown` (UNKNOWN, client 2 connected). -/
theorem claim_behaviour_witness :
    (demo_claimed.active_client = some 1 ∧
      (demo_claimed.get_client 1).isSome = true ∧
      ∃ s1, claim demo_claimed = some (false, s1) ∧ s1.active = demo_claimed.active ∧
        s1.active_client = demo_claimed.active_client ∧
        s1.trace = demo_claimed.trace ++ [Event.write 1 claim_frame]) ∧
    (demo_unknown.active_client = none ∧ demo_unknown.active = false ∧
      0 < get_number_of_peers demo_unknown ∧
      ∃ s1, claim demo_unknown = some (true, s1) ∧ s1.active = true ∧
        s1.active_client = none ∧
        s1.trace = demo_unknown.trace ++ [Event.write 2 (new_master_frame (some [97]) 27273)]) := by
  refine ⟨⟨by decide, by decide, ?_⟩, ⟨by decide, by decide, by decide, ?_⟩⟩
  · obtain ⟨s1, h1, h2, h3, h4⟩ := (claim_behaviour demo_claimed).1 1
      ⟨1, some 100, none, 0, 0, 0, PacketBuffer.create⟩ (by decide) (by decide)
    exact ⟨s1, h1, h2, h3, h4⟩
  · obtain ⟨s1, h1, h2, h3, h4, _⟩ := (claim_behaviour demo_unknown).2 (by decide)
    exact ⟨s1, h1, h2, h3, h4 (by decide) (by decide)⟩


theorem demo_claimed_reachable : Reachable demo_defaults demo_claimed :=
  Reachable.step _ _ (Op.socket_io demo_driver 1 true demo_claim_frame 0)
    (Reachable.step _ _ (Op.socket_accepted (some 100)) (Reachable.init (some [97]) demo_config)
      rfl)
    (by decide)

/-- C1 (witness): the invariant at the node that has accepted a connection
and received a CLAIM on it, where client 1 is the active client. -/
theorem reachable_active_exclusive_witness :
    Reachable demo_defaults demo_claimed ∧ demo_claimed.active_client = some 1 ∧
    ((demo_claimed.active = true → demo_claimed.active_client = none) ∧
      (demo_claimed.active_client ≠ none → demo_claimed.active = false)) :=
  ⟨demo_claimed_reachable, by decide,
    reachable_active_exclusive demo_defaults demo_claimed demo_claimed_reachable⟩


theorem state_entries_buffer (states : List (Nat × Option (List Nat))) :
    ∀ p : PacketBuffer, (state_entries states p).buffer = p.buffer ++ stateinfo_entries states := by
  induction states with
  | nil => intro p; simp [state_entries, stateinfo_entries]
  | cons e rest ih =>
    intro p
    obtain ⟨id, itf⟩ := e
    cases itf with
    | none =>
      simp [state_entries, stateinfo_entries, ih, pack_ushort_buffer]
    | some d =>
      simp [state_entries, stateinfo_entries, ih, pack_ushort_buffer, pack_raw_buffer]

theorem send_state_eq (s : Link) (r : Bool) (host : Option CString) (port : Int)
    (h : get_active s = some (r, host, port)) :
    send_state s = some (s.emit
      (broadcast_except s.clients none (stateinfo_frame host port s.state_map))) := by
  unfold send_state state_packet
  rw [h]
  dsimp only [Option.map]
  rw [send_packet_broadcast_eq]
  congr 3
  apply poke_length_frame
  simp [state_entries_buffer, pack_ushort_buffer, pack_string_buffer, init_packet_buffer]

theorem send_new_master_broadcast_remote (s : Link) (c : Nat) (rec : Client)
    (ha : s.active_client = some c) (hc : s.get_client c = some rec) :
    send_new_master s none = some (s.emit
      (broadcast_except s.clients none (new_master_frame rec.hostname rec.port))) := by
  unfold send_new_master new_master_packet
  rw [ha]
  dsimp only
  rw [hc]
  dsimp only [Option.map]
  rw [send_packet_broadcast_eq, new_master_packet_frame]

/-- C3: on a CLAIM from the peer `c` (a record of the table), in every state,
the node ends REMOTE_ACTIVE(`c`); the listener, if installed, is told
`active_changed(false)`; then, exactly when the node was self-active, one
STATEINFO frame is broadcast; then one NEW_MASTER frame naming the host and
port of `c` is broadcast, each broadcast being one write to every peer with
a live socket, in table order. -/
theorem handle_claim_behaviour (s : Link) (c : Nat) (rec : Client) (packet : PacketBuffer)
    (hc : s.get_client c = some rec) :
    ∃ s1, handle_claim s c packet = some s1 ∧
      s1.active_client = some c ∧ s1.active = false ∧
      s1.trace = s.trace ++ (if s.dist_manager then [Event.active_changed false] else []) ++
        (if s.active then
          broadcast_except s.clients none (stateinfo_frame rec.hostname rec.port s.state_map)
         else []) ++
        broadcast_except s.clients none (new_master_frame rec.hostname rec.port) := by
  have key : ∀ t : Link, t.active_client = some c → t.get_client c = some rec →
      send_new_master t none = some (t.emit
        (broadcast_except t.clients none (new_master_frame rec.hostname rec.port))) :=
    fun t h1 h2 => send_new_master_broadcast_remote t c rec h1 h2
  unfold handle_claim
  dsimp only
  by_cases hact : s.active = true
  · have hga : get_active (set_active s (some c)) = some (true, rec.hostname, rec.port) := by
      have h1 : (set_active s (some c)).active = false := by
        unfold set_active; dsimp only; split <;> rfl
      have h2 : (set_active s (some c)).active_client = some c := by
        unfold set_active; dsimp only; split <;> rfl
      have h3 : (set_active s (some c)).get_client c = some rec := by
        unfold set_active; dsimp only; split <;> exact hc
      unfold get_active
      rw [h1, h2]
      simp [h3]
    rw [if_pos hact, send_state_eq _ _ _ _ hga]
    simp only [Option.some_bind]
    rw [key]
    · refine ⟨_, rfl, ?_, ?_, ?_⟩
      · unfold set_active; dsimp only; split <;> rfl
      · unfold set_active; dsimp only; split <;> rfl
      · unfold set_active; dsimp only
        split <;> simp [Link.emit, hact, *]
    · unfold set_active; dsimp only; split <;> rfl
    · unfold set_active; dsimp only; split <;> exact hc
  · rw [if_neg hact]
    simp only [Option.some_bind]
    rw [key]
    · refine ⟨_, rfl, ?_, ?_, ?_⟩
      · unfold set_active; dsimp only; split <;> rfl
      · unfold set_active; dsimp only; split <;> rfl
      · unfold set_active; dsimp only
        split <;> simp [Link.emit, hact, *]
    · unfold set_active; dsimp only; split <;> rfl
    · unfold set_active; dsimp only; split <;> exact hc

/-- C3 (witness): the self-active node "a" receives a CLAIM from its only
peer, client 1: STATEINFO and then NEW_MASTER are written to client 1. -/
theorem handle_claim_behaviour_witness :
    demo_accepted.get_client 1 = some ⟨1, some 100, none, 0, 0, 0, PacketBuffer.create⟩ ∧
    demo_accepted.active = true ∧
    ∃ s1, handle_claim demo_accepted 1 ⟨demo_claim_frame, 6⟩ = some s1 ∧
      s1.active_client = some 1 ∧ s1.active = false ∧
      s1.trace = [Event.write 1 (stateinfo_frame none 0 []),
        Event.write 1 (new_master_frame none 0)] := by
  refine ⟨by decide, by decide, ?_⟩
  obtain ⟨s1, h1, h2, h3, h4⟩ := handle_claim_behaviour demo_accepted 1
    ⟨1, some 100, none, 0, 0, 0, PacketBuffer.create⟩ ⟨demo_claim_frame, 6⟩ (by decide)
  refine ⟨s1, h1, h2, h3, ?_⟩
  rw [h4]
  decide


theorem find_loop_safe (h : CString) (port : Int) :
    ∀ (cl : List Client) (ret : Option Nat), LookupSafe cl port →
      find_loop (some h) port cl ret = some (last_match h port cl ret) := by
  intro cl
  induction cl with
  | nil => intro ret _; rfl
  | cons c cs ih =>
    intro ret hs
    have hcs : LookupSafe cs port := fun d hd => hs d (List.mem_cons_of_mem _ hd)
    unfold find_loop last_match has_identity
    by_cases hp : c.port = port
    · have hh := hs c (List.mem_cons_self _ _) hp
      obtain ⟨x, hx⟩ := Option.ne_none_iff_exists'.mp hh
      by_cases hxe : x = h
      · simp [hp, hx, hxe, strcmp_eq, ih _ hcs]
      · have hb : (x == h) = false := by simpa using hxe
        simp [hp, hx, hxe, hb, strcmp_eq, ih _ hcs]
    · simp [hp, ih _ hcs]

theorem last_match_cases (h : CString) (port : Int) :
    ∀ (cl : List Client) (ret : Option Nat),
      (last_match h port cl ret = ret ∧ ∀ c ∈ cl, has_identity h port c = false) ∨
      (∃ c ∈ cl, has_identity h port c = true ∧ last_match h port cl ret = some c.id) := by
  intro cl
  induction cl with
  | nil => intro ret; left; exact ⟨rfl, by simp⟩
  | cons c cs ih =>
    intro ret
    unfold last_match
    by_cases hc : has_identity h port c = true
    · rw [if_pos hc]
      rcases ih (some c.id) with ⟨h1, _⟩ | ⟨d, hd, h2, h3⟩
      · right; exact ⟨c, List.mem_cons_self _ _, hc, h1⟩
      · right; exact ⟨d, List.mem_cons_of_mem _ hd, h2, h3⟩
    · rw [if_neg hc]
      rcases ih ret with ⟨h1, h2⟩ | ⟨d, hd, h2, h3⟩
      · left
        refine ⟨h1, ?_⟩
        intro d hd
        rcases List.mem_cons.mp hd with rfl | hd
        · simpa using hc
        · exact h2 d hd
      · right; exact ⟨d, List.mem_cons_of_mem _ hd, h2, h3⟩

theorem is_self_eq (s : Link) (h m : CString) (port : Int) (hm : s.myname = some m) :
    is_self s (some h) port = some (client_is_me s (some h) port) := by
  unfold is_self client_is_me strcmp_eq
  rw [hm]
  by_cases hp : port = s.server_port <;> simp [hp]

theorem set_active_name_eq (s : Link) (h m : CString) (port : Int)
    (hm : s.myname = some m) (hs : LookupSafe s.clients port) :
    set_active_name s (some h) port = some
      (match last_match h port s.clients none with
       | some c => set_active s (some c)
       | none => if client_is_me s (some h) port then set_me_active s else s) := by
  unfold set_active_name find_client_by_canonicalname
  rw [find_loop_safe h port _ _ hs]
  cases hl : last_match h port s.clients none with
  | some c => rfl
  | none =>
    dsimp only
    rw [is_self_eq s h m port hm]
    cases client_is_me s (some h) port <;> rfl

theorem demo_accepted_reachable : Reachable demo_defaults demo_accepted :=
  Reachable.step _ _ (Op.socket_accepted (some 100)) (Reachable.init (some [97]) demo_config) rfl

/-- C4 (counterexample): the self-active node "a" (reachable: `init`, one
accepted connection) receives from client 1 a NEW_MASTER frame naming
("z", 9), which is neither its own identity nor that of a peer: the node is
left as it was, SELF_ACTIVE, and not UNKNOWN. -/
theorem new_master_unknown_identity_keeps_self_active :
    Reachable demo_defaults demo_accepted ∧
    demo_accepted.active = true ∧
    client_is_me demo_accepted (some [122]) 9 = false ∧
    find_client_by_canonicalname demo_accepted (some [122]) 9 = some none ∧
    socket_io demo_driver demo_accepted 1 true (new_master_frame (some [122]) 9) 0
      = some demo_accepted :=
  ⟨demo_accepted_reachable, by decide, by decide, by decide, by decide⟩

/-- C4 (amended): on a NEW_MASTER naming (`h`, `port`), in every state: if a
peer with that identity is in the peer table the node enters REMOTE_ACTIVE of
such a peer; if no peer has it and it is the local identity the node enters
SELF_ACTIVE; if it is neither, the link state is left unchanged. -/
theorem handle_new_master_behaviour (s : Link) (client : Nat) (packet : PacketBuffer)
    (h m : CString) (port : Int)
    (hf : new_master_fields packet = (some h, port))
    (hm : s.myname = some m) (hs : LookupSafe s.clients port) :
    ∃ s1, handle_new_master s client packet = some s1 ∧
      ((∃ c ∈ s.clients, has_identity h port c = true) →
        ∃ c ∈ s.clients, has_identity h port c = true ∧
          s1.active_client = some c.id ∧ s1.active = false) ∧
      ((∀ c ∈ s.clients, has_identity h port c = false) →
        client_is_me s (some h) port = true → s1.active = true ∧ s1.active_client = none) ∧
      ((∀ c ∈ s.clients, has_identity h port c = false) →
        client_is_me s (some h) port = false → s1 = s) := by
  have h1 : packet.unpack_string.1 = some h := congrArg Prod.fst hf
  have h2 : (packet.unpack_string.2.unpack_ushort.1 : Int) = port := congrArg Prod.snd hf
  have he : handle_new_master s client packet = set_active_name s (some h) port := by
    unfold handle_new_master
    rw [← h1, ← h2]
  rw [he, set_active_name_eq s h m port hm hs]
  refine ⟨_, rfl, ?_, ?_, ?_⟩
  · rintro ⟨c0, hc0, hi0⟩
    rcases last_match_cases h port s.clients none with ⟨_, hno⟩ | ⟨c, hc, hi, hl⟩
    · rw [hno c0 hc0] at hi0; cases hi0
    · refine ⟨c, hc, hi, ?_⟩
      rw [hl]
      unfold set_active
      dsimp only
      split <;> exact ⟨rfl, rfl⟩
  · intro hno hme
    rcases last_match_cases h port s.clients none with ⟨hl, _⟩ | ⟨c, hc, hi, _⟩
    · rw [hl]
      dsimp only
      rw [if_pos hme]
      unfold set_me_active
      dsimp only
      split <;> exact ⟨rfl, rfl⟩
    · rw [hno c hc] at hi; cases hi
  · intro hno hme
    rcases last_match_cases h port s.clients none with ⟨hl, _⟩ | ⟨c, hc, hi, _⟩
    · rw [hl]
      dsimp only
      rw [hme]
      rfl
    · rw [hno c hc] at hi; cases hi

/-- C4 (witness): node "a", self-active, knows the peer "q", port 2 (client
1) and is told by client 2 that ("q", 2) is the new master. -/
theorem handle_new_master_behaviour_witness :
    new_master_fields ⟨new_master_frame (some [113]) 2, 6⟩ = (some [113], 2) ∧
    demo_joined_accepted.myname = some [97] ∧
    LookupSafe demo_joined_accepted.clients 2 ∧
    ∃ s1, handle_new_master demo_joined_accepted 2 ⟨new_master_frame (some [113]) 2, 6⟩
        = some s1 ∧
      s1.active_client = some 1 ∧ s1.active = false := by
  have hs : LookupSafe demo_joined_accepted.clients 2 := by
    unfold LookupSafe; decide
  refine ⟨by decide, by decide, hs, ?_⟩
  obtain ⟨s1, h1, h2, _, _⟩ := handle_new_master_behaviour demo_joined_accepted 2
    ⟨new_master_frame (some [113]) 2, 6⟩ [113] [97] 2 (by decide) (by decide) hs
  refine ⟨s1, h1, ?_⟩
  have hv : handle_new_master demo_joined_accepted 2 ⟨new_master_frame (some [113]) 2, 6⟩
      = some demo_remote := by decide
  rw [hv] at h1
  cases h1
  decide


theorem Grows.grows_refl (P : Event → Bool) (s : Link) : Grows P s s :=
  ⟨rfl, [], by simp, by simp⟩

theorem Grows.grows_trans {P : Event → Bool} {a b c : Link} (h1 : Grows P a b) (h2 : Grows P b c) :
    Grows P a c := by
  obtain ⟨m1, d1, t1, p1⟩ := h1
  obtain ⟨m2, d2, t2, p2⟩ := h2
  refine ⟨m2.trans m1, d1 ++ d2, by rw [t2, t1, List.append_assoc], ?_⟩
  intro e he
  rcases List.mem_append.mp he with h | h
  · exact p1 e h
  · exact p2 e h

theorem Grows.mono {P Q : Event → Bool} {a b : Link} (h : Grows P a b)
    (hpq : ∀ e, P e = true → Q e = true) : Grows Q a b := by
  obtain ⟨m, d, t, p⟩ := h
  exact ⟨m, d, t, fun e he => hpq e (p e he)⟩

theorem Grows.of_eq (P : Event → Bool) {a b : Link} (hm : b.dist_manager = a.dist_manager)
    (ht : b.trace = a.trace) : Grows P a b :=
  ⟨hm, [], by simp [ht], by simp⟩

theorem emit_grows (P : Event → Bool) (s : Link) (es : List Event) (h : ∀ e ∈ es, P e = true) :
    Grows P s (s.emit es) :=
  ⟨rfl, es, rfl, h⟩

theorem add_client_grows {drv : Driver} {s s1 : Link} {host : Option CString} {port : Int}
    (h : add_client drv s host port = some s1) : Grows Event.is_connect s s1 := by
  unfold add_client at h
  split at h
  · simp at h
  · simp at h; subst h; exact Grows.grows_refl _ _
  · simp only at h
    split at h
    · simp at h
    · simp at h; subst h; exact Grows.grows_refl _ _
    · simp at h; subst h
      exact ⟨rfl, _, rfl, by simp [Event.is_connect]⟩

theorem send_packet_grows {s s1 : Link} {client : Nat} {packet : PacketBuffer}
    (h : send_packet s client packet = some s1) : Grows Event.is_write s s1 := by
  unfold send_packet at h
  split at h
  · simp at h
  · split at h <;> simp at h <;> subst h
    · exact ⟨rfl, _, rfl, by simp [Event.is_write]⟩
    · exact Grows.grows_refl _ _

theorem send_packet_except_grows (s : Link) (packet : PacketBuffer) (client : Option Nat) :
    Grows Event.is_write s (send_packet_except s packet client).1 := by
  refine ⟨rfl, _, rfl, ?_⟩
  intro e he
  simp only [List.mem_map] at he
  obtain ⟨c, _, rfl⟩ := he
  rfl

theorem send_packet_broadcast_grows (s : Link) (packet : PacketBuffer) :
    Grows Event.is_write s (send_packet_broadcast s packet) :=
  send_packet_except_grows s packet none

theorem send_client_list_grows {s s1 : Link} {client : Nat}
    (h : send_client_list s client = some s1) : Grows Event.is_write s s1 := by
  unfold send_client_list at h
  split at h
  · simp only at h
    split at h
    · simp at h
    · exact send_packet_grows h
  · simp at h; subst h; exact Grows.grows_refl _ _

theorem send_new_master_grows {s s1 : Link} {client : Option Nat}
    (h : send_new_master s client = some s1) : Grows Event.is_write s s1 := by
  unfold send_new_master at h
  split at h
  · simp at h
  · split at h
    · exact send_packet_grows h
    · simp at h; subst h; exact send_packet_broadcast_grows _ _

theorem send_state_grows {s s1 : Link} (h : send_state s = some s1) :
    Grows Event.is_write s s1 := by
  unfold send_state at h
  simp only [Option.map_eq_some'] at h
  obtain ⟨p, _, rfl⟩ := h
  exact send_packet_broadcast_grows _ _

theorem set_active_grows (s : Link) (client : Option Nat) :
    Grows Event.is_active_changed s (set_active s client) := by
  unfold set_active
  dsimp only
  split
  · exact ⟨rfl, _, rfl, by simp [Event.is_active_changed]⟩
  · exact Grows.of_eq _ rfl rfl

theorem set_me_active_grows (s : Link) :
    Grows Event.is_active_changed s (set_me_active s) := by
  unfold set_me_active
  dsimp only
  split
  · exact ⟨rfl, _, rfl, by simp [Event.is_active_changed]⟩
  · exact Grows.of_eq _ rfl rfl

theorem set_active_name_grows {s s1 : Link} {hostname : Option CString} {port : Int}
    (h : set_active_name s hostname port = some s1) : Grows Event.is_active_changed s s1 := by
  unfold set_active_name at h
  split at h
  · simp at h
  · simp at h; subst h; exact set_active_grows _ _
  · split at h
    · simp at h
    · simp at h; subst h; exact set_me_active_grows _
    · simp at h; subst h; exact Grows.grows_refl _ _

theorem remove_client_grows (P : Event → Bool) (s : Link) (client : Nat) :
    Grows P s (remove_client s client).2 :=
  Grows.of_eq _ rfl rfl

theorem set_canonical_grows (P : Event → Bool) {s s1 : Link} {client : Nat}
    {host : Option CString} {port : Int} {r : Bool}
    (h : set_canonical s client host port = some (r, s1)) : Grows P s s1 := by
  unfold set_canonical at h
  simp only at h
  split at h
  · simp at h
  · simp at h; obtain ⟨_, rfl⟩ := h; exact Grows.of_eq _ rfl rfl
  · split at h
    · simp at h
    · simp at h; obtain ⟨_, rfl⟩ := h; exact Grows.grows_refl _ _
    · simp at h
    · split at h
      · simp at h; obtain ⟨_, rfl⟩ := h; exact Grows.grows_refl _ _
      · split at h
        · split at h
          · simp at h
          · split at h
            · simp at h; obtain ⟨_, rfl⟩ := h; exact Grows.grows_refl _ _
            · simp at h; obtain ⟨_, rfl⟩ := h
              exact Grows.of_eq _ rfl rfl
        · simp at h; obtain ⟨_, rfl⟩ := h; exact Grows.of_eq _ rfl rfl

theorem client_list_loop_grows {drv : Driver} (n : Nat) :
    ∀ {s s1 : Link} {packet : PacketBuffer},
      client_list_loop drv n s packet = some s1 → Grows Event.is_connect s s1 := by
  induction n with
  | zero =>
    intro s s1 packet h
    simp [client_list_loop] at h
    subst h; exact Grows.grows_refl _ _
  | succ n ih =>
    intro s s1 packet h
    unfold client_list_loop at h
    simp only at h
    split at h
    · simp at h
    · rename_i s2 hs2
      refine Grows.grows_trans ?_ (ih h)
      split at hs2
      · split at hs2
        · simp at hs2
        · simp at hs2; subst hs2; exact Grows.grows_refl _ _
        · exact add_client_grows hs2
      · simp at hs2; subst hs2; exact Grows.grows_refl _ _

theorem listener_view_quiet (view : Bool) (d : List Event)
    (h : ∀ e ∈ d, Event.is_active_changed e = false) : listener_view view d = view := by
  induction d with
  | nil => rfl
  | cons e es ih =>
    have h1 := ih (fun x hx => h x (List.mem_cons_of_mem _ hx))
    have h2 := h e (List.mem_cons_self _ _)
    unfold listener_view at *
    simp only [List.foldl_cons]
    have h3 : listener_hears view e = view := by
      cases e <;> simp_all [Event.is_active_changed, listener_hears]
    rw [h3, h1]

theorem listener_view_append (view : Bool) (d1 d2 : List Event) :
    listener_view view (d1 ++ d2) = listener_view (listener_view view d1) d2 := by
  unfold listener_view
  rw [List.foldl_append]

theorem Notified.notified_refl (s : Link) : Notified s s :=
  ⟨rfl, [], by simp, fun _ => rfl⟩

theorem Notified.notified_trans {a b c : Link} (h1 : Notified a b) (h2 : Notified b c) :
    Notified a c := by
  obtain ⟨m1, d1, t1, p1⟩ := h1
  obtain ⟨m2, d2, t2, p2⟩ := h2
  refine ⟨m2.trans m1, d1 ++ d2, by rw [t2, t1, List.append_assoc], ?_⟩
  intro hm
  rw [listener_view_append, ← p1 hm, ← p2 (m1.trans hm)]

theorem Notified.of_quiet {P : Event → Bool} {s s1 : Link} (ha : s1.active = s.active)
    (hg : Grows P s s1) (hP : ∀ e, P e = true → Event.is_active_changed e = false) :
    Notified s s1 := by
  obtain ⟨m, d, t, p⟩ := hg
  refine ⟨m, d, t, fun _ => ?_⟩
  rw [listener_view_quiet _ d (fun e he => hP e (p e he))]
  exact ha

theorem write_not_active_changed (e : Event) (h : Event.is_write e = true) :
    Event.is_active_changed e = false := by
  cases e <;> simp_all [Event.is_write, Event.is_active_changed]

theorem connect_not_active_changed (e : Event) (h : Event.is_connect e = true) :
    Event.is_active_changed e = false := by
  cases e <;> simp_all [Event.is_connect, Event.is_active_changed]

theorem set_active_notified (s : Link) (client : Option Nat) :
    Notified s (set_active s client) := by
  unfold set_active
  dsimp only
  split
  · exact ⟨rfl, [Event.active_changed false], rfl, fun _ => rfl⟩
  · rename_i h
    exact ⟨rfl, [], by simp, fun hm => absurd hm h⟩

theorem set_me_active_notified (s : Link) : Notified s (set_me_active s) := by
  unfold set_me_active
  dsimp only
  split
  · exact ⟨rfl, [Event.active_changed true], rfl, fun _ => rfl⟩
  · rename_i h
    exact ⟨rfl, [], by simp, fun hm => absurd hm h⟩

theorem set_active_name_notified {s s1 : Link} {hostname : Option CString} {port : Int}
    (h : set_active_name s hostname port = some s1) : Notified s s1 := by
  unfold set_active_name at h
  split at h
  · simp at h
  · simp at h; subst h; exact set_active_notified _ _
  · split at h
    · simp at h
    · simp at h; subst h; exact set_me_active_notified _
    · simp at h; subst h; exact Notified.notified_refl _

theorem send_packet_notified {s s1 : Link} {client : Nat} {packet : PacketBuffer}
    (h : send_packet s client packet = some s1) : Notified s s1 :=
  Notified.of_quiet (send_packet_sameRole h).1 (send_packet_grows h) write_not_active_changed

theorem send_client_list_notified {s s1 : Link} {client : Nat}
    (h : send_client_list s client = some s1) : Notified s s1 :=
  Notified.of_quiet (send_client_list_sameRole h).1 (send_client_list_grows h)
    write_not_active_changed

theorem send_new_master_notified {s s1 : Link} {client : Option Nat}
    (h : send_new_master s client = some s1) : Notified s s1 :=
  Notified.of_quiet (send_new_master_sameRole h).1 (send_new_master_grows h)
    write_not_active_changed

theorem send_state_notified {s s1 : Link} (h : send_state s = some s1) : Notified s s1 :=
  Notified.of_quiet (send_state_sameRole h).1 (send_state_grows h) write_not_active_changed

theorem remove_client_notified (s : Link) (client : Nat) :
    Notified s (remove_client s client).2 :=
  ⟨rfl, [], by simp [remove_client], fun _ => rfl⟩

theorem set_canonical_active {s s1 : Link} {client : Nat} {host : Option CString}
    {port : Int} {r : Bool} (h : set_canonical s client host port = some (r, s1)) :
    s1.active = s.active := by
  unfold set_canonical at h
  simp only at h
  split at h
  · simp at h
  · simp at h; obtain ⟨_, rfl⟩ := h; rfl
  · split at h
    · simp at h
    · simp at h; obtain ⟨_, rfl⟩ := h; rfl
    · simp at h
    · split at h
      · simp at h; obtain ⟨_, rfl⟩ := h; rfl
      · split at h
        · split at h
          · simp at h
          · split at h
            · simp at h; obtain ⟨_, rfl⟩ := h; rfl
            · simp at h; obtain ⟨_, rfl⟩ := h; rfl
        · simp at h; obtain ⟨_, rfl⟩ := h; rfl

theorem set_canonical_notified {s s1 : Link} {client : Nat} {host : Option CString}
    {port : Int} {r : Bool} (h : set_canonical s client host port = some (r, s1)) :
    Notified s s1 :=
  Notified.of_quiet (set_canonical_active h) (set_canonical_grows Event.is_write h)
    write_not_active_changed

theorem add_client_notified {drv : Driver} {s s1 : Link} {host : Option CString} {port : Int}
    (h : add_client drv s host port = some s1) : Notified s s1 :=
  Notified.of_quiet (add_client_sameRole h).1 (add_client_grows h) connect_not_active_changed

theorem client_list_loop_notified {drv : Driver} {n : Nat} {s s1 : Link}
    {packet : PacketBuffer} (h : client_list_loop drv n s packet = some s1) : Notified s s1 :=
  Notified.of_quiet (client_list_loop_sameRole n h).1 (client_list_loop_grows n h)
    connect_not_active_changed

theorem handle_hello_notified {s s1 : Link} {client : Nat} {packet : PacketBuffer}
    (h : handle_hello s client packet = some s1) : Notified s s1 := by
  unfold handle_hello at h
  simp only at h
  split at h
  · split at h
    · simp at h
    · rename_i s2 hc
      simp only [Option.bind_eq_some] at h
      obtain ⟨s3, h3, h4⟩ := h
      exact ((set_canonical_notified hc).notified_trans (send_packet_notified h3)).notified_trans
        (send_client_list_notified h4)
    · rename_i s2 hc
      simp only [Option.map_eq_some'] at h
      obtain ⟨s3, h3, rfl⟩ := h
      exact ((set_canonical_notified hc).notified_trans (send_packet_notified h3)).notified_trans
        (remove_client_notified _ _)
  · simp at h; subst h; exact remove_client_notified _ _

theorem handle_welcome_notified {s s1 : Link} {client : Nat} {packet : PacketBuffer}
    (h : handle_welcome s client packet = some s1) : Notified s s1 := by
  unfold handle_welcome at h
  simp only at h
  split at h
  · simp at h
  · rename_i s2 hc
    exact ((set_canonical_notified hc).notified_trans (set_active_notified _ _)).notified_trans
      (send_client_list_notified h)
  · rename_i s2 hc
    simp only [Option.map_eq_some'] at h
    obtain ⟨s3, h3, rfl⟩ := h
    exact ((set_canonical_notified hc).notified_trans (send_packet_notified h3)).notified_trans
      (remove_client_notified _ _)

theorem send_packet_except_notified (s : Link) (packet : PacketBuffer) (client : Option Nat) :
    Notified s (send_packet_except s packet client).1 :=
  Notified.of_quiet rfl (send_packet_except_grows s packet client) write_not_active_changed

theorem client_list_role_grows {s s1 : Link} {client flags : Nat}
    {packet p1 : PacketBuffer}
    (h : client_list_role s client flags packet = some (s1, p1)) :
    Grows Event.is_active_changed s s1 := by
  unfold client_list_role at h
  dsimp only at h
  split at h
  · simp at h; rw [← h.1]; exact set_active_grows _ _
  · split at h
    · simp only [Option.map_eq_some'] at h
      obtain ⟨s3, h3, h4⟩ := h
      simp at h4
      rw [← h4.1]; exact set_active_name_grows h3
    · simp at h; rw [← h.1]; exact Grows.grows_refl _ _

theorem client_list_role_notified {s s1 : Link} {client flags : Nat}
    {packet p1 : PacketBuffer}
    (h : client_list_role s client flags packet = some (s1, p1)) : Notified s s1 := by
  unfold client_list_role at h
  dsimp only at h
  split at h
  · simp at h; rw [← h.1]; exact set_active_notified _ _
  · split at h
    · simp only [Option.map_eq_some'] at h
      obtain ⟨s3, h3, h4⟩ := h
      simp at h4
      rw [← h4.1]; exact set_active_name_notified h3
    · simp at h; rw [← h.1]; exact Notified.notified_refl _

theorem client_list_forward_grows (s : Link) (client pos flags : Nat)
    (packet : PacketBuffer) :
    Grows Event.is_write s (client_list_forward s client pos flags packet).1 := by
  unfold client_list_forward
  dsimp only
  split
  · exact send_packet_except_grows _ _ _
  · exact Grows.grows_refl _ _

theorem handle_client_list_notified {drv : Driver} {s s1 : Link} {client : Nat}
    {packet : PacketBuffer} (h : handle_client_list drv s client packet = some s1) :
    Notified s s1 := by
  unfold handle_client_list at h
  dsimp only at h
  split at h
  · simp at h
  · rename_i s2 p2 hr
    exact ((client_list_role_notified hr).notified_trans
      (Notified.of_quiet (client_list_forward_sameRole _ _ _ _ _).1
        (client_list_forward_grows _ _ _ _ _) write_not_active_changed)).notified_trans
      (client_list_loop_notified h)

theorem handle_claim_notified {s s1 : Link} {client : Nat} {packet : PacketBuffer}
    (h : handle_claim s client packet = some s1) : Notified s s1 := by
  unfold handle_claim at h
  simp only [Option.bind_eq_some] at h
  obtain ⟨s2, h2, h3⟩ := h
  refine Notified.notified_trans ?_ (send_new_master_notified h3)
  split at h2
  · exact (set_active_notified _ _).notified_trans (send_state_notified h2)
  · simp at h2; subst h2; exact set_active_notified _ _

theorem state_loop_events (s : Link) (w : Bool) (n : Nat) :
    ∀ {packet : PacketBuffer} {es : List Event},
      state_loop s w n packet = some es → ∀ e ∈ es, Event.is_state e = true := by
  induction n with
  | zero =>
    intro packet es h
    simp [state_loop] at h
    subst h; simp
  | succ n ih =>
    intro packet es h
    unfold state_loop at h
    simp only at h
    split at h
    · split at h
      · split at h
        · simp at h
        · simp only [Option.map_eq_some'] at h
          obtain ⟨es1, h1, rfl⟩ := h
          intro e he
          rcases List.mem_cons.mp he with rfl | he
          · rfl
          · exact ih h1 e he
      · simp at h; subst h; simp
    · exact ih h

theorem handle_state_grows {s s1 : Link} {client : Nat} {packet : PacketBuffer}
    (h : handle_state s client packet = some s1) : Grows Event.is_state s s1 := by
  unfold handle_state at h
  simp only at h
  split at h
  · simp at h
  · rename_i es hes
    simp at h; subst h
    have h1 : Grows Event.is_state s (s.emit es) := emit_grows _ _ _ (state_loop_events _ _ _ hes)
    split
    · exact h1.grows_trans (emit_grows _ _ _ (by simp [Event.is_state]))
    · exact h1

theorem state_not_active_changed (e : Event) (h : Event.is_state e = true) :
    Event.is_active_changed e = false := by
  cases e <;> simp_all [Event.is_state, Event.is_active_changed]

theorem handle_state_notified {s s1 : Link} {client : Nat} {packet : PacketBuffer}
    (h : handle_state s client packet = some s1) : Notified s s1 :=
  Notified.of_quiet (handle_state_sameRole h).1 (handle_state_grows h) state_not_active_changed

theorem dispatch_notified {drv : Driver} {s s1 : Link} {client type : Nat}
    {packet : PacketBuffer} (h : dispatch drv s client type packet = some s1) :
    Notified s s1 := by
  unfold dispatch at h
  split at h
  · exact handle_hello_notified h
  · split at h
    · exact handle_claim_notified h
    · split at h
      · exact handle_welcome_notified h
      · split at h
        · exact handle_client_list_notified h
        · split at h
          · unfold handle_new_master at h; exact set_active_name_notified h
          · split at h
            · exact handle_state_notified h
            · split at h
              · unfold handle_duplicate at h
                simp at h; subst h; exact remove_client_notified _ _
              · simp at h; subst h; exact Notified.notified_refl _

theorem process_client_packet_notified {drv : Driver} {s s1 : Link} {client : Nat}
    (h : process_client_packet drv s client = some s1) : Notified s s1 := by
  unfold process_client_packet at h
  split at h
  · simp at h
  · dsimp only at h
    split at h
    · simp at h
    · simp only [Option.bind_eq_some, Option.map_eq_some'] at h
      obtain ⟨s2, h2, _, _, rfl⟩ := h
      have h3 : Notified s s2 := by
        unfold process_body at h2
        dsimp only at h2
        split at h2
        · exact dispatch_notified h2
        · simp at h2; subst h2; exact Notified.notified_refl _
      exact h3.notified_trans ⟨rfl, [], by simp [clear_packet], fun _ => rfl⟩

theorem heartbeat_loop_events (current_time : Int) :
    ∀ (cl : List Client), ∀ e ∈ (heartbeat_loop current_time cl).2, Event.is_connect e = true := by
  intro cl
  induction cl with
  | nil => intro e he; simp [heartbeat_loop] at he
  | cons c cs ih =>
    intro e he
    unfold heartbeat_loop at he
    dsimp only at he
    split at he
    · rcases List.mem_cons.mp he with rfl | he
      · rfl
      · exact ih e he
    · exact ih e he

theorem heartbeat_notified {s s1 : Link} {current_time : Int}
    (h : heartbeat s current_time = some s1) : Notified s s1 := by
  unfold heartbeat at h
  dsimp only at h
  have h0 : Notified s
      ({ s with heartbeat_count := s.heartbeat_count + 1,
                clients := (heartbeat_loop current_time s.clients).1 }.emit
        (heartbeat_loop current_time s.clients).2) :=
    Notified.of_quiet rfl ⟨rfl, _, rfl, heartbeat_loop_events current_time s.clients⟩
      connect_not_active_changed
  split at h
  · exact h0.notified_trans (send_state_notified h)
  · simp at h; subst h; exact h0

theorem disable_client_notified (s : Link) (client : Nat) (current_time : Int) :
    Notified s (disable_client s client current_time) := by
  unfold disable_client
  dsimp only
  split
  · exact Notified.notified_trans ⟨rfl, [], by simp, fun _ => rfl⟩ (set_active_notified _ _)
  · exact ⟨rfl, [], by simp, fun _ => rfl⟩

theorem disconnect_all_notified (s : Link) : Notified s (disconnect_all s).2 := by
  unfold disconnect_all
  dsimp only
  exact Notified.notified_trans ⟨rfl, [], by simp, fun _ => rfl⟩ (set_me_active_notified _)

theorem set_enabled_notified (s : Link) (enabled listen_ok : Bool) :
    Notified s (set_enabled s enabled listen_ok).2 := by
  unfold set_enabled
  dsimp only
  split
  · exact ⟨rfl, [Event.listen s.server_port], rfl, fun _ => rfl⟩
  · split
    · have h1 : Notified s { s with server_socket := false } :=
        ⟨rfl, [], by simp, fun _ => rfl⟩
      have h2 := disconnect_all_notified { s with server_socket := false }
      have h3 := set_me_active_notified (disconnect_all { s with server_socket := false }).2
      have h4 := (h1.notified_trans h2).notified_trans h3
      obtain ⟨m, d, t, p⟩ := h4
      exact ⟨m, d, t, p⟩
    · exact ⟨rfl, [], by simp, fun _ => rfl⟩

theorem read_configuration_notified (K : Defaults) (s : Link) (cfg : ConfigInput) :
    Notified s (read_configuration K s cfg) := by
  unfold read_configuration
  dsimp only
  split
  · have h1 := set_enabled_notified
      { s with server_port := match cfg.env_port with
                              | some p => p
                              | none => cfg.port.getD K.DEFAULT_PORT } false cfg.listen_ok
    have h2 := set_enabled_notified (set_enabled
      { s with server_port := match cfg.env_port with
                              | some p => p
                              | none => cfg.port.getD K.DEFAULT_PORT } false cfg.listen_ok).2
      true cfg.listen_ok
    have h0 : Notified s { s with server_port := match cfg.env_port with
                              | some p => p
                              | none => cfg.port.getD K.DEFAULT_PORT } :=
      ⟨rfl, [], by simp, fun _ => rfl⟩
    obtain ⟨m, d, t, p⟩ := (h0.notified_trans h1).notified_trans h2
    exact ⟨m, d, t, p⟩
  · exact ⟨rfl, [], by simp, fun _ => rfl⟩

theorem socket_io_notified {drv : Driver} {s s1 : Link} {client : Nat} {ok : Bool}
    {data : List Nat} {current_time : Int}
    (h : socket_io drv s client ok data current_time = some s1) : Notified s s1 := by
  unfold socket_io at h
  split at h
  · simp at h
  · split at h
    · simp at h; subst h; exact disable_client_notified _ _ _
    · split at h
      · simp at h; subst h; exact disable_client_notified _ _ _
      · dsimp only at h
        split at h
        · simp at h
        · split at h
          · have h2 := process_client_packet_notified h
            exact Notified.notified_trans ⟨rfl, [], by simp, fun _ => rfl⟩ h2
          · simp at h; subst h; exact ⟨rfl, [], by simp, fun _ => rfl⟩

theorem socket_connected_notified {s s1 : Link} {client con : Nat}
    (h : socket_connected s client con = some s1) : Notified s s1 := by
  unfold socket_connected at h
  split at h
  · simp at h
  · have h2 : Notified _ s1 := send_packet_notified h
    exact Notified.notified_trans ⟨rfl, [], by simp, fun _ => rfl⟩ h2

theorem socket_closed_notified {s s1 : Link} {client : Nat} {current_time : Int}
    (h : socket_closed s client current_time = some s1) : Notified s s1 := by
  unfold socket_closed at h
  split at h
  · simp at h
  · simp at h; subst h; exact disable_client_notified _ _ _

theorem join_notified {drv : Driver} {s s1 : Link} {url : Option (Option CString × Int)}
    (h : join drv s url = some s1) : Notified s s1 := by
  unfold join at h
  split at h
  · simp at h; subst h; exact Notified.notified_refl _
  · exact add_client_notified h

theorem run_notified {K : Defaults} {s s1 : Link} {op : Op} (h : run K s op = some s1)
    (hop : op.sets_active_directly = false) (hm : s.dist_manager = true) :
    ∃ d, s1.trace = s.trace ++ d ∧ s1.active = listener_view s.active d := by
  have key : Notified s s1 → ∃ d, s1.trace = s.trace ++ d ∧ s1.active = listener_view s.active d :=
    fun ⟨_, d, t, p⟩ => ⟨d, t, p hm⟩
  have same : ∀ t : Link, t.trace = s.trace → t.active = s.active →
      ∃ d, t.trace = s.trace ++ d ∧ t.active = listener_view s.active d :=
    fun t h1 h2 => ⟨[], by simp [h1], by simp [h2, listener_view]⟩
  cases op with
  | init name cfg => simp [Op.sets_active_directly] at hop
  | claim => simp [Op.sets_active_directly] at hop
  | heartbeat ct => exact key (heartbeat_notified h)
  | join drv url => exact key (join_notified h)
  | disconnect_all => simp [run] at h; subst h; exact key (disconnect_all_notified _)
  | reconnect_all ct => simp [run] at h; subst h; exact same _ rfl rfl
  | set_user user pw => simp [run] at h; subst h; exact same _ rfl rfl
  | set_distribution_manager dll => simp [run] at h; subst h; exact same _ rfl rfl
  | set_enabled enabled listen_ok =>
    simp [run] at h; subst h; exact key (set_enabled_notified _ _ _)
  | register_state id ds => simp [run] at h; subst h; exact same _ rfl rfl
  | unregister_state id => simp [run] at h; subst h; exact same _ rfl rfl
  | config_changed_notify cfg =>
    simp [run] at h; subst h; exact key (read_configuration_notified _ _ _)
  | socket_accepted ccon =>
    simp [run] at h; subst h
    unfold socket_accepted
    split
    · exact same _ rfl rfl
    · exact same _ rfl rfl
  | socket_io drv client ok data ct => exact key (socket_io_notified h)
  | socket_connected client con => exact key (socket_connected_notified h)
  | socket_closed client ct => exact key (socket_closed_notified h)
  | process_client_packet drv client => exact key (process_client_packet_notified h)

theorem listener_view_last (view : Bool) (d : List Event) :
    (listener_view view d = view ∧ ∀ e ∈ d, Event.is_active_changed e = false) ∨
    (∃ d1 d2, d = d1 ++ Event.active_changed (listener_view view d) :: d2 ∧
      ∀ e ∈ d2, Event.is_active_changed e = false) := by
  induction d using List.reverseRecOn with
  | nil => left; exact ⟨rfl, by simp⟩
  | append_singleton es e ih =>
    have hv : listener_view view (es ++ [e]) = listener_hears (listener_view view es) e := by
      simp [listener_view]
    by_cases hac : Event.is_active_changed e = true
    · right
      refine ⟨es, [], ?_, by simp⟩
      rw [hv]
      cases e <;> simp_all [Event.is_active_changed, listener_hears]
    · have hac2 : Event.is_active_changed e = false := by simpa using hac
      have hq : listener_hears (listener_view view es) e = listener_view view es := by
        cases e <;> simp_all [Event.is_active_changed, listener_hears]
      rw [hv, hq]
      rcases ih with ⟨h1, h2⟩ | ⟨d1, d2, h1, h2⟩
      · left; refine ⟨h1, ?_⟩
        intro x hx
        rcases List.mem_append.mp hx with h | h
        · exact h2 x h
        · simp at h; subst h; exact hac2
      · right
        refine ⟨d1, d2 ++ [e], ?_, ?_⟩
        · conv_lhs => rw [h1]
          simp
        · intro x hx
          rcases List.mem_append.mp hx with h | h
          · exact h2 x h
          · simp at h; subst h; exact hac2

theorem claim_grows {s s1 : Link} {r : Bool} (h : claim s = some (r, s1)) :
    Grows Event.is_write s s1 := by
  unfold claim at h
  split at h
  · simp only [Option.map_eq_some'] at h
    obtain ⟨s2, h2, h3⟩ := h
    simp at h3
    rw [← h3.2]
    exact send_packet_grows h2
  · split at h
    · simp only [Option.map_eq_some'] at h
      obtain ⟨s2, h2, h3⟩ := h
      simp at h3
      rw [← h3.2]
      obtain ⟨m, d, t, p⟩ := send_new_master_grows h2
      exact ⟨m, d, t, p⟩
    · simp at h
      rw [← h.2]
      exact Grows.of_eq _ rfl rfl

theorem demo_unknown_listening_reachable : Reachable demo_defaults demo_unknown_listening :=
  Reachable.step demo_unknown demo_unknown_listening (Op.set_distribution_manager true)
    (Reachable.step demo_closed demo_unknown (Op.socket_accepted (some 101))
      (Reachable.step demo_claimed demo_closed (Op.socket_closed 1 50)
        demo_claimed_reachable (by decide))
      rfl)
    rfl

theorem demo_claimed_listening_reachable : Reachable demo_defaults demo_claimed_listening :=
  Reachable.step demo_claimed demo_claimed_listening (Op.set_distribution_manager true)
    demo_claimed_reachable rfl

theorem land_clear_bit0 (x : Nat) (h : x < 65536) : x &&& 4294967294 = x - x % 2 := by
  apply Nat.eq_of_testBit_eq
  intro i
  rw [Nat.testBit_land]
  cases i with
  | zero =>
    have : (x - x % 2) % 2 = 0 := by omega
    simp [Nat.testBit_zero, this]
  | succ i =>
    rw [Nat.testBit_succ, Nat.testBit_succ, Nat.testBit_succ]
    have h1 : (x - x % 2) / 2 = x / 2 := by omega
    have h2 : 4294967294 / 2 = 2 ^ 31 - 1 := by norm_num
    rw [h1, h2, Nat.testBit_two_pow_sub_one]
    by_cases hi : i < 31
    · simp [hi]
    · have : (x / 2).testBit i = false := by
        apply Nat.testBit_eq_false_of_lt
        have : 2 ^ 31 ≤ 2 ^ i := Nat.pow_le_pow_right (by norm_num) (by omega)
        omega
      simp [this]

theorem writes_append (a b : List Event) : writes (a ++ b) = writes a ++ writes b := by
  induction a with
  | nil => rfl
  | cons e es ih => cases e <;> simp [writes, ih]

theorem writes_quiet (d : List Event) (h : ∀ e ∈ d, Event.is_write e = false) :
    writes d = [] := by
  induction d with
  | nil => rfl
  | cons e es ih =>
    have h1 := ih (fun x hx => h x (List.mem_cons_of_mem _ hx))
    have h2 := h e (List.mem_cons_self _ _)
    cases e <;> simp_all [writes, Event.is_write]

theorem writes_broadcast (cl : List Client) (ex : Option Nat) (data : List Nat) :
    writes (broadcast_except cl ex data) =
      (cl.filter (fun c => some c.id != ex && c.socket.isSome)).map (fun c => (c.id, data)) := by
  unfold broadcast_except
  induction cl.filter (fun c => some c.id != ex && c.socket.isSome) with
  | nil => rfl
  | cons c cs ih => simp [writes, ih]

theorem active_changed_not_write (e : Event) (h : Event.is_active_changed e = true) :
    Event.is_write e = false := by
  cases e <;> simp_all [Event.is_write, Event.is_active_changed]

theorem connect_not_write (e : Event) (h : Event.is_connect e = true) :
    Event.is_write e = false := by
  cases e <;> simp_all [Event.is_write, Event.is_connect]

theorem getD_lt_of_wire (fr : List Nat) (hw : WireBytes fr) (i : Nat) : fr.getD i 0 < 256 := by
  by_cases hi : i < fr.length
  · rw [List.getD_eq_getElem _ _ hi]
    exact hw _ (List.getElem_mem _)
  · rw [List.getD_eq_default _ _ (by omega)]
    decide

theorem set_getD_self (l : List Nat) (i : Nat) : l.set i (l.getD i 0) = l := by
  induction l generalizing i with
  | nil => rfl
  | cons a as ih =>
    cases i with
    | zero => rfl
    | succ i =>
      have := ih i
      simp only [List.getD_cons_succ, List.set_cons_succ]
      rw [this]

/-- The buffer that `handle_client_list` forwards: the received frame with
the FORWARDABLE bit cleared. -/
theorem forwarded_buffer (p : PacketBuffer) (hw : WireBytes p.buffer)
    (h0 : p.peek_ushort 0 = p.buffer.length) :
    ((p.poke_ushort 8 (frame_flags p.buffer &&& gint_not CLIENTLIST_FORWARDABLE)).poke_ushort 0
      (p.poke_ushort 8 (frame_flags p.buffer &&& gint_not CLIENTLIST_FORWARDABLE)).bytes_written).buffer
      = clear_forwardable p.buffer := by
  obtain ⟨fr, rp⟩ := p
  dsimp only at *
  have b0 := getD_lt_of_wire fr hw 0
  have b1 := getD_lt_of_wire fr hw 1
  have b8 := getD_lt_of_wire fr hw 8
  have b9 := getD_lt_of_wire fr hw 9
  have hf : frame_flags fr < 65536 := by unfold frame_flags; omega
  have hm : frame_flags fr &&& gint_not CLIENTLIST_FORWARDABLE
      = frame_flags fr - frame_flags fr % 2 := land_clear_bit0 _ hf
  rw [hm]
  unfold PacketBuffer.poke_ushort PacketBuffer.bytes_written PacketBuffer.peek_ushort at *
  dsimp only at *
  have e8 : (frame_flags fr - frame_flags fr % 2) / 256 % 256 = fr.getD 8 0 := by
    unfold frame_flags; omega
  have e9 : (frame_flags fr - frame_flags fr % 2) % 256 = fr.getD 9 0 - fr.getD 9 0 % 2 := by
    unfold frame_flags; omega
  simp only [List.length_set]
  simp only [Nat.zero_add] at h0
  have e0 : fr.length / 256 % 256 = fr.getD 0 0 := by omega
  have e1 : fr.length % 256 = fr.getD 1 0 := by omega
  rw [e8, e9, e0, e1, set_getD_self]
  unfold clear_forwardable
  have g0 : (fr.set 9 (fr.getD 9 0 - fr.getD 9 0 % 2)).getD 0 0 = fr.getD 0 0 := by
    simp [List.getD_eq_getElem?_getD, List.getElem?_set]
  have g1 : (fr.set 9 (fr.getD 9 0 - fr.getD 9 0 % 2)).getD 1 0 = fr.getD 1 0 := by
    simp [List.getD_eq_getElem?_getD, List.getElem?_set]
  rw [← g0, set_getD_self, ← g1, set_getD_self]

theorem some_bne_some (a b : Nat) : (some a != some b) = (a != b) := by
  by_cases h : a = b
  · subst h; simp
  · have h1 : (a != b) = true := by simpa using h
    have h2 : (some a != some b) = true := by
      rw [bne_iff_ne]; intro h3; exact h (Option.some.inj h3)
    rw [h1, h2]

theorem lookupSafe_of_safeTable {s : Link} (hs : SafeTable s) {port : Int} (hp : port ≠ 0) :
    LookupSafe s.clients port := by
  intro c hc hcp hn
  exact hp (hcp ▸ hs.2 c hc hn)

theorem exists_client_eq (s : Link) (h m : CString) (port : Int)
    (hm : s.myname = some m) (hs : LookupSafe s.clients port) :
    exists_client s (some h) port = some
      (client_is_me s (some h) port || (last_match h port s.clients none).isSome) := by
  unfold exists_client find_client_by_canonicalname
  rw [is_self_eq s h m port hm, find_loop_safe h port _ _ hs]
  cases client_is_me s (some h) port <;> rfl

theorem safeTable_of {s s1 : Link} (hs : SafeTable s) (hm : s1.myname = s.myname)
    (hc : ∀ c ∈ s1.clients, c ∈ s.clients ∨ c.hostname ≠ none) : SafeTable s1 := by
  refine ⟨by rw [hm]; exact hs.1, ?_⟩
  intro c hc1 hn
  rcases hc c hc1 with h | h
  · exact hs.2 c h hn
  · exact absurd hn h

theorem add_client_total (drv : Driver) {s : Link} (hs : SafeTable s) (h : CString)
    {port : Int} (hp : port ≠ 0) :
    ∃ s1, add_client drv s (some h) port = some s1 ∧ SafeTable s1 := by
  obtain ⟨m, hm⟩ := Option.ne_none_iff_exists'.mp hs.1
  have hl := lookupSafe_of_safeTable hs hp
  unfold add_client
  rw [exists_client_eq s h m port hm hl]
  cases client_is_me s (some h) port || (last_match h port s.clients none).isSome with
  | true => exact ⟨s, rfl, hs⟩
  | false =>
    dsimp only
    cases hcan : drv.canonicalize (some h) with
    | none =>
      refine ⟨_, rfl, safeTable_of hs rfl ?_⟩
      intro c hc
      simp only [Link.emit, List.mem_append, List.mem_singleton] at hc
      rcases hc with hc | rfl
      · exact Or.inl hc
      · right; simp
    | some ch =>
      dsimp only
      rw [exists_client_eq s ch m port hm hl]
      cases client_is_me s (some ch) port || (last_match ch port s.clients none).isSome with
      | true => exact ⟨s, rfl, hs⟩
      | false =>
        refine ⟨_, rfl, safeTable_of hs rfl ?_⟩
        intro c hc
        simp only [Link.emit, List.mem_append, List.mem_singleton] at hc
        rcases hc with hc | rfl
        · exact Or.inl hc
        · right; simp

theorem client_list_loop_total (drv : Driver) (n : Nat) :
    ∀ (s : Link) (packet : PacketBuffer), SafeTable s →
      ∃ s1, client_list_loop drv n s packet = some s1 ∧ SafeTable s1 := by
  induction n with
  | zero => intro s packet hs; exact ⟨s, rfl, hs⟩
  | succ n ih =>
    intro s packet hs
    obtain ⟨m, hm⟩ := Option.ne_none_iff_exists'.mp hs.1
    unfold client_list_loop
    dsimp only
    cases hname : (packet.unpack_ushort.2.unpack_string).1 with
    | none => simp only [Option.isSome_none, Bool.false_and]; exact ih _ _ hs
    | some h =>
      by_cases hp : ((packet.unpack_ushort.2.unpack_string).2.unpack_ushort.1 : Int) = 0
      · have hp2 : (packet.unpack_ushort.2.unpack_string).2.unpack_ushort.1 = 0 := by
          exact_mod_cast hp
        simp only [hp2, Option.isSome_some, Bool.true_and, bne_self_eq_false]
        exact ih _ _ hs
      · have hp2 : (packet.unpack_ushort.2.unpack_string).2.unpack_ushort.1 ≠ 0 := by
          intro h0; exact hp (by exact_mod_cast h0)
        have hl := lookupSafe_of_safeTable hs hp
        simp only [Option.isSome_some, Bool.true_and, bne_iff_ne, ne_eq, hp2, not_false_eq_true,
          if_true]
        rw [exists_client_eq s h m _ hm hl]
        cases client_is_me s (some h) _ || (last_match h _ s.clients none).isSome with
        | true => exact ih _ _ hs
        | false =>
          obtain ⟨s2, h2, hs2⟩ := add_client_total drv hs h hp
          dsimp only
          rw [h2]
          exact ih _ _ hs2

theorem unpack_ushort_buffer (p : PacketBuffer) : p.unpack_ushort.2.buffer = p.buffer := by
  unfold PacketBuffer.unpack_ushort
  split <;> rfl

theorem unpack_string_buffer (p : PacketBuffer) : p.unpack_string.2.buffer = p.buffer := by
  unfold PacketBuffer.unpack_string
  split
  · dsimp only
    split <;> rfl
  · rfl

theorem set_active_table (s : Link) (client : Option Nat) :
    (set_active s client).clients = s.clients ∧ (set_active s client).myname = s.myname := by
  unfold set_active
  dsimp only
  split <;> exact ⟨rfl, rfl⟩

theorem set_me_active_table (s : Link) :
    (set_me_active s).clients = s.clients ∧ (set_me_active s).myname = s.myname := by
  unfold set_me_active
  dsimp only
  split <;> exact ⟨rfl, rfl⟩

theorem set_active_name_table {s s1 : Link} {hostname : Option CString} {port : Int}
    (h : set_active_name s hostname port = some s1) :
    s1.clients = s.clients ∧ s1.myname = s.myname := by
  unfold set_active_name at h
  split at h
  · simp at h
  · simp at h; subst h; exact set_active_table _ _
  · split at h
    · simp at h
    · simp at h; subst h; exact set_me_active_table _
    · simp at h; subst h; exact ⟨rfl, rfl⟩

theorem client_list_role_table {s s1 : Link} {client flags : Nat} {packet p1 : PacketBuffer}
    (h : client_list_role s client flags packet = some (s1, p1)) :
    s1.clients = s.clients ∧ s1.myname = s.myname ∧ p1.buffer = packet.buffer := by
  unfold client_list_role at h
  dsimp only at h
  split at h
  · simp at h
    obtain ⟨rfl, rfl⟩ := h
    exact ⟨(set_active_table _ _).1, (set_active_table _ _).2, rfl⟩
  · split at h
    · simp only [Option.map_eq_some'] at h
      obtain ⟨s3, h3, h4⟩ := h
      simp at h4
      obtain ⟨rfl, rfl⟩ := h4
      exact ⟨(set_active_name_table h3).1, (set_active_name_table h3).2,
        by rw [unpack_ushort_buffer, unpack_string_buffer]⟩
    · simp at h
      obtain ⟨rfl, rfl⟩ := h
      exact ⟨rfl, rfl, rfl⟩

theorem client_list_role_total (s : Link) (client : Nat) (fr : List Nat)
    (hs : SafeTable s) (hr : ActiveRefSafe fr) :
    ∃ s1 p1, client_list_role s client (frame_flags fr) ⟨fr, 10⟩ = some (s1, p1) := by
  obtain ⟨m, hm⟩ := Option.ne_none_iff_exists'.mp hs.1
  unfold client_list_role
  dsimp only
  split
  · exact ⟨_, _, rfl⟩
  · rename_i h2
    split
    · rename_i h4
      have h2' : frame_flags fr &&& CLIENTLIST_IAM_ACTIVE = 0 := by simpa using h2
      have h4' : frame_flags fr &&& CLIENTLIST_HAS_ACTIVE_REF ≠ 0 := by simpa using h4
      obtain ⟨hn, hp⟩ := hr h2' h4'
      obtain ⟨h, hh⟩ := Option.ne_none_iff_exists'.mp hn
      have hp' : ((PacketBuffer.unpack_string ⟨fr, 10⟩).2.unpack_ushort.1 : Int) ≠ 0 := by
        intro h0; exact hp (by exact_mod_cast h0)
      rw [hh, set_active_name_eq s h m _ hm (lookupSafe_of_safeTable hs hp')]
      exact ⟨_, _, rfl⟩
    · exact ⟨_, _, rfl⟩

/-- C6: a CLIENT_LIST frame with the FORWARDABLE bit set, received whole from
the peer `client` (wire bytes, declared length equal to its length, lookups
free of NULL pointers): the handler returns, and the frames it writes are
exactly one to each peer with a live socket other than `client`, in table
order, every one of them the received frame with only the FORWARDABLE bit
cleared. -/
theorem client_list_forwarded_once (drv : Driver) (s : Link) (client : Nat) (fr : List Nat)
    (hw : WireBytes fr) (hdecl : declared_length fr = fr.length)
    (hfwd : frame_flags fr &&& CLIENTLIST_FORWARDABLE ≠ 0)
    (hs : SafeTable s) (hr : ActiveRefSafe fr) :
    ∃ s1 d, handle_client_list drv s client ⟨fr, 6⟩ = some s1 ∧ s1.trace = s.trace ++ d ∧
      writes d = (s.clients.filter (fun c => c.id != client && c.socket.isSome)).map
        (fun c => (c.id, clear_forwardable fr)) := by
  have hlen : 10 ≤ fr.length := by
    by_contra hc
    have h9 : fr.getD 9 0 = 0 := List.getD_eq_default _ _ (by omega)
    apply hfwd
    unfold CLIENTLIST_FORWARDABLE frame_flags
    rw [Nat.and_one_is_mod, h9]
    omega
  obtain ⟨s2, p2, hrole⟩ := client_list_role_total s client fr hs hr
  obtain ⟨hcl, hmy, hbuf⟩ := client_list_role_table hrole
  have hs2 : SafeTable s2 := safeTable_of hs hmy (fun c hc => Or.inl (hcl ▸ hc))
  obtain ⟨_, d2, ht2, hd2⟩ := client_list_role_grows hrole
  have hu1 : PacketBuffer.unpack_ushort ⟨fr, 6⟩ = (PacketBuffer.peek_ushort ⟨fr, 6⟩ 6, ⟨fr, 8⟩) := by
    unfold PacketBuffer.unpack_ushort
    rw [if_pos (by dsimp only; omega)]
  have hu2 : PacketBuffer.unpack_ushort ⟨fr, 8⟩ = (frame_flags fr, ⟨fr, 10⟩) := by
    unfold PacketBuffer.unpack_ushort
    rw [if_pos (by dsimp only; omega)]
    rfl
  unfold handle_client_list
  rw [hu1]
  dsimp only
  rw [hu2]
  dsimp only [PacketBuffer.bytes_read]
  rw [hrole]
  dsimp only
  have hf : client_list_forward s2 client 8 (frame_flags fr) p2 =
      send_packet_except s2
        (p2.poke_ushort 8 (frame_flags fr &&& gint_not CLIENTLIST_FORWARDABLE)) (some client) := by
    unfold client_list_forward
    dsimp only
    rw [if_pos (by simpa using hfwd)]
  rw [hf]
  obtain ⟨s3, h3, _⟩ := client_list_loop_total drv (PacketBuffer.peek_ushort ⟨fr, 6⟩ 6)
    (send_packet_except s2
      (p2.poke_ushort 8 (frame_flags fr &&& gint_not CLIENTLIST_FORWARDABLE)) (some client)).1
    (send_packet_except s2
      (p2.poke_ushort 8 (frame_flags fr &&& gint_not CLIENTLIST_FORWARDABLE)) (some client)).2
    (safeTable_of hs2 rfl (fun c hc => Or.inl hc))
  obtain ⟨_, d3, ht3, hd3⟩ := client_list_loop_grows _ h3
  have hp2 : p2.peek_ushort 0 = p2.buffer.length := by
    unfold PacketBuffer.peek_ushort
    rw [hbuf]
    exact hdecl
  have hfb := forwarded_buffer p2 (by rw [hbuf]; exact hw) hp2
  rw [hbuf] at hfb
  refine ⟨s3, d2 ++ (broadcast_except s2.clients (some client) (clear_forwardable fr) ++ d3),
    h3, ?_, ?_⟩
  · rw [ht3]
    unfold send_packet_except
    dsimp only [Link.emit]
    rw [ht2, hfb]
    simp only [List.append_assoc]
    rfl
  · rw [writes_append, writes_append,
      writes_quiet d2 (fun e he => active_changed_not_write e (hd2 e he)),
      writes_quiet d3 (fun e he => connect_not_write e (hd3 e he)), writes_broadcast, hcl]
    have hpred : (fun c : Client => some c.id != some client && c.socket.isSome)
        = (fun c : Client => c.id != client && c.socket.isSome) := by
      funext c
      rw [some_bne_some]
    rw [hpred]
    simp

/-- C6 (witness): node "a" with the connected clients 1 and 2 receives a
forwardable CLIENT_LIST from client 1: one frame is written, to client 2,
with the flags word 2 instead of 3. -/
theorem client_list_forwarded_once_witness :
    WireBytes demo_list_frame ∧
    declared_length demo_list_frame = demo_list_frame.length ∧
    frame_flags demo_list_frame &&& CLIENTLIST_FORWARDABLE ≠ 0 ∧
    SafeTable demo_two ∧ ActiveRefSafe demo_list_frame ∧
    ∃ s1 d, handle_client_list demo_driver demo_two 1 ⟨demo_list_frame, 6⟩ = some s1 ∧
      s1.trace = demo_two.trace ++ d ∧
      writes d = [(2, [0, 17, 1, 0, 0, 3, 0, 1, 0, 2, 0, 7, 0, 1, 113, 0, 2])] := by
  have h1 : WireBytes demo_list_frame := by unfold WireBytes; decide
  have h3 : declared_length demo_list_frame = demo_list_frame.length := by decide
  have h4 : frame_flags demo_list_frame &&& CLIENTLIST_FORWARDABLE ≠ 0 := by decide
  have h5 : SafeTable demo_two := by unfold SafeTable; decide
  have h6 : ActiveRefSafe demo_list_frame := by unfold ActiveRefSafe; decide
  refine ⟨h1, h3, h4, h5, h6, ?_⟩
  obtain ⟨s1, d, e1, e2, e3⟩ :=
    client_list_forwarded_once demo_driver demo_two 1 demo_list_frame h1 h3 h4 h5 h6
  refine ⟨s1, d, e1, e2, ?_⟩
  rw [e3]
  decide


theorem land_clear_bit0_even (x : Nat) : (x &&& gint_not CLIENTLIST_FORWARDABLE) % 2 = 0 := by
  have h : (x &&& gint_not CLIENTLIST_FORWARDABLE).testBit 0 = false := by
    rw [Nat.testBit_land]
    have : (gint_not CLIENTLIST_FORWARDABLE).testBit 0 = false := by decide
    rw [this, Bool.and_false]
  rw [Nat.testBit_zero] at h
  have := Nat.mod_two_eq_zero_or_one (x &&& gint_not CLIENTLIST_FORWARDABLE)
  rcases this with h0 | h1
  · exact h0
  · simp [h1] at h

/-- The flags that `handle_client_list` reads from a frame whose header was
consumed: the flags word if the frame has its 10 bytes, 0 if it is cut short. -/
theorem handler_flags (fr : List Nat) :
    (PacketBuffer.unpack_ushort (PacketBuffer.unpack_ushort ⟨fr, 6⟩).2).1
      = if 10 ≤ fr.length then frame_flags fr else 0 := by
  unfold PacketBuffer.unpack_ushort
  dsimp only
  by_cases h8 : 6 + 2 ≤ fr.length
  · rw [if_pos h8]
    dsimp only
    by_cases h10 : 8 + 2 ≤ fr.length
    · rw [if_pos h10, if_pos (by omega)]
      rfl
    · rw [if_neg h10, if_neg (by omega)]
  · rw [if_neg h8]
    dsimp only
    rw [if_neg h8, if_neg (by omega)]

theorem handler_pos (fr : List Nat) (h : 10 ≤ fr.length) :
    (PacketBuffer.unpack_ushort ⟨fr, 6⟩).2.bytes_read = 8 := by
  unfold PacketBuffer.unpack_ushort
  dsimp only
  rw [if_pos (by omega)]
  rfl

theorem forwarded_flags_clear (p : PacketBuffer) (x : Nat) (h : 10 ≤ p.buffer.length) :
    frame_flags ((p.poke_ushort 8 (x &&& gint_not CLIENTLIST_FORWARDABLE)).poke_ushort 0
      (p.poke_ushort 8 (x &&& gint_not CLIENTLIST_FORWARDABLE)).bytes_written).buffer
      &&& CLIENTLIST_FORWARDABLE = 0 := by
  have he := land_clear_bit0_even x
  unfold CLIENTLIST_FORWARDABLE at *
  rw [Nat.and_one_is_mod]
  unfold frame_flags PacketBuffer.poke_ushort PacketBuffer.bytes_written
  dsimp only
  simp only [List.getD_eq_getElem?_getD, List.getElem?_set, List.length_set]
  simp
  have h8 : 8 < p.buffer.length := by omega
  have h9 : 9 < p.buffer.length := by omega
  simp [h8, h9]
  omega

theorem client_list_writes {drv : Driver} {s s1 : Link} {client : Nat} {fr : List Nat}
    (h : handle_client_list drv s client ⟨fr, 6⟩ = some s1) :
    ∃ d, s1.trace = s.trace ++ d ∧
      (frame_flags fr &&& CLIENTLIST_FORWARDABLE = 0 → writes d = []) ∧
      (∀ kf ∈ writes d, frame_flags kf.2 &&& CLIENTLIST_FORWARDABLE = 0) := by
  have hfl := handler_flags fr
  have hb1 := unpack_ushort_buffer ⟨fr, 6⟩
  unfold handle_client_list at h
  cases hu1 : PacketBuffer.unpack_ushort ⟨fr, 6⟩ with
  | mk num q1 =>
    rw [hu1] at h hfl hb1
    dsimp only at h hfl hb1
    have hb2 := unpack_ushort_buffer q1
    cases hu2 : q1.unpack_ushort with
    | mk flags q2 =>
      rw [hu2] at h hfl hb2
      dsimp only at h hfl hb2
      split at h
      · simp at h
      · rename_i s2 p2 hrole
        obtain ⟨_, _, hbuf⟩ := client_list_role_table hrole
        obtain ⟨_, d2, ht2, hd2⟩ := client_list_role_grows hrole
        have hw2 := writes_quiet d2 (fun e he => active_changed_not_write e (hd2 e he))
        obtain ⟨_, d3, ht3, hd3⟩ := client_list_loop_grows _ h
        have hw3 := writes_quiet d3 (fun e he => connect_not_write e (hd3 e he))
        by_cases hfw : flags &&& CLIENTLIST_FORWARDABLE = 0
        · have hf : client_list_forward s2 client q1.bytes_read flags p2 = (s2, p2) := by
            unfold client_list_forward
            dsimp only
            rw [if_neg (by simp [hfw])]
          rw [hf] at ht3
          refine ⟨d2 ++ d3, by rw [ht3, ht2, List.append_assoc], ?_, ?_⟩
          · intro _; rw [writes_append, hw2, hw3]; rfl
          · rw [writes_append, hw2, hw3]; simp
        · have hlen : 10 ≤ fr.length := by
            by_contra hc
            rw [if_neg hc] at hfl
            rw [hfl] at hfw
            exact hfw (by decide)
          rw [if_pos hlen] at hfl
          have hpos : q1.bytes_read = 8 := by
            have := handler_pos fr hlen
            rw [hu1] at this
            exact this
          have hf : client_list_forward s2 client q1.bytes_read flags p2 =
              send_packet_except s2
                (p2.poke_ushort 8 (flags &&& gint_not CLIENTLIST_FORWARDABLE)) (some client) := by
            unfold client_list_forward
            dsimp only
            rw [if_pos (by simpa using hfw), hpos]
          rw [hf] at ht3
          have hp2len : 10 ≤ p2.buffer.length := by
            rw [hbuf, hb2, hb1]; exact hlen
          refine ⟨d2 ++ (broadcast_except s2.clients (some client)
              ((p2.poke_ushort 8 (flags &&& gint_not CLIENTLIST_FORWARDABLE)).poke_ushort 0
                (p2.poke_ushort 8 (flags &&& gint_not CLIENTLIST_FORWARDABLE)).bytes_written).buffer
              ++ d3), ?_, ?_, ?_⟩
          · rw [ht3]
            unfold send_packet_except
            dsimp only [Link.emit]
            rw [ht2]
            simp only [List.append_assoc]
            rfl
          · intro h0
            rw [hfl] at hfw
            exact absurd h0 hfw
          · intro kf hkf
            rw [writes_append, writes_append, hw2, hw3, writes_broadcast] at hkf
            simp only [List.nil_append, List.append_nil, List.mem_map] at hkf
            obtain ⟨c, _, rfl⟩ := hkf
            exact forwarded_flags_clear p2 flags hp2len

/-- C7: a CLIENT_LIST frame whose FORWARDABLE bit is clear makes the handler
write no frame to any peer; and every frame that `handle_client_list` writes
(forwards) has the bit clear, so that handling it again, on any node and from
any sender, writes no frame. -/
theorem unforwardable_client_list_not_sent :
    (∀ (drv : Driver) (s s1 : Link) (client : Nat) (fr : List Nat) (d : List Event),
      frame_flags fr &&& CLIENTLIST_FORWARDABLE = 0 →
      handle_client_list drv s client ⟨fr, 6⟩ = some s1 → s1.trace = s.trace ++ d →
      writes d = []) ∧
    (∀ (drv : Driver) (s s1 : Link) (client : Nat) (fr : List Nat) (d : List Event),
      handle_client_list drv s client ⟨fr, 6⟩ = some s1 → s1.trace = s.trace ++ d →
      ∀ kf ∈ writes d, ∀ (drv2 : Driver) (t t1 : Link) (client2 : Nat) (d2 : List Event),
        handle_client_list drv2 t client2 ⟨kf.2, 6⟩ = some t1 → t1.trace = t.trace ++ d2 →
        writes d2 = []) := by
  have part1 : ∀ (drv : Driver) (s s1 : Link) (client : Nat) (fr : List Nat) (d : List Event),
      frame_flags fr &&& CLIENTLIST_FORWARDABLE = 0 →
      handle_client_list drv s client ⟨fr, 6⟩ = some s1 → s1.trace = s.trace ++ d →
      writes d = [] := by
    intro drv s s1 client fr d h0 h ht
    obtain ⟨d', ht', hq, _⟩ := client_list_writes h
    have : d = d' := List.append_cancel_left (ht.symm.trans ht')
    rw [this]; exact hq h0
  refine ⟨part1, ?_⟩
  intro drv s s1 client fr d h ht kf hkf drv2 t t1 client2 d2 h2 ht2
  obtain ⟨d', ht', _, hall⟩ := client_list_writes h
  have : d = d' := List.append_cancel_left (ht.symm.trans ht')
  rw [this] at hkf
  exact part1 drv2 t t1 client2 kf.2 d2 (hall kf hkf) h2 ht2

/-- C7 (witness): the frame that node "a" forwards to client 2 when client 1
sends it `demo_list_frame` has the bit clear, and a node that handles this
forwarded frame only connects to the peer listed in it. -/
theorem unforwardable_client_list_not_sent_witness :
    (frame_flags demo_forwarded_frame &&& CLIENTLIST_FORWARDABLE = 0 ∧
      handle_client_list demo_driver demo_two 2 ⟨demo_forwarded_frame, 6⟩ = some demo_relisted ∧
      demo_relisted.trace = demo_two.trace ++ [Event.connect (some [113]) 2 3] ∧
      writes [Event.connect (some [113]) 2 3] = []) ∧
    (handle_client_list demo_driver demo_two 1 ⟨demo_list_frame, 6⟩ = some demo_listed ∧
      demo_listed.trace = demo_two.trace ++
        [Event.write 2 demo_forwarded_frame, Event.connect (some [113]) 2 3] ∧
      (2, demo_forwarded_frame) ∈
        writes [Event.write 2 demo_forwarded_frame, Event.connect (some [113]) 2 3] ∧
      writes [Event.connect (some [113]) 2 3] = []) := by
  have a1 : frame_flags demo_forwarded_frame &&& CLIENTLIST_FORWARDABLE = 0 := by decide
  have a2 : handle_client_list demo_driver demo_two 2 ⟨demo_forwarded_frame, 6⟩
      = some demo_relisted := by decide
  have a3 : demo_relisted.trace = demo_two.trace ++ [Event.connect (some [113]) 2 3] := by
    decide
  have b1 : handle_client_list demo_driver demo_two 1 ⟨demo_list_frame, 6⟩ = some demo_listed := by
    decide
  have b2 : demo_listed.trace = demo_two.trace ++
      [Event.write 2 demo_forwarded_frame, Event.connect (some [113]) 2 3] := by decide
  have b3 : (2, demo_forwarded_frame) ∈
      writes [Event.write 2 demo_forwarded_frame, Event.connect (some [113]) 2 3] := by decide
  exact ⟨⟨a1, a2, a3,
      unforwardable_client_list_not_sent.1 demo_driver demo_two demo_relisted 2
        demo_forwarded_frame _ a1 a2 a3⟩,
    ⟨b1, b2, b3,
      unforwardable_client_list_not_sent.2 demo_driver demo_two demo_listed 1 demo_list_frame _
        b1 b2 _ b3 demo_driver demo_two demo_relisted 2 _ a2 a3⟩⟩


theorem find_id_of_mem_nodup (cl : List Client) (hnd : (cl.map (fun c => c.id)).Nodup)
    (c : Client) (hc : c ∈ cl) : cl.find? (fun x => x.id == c.id) = some c := by
  induction cl with
  | nil => simp at hc
  | cons a as ih =>
    simp only [List.map_cons, List.nodup_cons] at hnd
    rcases List.mem_cons.mp hc with rfl | hc
    · simp
    · have hne : a.id ≠ c.id := by
        intro he
        apply hnd.1
        rw [he]
        exact List.mem_map_of_mem (fun c => c.id) hc
      rw [List.find?_cons_of_neg _ (by simpa using hne)]
      exact ih hnd.2 hc

theorem eq_of_id_eq_nodup (cl : List Client) (hnd : (cl.map (fun c => c.id)).Nodup)
    (a b : Client) (ha : a ∈ cl) (hb : b ∈ cl) (h : a.id = b.id) : a = b := by
  have h1 := find_id_of_mem_nodup cl hnd a ha
  have h2 := find_id_of_mem_nodup cl hnd b hb
  rw [h] at h1
  exact Option.some.inj (h1.symm.trans h2)

/-- The decisions of `set_canonical` when the lookups are free of NULL
pointers. -/
theorem set_canonical_eq (s : Link) (peer : Nat) (h m : CString) (port : Int)
    (hm : s.myname = some m) (hs : LookupSafe s.clients port) :
    set_canonical s peer (some h) port =
      (if client_is_me s (some h) port then some (false, s)
       else
        match last_match h port s.clients none with
        | none => some (true, assign_identity s peer (some h) port)
        | some old =>
          if old != peer then
            match s.get_client old with
            | none => none
            | some oc =>
              if oc.socket.isSome then some (false, s)
              else some (true, assign_identity (remove_client s old).2 peer (some h) port)
          else some (true, assign_identity s peer (some h) port)) := by
  unfold set_canonical
  dsimp only
  rw [exists_client_eq s h m port hm hs]
  unfold find_client_by_canonicalname
  rw [find_loop_safe h port _ _ hs, is_self_eq s h m port hm]
  cases hme : client_is_me s (some h) port with
  | true =>
    simp only [Bool.true_or, if_true]
    cases last_match h port s.clients none <;> rfl
  | false =>
    simp only [Bool.false_or]
    cases hl : last_match h port s.clients none with
    | none => rfl
    | some old => rfl

theorem filter_eq_self_of_all {α : Type} (p : α → Bool) (l : List α)
    (h : ∀ x ∈ l, p x = true) : l.filter p = l :=
  List.filter_eq_self.mpr h

theorem filter_congr_mem {α : Type} (p q : α → Bool) (l : List α)
    (h : ∀ x ∈ l, p x = q x) : l.filter p = l.filter q := by
  induction l with
  | nil => rfl
  | cons a as ih =>
    have ha := h a (List.mem_cons_self _ _)
    have ht := ih (fun x hx => h x (List.mem_cons_of_mem _ hx))
    simp only [List.filter_cons, ha, ht]

/-- C8: `set_canonical(peer, host, port)`, on a table with distinct records,
at most one of which has the identity (`host`, `port`), and with lookups free
of NULL pointers: it returns, and it assigns (result true) exactly when the
identity is not the local one and no other peer with a live socket has it;
when it assigns, the table loses exactly the other records with that identity
(which then have no live socket) and the record of `peer` gets the identity;
when it does not assign, the link is unchanged. -/
theorem set_canonical_behaviour (s : Link) (peer : Nat) (h m : CString) (port : Int)
    (hm : s.myname = some m) (hs : LookupSafe s.clients port)
    (hnd : (s.clients.map (fun c => c.id)).Nodup) (hu : UniqueIdentity s.clients h port) :
    ∃ r s1, set_canonical s peer (some h) port = some (r, s1) ∧
      (r = true ↔ (client_is_me s (some h) port = false ∧
        ∀ q ∈ s.clients, q.id ≠ peer → has_identity h port q = true → q.socket = none)) ∧
      (r = true → s1.clients =
        update_client (s.clients.filter (fun q => q.id == peer || !has_identity h port q)) peer
          (fun c => { c with hostname := some h, port := port })) ∧
      (r = false → s1 = s) := by
  rw [set_canonical_eq s peer h m port hm hs]
  cases hme : client_is_me s (some h) port with
  | true =>
    rw [if_pos rfl]
    exact ⟨false, s, rfl, by simp, by simp, fun _ => rfl⟩
  | false =>
    rw [if_neg (by simp)]
    rcases last_match_cases h port s.clients none with ⟨hl, hno⟩ | ⟨oc, hoc, hi, hl⟩
    · rw [hl]
      refine ⟨true, _, rfl, ?_, ?_, by simp⟩
      · simp only [true_and, true_iff]
        intro q hq _ hqi
        rw [hno q hq] at hqi; cases hqi
      · intro _
        unfold assign_identity
        dsimp only
        rw [filter_eq_self_of_all _ _ (fun q hq => by simp [hno q hq])]
    · rw [hl]
      dsimp only
      have hget : s.get_client oc.id = some oc := find_id_of_mem_nodup s.clients hnd oc hoc
      have hsame : ∀ q ∈ s.clients, has_identity h port q = true → q = oc :=
        fun q hq hqi => eq_of_id_eq_nodup s.clients hnd q oc hq hoc (hu q hq oc hoc hqi hi)
      by_cases hop : oc.id = peer
      · rw [if_neg (by simp [hop])]
        refine ⟨true, _, rfl, ?_, ?_, by simp⟩
        · simp only [true_and, true_iff]
          intro q hq hqp hqi
          rw [hsame q hq hqi] at hqp
          exact absurd hop hqp
        · intro _
          unfold assign_identity
          dsimp only
          rw [filter_eq_self_of_all _ _ (fun q hq => by
            by_cases hqi : has_identity h port q = true
            · rw [hsame q hq hqi]; simp [hop]
            · simp [hqi])]
      · rw [if_pos (by simpa using hop), hget]
        dsimp only
        cases hsock : oc.socket with
        | some con =>
          simp only [Option.isSome_some, if_true]
          refine ⟨false, s, rfl, ?_, by simp, fun _ => rfl⟩
          simp only [Bool.false_eq_true, true_and, false_iff, not_forall]
          exact ⟨oc, hoc, hop, hi, by simp [hsock]⟩
        | none =>
          simp only [Option.isSome_none, Bool.false_eq_true, if_false]
          refine ⟨true, _, rfl, ?_, ?_, by simp⟩
          · simp only [true_and, true_iff]
            intro q hq _ hqi
            rw [hsame q hq hqi]
            exact hsock
          · intro _
            unfold assign_identity remove_client
            dsimp only
            congr 1
            apply filter_congr_mem
            intro q hq
            by_cases hqi : has_identity h port q = true
            · have := hsame q hq hqi
              subst this
              simp [hop, hqi]
            · have hne : q.id ≠ oc.id := by
                intro he
                have := eq_of_id_eq_nodup s.clients hnd q oc hq hoc he
                rw [this] at hqi
                exact hqi hi
              simp [hqi, hne]

/-- C8 (witness): node "a" knows "q", port 2 as client 1 (joined, not
connected) and the accepted client 2 announces that identity: client 1 is
evicted and client 2 gets the identity. -/
theorem set_canonical_behaviour_witness :
    demo_joined_accepted.myname = some [97] ∧
    LookupSafe demo_joined_accepted.clients 2 ∧
    (demo_joined_accepted.clients.map (fun c => c.id)).Nodup ∧
    UniqueIdentity demo_joined_accepted.clients [113] 2 ∧
    ∃ s1, set_canonical demo_joined_accepted 2 (some [113]) 2 = some (true, s1) ∧
      s1.clients = [⟨2, some 100, some [113], 2, 0, 0, PacketBuffer.create⟩] := by
  have h1 : demo_joined_accepted.myname = some [97] := by decide
  have h2 : LookupSafe demo_joined_accepted.clients 2 := by unfold LookupSafe; decide
  have h3 : (demo_joined_accepted.clients.map (fun c => c.id)).Nodup := by decide
  have h4 : UniqueIdentity demo_joined_accepted.clients [113] 2 := by
    unfold UniqueIdentity; decide
  refine ⟨h1, h2, h3, h4, ?_⟩
  obtain ⟨r, s1, e, hiff, hassign, _⟩ :=
    set_canonical_behaviour demo_joined_accepted 2 [113] [97] 2 h1 h2 h3 h4
  have hr : r = true := hiff.mpr ⟨by decide, by decide⟩
  subst hr
  exact ⟨s1, e, (hassign rfl).trans (by decide)⟩


/-- C9 (the code at the failing inputs): `set_canonical` returns false, not
true, when the client is a duplicate, be it of the local node (client 1
announcing "a", port 27273 to node "a") or of another connected peer (client
2 announcing "b", port 5, the identity of the connected client 1); the link,
the name of the client included, is unchanged. For an identity that is not a
duplicate it returns true. -/
theorem set_canonical_returns_false_for_duplicate :
    (client_is_me demo_accepted (some [97]) 27273 = true ∧
      set_canonical demo_accepted 1 (some [97]) 27273 = some (false, demo_accepted)) ∧
    ((demo_named.get_client 1).map (fun c => (c.hostname, c.port, c.socket))
        = some (some [98], 5, some 100) ∧
      set_canonical demo_named 2 (some [98]) 5 = some (false, demo_named)) ∧
    (set_canonical demo_two 1 (some [98]) 5).map (fun r => r.1) = some true := by
  decide


theorem client_is_me_congr {s s1 : Link} (h : SameIdentity s s1) (host : Option CString)
    (port : Int) : client_is_me s1 host port = client_is_me s host port := by
  unfold client_is_me
  rw [h.1, h.2]

theorem is_self_false {s : Link} {host : Option CString} {port : Int}
    (h : is_self s host port = some false) : client_is_me s host port = false := by
  unfold is_self at h
  unfold client_is_me
  by_cases hp : port = s.server_port
  · have hb : (port == s.server_port) = true := by simpa using hp
    rw [if_pos hb] at h
    cases host with
    | none => simp
    | some x =>
      cases hmy : s.myname with
      | none => simp
      | some y =>
        rw [hmy] at h
        simp only [strcmp_eq, Option.some.injEq] at h
        have hxy : x ≠ y := by simpa using h
        simp [hxy]
  · simp [hp]

theorem exists_client_false {s : Link} {host : Option CString} {port : Int}
    (h : exists_client s host port = some false) : client_is_me s host port = false := by
  unfold exists_client at h
  split at h
  · simp at h
  · simp at h
  · rename_i hself
    exact is_self_false hself

theorem NoSelfPeer.of_subset {s s1 : Link} (hn : NoSelfPeer s) (hi : SameIdentity s s1)
    (hc : ∀ c ∈ s1.clients, c ∈ s.clients ∨ client_is_me s c.hostname c.port = false) :
    NoSelfPeer s1 := by
  intro c hc1
  rw [client_is_me_congr hi]
  rcases hc c hc1 with h | h
  · exact hn c h
  · exact h

theorem add_client_noSelf {drv : Driver} {s s1 : Link} {host : Option CString} {port : Int}
    (hn : NoSelfPeer s) (h : add_client drv s host port = some s1) :
    NoSelfPeer s1 ∧ SameIdentity s s1 := by
  unfold add_client at h
  split at h
  · simp at h
  · simp at h; subst h; exact ⟨hn, rfl, rfl⟩
  · rename_i hex
    dsimp only at h
    split at h
    · simp at h
    · simp at h; subst h; exact ⟨hn, rfl, rfl⟩
    · rename_i host1 hsk
      simp at h; subst h
      refine ⟨NoSelfPeer.of_subset hn ⟨rfl, rfl⟩ ?_, rfl, rfl⟩
      intro c hc
      simp only [Link.emit, List.mem_append, List.mem_singleton] at hc
      rcases hc with hc | rfl
      · exact Or.inl hc
      · right
        dsimp only
        split at hsk
        · simp at hsk
          rw [← hsk]
          exact exists_client_false hex
        · rename_i ch hcan
          simp only [Option.map_eq_some'] at hsk
          obtain ⟨e, he, hpair⟩ := hsk
          simp at hpair
          obtain ⟨rfl, rfl⟩ := hpair
          exact exists_client_false he

theorem assign_identity_noSelf {s : Link} (client : Nat) {host : Option CString} {port : Int}
    (hn : NoSelfPeer s) (hme : client_is_me s host port = false) :
    NoSelfPeer (assign_identity s client host port) := by
  intro c hc
  show client_is_me s c.hostname c.port = false
  unfold assign_identity update_client at hc
  simp only [List.mem_map] at hc
  obtain ⟨c0, hc0, rfl⟩ := hc
  split
  · exact hme
  · exact hn c0 hc0

theorem remove_client_noSelf {s : Link} (client : Nat) (hn : NoSelfPeer s) :
    NoSelfPeer (remove_client s client).2 := by
  intro c hc
  show client_is_me s c.hostname c.port = false
  unfold remove_client at hc
  exact hn c (List.mem_filter.mp hc).1

theorem set_canonical_noSelf {s s1 : Link} {client : Nat} {host : Option CString}
    {port : Int} {r : Bool} (hn : NoSelfPeer s)
    (h : set_canonical s client host port = some (r, s1)) :
    NoSelfPeer s1 ∧ SameIdentity s s1 := by
  unfold set_canonical at h
  simp only at h
  split at h
  · simp at h
  · rename_i hex
    simp at h; obtain ⟨_, rfl⟩ := h
    exact ⟨assign_identity_noSelf _ hn (exists_client_false hex), rfl, rfl⟩
  · split at h
    · simp at h
    · simp at h; obtain ⟨_, rfl⟩ := h; exact ⟨hn, rfl, rfl⟩
    · simp at h
    · rename_i old me hfind hself
      split at h
      · simp at h; obtain ⟨_, rfl⟩ := h; exact ⟨hn, rfl, rfl⟩
      · rename_i hme
        have hme2 : client_is_me s host port = false := by
          apply is_self_false
          rw [hself]
          simpa using hme
        split at h
        · split at h
          · simp at h
          · split at h
            · simp at h; obtain ⟨_, rfl⟩ := h; exact ⟨hn, rfl, rfl⟩
            · simp at h; obtain ⟨_, rfl⟩ := h
              refine ⟨assign_identity_noSelf _ (remove_client_noSelf _ hn) ?_, rfl, rfl⟩
              exact hme2
        · simp at h; obtain ⟨_, rfl⟩ := h
          exact ⟨assign_identity_noSelf _ hn hme2, rfl, rfl⟩

theorem client_list_loop_noSelf {drv : Driver} (n : Nat) :
    ∀ {s s1 : Link} {packet : PacketBuffer}, NoSelfPeer s →
      client_list_loop drv n s packet = some s1 → NoSelfPeer s1 ∧ SameIdentity s s1 := by
  induction n with
  | zero =>
    intro s s1 packet hn h
    simp [client_list_loop] at h
    subst h; exact ⟨hn, rfl, rfl⟩
  | succ n ih =>
    intro s s1 packet hn h
    unfold client_list_loop at h
    simp only at h
    split at h
    · simp at h
    · rename_i s2 hs2
      have h2 : NoSelfPeer s2 ∧ SameIdentity s s2 := by
        split at hs2
        · split at hs2
          · simp at hs2
          · simp at hs2; subst hs2; exact ⟨hn, rfl, rfl⟩
          · exact add_client_noSelf hn hs2
        · simp at hs2; subst hs2; exact ⟨hn, rfl, rfl⟩
      obtain ⟨h3, h4⟩ := ih h2.1 h
      exact ⟨h3, h4.1.trans h2.2.1, h4.2.trans h2.2.2⟩

theorem handle_client_list_noSelf {drv : Driver} {s s1 : Link} {client : Nat}
    {packet : PacketBuffer} (hn : NoSelfPeer s)
    (h : handle_client_list drv s client packet = some s1) :
    NoSelfPeer s1 ∧ SameIdentity s s1 := by
  unfold handle_client_list at h
  dsimp only at h
  split at h
  · simp at h
  · rename_i s2 p2 hrole
    obtain ⟨hcl, hmy, _⟩ := client_list_role_table hrole
    have hport : s2.server_port = s.server_port := by
      unfold client_list_role at hrole
      dsimp only at hrole
      split at hrole
      · simp at hrole
        rw [← hrole.1]
        unfold set_active; dsimp only; split <;> rfl
      · split at hrole
        · simp only [Option.map_eq_some'] at hrole
          obtain ⟨s3, h3, h4⟩ := hrole
          simp at h4
          rw [← h4.1]
          unfold set_active_name at h3
          split at h3
          · simp at h3
          · simp at h3; subst h3
            unfold set_active; dsimp only; split <;> rfl
          · split at h3
            · simp at h3
            · simp at h3; subst h3
              unfold set_me_active; dsimp only; split <;> rfl
            · simp at h3; subst h3; rfl
        · simp at hrole; rw [← hrole.1]
    have hi2 : SameIdentity s s2 := ⟨hmy, hport⟩
    have hn2 : NoSelfPeer s2 := NoSelfPeer.of_subset hn hi2 (fun c hc => Or.inl (hcl ▸ hc))
    have hf : (client_list_forward s2 client
        (PacketBuffer.unpack_ushort packet).2.bytes_read
        (PacketBuffer.unpack_ushort (PacketBuffer.unpack_ushort packet).2).1 p2).1.clients
          = s2.clients ∧
        SameIdentity s2 (client_list_forward s2 client
          (PacketBuffer.unpack_ushort packet).2.bytes_read
          (PacketBuffer.unpack_ushort (PacketBuffer.unpack_ushort packet).2).1 p2).1 := by
      unfold client_list_forward
      dsimp only
      split
      · exact ⟨rfl, rfl, rfl⟩
      · exact ⟨rfl, rfl, rfl⟩
    have hn3 := NoSelfPeer.of_subset hn2 hf.2 (fun c hc => Or.inl (hf.1 ▸ hc))
    obtain ⟨h5, h6⟩ := client_list_loop_noSelf _ hn3 h
    exact ⟨h5, (h6.1.trans hf.2.1).trans hi2.1, (h6.2.trans hf.2.2).trans hi2.2⟩

/-- C10: with the local identity (`myname`, `server_port`) fixed, which each
of the three operations leaves as it is, `add_client`, `set_canonical` and the
handling of a CLIENT_LIST frame keep the peer table free of a record with the
local identity. -/
theorem no_self_peer_preserved :
    (∀ (drv : Driver) (s s1 : Link) (host : Option CString) (port : Int),
      NoSelfPeer s → add_client drv s host port = some s1 →
      NoSelfPeer s1 ∧ SameIdentity s s1) ∧
    (∀ (s s1 : Link) (client : Nat) (host : Option CString) (port : Int) (r : Bool),
      NoSelfPeer s → set_canonical s client host port = some (r, s1) →
      NoSelfPeer s1 ∧ SameIdentity s s1) ∧
    (∀ (drv : Driver) (s s1 : Link) (client : Nat) (packet : PacketBuffer),
      NoSelfPeer s → handle_client_list drv s client packet = some s1 →
      NoSelfPeer s1 ∧ SameIdentity s s1) :=
  ⟨fun _ _ _ _ _ hn h => add_client_noSelf hn h,
   fun _ _ _ _ _ _ hn h => set_canonical_noSelf hn h,
   fun _ _ _ _ _ hn h => handle_client_list_noSelf hn h⟩

/-- C10 (witness): node "a" is asked to add itself ("a", port 27273) and
does not; client 2 takes the identity ("q", 2); a CLIENT_LIST is handled. -/
theorem no_self_peer_preserved_witness :
    (NoSelfPeer demo_joined_accepted ∧
      add_client demo_driver demo_joined_accepted (some [97]) 27273 = some demo_joined_accepted ∧
      NoSelfPeer demo_joined_accepted ∧ SameIdentity demo_joined_accepted demo_joined_accepted) ∧
    (set_canonical demo_joined_accepted 2 (some [113]) 2 = some (true, demo_renamed) ∧
      NoSelfPeer demo_renamed ∧ SameIdentity demo_joined_accepted demo_renamed) ∧
    (NoSelfPeer demo_two ∧
      handle_client_list demo_driver demo_two 1 ⟨demo_list_frame, 6⟩ = some demo_listed ∧
      NoSelfPeer demo_listed ∧ SameIdentity demo_two demo_listed) := by
  have n1 : NoSelfPeer demo_joined_accepted := by unfold NoSelfPeer; decide
  have a1 : add_client demo_driver demo_joined_accepted (some [97]) 27273
      = some demo_joined_accepted := by decide
  have a2 : set_canonical demo_joined_accepted 2 (some [113]) 2 = some (true, demo_renamed) := by
    decide
  have n3 : NoSelfPeer demo_two := by unfold NoSelfPeer; decide
  have a3 : handle_client_list demo_driver demo_two 1 ⟨demo_list_frame, 6⟩ = some demo_listed := by
    decide
  exact ⟨⟨n1, a1, no_self_peer_preserved.1 _ _ _ _ _ n1 a1⟩,
    ⟨a2, no_self_peer_preserved.2.1 _ _ _ _ _ _ n1 a2⟩,
    ⟨n3, a3, no_self_peer_preserved.2.2 _ _ _ _ _ n3 a3⟩⟩


theorem connects_append (a b : List Event) : connects (a ++ b) = connects a ++ connects b := by
  induction a with
  | nil => rfl
  | cons e es ih => cases e <;> simp [connects, ih]

theorem connects_quiet (d : List Event) (h : ∀ e ∈ d, Event.is_connect e = false) :
    connects d = [] := by
  induction d with
  | nil => rfl
  | cons e es ih =>
    have h1 := ih (fun x hx => h x (List.mem_cons_of_mem _ hx))
    have h2 := h e (List.mem_cons_self _ _)
    cases e <;> simp_all [connects, Event.is_connect]

theorem write_not_connect (e : Event) (h : Event.is_write e = true) :
    Event.is_connect e = false := by
  cases e <;> simp_all [Event.is_write, Event.is_connect]

theorem heartbeat_loop_eq (current_time : Int) (cl : List Client) :
    heartbeat_loop current_time cl =
      (cl.map (fun c => if reconnect_due current_time c then reconnect_step c else c),
       (cl.filter (reconnect_due current_time)).map
         (fun c => Event.connect c.hostname c.port c.id)) := by
  induction cl with
  | nil => rfl
  | cons c cs ih =>
    unfold heartbeat_loop
    rw [ih]
    by_cases h : reconnect_due current_time c = true
    · have h2 := h
      unfold reconnect_due at h2
      simp only [h2, if_true, List.map_cons, h, List.filter_cons_of_pos]
      rfl
    · have h2 := h
      unfold reconnect_due at h2
      simp only [Bool.not_eq_true] at h2 h
      simp only [h2, List.map_cons, h, Bool.false_eq_true, if_false, List.filter_cons_of_neg,
        not_false_eq_true]

theorem send_state_active (s : Link) (h : s.active = true) :
    ∃ fr, send_state s = some (s.emit (broadcast_except s.clients none fr)) := by
  have hga : get_active s = some (true, s.myname, s.server_port) := by
    unfold get_active
    simp [h]
  exact ⟨_, send_state_eq _ _ _ _ hga⟩

theorem broadcast_connects (cl : List Client) (x : Option Nat) (fr : List Nat) :
    connects (broadcast_except cl x fr) = [] := by
  apply connects_quiet
  intro e he
  unfold broadcast_except at he
  simp only [List.mem_map] at he
  obtain ⟨c, _, rfl⟩ := he
  rfl

theorem connects_of_map (l : List Client) :
    connects (l.map (fun c => Event.connect c.hostname c.port c.id))
      = l.map (fun c => (c.hostname, c.port, c.id)) := by
  induction l with
  | nil => rfl
  | cons c cs ih => simp [connects, ih]

/-- One heartbeat tick: the table and the connect calls it leaves. -/
theorem heartbeat_eq (s : Link) (now : Int) :
    ∃ s1 d, heartbeat s now = some s1 ∧
      s1.clients = s.clients.map
        (fun c => if reconnect_due now c then reconnect_step c else c) ∧
      s1.trace = s.trace ++ d ∧
      connects d = (s.clients.filter (reconnect_due now)).map
        (fun c => (c.hostname, c.port, c.id)) := by
  unfold heartbeat
  dsimp only
  rw [heartbeat_loop_eq]
  dsimp only
  split
  · rename_i hc
    have hact := ((Bool.and_eq_true _ _).mp hc).2
    obtain ⟨fr, hfr⟩ := send_state_active _ hact
    rw [hfr]
    refine ⟨_, List.map (fun c => Event.connect c.hostname c.port c.id)
        (List.filter (reconnect_due now) s.clients) ++
      broadcast_except (List.map (fun c => if reconnect_due now c then reconnect_step c else c)
        s.clients) none fr, rfl, rfl, ?_, ?_⟩
    · exact List.append_assoc _ _ _
    · rw [connects_append, connects_of_map, broadcast_connects, List.append_nil]
  · exact ⟨_, _, rfl, rfl, rfl, connects_of_map _⟩

/-- C19 (amended): one heartbeat tick at time `now` returns, and it calls
`driver.connect` for a peer exactly when the peer has `reconnect_count > 0`,
a scheduled time (`reconnect_time` not 0) that is not after `now`, and a
known hostname, once per such peer and in table order; for each such peer
`reconnect_count` is decremented by 1 and `reconnect_time` is cleared to 0,
and every other record of the table is unchanged. -/
theorem heartbeat_reconnects (s : Link) (now : Int) :
    ∃ s1 d, heartbeat s now = some s1 ∧
      s1.clients = s.clients.map
        (fun c => if reconnect_due now c then reconnect_step c else c) ∧
      s1.trace = s.trace ++ d ∧
      connects d = (s.clients.filter (reconnect_due now)).map
        (fun c => (c.hostname, c.port, c.id)) :=
  heartbeat_eq s now

theorem demo_joined_reachable : Reachable demo_defaults demo_joined :=
  Reachable.step demo_node demo_joined (Op.join demo_driver (some (some [113], 2)))
    (Reachable.init (some [97]) demo_config) (by decide)

theorem demo_retried_reachable : Reachable demo_defaults demo_retried :=
  Reachable.step demo_retry demo_retried (Op.heartbeat 65)
    (Reachable.step demo_joined demo_retry (Op.socket_closed 1 50) demo_joined_reachable
      (by decide))
    (by decide)

/-- C19 (counterexample): on a reachable node (`init`, `join` of "q", the
failed connect reported closed at time 50, one heartbeat at time 65 that made
the first reconnect attempt) client 1 has 4 remaining attempts, a next
attempt time 0 that is not after 66, and a known hostname; the heartbeat at
time 66 still calls `driver.connect` for nobody and leaves the record as it
was. -/
theorem heartbeat_skips_peer_with_cleared_time :
    Reachable demo_defaults demo_retried ∧
    (demo_retried.get_client 1).map
      (fun c => (c.reconnect_count, c.reconnect_time, c.hostname)) = some (4, 0, some [113]) ∧
    connects demo_retried.trace = [(some [113], 2, 1), (some [113], 2, 1)] ∧
    (heartbeat demo_retried 66).map (fun s => connects s.trace)
      = some [(some [113], 2, 1), (some [113], 2, 1)] ∧
    (heartbeat demo_retried 66).map (fun s => s.clients) = some demo_retried.clients :=
  ⟨demo_retried_reachable, by decide, by decide, by decide, by decide⟩


theorem find_map_id (l : List Client) (g : Client → Client) (id : Nat)
    (hg : ∀ c, (g c).id = c.id) :
    (l.map g).find? (fun c => c.id == id) = (l.find? (fun c => c.id == id)).map g := by
  induction l with
  | nil => rfl
  | cons c cs ih =>
    simp only [List.map_cons, List.find?_cons, hg]
    cases c.id == id
    · exact ih
    · rfl

theorem heartbeat_keeps_config (s s1 : Link) (now : Int) (h : heartbeat s now = some s1) :
    s1.reconnect_attempts = s.reconnect_attempts ∧
    s1.reconnect_interval = s.reconnect_interval := by
  unfold heartbeat at h
  dsimp only at h
  split at h
  · rename_i hc
    have hact := ((Bool.and_eq_true _ _).mp hc).2
    obtain ⟨fr, hfr⟩ := send_state_active _ hact
    rw [hfr] at h
    simp only [Option.some.injEq] at h
    subst h
    exact ⟨rfl, rfl⟩
  · simp only [Option.some.injEq] at h
    subst h
    exact ⟨rfl, rfl⟩

theorem disable_client_eq (s : Link) (client : Nat) (t : Int) :
    ∃ d, (disable_client s client t).clients = update_client s.clients client (fun c =>
        { c with socket := none, reconnect_count := s.reconnect_attempts,
                 reconnect_time := t + s.reconnect_interval }) ∧
      (disable_client s client t).reconnect_attempts = s.reconnect_attempts ∧
      (disable_client s client t).reconnect_interval = s.reconnect_interval ∧
      (disable_client s client t).trace = s.trace ++ d ∧ connects d = [] := by
  unfold disable_client
  dsimp only
  split
  · unfold set_active
    dsimp only
    split
    · exact ⟨[Event.active_changed false], rfl, rfl, rfl, rfl, rfl⟩
    · exact ⟨[], rfl, rfl, rfl, (List.append_nil _).symm, rfl⟩
  · exact ⟨[], rfl, rfl, rfl, (List.append_nil _).symm, rfl⟩

theorem connects_to_append (client : Nat) (a b : List Event) :
    connects_to client (a ++ b) = connects_to client a + connects_to client b := by
  unfold connects_to
  rw [connects_append, List.filter_append, List.length_append]

theorem retry_round (s : Link) (client : Nat) (c : Client) (t : Int)
    (hc : s.get_client client = some c) (hh : c.hostname.isSome = true)
    (ha : 0 < s.reconnect_attempts) (hi : 0 ≤ s.reconnect_interval) (ht : 0 < t) :
    ∃ s2 c2, (socket_closed s client t).bind
        (fun s1 => heartbeat s1 (t + s1.reconnect_interval)) = some s2 ∧
      s2.get_client client = some c2 ∧ c2.hostname.isSome = true ∧
      s2.reconnect_attempts = s.reconnect_attempts ∧
      s2.reconnect_interval = s.reconnect_interval ∧
      connects_to client s.trace + 1 ≤ connects_to client s2.trace := by
  obtain ⟨d, hcl, hat, hin, htr, hd⟩ := disable_client_eq s client t
  have hsc : socket_closed s client t = some (disable_client s client t) := by
    unfold socket_closed
    rw [hc]
  obtain ⟨s2, d2, h2, h2cl, h2tr, h2d⟩ :=
    heartbeat_eq (disable_client s client t) (t + s.reconnect_interval)
  obtain ⟨h2a, h2i⟩ := heartbeat_keeps_config _ _ _ h2
  have hid : c.id = client := by
    have := List.find?_some hc
    simpa using this
  subst hid
  have hmem : c ∈ s.clients := List.mem_of_find?_eq_some hc
  obtain ⟨c1, hc1⟩ : ∃ c1 : Client, c1 =
      { c with socket := none, reconnect_count := s.reconnect_attempts,
               reconnect_time := t + s.reconnect_interval } := ⟨_, rfl⟩
  have hdue : reconnect_due (t + s.reconnect_interval) c1 = true := by
    rw [hc1]
    unfold reconnect_due
    simp only [Bool.and_eq_true, decide_eq_true_eq, bne_iff_ne, ne_eq]
    exact ⟨⟨⟨ha, by omega⟩, le_refl _⟩, hh⟩
  have hm1 : c1 ∈ (disable_client s c.id t).clients := by
    rw [hcl]
    unfold update_client
    refine List.mem_map.mpr ⟨c, hmem, ?_⟩
    simp only [beq_self_eq_true, if_true, hc1]
  refine ⟨s2, reconnect_step c1, ?_, ?_, ?_, by rw [h2a, hat], by rw [h2i, hin], ?_⟩
  · rw [hsc, Option.some_bind, hin]
    exact h2
  · unfold Link.get_client
    rw [h2cl, hcl]
    unfold update_client
    rw [find_map_id, find_map_id]
    · unfold Link.get_client at hc
      rw [hc]
      simp only [Option.map_some', beq_self_eq_true, if_true, ← hc1, hdue]
    · intro x
      split <;> rfl
    · intro x
      split <;> rfl
  · rw [hc1]
    exact hh
  · rw [h2tr, htr, connects_to_append, connects_to_append]
    have h0 : connects_to c.id d = 0 := by
      unfold connects_to
      rw [hd]
      rfl
    have h1 : 1 ≤ connects_to c.id d2 := by
      unfold connects_to
      rw [h2d]
      apply List.length_pos_of_mem
      rw [List.mem_filter]
      refine ⟨List.mem_map.mpr ⟨c1, List.mem_filter.mpr ⟨hm1, hdue⟩, rfl⟩, ?_⟩
      rw [hc1]
      simp only [beq_self_eq_true]
    omega

/-- C20 (divergence): when every failed connect is reported back through
`socket_closed`, reconnection is not bounded by `reconnect_attempts`: for a
peer with a known hostname, a positive `reconnect_attempts` and a
non-negative `reconnect_interval`, `n` rounds of "failure reported, next
heartbeat one interval later" all return and make at least `n` further
`driver.connect` calls for that peer, for every `n`. -/
theorem reconnect_never_gives_up (client : Nat) (n : Nat) :
    ∀ (s : Link) (c : Client) (t : Int), s.get_client client = some c →
      c.hostname.isSome = true → 0 < s.reconnect_attempts → 0 ≤ s.reconnect_interval → 0 < t →
      ∃ s1, retry_rounds client n s t = some s1 ∧
        connects_to client s.trace + n ≤ connects_to client s1.trace := by
  induction n with
  | zero => intro s c t _ _ _ _ _; exact ⟨s, rfl, le_refl _⟩
  | succ n ih =>
    intro s c t hc hh ha hi ht
    obtain ⟨s2, c2, h2, hc2, hh2, ha2, hi2, hn2⟩ := retry_round s client c t hc hh ha hi ht
    obtain ⟨s3, h3, hn3⟩ := ih s2 c2 (t + s.reconnect_interval) hc2 hh2 (by rw [ha2]; exact ha)
      (by rw [hi2]; exact hi) (by omega)
    refine ⟨s3, ?_, by omega⟩
    unfold retry_rounds
    cases hsc : socket_closed s client t with
    | none => rw [hsc] at h2; simp at h2
    | some s1 =>
      rw [hsc, Option.some_bind] at h2
      have hin : s1.reconnect_interval = s.reconnect_interval := by
        unfold socket_closed at hsc
        rw [hc] at hsc
        simp only [Option.some.injEq] at hsc
        subst hsc
        obtain ⟨d, _, _, hin, _, _⟩ := disable_client_eq s client t
        exact hin
      rw [Option.some_bind, h2, Option.some_bind, hin]
      exact h3

/-- C20 (witness): on the reachable node "a" with `reconnect_attempts` 5
that joined "q" (client 1), six reported failures in a row starting at time
50 are each followed by a further `driver.connect` for client 1: the log then
holds 7 connects for it, the one of `join` and six retries. -/
theorem reconnect_never_gives_up_witness :
    Reachable demo_defaults demo_joined ∧ demo_joined.reconnect_attempts = 5 ∧
    (retry_rounds 1 6 demo_joined 50).map (fun s => connects_to 1 s.trace) = some 7 ∧
    ∃ s1, retry_rounds 1 6 demo_joined 50 = some s1 ∧
      connects_to 1 demo_joined.trace + 6 ≤ connects_to 1 s1.trace :=
  ⟨demo_joined_reachable, by decide, by decide,
    reconnect_never_gives_up 1 6 demo_joined _ 50 rfl (by decide) (by decide) (by decide)
      (by decide)⟩


theorem credential_ok_iff (conf recv : Option CString) :
    credential_ok conf recv = true ↔ conf = none ∨ conf = recv := by
  cases conf with
  | none => simp [credential_ok]
  | some u =>
    cases recv with
    | none => simp [credential_ok]
    | some r => simp [credential_ok]

theorem handle_hello_eq (s : Link) (client : Nat) (packet : PacketBuffer) :
    handle_hello s client packet =
      if credential_ok s.username (hello_fields packet).1
          && credential_ok s.password (hello_fields packet).2.1 then
        hello_accept s client (hello_fields packet).2.2.1 (hello_fields packet).2.2.2
      else some (remove_client s client).2 := rfl

theorem remove_client_gone (s : Link) (client : Nat) :
    (remove_client s client).2.get_client client = none := by
  unfold remove_client Link.get_client
  dsimp only
  rw [List.find?_eq_none]
  intro c hc
  have := (List.mem_filter.mp hc).2
  simpa using this

/-- C13 (counterexample): the reachable node "a" is configured with the
empty username "" and no password; client 1 sends a HELLO with username "x".
The configured username is empty, yet the HELLO is refused: client 1 is
removed and nothing is sent. -/
theorem hello_refused_by_empty_configured_username :
    Reachable demo_defaults demo_guarded ∧
    demo_guarded.username = some [] ∧ demo_guarded.password = none ∧
    (demo_guarded.get_client 1).map (fun c => c.socket) = some (some 100) ∧
    handle_hello demo_guarded 1 ⟨hello_frame (some [120]) (some []) (some [113]) 2, 6⟩
      = some demo_refused ∧
    demo_refused.clients = [] ∧ demo_refused.trace = demo_guarded.trace :=
  ⟨Reachable.step _ _ (Op.socket_accepted (some 100))
      (Reachable.init (some [97]) demo_config_empty_user) rfl,
    by decide, by decide, by decide, by decide, by decide, by decide⟩

/-- C13 (amended): `handle_hello` accepts the credentials exactly when (the
configured username is absent, or equals the received username) and (the
configured password is absent, or equals the received password); a
configured empty string is compared like any other. When the check fails
`handle_hello` returns with the peer removed from the table, the rest of the
table kept, and the log unchanged: no frame is sent to anybody. When it
passes, the HELLO goes on to `set_canonical`. -/
theorem handle_hello_credentials (s : Link) (client : Nat) (packet : PacketBuffer) :
    handle_hello s client packet =
      (if (s.username = none ∨ s.username = (hello_fields packet).1) ∧
          (s.password = none ∨ s.password = (hello_fields packet).2.1) then
        hello_accept s client (hello_fields packet).2.2.1 (hello_fields packet).2.2.2
      else some (remove_client s client).2) ∧
    (remove_client s client).2.get_client client = none ∧
    (remove_client s client).2.clients = s.clients.filter (fun c => !(c.id == client)) ∧
    (remove_client s client).2.trace = s.trace := by
  refine ⟨?_, remove_client_gone s client, rfl, rfl⟩
  rw [handle_hello_eq]
  by_cases h : (s.username = none ∨ s.username = (hello_fields packet).1) ∧
      (s.password = none ∨ s.password = (hello_fields packet).2.1)
  · rw [if_pos h, if_pos]
    rw [Bool.and_eq_true, credential_ok_iff, credential_ok_iff]
    exact h
  · rw [if_neg h, if_neg]
    rw [Bool.and_eq_true, credential_ok_iff, credential_ok_iff]
    exact h


/-- C15 (divergence): on the reachable node "a" client 1 sends a CLAIM frame
(declared length 8). Delivered in one piece the frame is dispatched (client 1
becomes the active client). Delivered as 4 bytes, then 2 bytes (a read that
returned fewer than the 4 requested), the node then asks the socket for 4
bytes although only 2 are missing; a read returning those 4 bytes takes 2
bytes of the next frame, leaves 10 bytes in the buffer, and the CLAIM frame
is not dispatched, then or by any later read that delivers bytes. -/
theorem segmented_claim_frame_never_dispatched :
    Reachable demo_defaults demo_accepted ∧
    socket_io demo_driver demo_accepted 1 true demo_claim_frame 0 = some demo_claimed ∧
    demo_claimed.active_client = some 1 ∧
    (demo_accepted.get_client 1).map bytes_to_read = some 4 ∧
    socket_io demo_driver demo_accepted 1 true [0, 8, 1, 0] 0 = some demo_seg1 ∧
    (demo_seg1.get_client 1).map bytes_to_read = some 4 ∧
    socket_io demo_driver demo_seg1 1 true [0, 4] 0 = some demo_seg2 ∧
    (demo_seg2.get_client 1).map (fun c => (bytes_to_read c, bytes_missing c)) = some (4, 2) ∧
    socket_io demo_driver demo_seg2 1 true [0, 0, 0, 8] 0 = some demo_seg3 ∧
    (demo_seg3.get_client 1).map (fun c => (c.packet.buffer, c.packet.peek_ushort 0))
      = some ([0, 8, 1, 0, 0, 4, 0, 0, 0, 8], 8) ∧
    demo_seg3.active_client = none ∧ demo_seg3.active = true ∧
    ∀ (b : Nat) (data : List Nat) (t : Int),
      ∃ s, socket_io demo_driver demo_seg3 1 true (b :: data) t = some s ∧
        s.active_client = none ∧ s.active = true ∧ s.trace = demo_seg3.trace ∧
        (s.get_client 1).map (fun c => c.packet.buffer)
          = some ([0, 8, 1, 0, 0, 4, 0, 0, 0, 8] ++ b :: data) := by
  refine ⟨demo_accepted_reachable, by decide, by decide, by decide, by decide, by decide,
    by decide, by decide, by decide, by decide, by decide, by decide, ?_⟩
  intro b data t
  have hs : demo_seg3 = { demo_seg3 with clients :=
      [{ id := 1, socket := some 100, hostname := none, port := 0, reconnect_count := 0,
         reconnect_time := 0, packet := ⟨[0, 8, 1, 0, 0, 4, 0, 0, 0, 8], 0⟩ }] } := by decide
  have hl : ((b :: data).length == 0) = false := rfl
  rw [hs]
  unfold socket_io
  simp only [Link.get_client, List.find?, update_client, List.map, beq_self_eq_true, if_true,
    Bool.not_true, Bool.false_eq_true, if_false, hl]
  rw [if_neg]
  · have h1 : demo_seg3.active_client = none := by decide
    have h2 : demo_seg3.active = true := by decide
    exact ⟨_, rfl, h1, h2, rfl, by simp⟩
  · simp [PacketBuffer.peek_ushort, PacketBuffer.bytes_written]


theorem declared_length_eq (b : List Nat) :
    PacketBuffer.peek_ushort ⟨b, 0⟩ 0 = declared_length b := rfl

theorem get_client_update (s : Link) (client : Nat) (c : Client) (g : Client → Client)
    (hg : ∀ x, (g x).id = x.id) (hc : s.get_client client = some c) :
    Link.get_client { s with clients := update_client s.clients client g } client
      = some (g c) := by
  have hid : c.id = client := by
    have := List.find?_some hc
    simpa using this
  unfold Link.get_client update_client
  dsimp only
  rw [find_map_id]
  · unfold Link.get_client at hc
    rw [hc]
    simp [hid]
  · intro x
    split
    · exact hg x
    · rfl

theorem declared_length_append (b data : List Nat) (h : 2 ≤ b.length) :
    declared_length (b ++ data) = declared_length b := by
  rcases b with _ | ⟨a0, _ | ⟨a1, r⟩⟩
  · simp at h
  · simp at h
  · rfl

theorem socket_io_wedged (drv : Driver) (s : Link) (client : Nat) (c : Client)
    (data : List Nat) (t : Int) (hc : s.get_client client = some c)
    (hr : c.packet.read_pos = 0) (hne : data ≠ [])
    (h4 : 4 ≤ c.packet.buffer.length) (hd : declared_length c.packet.buffer < 4) :
    socket_io drv s client true data t = some (buffer_bytes s client data) := by
  have hl : (data.length == 0) = false := by
    cases data with
    | nil => exact absurd rfl hne
    | cons a as => rfl
  have hg := get_client_update s client c
    (fun c => { c with packet := { c.packet with buffer := c.packet.buffer ++ data } })
    (fun _ => rfl) hc
  unfold socket_io
  rw [hc]
  simp only [Bool.not_true, Bool.false_eq_true, if_false, hl]
  rw [hg]
  dsimp only
  rw [hr, declared_length_eq, declared_length_append _ _ (by omega), if_neg]
  · rfl
  simp only [PacketBuffer.bytes_written, List.length_append, beq_iff_eq]
  omega

theorem tableInv_iff (s : Link) :
    TableInv s ↔ (s.clients.map (fun c => c.id)).Nodup ∧ (∀ c ∈ s.clients, c.id < s.next_id) ∧
      ∀ a ∈ s.clients, ∀ b ∈ s.clients,
        a.hostname ≠ none → a.hostname = b.hostname → a.port = b.port → a.id = b.id := by
  unfold TableInv peer_keys
  rw [List.map_map]
  constructor
  · rintro ⟨h1, h2, h3⟩
    refine ⟨h1, fun c hc => h2 _ (List.mem_map_of_mem _ hc), fun a ha b hb hn hh hp => ?_⟩
    exact h3 _ (List.mem_map_of_mem _ ha) _ (List.mem_map_of_mem _ hb) hn
      (Prod.ext hh hp)
  · rintro ⟨h1, h2, h3⟩
    refine ⟨h1, ?_, ?_⟩
    · intro k hk
      obtain ⟨c, hc, rfl⟩ := List.mem_map.mp hk
      exact h2 c hc
    · intro a ha b hb hn hab
      obtain ⟨c, hc, rfl⟩ := List.mem_map.mp ha
      obtain ⟨d, hd, rfl⟩ := List.mem_map.mp hb
      exact h3 c hc d hd hn (congrArg Prod.fst hab) (congrArg Prod.snd hab)

theorem SamePeers.peers_refl (s : Link) : SamePeers s s := ⟨rfl, rfl⟩

theorem SamePeers.peers_trans {a b c : Link} (h1 : SamePeers a b) (h2 : SamePeers b c) :
    SamePeers a c := ⟨h2.1.trans h1.1, h2.2.trans h1.2⟩

theorem TableInv.of_samePeers {s s1 : Link} (e : TableInv s) (h : SamePeers s s1) :
    TableInv s1 := by
  unfold TableInv at *
  rw [h.1, h.2]
  exact e

theorem update_client_samePeers (s : Link) (client : Nat) (g : Client → Client)
    (hg : ∀ c, ((g c).id, (g c).hostname, (g c).port) = (c.id, c.hostname, c.port)) :
    peer_keys { s with clients := update_client s.clients client g } = peer_keys s := by
  unfold peer_keys update_client
  dsimp only
  rw [List.map_map]
  apply List.map_congr_left
  intro c _
  dsimp only [Function.comp]
  split
  · exact hg c
  · rfl

theorem map_samePeers (s : Link) (g : Client → Client)
    (hg : ∀ c, ((g c).id, (g c).hostname, (g c).port) = (c.id, c.hostname, c.port)) :
    peer_keys { s with clients := s.clients.map g } = peer_keys s := by
  unfold peer_keys
  dsimp only
  rw [List.map_map]
  apply List.map_congr_left
  intro c _
  exact hg c

theorem find_loop_result (name : Option CString) (port : Int) (cl : List Client) :
    ∀ (ret r : Option Nat), find_loop name port cl ret = some r →
      (∀ c ∈ cl, c.port = port → c.hostname ≠ none ∧ name ≠ none) ∧
      ((r = ret ∧ ∀ c ∈ cl, c.port = port → c.hostname ≠ name) ∨
       ∃ c ∈ cl, r = some c.id ∧ c.port = port ∧ c.hostname = name) := by
  induction cl with
  | nil =>
    intro ret r h
    simp [find_loop] at h
    exact ⟨by simp, Or.inl ⟨h.symm, by simp⟩⟩
  | cons c cs ih =>
    intro ret r h
    unfold find_loop at h
    by_cases hp : c.port = port
    · simp only [hp, beq_self_eq_true, if_true] at h
      cases hc : c.hostname with
      | none => simp [hc, strcmp_eq] at h
      | some x =>
        cases name with
        | none => simp [hc, strcmp_eq] at h
        | some y =>
          simp only [hc, strcmp_eq] at h
          by_cases hxy : x = y
          · subst hxy
            simp only [beq_self_eq_true] at h
            obtain ⟨h1, h2⟩ := ih _ _ h
            refine ⟨?_, ?_⟩
            · intro d hd hdp
              rcases List.mem_cons.mp hd with rfl | hd
              · simp [hc]
              · exact h1 d hd hdp
            · right
              rcases h2 with ⟨h2, _⟩ | ⟨d, hd, h3⟩
              · exact ⟨c, List.mem_cons_self _ _, h2, hp, hc⟩
              · exact ⟨d, List.mem_cons_of_mem _ hd, h3⟩
          · have hb : (x == y) = false := by simpa using hxy
            simp only [hb] at h
            obtain ⟨h1, h2⟩ := ih _ _ h
            refine ⟨?_, ?_⟩
            · intro d hd hdp
              rcases List.mem_cons.mp hd with rfl | hd
              · simp [hc]
              · exact h1 d hd hdp
            · rcases h2 with ⟨h2, h3⟩ | ⟨d, hd, h3⟩
              · left
                refine ⟨h2, ?_⟩
                intro d hd hdp
                rcases List.mem_cons.mp hd with rfl | hd
                · rw [hc]
                  intro he
                  exact hxy (Option.some.inj he)
                · exact h3 d hd hdp
              · exact Or.inr ⟨d, List.mem_cons_of_mem _ hd, h3⟩
    · have hb : (c.port == port) = false := by simpa using hp
      simp only [hb, Bool.false_eq_true, if_false] at h
      obtain ⟨h1, h2⟩ := ih _ _ h
      refine ⟨?_, ?_⟩
      · intro d hd hdp
        rcases List.mem_cons.mp hd with rfl | hd
        · exact absurd hdp hp
        · exact h1 d hd hdp
      · rcases h2 with ⟨h2, h3⟩ | ⟨d, hd, h3⟩
        · left
          refine ⟨h2, ?_⟩
          intro d hd hdp
          rcases List.mem_cons.mp hd with rfl | hd
          · exact absurd hdp hp
          · exact h3 d hd hdp
        · exact Or.inr ⟨d, List.mem_cons_of_mem _ hd, h3⟩


theorem find_none_no_match {s : Link} {host : Option CString} {port : Int}
    (h : find_client_by_canonicalname s host port = some none) :
    ∀ c ∈ s.clients, c.port = port → c.hostname ≠ host := by
  unfold find_client_by_canonicalname at h
  rcases (find_loop_result host port s.clients none none h).2 with ⟨_, h2⟩ | ⟨c, _, h3, _⟩
  · exact h2
  · simp at h3

theorem find_some_match {s : Link} {host : Option CString} {port : Int} {i : Nat}
    (h : find_client_by_canonicalname s host port = some (some i)) :
    ∃ c ∈ s.clients, c.id = i ∧ c.port = port ∧ c.hostname = host ∧ host ≠ none := by
  unfold find_client_by_canonicalname at h
  obtain ⟨h1, h2⟩ := find_loop_result host port s.clients none (some i) h
  rcases h2 with ⟨h2, _⟩ | ⟨c, hc, h3, hp, hh⟩
  · simp at h2
  · exact ⟨c, hc, (Option.some.inj h3).symm, hp, hh, (h1 c hc hp).2⟩

theorem exists_false_no_match {s : Link} {host : Option CString} {port : Int}
    (h : exists_client s host port = some false) :
    ∀ c ∈ s.clients, c.port = port → c.hostname ≠ host := by
  unfold exists_client at h
  split at h
  · simp at h
  · simp at h
  · split at h
    · simp at h
    · rename_i r hf
      simp only [Option.some.injEq] at h
      cases r with
      | none => exact find_none_no_match hf
      | some i => simp at h

theorem assign_identity_inv {s : Link} (client : Nat) (host : Option CString) (port : Int)
    (e : TableInv s)
    (hu : ∀ c ∈ s.clients, c.id ≠ client → c.port = port → c.hostname = host → host = none) :
    TableInv (assign_identity s client host port) := by
  rw [tableInv_iff] at e ⊢
  obtain ⟨h1, h2, h3⟩ := e
  have hmem : ∀ x ∈ (assign_identity s client host port).clients,
      ∃ c ∈ s.clients, x.id = c.id ∧
        ((c.id ≠ client ∧ x = c) ∨ (c.id = client ∧ x.hostname = host ∧ x.port = port)) := by
    intro x hx
    unfold assign_identity update_client at hx
    obtain ⟨c, hc, rfl⟩ := List.mem_map.mp hx
    refine ⟨c, hc, ?_, ?_⟩
    · split <;> rfl
    · by_cases hid : c.id = client
      · right
        simp [hid]
      · left
        have hb : (c.id == client) = false := by simpa using hid
        simp [hb, hid]
  refine ⟨?_, ?_, ?_⟩
  · have hk : (assign_identity s client host port).clients.map (fun c => c.id)
        = s.clients.map (fun c => c.id) := by
      unfold assign_identity update_client
      dsimp only
      rw [List.map_map]
      apply List.map_congr_left
      intro c _
      dsimp only [Function.comp]
      split <;> rfl
    rw [hk]
    exact h1
  · intro x hx
    obtain ⟨c, hc, hid, _⟩ := hmem x hx
    rw [hid]
    exact h2 c hc
  · intro a ha b hb hn hh hp
    obtain ⟨c, hc, hca, ha2⟩ := hmem a ha
    obtain ⟨d, hd, hdb, hb2⟩ := hmem b hb
    rw [hca, hdb]
    rcases ha2 with ⟨hc1, rfl⟩ | ⟨hc1, hah, hap⟩
    · rcases hb2 with ⟨hd1, rfl⟩ | ⟨hd1, hbh, hbp⟩
      · exact h3 _ hc _ hd hn hh hp
      · have := hu a hc hc1 (hp.trans hbp) (hh.trans hbh)
        rw [hh, hbh] at hn
        exact absurd this hn
    · rcases hb2 with ⟨hd1, rfl⟩ | ⟨hd1, hbh, hbp⟩
      · have := hu b hd hd1 (hp.symm.trans hap) (hh.symm.trans hah)
        rw [hah] at hn
        exact absurd this hn
      · rw [hc1, hd1]

theorem remove_client_inv {s : Link} (client : Nat) (e : TableInv s) :
    TableInv (remove_client s client).2 := by
  rw [tableInv_iff] at e ⊢
  obtain ⟨h1, h2, h3⟩ := e
  have hsub : ∀ x ∈ (remove_client s client).2.clients, x ∈ s.clients := by
    intro x hx
    unfold remove_client at hx
    exact (List.mem_filter.mp hx).1
  refine ⟨?_, fun x hx => h2 x (hsub x hx),
    fun a ha b hb => h3 a (hsub a ha) b (hsub b hb)⟩
  unfold remove_client
  dsimp only
  exact List.Nodup.sublist (List.Sublist.map _ (List.filter_sublist _)) h1

theorem append_client_inv {s : Link} (c : Client) (e : TableInv s) (hid : c.id = s.next_id)
    (hu : c.hostname ≠ none → ∀ d ∈ s.clients, d.port = c.port → d.hostname ≠ c.hostname) :
    TableInv { s with clients := s.clients ++ [c], next_id := s.next_id + 1 } := by
  rw [tableInv_iff] at e ⊢
  obtain ⟨h1, h2, h3⟩ := e
  dsimp only
  refine ⟨?_, ?_, ?_⟩
  · rw [List.map_append, List.nodup_append]
    refine ⟨h1, by simp, ?_⟩
    intro x hx hy
    simp only [List.map_cons, List.map_nil, List.mem_singleton] at hy
    obtain ⟨d, hd, rfl⟩ := List.mem_map.mp hx
    have := h2 d hd
    omega
  · intro x hx
    rcases List.mem_append.mp hx with hx | hx
    · have := h2 x hx
      omega
    · simp only [List.mem_singleton] at hx
      subst hx
      omega
  · intro a ha b hb hn hh hp
    rcases List.mem_append.mp ha with ha1 | ha1
    · rcases List.mem_append.mp hb with hb1 | hb1
      · exact h3 a ha1 b hb1 hn hh hp
      · simp only [List.mem_singleton] at hb1
        subst hb1
        exact absurd hh (hu (hh ▸ hn) a ha1 hp)
    · simp only [List.mem_singleton] at ha1
      subst ha1
      rcases List.mem_append.mp hb with hb1 | hb1
      · exact absurd hh.symm (hu hn b hb1 hp.symm)
      · simp only [List.mem_singleton] at hb1
        rw [hb1]


theorem add_client_inv {drv : Driver} {s s1 : Link} {host : Option CString} {port : Int}
    (e : TableInv s) (h : add_client drv s host port = some s1) : TableInv s1 := by
  unfold add_client at h
  split at h
  · simp at h
  · simp at h; subst h; exact e
  · rename_i hex
    dsimp only at h
    split at h
    · simp at h
    · simp at h; subst h; exact e
    · rename_i host1 hsk
      simp at h; subst h
      have hu : ∀ d ∈ s.clients, d.port = port → d.hostname ≠ host1 := by
        split at hsk
        · simp at hsk
          rw [← hsk]
          exact exists_false_no_match hex
        · rename_i ch hcan
          simp only [Option.map_eq_some'] at hsk
          obtain ⟨e1, he, hpair⟩ := hsk
          simp at hpair
          obtain ⟨rfl, rfl⟩ := hpair
          exact exists_false_no_match he
      exact (append_client_inv { Client.new s.next_id with hostname := host1, port := port } e rfl
        (fun _ => hu)).of_samePeers ⟨rfl, rfl⟩

theorem socket_accepted_inv {s : Link} (ccon : Option Nat) (e : TableInv s) :
    TableInv (socket_accepted s ccon) := by
  unfold socket_accepted
  split
  · exact e
  · exact append_client_inv _ e rfl (fun hn => absurd rfl hn)

theorem set_canonical_inv {s s1 : Link} {client : Nat} {host : Option CString}
    {port : Int} {r : Bool} (e : TableInv s)
    (h : set_canonical s client host port = some (r, s1)) : TableInv s1 := by
  unfold set_canonical at h
  simp only at h
  split at h
  · simp at h
  · rename_i hex
    simp at h; obtain ⟨_, rfl⟩ := h
    apply assign_identity_inv _ _ _ e
    intro c hc _ hp hh
    exact absurd hh (exists_false_no_match hex c hc hp)
  · split at h
    · simp at h
    · simp at h; obtain ⟨_, rfl⟩ := h; exact e
    · simp at h
    · rename_i old me hf hme
      obtain ⟨o, ho, hoid, hop, hoh, hhost⟩ := find_some_match hf
      have e0 := (tableInv_iff s).mp e
      split at h
      · simp at h; obtain ⟨_, rfl⟩ := h; exact e
      · split at h
        · split at h
          · simp at h
          · split at h
            · simp at h; obtain ⟨_, rfl⟩ := h; exact e
            · simp at h; obtain ⟨_, rfl⟩ := h
              apply assign_identity_inv _ _ _ (remove_client_inv old e)
              intro c hc _ hp hh
              unfold remove_client at hc
              obtain ⟨hc1, hc2⟩ := List.mem_filter.mp hc
              have hid := e0.2.2 c hc1 o ho (by rw [hh]; exact hhost) (hh.trans hoh.symm)
                (hp.trans hop.symm)
              rw [hoid] at hid
              simp [hid] at hc2
        · rename_i hne
          simp at h; obtain ⟨_, rfl⟩ := h
          have hoc : old = client := by simpa using hne
          apply assign_identity_inv _ _ _ e
          intro c hc hcid hp hh
          have hid := e0.2.2 c hc o ho (by rw [hh]; exact hhost) (hh.trans hoh.symm)
            (hp.trans hop.symm)
          rw [hoid, hoc] at hid
          exact absurd hid hcid

theorem emit_samePeers (s : Link) (es : List Event) : SamePeers s (s.emit es) := ⟨rfl, rfl⟩

theorem send_packet_samePeers {s s1 : Link} {client : Nat} {packet : PacketBuffer}
    (h : send_packet s client packet = some s1) : SamePeers s s1 := by
  unfold send_packet at h
  split at h
  · simp at h
  · split at h <;> simp at h <;> subst h
    · exact ⟨rfl, rfl⟩
    · exact SamePeers.peers_refl _

theorem send_packet_except_samePeers (s : Link) (packet : PacketBuffer) (client : Option Nat) :
    SamePeers s (send_packet_except s packet client).1 := ⟨rfl, rfl⟩

theorem send_packet_broadcast_samePeers (s : Link) (packet : PacketBuffer) :
    SamePeers s (send_packet_broadcast s packet) := ⟨rfl, rfl⟩

theorem send_client_list_samePeers {s s1 : Link} {client : Nat}
    (h : send_client_list s client = some s1) : SamePeers s s1 := by
  unfold send_client_list at h
  split at h
  · simp only at h
    split at h
    · simp at h
    · exact send_packet_samePeers h
  · simp at h; subst h; exact SamePeers.peers_refl _

theorem send_new_master_samePeers {s s1 : Link} {client : Option Nat}
    (h : send_new_master s client = some s1) : SamePeers s s1 := by
  unfold send_new_master at h
  split at h
  · simp at h
  · split at h
    · exact send_packet_samePeers h
    · simp at h; subst h; exact send_packet_broadcast_samePeers _ _

theorem send_state_samePeers {s s1 : Link} (h : send_state s = some s1) : SamePeers s s1 := by
  unfold send_state at h
  simp only [Option.map_eq_some'] at h
  obtain ⟨p, _, rfl⟩ := h
  exact send_packet_broadcast_samePeers _ _

theorem set_active_samePeers (s : Link) (client : Option Nat) :
    SamePeers s (set_active s client) := by
  unfold set_active
  dsimp only
  split <;> exact ⟨rfl, rfl⟩

theorem set_me_active_samePeers (s : Link) : SamePeers s (set_me_active s) := by
  unfold set_me_active
  dsimp only
  split <;> exact ⟨rfl, rfl⟩

theorem set_active_name_samePeers {s s1 : Link} {hostname : Option CString} {port : Int}
    (h : set_active_name s hostname port = some s1) : SamePeers s s1 := by
  unfold set_active_name at h
  split at h
  · simp at h
  · simp at h; subst h; exact set_active_samePeers _ _
  · split at h
    · simp at h
    · simp at h; subst h; exact set_me_active_samePeers _
    · simp at h; subst h; exact SamePeers.peers_refl _


theorem handle_hello_inv {s s1 : Link} {client : Nat} {packet : PacketBuffer}
    (e : TableInv s) (h : handle_hello s client packet = some s1) : TableInv s1 := by
  unfold handle_hello at h
  simp only at h
  split at h
  · split at h
    · simp at h
    · rename_i s2 hc
      simp only [Option.bind_eq_some] at h
      obtain ⟨s3, h3, h4⟩ := h
      exact ((set_canonical_inv e hc).of_samePeers (send_packet_samePeers h3)).of_samePeers
        (send_client_list_samePeers h4)
    · rename_i s2 hc
      simp only [Option.map_eq_some'] at h
      obtain ⟨s3, h3, rfl⟩ := h
      exact remove_client_inv _
        ((set_canonical_inv e hc).of_samePeers (send_packet_samePeers h3))
  · simp at h; subst h; exact remove_client_inv _ e

theorem handle_duplicate_inv {s s1 : Link} {client : Nat} {packet : PacketBuffer}
    (e : TableInv s) (h : handle_duplicate s client packet = some s1) : TableInv s1 := by
  unfold handle_duplicate at h
  simp at h; subst h; exact remove_client_inv _ e

theorem handle_welcome_inv {s s1 : Link} {client : Nat} {packet : PacketBuffer}
    (e : TableInv s) (h : handle_welcome s client packet = some s1) : TableInv s1 := by
  unfold handle_welcome at h
  simp only at h
  split at h
  · simp at h
  · rename_i s2 hc
    exact ((set_canonical_inv e hc).of_samePeers (set_active_samePeers _ _)).of_samePeers
      (send_client_list_samePeers h)
  · rename_i s2 hc
    simp only [Option.map_eq_some'] at h
    obtain ⟨s3, h3, rfl⟩ := h
    exact remove_client_inv _
      ((set_canonical_inv e hc).of_samePeers (send_packet_samePeers h3))

theorem client_list_loop_inv {drv : Driver} (n : Nat) :
    ∀ {s s1 : Link} {packet : PacketBuffer}, TableInv s →
      client_list_loop drv n s packet = some s1 → TableInv s1 := by
  induction n with
  | zero =>
    intro s s1 packet e h
    simp [client_list_loop] at h
    subst h; exact e
  | succ n ih =>
    intro s s1 packet e h
    unfold client_list_loop at h
    simp only at h
    split at h
    · simp at h
    · rename_i s2 hs2
      refine ih ?_ h
      split at hs2
      · split at hs2
        · simp at hs2
        · simp at hs2; subst hs2; exact e
        · exact add_client_inv e hs2
      · simp at hs2; subst hs2; exact e

theorem client_list_role_samePeers {s s1 : Link} {client flags : Nat}
    {packet p1 : PacketBuffer}
    (h : client_list_role s client flags packet = some (s1, p1)) : SamePeers s s1 := by
  unfold client_list_role at h
  dsimp only at h
  split at h
  · simp at h; rw [← h.1]; exact set_active_samePeers _ _
  · split at h
    · simp only [Option.map_eq_some'] at h
      obtain ⟨s3, h3, h4⟩ := h
      simp at h4
      rw [← h4.1]; exact set_active_name_samePeers h3
    · simp at h; rw [← h.1]; exact SamePeers.peers_refl _

theorem client_list_forward_samePeers (s : Link) (client pos flags : Nat)
    (packet : PacketBuffer) : SamePeers s (client_list_forward s client pos flags packet).1 := by
  unfold client_list_forward
  dsimp only
  split
  · exact send_packet_except_samePeers _ _ _
  · exact SamePeers.peers_refl _

theorem handle_client_list_inv {drv : Driver} {s s1 : Link} {client : Nat}
    {packet : PacketBuffer} (e : TableInv s)
    (h : handle_client_list drv s client packet = some s1) : TableInv s1 := by
  unfold handle_client_list at h
  dsimp only at h
  split at h
  · simp at h
  · rename_i s2 p2 hr
    exact client_list_loop_inv _ ((e.of_samePeers (client_list_role_samePeers hr)).of_samePeers
      (client_list_forward_samePeers _ _ _ _ _)) h

theorem handle_claim_samePeers {s s1 : Link} {client : Nat} {packet : PacketBuffer}
    (h : handle_claim s client packet = some s1) : SamePeers s s1 := by
  unfold handle_claim at h
  simp only [Option.bind_eq_some] at h
  obtain ⟨s2, h2, h3⟩ := h
  refine SamePeers.peers_trans ?_ (send_new_master_samePeers h3)
  split at h2
  · have h4 := send_state_samePeers h2
    exact SamePeers.peers_trans (set_active_samePeers _ _) h4
  · simp at h2; subst h2; exact set_active_samePeers _ _

theorem handle_state_samePeers {s s1 : Link} {client : Nat} {packet : PacketBuffer}
    (h : handle_state s client packet = some s1) : SamePeers s s1 := by
  unfold handle_state at h
  simp only at h
  split at h
  · simp at h
  · simp at h; subst h
    split
    · exact ⟨rfl, rfl⟩
    · exact ⟨rfl, rfl⟩

theorem dispatch_inv {drv : Driver} {s s1 : Link} {client type : Nat}
    {packet : PacketBuffer} (e : TableInv s)
    (h : dispatch drv s client type packet = some s1) : TableInv s1 := by
  unfold dispatch at h
  split at h
  · exact handle_hello_inv e h
  · split at h
    · exact e.of_samePeers (handle_claim_samePeers h)
    · split at h
      · exact handle_welcome_inv e h
      · split at h
        · exact handle_client_list_inv e h
        · split at h
          · unfold handle_new_master at h
            exact e.of_samePeers (set_active_name_samePeers h)
          · split at h
            · exact e.of_samePeers (handle_state_samePeers h)
            · split at h
              · exact handle_duplicate_inv e h
              · simp at h; subst h; exact e

theorem process_body_inv {drv : Driver} {s s1 : Link} {client size : Nat}
    {packet : PacketBuffer} (e : TableInv s)
    (h : process_body drv s client size packet = some s1) : TableInv s1 := by
  unfold process_body at h
  dsimp only at h
  split at h
  · exact dispatch_inv e h
  · simp at h; subst h; exact e

theorem process_client_packet_inv {drv : Driver} {s s1 : Link} {client : Nat}
    (e : TableInv s) (h : process_client_packet drv s client = some s1) : TableInv s1 := by
  unfold process_client_packet at h
  split at h
  · simp at h
  · dsimp only at h
    split at h
    · simp at h
    · simp only [Option.bind_eq_some, Option.map_eq_some'] at h
      obtain ⟨s2, h2, _, _, rfl⟩ := h
      exact (process_body_inv e h2).of_samePeers
        ⟨update_client_samePeers _ _ _ (fun _ => rfl), rfl⟩

theorem heartbeat_samePeers {s s1 : Link} {current_time : Int}
    (h : heartbeat s current_time = some s1) : SamePeers s s1 := by
  have h0 : peer_keys { s with clients := (heartbeat_loop current_time s.clients).1 }
      = peer_keys s := by
    rw [heartbeat_loop_eq]
    apply map_samePeers
    intro c
    split <;> rfl
  unfold heartbeat at h
  dsimp only at h
  split at h
  · have h2 := send_state_samePeers h
    exact SamePeers.peers_trans ⟨h0, rfl⟩ h2
  · simp at h; subst h; exact ⟨h0, rfl⟩

theorem disable_client_samePeers (s : Link) (client : Nat) (current_time : Int) :
    SamePeers s (disable_client s client current_time) := by
  unfold disable_client
  dsimp only
  split
  · refine SamePeers.peers_trans ?_ (set_active_samePeers _ _)
    exact ⟨update_client_samePeers _ _ _ (fun _ => rfl), rfl⟩
  · exact ⟨update_client_samePeers _ _ _ (fun _ => rfl), rfl⟩

theorem claim_samePeers {s s1 : Link} {r : Bool}
    (h : claim s = some (r, s1)) : SamePeers s s1 := by
  unfold claim at h
  split at h
  · simp only [Option.map_eq_some'] at h
    obtain ⟨s2, h2, h3⟩ := h
    simp at h3
    rw [← h3.2]
    exact send_packet_samePeers h2
  · split at h
    · simp only [Option.map_eq_some'] at h
      obtain ⟨s2, h2, h3⟩ := h
      simp at h3
      rw [← h3.2]
      have h4 := send_new_master_samePeers h2
      have h5 : SamePeers s2 { s2 with active := true } := ⟨rfl, rfl⟩
      exact SamePeers.peers_trans h4 h5
    · simp at h
      rw [← h.2]
      exact ⟨rfl, rfl⟩


theorem disconnect_all_samePeers (s : Link) : SamePeers s (disconnect_all s).2 := by
  unfold disconnect_all
  dsimp only
  refine SamePeers.peers_trans ?_ (set_me_active_samePeers _)
  exact ⟨map_samePeers _ _ (fun _ => rfl), rfl⟩

theorem set_enabled_samePeers (s : Link) (enabled listen_ok : Bool) :
    SamePeers s (set_enabled s enabled listen_ok).2 := by
  unfold set_enabled
  dsimp only
  split
  · exact ⟨rfl, rfl⟩
  · split
    · have h1 : SamePeers s { s with server_socket := false } := ⟨rfl, rfl⟩
      have h2 := disconnect_all_samePeers { s with server_socket := false }
      have h3 := set_me_active_samePeers (disconnect_all { s with server_socket := false }).2
      have h4 := SamePeers.peers_trans (SamePeers.peers_trans h1 h2) h3
      exact ⟨h4.1, h4.2⟩
    · exact ⟨rfl, rfl⟩

theorem read_configuration_samePeers (K : Defaults) (s : Link) (cfg : ConfigInput) :
    SamePeers s (read_configuration K s cfg) := by
  unfold read_configuration
  dsimp only
  split
  · have h1 : SamePeers s { s with server_port := match cfg.env_port with
        | some p => p
        | none => cfg.port.getD K.DEFAULT_PORT } := ⟨rfl, rfl⟩
    have h2 := set_enabled_samePeers { s with server_port := match cfg.env_port with
        | some p => p
        | none => cfg.port.getD K.DEFAULT_PORT } false cfg.listen_ok
    have h3 := set_enabled_samePeers (set_enabled { s with server_port := match cfg.env_port with
        | some p => p
        | none => cfg.port.getD K.DEFAULT_PORT } false cfg.listen_ok).2 true cfg.listen_ok
    have h4 := SamePeers.peers_trans (SamePeers.peers_trans h1 h2) h3
    exact ⟨h4.1, h4.2⟩
  · exact ⟨rfl, rfl⟩

theorem init_inv (K : Defaults) (name : Option CString) (cfg : ConfigInput) :
    TableInv (init K (Link.construct K) name cfg).2 := by
  unfold init
  dsimp only
  refine TableInv.of_samePeers ?_ (read_configuration_samePeers K _ cfg)
  unfold TableInv peer_keys Link.construct
  simp

theorem socket_io_inv {drv : Driver} {s s1 : Link} {client : Nat} {ok : Bool}
    {data : List Nat} {current_time : Int} (e : TableInv s)
    (h : socket_io drv s client ok data current_time = some s1) : TableInv s1 := by
  unfold socket_io at h
  split at h
  · simp at h
  · split at h
    · simp at h; subst h; exact e.of_samePeers (disable_client_samePeers _ _ _)
    · split at h
      · simp at h; subst h; exact e.of_samePeers (disable_client_samePeers _ _ _)
      · dsimp only at h
        split at h
        · simp at h
        · split at h
          · refine process_client_packet_inv ?_ h
            exact e.of_samePeers ⟨update_client_samePeers _ _ _ (fun _ => rfl), rfl⟩
          · simp at h; subst h
            exact e.of_samePeers ⟨update_client_samePeers _ _ _ (fun _ => rfl), rfl⟩

theorem socket_connected_inv {s s1 : Link} {client con : Nat} (e : TableInv s)
    (h : socket_connected s client con = some s1) : TableInv s1 := by
  unfold socket_connected at h
  split at h
  · simp at h
  · have h2 := send_packet_samePeers h
    refine TableInv.of_samePeers ?_ h2
    exact e.of_samePeers ⟨update_client_samePeers _ _ _ (fun _ => rfl), rfl⟩

theorem run_inv {K : Defaults} {s s1 : Link} {op : Op} (e : TableInv s)
    (h : run K s op = some s1) : TableInv s1 := by
  cases op with
  | init name cfg =>
    simp [run] at h; subst h
    unfold init
    dsimp only
    refine TableInv.of_samePeers ?_ (read_configuration_samePeers K _ cfg)
    exact e.of_samePeers ⟨rfl, rfl⟩
  | heartbeat ct => exact e.of_samePeers (heartbeat_samePeers h)
  | join drv url =>
    simp only [run] at h
    unfold join at h
    split at h
    · simp at h; subst h; exact e
    · exact add_client_inv e h
  | disconnect_all => simp [run] at h; subst h; exact e.of_samePeers (disconnect_all_samePeers _)
  | reconnect_all ct =>
    simp [run] at h; subst h
    unfold reconnect_all
    exact e.of_samePeers ⟨map_samePeers _ _ (fun _ => rfl), rfl⟩
  | claim =>
    simp only [run, Option.map_eq_some'] at h
    obtain ⟨r, hr, rfl⟩ := h
    exact e.of_samePeers (claim_samePeers hr)
  | set_user user pw => simp [run] at h; subst h; exact e.of_samePeers ⟨rfl, rfl⟩
  | set_distribution_manager dll => simp [run] at h; subst h; exact e.of_samePeers ⟨rfl, rfl⟩
  | set_enabled enabled listen_ok =>
    simp [run] at h; subst h; exact e.of_samePeers (set_enabled_samePeers _ _ _)
  | register_state id ds => simp [run] at h; subst h; exact e.of_samePeers ⟨rfl, rfl⟩
  | unregister_state id => simp [run] at h; subst h; exact e
  | config_changed_notify cfg =>
    simp [run] at h; subst h; exact e.of_samePeers (read_configuration_samePeers _ _ _)
  | socket_accepted ccon => simp [run] at h; subst h; exact socket_accepted_inv _ e
  | socket_io drv client ok data ct => exact socket_io_inv e h
  | socket_connected client con => exact socket_connected_inv e h
  | socket_closed client ct =>
    simp only [run] at h
    unfold socket_closed at h
    split at h
    · simp at h
    · simp at h; subst h; exact e.of_samePeers (disable_client_samePeers _ _ _)
  | process_client_packet drv client => exact process_client_packet_inv e h

theorem reachable_inv {K : Defaults} {s : Link} (h : Reachable K s) : TableInv s := by
  induction h with
  | init name cfg => exact init_inv _ _ _
  | step s s1 op _ hs ih => exact run_inv ih hs

theorem uniquePeers_of_inv {s : Link} (e : TableInv s) : UniquePeers s := by
  obtain ⟨h1, _, h3⟩ := (tableInv_iff s).mp e
  intro a ha b hb hn hh hp
  exact eq_of_id_eq_nodup s.clients h1 a b ha hb (h3 a ha b hb hn hh hp)

theorem demo_two_reachable : Reachable demo_defaults demo_two :=
  Reachable.step demo_accepted demo_two (Op.socket_accepted (some 101)) demo_accepted_reachable
    rfl

/-- C11: in every state reachable from `init()` the records of the peer table
are distinct objects and no two distinct records with a known hostname have
the same (hostname, port); and from such a state `add_client` (with its
re-check of the canonicalised name), `set_canonical` (eviction of the
socketless holder, or rejection) and the handling of a CLIENT_LIST frame,
whatever it lists, lead to a state with the same property. -/
theorem reachable_unique_identity (K : Defaults) (s : Link) (h : Reachable K s) :
    UniquePeers s ∧ (s.clients.map (fun c => c.id)).Nodup ∧
    (∀ (drv : Driver) (host : Option CString) (port : Int) (s1 : Link),
      add_client drv s host port = some s1 → UniquePeers s1) ∧
    (∀ (client : Nat) (host : Option CString) (port : Int) (r : Bool) (s1 : Link),
      set_canonical s client host port = some (r, s1) → UniquePeers s1) ∧
    (∀ (drv : Driver) (client : Nat) (packet : PacketBuffer) (s1 : Link),
      handle_client_list drv s client packet = some s1 → UniquePeers s1) := by
  have e := reachable_inv h
  exact ⟨uniquePeers_of_inv e, ((tableInv_iff s).mp e).1,
    fun _ _ _ _ h1 => uniquePeers_of_inv (add_client_inv e h1),
    fun _ _ _ _ _ h1 => uniquePeers_of_inv (set_canonical_inv e h1),
    fun _ _ _ _ h1 => uniquePeers_of_inv (handle_client_list_inv e h1)⟩

/-- C11 (witness): node "a" with the connected clients 1 and 2 is reachable;
a CLIENT_LIST frame from client 1 that lists ("q", 2) twice is handled, and
the table then holds ("q", 2) once, as client 3. -/
theorem reachable_unique_identity_witness :
    Reachable demo_defaults demo_two ∧
    handle_client_list demo_driver demo_two 1 ⟨demo_twice_frame, 6⟩ = some demo_twice ∧
    peer_keys demo_twice = [(1, none, 0), (2, none, 0), (3, some [113], 2)] ∧
    UniquePeers demo_twice :=
  ⟨demo_two_reachable, by decide, by decide,
    (reachable_unique_identity demo_defaults demo_two demo_two_reachable).2.2.2.2
      demo_driver 1 ⟨demo_twice_frame, 6⟩ demo_twice (by decide)⟩


/-- C12 (counterexample): the node "a" after `init()` and one accepted
connection is reachable, and its client 1 has a live socket, no hostname and
port 0: a peer with a live socket whose identity is not known. -/
theorem accepted_peer_has_socket_and_no_identity :
    Reachable demo_defaults demo_accepted ∧
    (demo_accepted.get_client 1).map (fun c => (c.socket, c.hostname, c.port))
      = some (some 100, none, 0) ∧
    demo_accepted.clients.length = 1 :=
  ⟨demo_accepted_reachable, by decide, by decide⟩

theorem demo_connected_reachable : Reachable demo_defaults demo_connected :=
  Reachable.step demo_joined demo_connected (Op.socket_connected 1 200) demo_joined_reachable
    (by decide)


theorem dec_enc_u16 (v : Nat) (rest : List Nat) (h : v < 65536) :
    dec_u16 (enc_u16 v ++ rest) = v := by
  simp only [dec_u16, enc_u16, List.cons_append, List.nil_append, List.getD_cons_zero,
    List.getD_cons_succ]
  omega

theorem read_entries_stateinfo (states : List (Nat × Option (List Nat))) :
    (∀ e ∈ states, e.1 < 65536 ∧ (e.2.getD []).length < 65536) →
    ∀ rest : List Nat, read_entries states.length (stateinfo_entries states ++ rest)
      = some (states.map entry_of, rest) := by
  induction states with
  | nil => intro _ rest; rfl
  | cons e es ih =>
    intro hw rest
    obtain ⟨hid, hlen⟩ := hw e (List.mem_cons_self _ _)
    have ih2 := ih (fun x hx => hw x (List.mem_cons_of_mem _ hx)) rest
    obtain ⟨id, d⟩ := e
    have key : ∀ data : List Nat, data.length < 65536 →
        read_entries (es.length + 1)
          (enc_u16 data.length ++ enc_u16 id ++ data ++ stateinfo_entries es ++ rest)
          = some ((data.length, id, data) :: es.map entry_of, rest) := by
      intro data hd
      have h1 : dec_u16 (enc_u16 data.length ++ enc_u16 id ++ data ++ stateinfo_entries es
          ++ rest) = data.length := by
        simp only [List.append_assoc]
        exact dec_enc_u16 _ _ hd
      have h2 : (enc_u16 data.length ++ enc_u16 id ++ data ++ stateinfo_entries es ++ rest).drop 2
          = enc_u16 id ++ (data ++ (stateinfo_entries es ++ rest)) := by
        simp [enc_u16]
      have h4 : (enc_u16 data.length ++ enc_u16 id ++ data ++ stateinfo_entries es ++ rest).drop 4
          = data ++ (stateinfo_entries es ++ rest) := by
        simp [enc_u16]
      have h5 : (enc_u16 data.length ++ enc_u16 id ++ data ++ stateinfo_entries es ++ rest).drop
          (4 + data.length) = stateinfo_entries es ++ rest := by
        rw [← List.drop_drop, h4, List.drop_left]
      unfold read_entries
      rw [h1, h2, h4, h5, ih2, dec_enc_u16 _ _ hid, List.take_left, if_pos]
      · rfl
      · simp [enc_u16]
        omega
    cases d with
    | none =>
      have := key [] (by simp)
      simpa [stateinfo_entries, entry_of] using this
    | some data =>
      have := key data (by simpa using hlen)
      simpa [stateinfo_entries, entry_of] using this

/-- C17 (amended): when `send_state` can name the active node (`get_active`
returns) and every count, id and data length of the registry fits the 16-bit
field that carries it (the fields hold the values truncated to 16 bits),
`send_state` returns and broadcasts one STATEINFO frame whose payload is the
active identity, then `n_entries`, which reads back as the number of
registered states, then for each registered (id, provider) in registry order
one entry (data_len, id, bytes): reading the entries back gives exactly, per
state, the length of the provider's data, the id and the data, or (0, id)
and no bytes for a provider that returns nothing, with no byte left over; so
each `data_len` is the number of bytes up to the next entry or the end of the
frame. -/
theorem send_state_frame_layout (s : Link) (r : Bool) (host : Option CString) (port : Int)
    (hga : get_active s = some (r, host, port)) (hf : StatesFit s.state_map) :
    send_state s = some (s.emit
      (broadcast_except s.clients none (stateinfo_frame host port s.state_map))) ∧
    stateinfo_frame host port s.state_map = frame PACKET_STATEINFO
      (enc_string host ++ enc_u16 (to_ushort port) ++ enc_u16 s.state_map.length
        ++ stateinfo_entries s.state_map) ∧
    dec_u16 (enc_u16 s.state_map.length) = s.state_map.length ∧
    read_entries s.state_map.length (stateinfo_entries s.state_map)
      = some (s.state_map.map entry_of, []) := by
  refine ⟨send_state_eq s r host port hga, rfl, ?_, ?_⟩
  · have := dec_enc_u16 s.state_map.length [] hf.1
    simpa using this
  · have := read_entries_stateinfo s.state_map hf.2 []
    simpa using this

/-- C17 (witness): the active node "a" (port 27273) with one connected peer
and one provider returning 01 02 03 for id 42 sends that peer the frame
`00 14 01 00 00 06 | 00 01 'a' | 6a 89 | 00 01 | 00 03 00 2a 01 02 03`. -/
theorem send_state_frame_layout_witness :
    get_active demo_provider = some (true, some [97], 27273) ∧
    StatesFit demo_provider.state_map ∧
    send_state demo_provider = some (demo_provider.emit [Event.write 1
      [0, 20, 1, 0, 0, 6, 0, 1, 97, 106, 137, 0, 1, 0, 3, 0, 42, 1, 2, 3]]) ∧
    read_entries 1 [0, 3, 0, 42, 1, 2, 3] = some ([(3, 42, [1, 2, 3])], []) := by
  have hga : get_active demo_provider = some (true, some [97], 27273) := by decide
  have hf : StatesFit demo_provider.state_map := by unfold StatesFit; decide
  have h := send_state_frame_layout demo_provider true (some [97]) 27273 hga hf
  exact ⟨hga, hf, h.1, h.2.2.2⟩


theorem getD_append_at (pre rest : List Nat) (a : Nat) :
    (pre ++ a :: rest).getD pre.length 0 = a := by
  induction pre with
  | nil => rfl
  | cons x xs ih => simpa using ih

theorem getD_append_next (pre rest : List Nat) (a b : Nat) :
    (pre ++ a :: b :: rest).getD (pre.length + 1) 0 = b := by
  have h := getD_append_at (pre ++ [a]) rest b
  simpa using h

theorem peek_ushort_at (buf pre rest : List Nat) (pos k v : Nat)
    (hb : buf = pre ++ (enc_u16 v ++ rest)) (hp : pos = pre.length) (hv : v < 65536) :
    PacketBuffer.peek_ushort ⟨buf, k⟩ pos = v := by
  subst hb hp
  unfold PacketBuffer.peek_ushort enc_u16
  dsimp only [List.cons_append, List.nil_append]
  rw [getD_append_at, getD_append_next]
  omega

theorem unpack_ushort_at (buf pre rest : List Nat) (pos v : Nat)
    (hb : buf = pre ++ (enc_u16 v ++ rest)) (hp : pos = pre.length) (hv : v < 65536) :
    PacketBuffer.unpack_ushort ⟨buf, pos⟩ = (v, ⟨buf, pos + 2⟩) := by
  unfold PacketBuffer.unpack_ushort
  dsimp only
  rw [peek_ushort_at buf pre rest pos pos v hb hp hv, if_pos]
  subst hb hp
  simp [enc_u16]

theorem unpack_raw_at (buf pre rest d : List Nat) (pos : Nat)
    (hb : buf = pre ++ (d ++ rest)) (hp : pos = pre.length) :
    PacketBuffer.unpack_raw ⟨buf, pos⟩ d.length = (some d, ⟨buf, pos + d.length⟩) := by
  unfold PacketBuffer.unpack_raw
  dsimp only
  subst hb hp
  rw [if_pos (by simp), List.drop_left, List.take_left]

theorem takeWhile_all (h : List Nat) (hz : ∀ b ∈ h, b ≠ 0) :
    h.takeWhile (fun b => b != 0) = h := by
  induction h with
  | nil => rfl
  | cons a as ih =>
    have ha : (a != 0) = true := by simpa using hz a (List.mem_cons_self _ _)
    rw [List.takeWhile_cons, ha, if_pos rfl, ih (fun b hb => hz b (List.mem_cons_of_mem _ hb))]

theorem unpack_string_at (buf pre rest : List Nat) (h : CString) (pos : Nat)
    (hb : buf = pre ++ (enc_string (some h) ++ rest)) (hp : pos = pre.length)
    (hf : CStringFits h) :
    PacketBuffer.unpack_string ⟨buf, pos⟩ = (some h, ⟨buf, pos + 2 + h.length⟩) := by
  have hb2 : buf = pre ++ (enc_u16 h.length ++ (h ++ rest)) := by
    rw [hb]
    simp [enc_string]
  have hb3 : buf = (pre ++ enc_u16 h.length) ++ (h ++ rest) := by
    rw [hb2]
    simp
  unfold PacketBuffer.unpack_string
  dsimp only
  rw [peek_ushort_at buf pre (h ++ rest) pos pos h.length hb2 hp hf.1]
  have hlen : buf.length = pos + 2 + h.length + rest.length := by
    rw [hb2, hp]
    simp [enc_u16]
    omega
  rw [if_pos (by omega), if_pos (by omega)]
  have hd : buf.drop (pos + 2) = h ++ rest := by
    rw [hb3, hp]
    have : pre.length + 2 = (pre ++ enc_u16 h.length).length := by simp [enc_u16]
    rw [this, List.drop_left]
  rw [hd, List.take_left, takeWhile_all h hf.2]

theorem state_loop_stateinfo (s : Link) (w : Bool) (states : List (Nat × Option (List Nat))) :
    (∀ e ∈ states, e.1 < 65536 ∧ (e.2.getD []).length < 65536) →
    (∀ e ∈ states, (e.2.getD []).length ≠ 0 → s.state_map.lookup e.1 ≠ none) →
    ∀ (buf pre rest : List Nat) (pos : Nat),
      buf = pre ++ (stateinfo_entries states ++ rest) → pos = pre.length →
      state_loop s w states.length ⟨buf, pos⟩ = some (set_state_calls w states) := by
  induction states with
  | nil => intro _ _ buf pre rest pos _ _; rfl
  | cons e es ih =>
    intro hw hreg buf pre rest pos hb hp
    obtain ⟨hid, hlen⟩ := hw e (List.mem_cons_self _ _)
    have hr := hreg e (List.mem_cons_self _ _)
    have ih2 := ih (fun x hx => hw x (List.mem_cons_of_mem _ hx))
      (fun x hx => hreg x (List.mem_cons_of_mem _ hx)) buf
    obtain ⟨id, d⟩ := e
    have hent : stateinfo_entries ((id, d) :: es)
        = enc_u16 (d.getD []).length ++ (enc_u16 id ++ (d.getD [] ++ stateinfo_entries es)) := by
      cases d <;> simp [stateinfo_entries]
    rw [hent] at hb
    have hb1 : buf = pre ++ (enc_u16 (d.getD []).length
        ++ (enc_u16 id ++ (d.getD [] ++ stateinfo_entries es) ++ rest)) := by
      rw [hb]; simp
    have hb2 : buf = (pre ++ enc_u16 (d.getD []).length)
        ++ (enc_u16 id ++ (d.getD [] ++ stateinfo_entries es ++ rest)) := by
      rw [hb]; simp
    have hb3 : buf = (pre ++ enc_u16 (d.getD []).length ++ enc_u16 id)
        ++ (d.getD [] ++ (stateinfo_entries es ++ rest)) := by
      rw [hb]; simp
    have hb4 : buf = (pre ++ enc_u16 (d.getD []).length ++ enc_u16 id ++ d.getD [])
        ++ (stateinfo_entries es ++ rest) := by
      rw [hb]; simp
    have hp2 : pos + 2 = (pre ++ enc_u16 (d.getD []).length).length := by
      simp [enc_u16, hp]
    have hp3 : pos + 2 + 2 = (pre ++ enc_u16 (d.getD []).length ++ enc_u16 id).length := by
      simp [enc_u16, hp]
    have hp4 : pos + 2 + 2 + (d.getD []).length
        = (pre ++ enc_u16 (d.getD []).length ++ enc_u16 id ++ d.getD []).length := by
      simp [enc_u16, hp]
      omega
    have ihn := ih2 _ rest _ hb4 hp4
    unfold state_loop
    dsimp only [List.length_cons]
    rw [unpack_ushort_at buf pre _ pos _ hb1 hp hlen]
    dsimp only
    rw [unpack_ushort_at buf _ _ (pos + 2) id hb2 hp2 hid]
    dsimp only
    by_cases hz : (d.getD []).length = 0
    · have hz2 : ((d.getD []).length != 0) = false := by simp [hz]
      rw [hz2]
      simp only [Bool.false_eq_true, if_false]
      rw [hz, Nat.add_zero] at ihn
      rw [ihn]
      simp [set_state_calls, hz]
    · have hz2 : ((d.getD []).length != 0) = true := by simp [hz]
      rw [hz2]
      simp only [if_true]
      rw [unpack_raw_at buf _ _ (d.getD []) (pos + 2 + 2) hb3 hp3]
      dsimp only
      cases hl : s.state_map.lookup id with
      | none => exact absurd hl (hr hz)
      | some itf =>
        dsimp only
        rw [ihn]
        simp [set_state_calls, hz2]


theorem to_ushort_of_nat (port : Nat) (h : port < 65536) : to_ushort (port : Int) = port := by
  unfold to_ushort
  omega

theorem demo_b_reachable : Reachable demo_defaults demo_b :=
  Reachable.step _ _ (Op.socket_accepted (some 100))
    (Reachable.step _ _ (Op.set_distribution_manager true)
      (Reachable.step _ _ (Op.register_state 42 (some []))
        (Reachable.init (some [98]) demo_config) rfl) rfl) rfl

/-- C18 (counterexample): node "b" (reachable; provider registered for id 42,
listener installed) receives from client 1 the STATEINFO frame that the
active node "a" sends when its provider for id 42 returns nothing, a
well-formed frame with the one entry (0, 42). The provider of "b" gets no
`set_state` call for that entry: the only callback is
`state_transfer_complete()`. -/
theorem entry_without_data_is_not_delivered :
    Reachable demo_defaults demo_b ∧
    demo_empty_state_frame
      = [0, 17, 1, 0, 0, 6, 0, 1, 97, 106, 137, 0, 1, 0, 0, 0, 42] ∧
    read_entries 1 (demo_empty_state_frame.drop 13) = some ([(0, 42, [])], []) ∧
    demo_b.state_map.lookup 42 = some (some []) ∧
    (socket_io demo_driver demo_b 1 true demo_empty_state_frame 0).map
      (fun s => s.trace.drop demo_b.trace.length) = some [Event.state_transfer_complete] :=
  ⟨demo_b_reachable, by decide, by decide, by decide, by decide⟩

/-- What `handle_state` does with a well-formed STATEINFO frame on a node
that has a provider registered for every id that comes with data. -/
theorem handle_state_wellformed (s : Link) (client : Nat) (host : CString) (port : Nat)
    (states : List (Nat × Option (List Nat)))
    (hh : CStringFits host) (hp : port < 65536) (hf : StatesFit states)
    (hreg : ∀ e ∈ states, (e.2.getD []).length ≠ 0 → s.state_map.lookup e.1 ≠ none) :
    handle_state s client ⟨stateinfo_frame (some host) port states, 6⟩
      = some (s.emit (set_state_calls (client_is_me s (some host) port) states
          ++ (if s.dist_manager then [Event.state_transfer_complete] else []))) := by
  have hfr : stateinfo_frame (some host) port states
      = (enc_u16 (6 + (enc_string (some host) ++ enc_u16 port ++ enc_u16 states.length
          ++ stateinfo_entries states).length) ++ [1, 0] ++ enc_u16 PACKET_STATEINFO)
        ++ (enc_string (some host) ++ (enc_u16 port ++ (enc_u16 states.length
          ++ (stateinfo_entries states ++ [])))) := by
    unfold stateinfo_frame frame
    rw [to_ushort_of_nat port hp]
    simp
  generalize hpre : enc_u16 (6 + (enc_string (some host) ++ enc_u16 port ++ enc_u16 states.length
          ++ stateinfo_entries states).length) ++ [1, 0] ++ enc_u16 PACKET_STATEINFO = pre at hfr
  have hpl : pre.length = 6 := by
    rw [← hpre]
    simp [enc_u16]
  generalize stateinfo_frame (some host) port states = buf at hfr
  have hb1 : buf = (pre ++ enc_string (some host)) ++ (enc_u16 port ++ (enc_u16 states.length
      ++ (stateinfo_entries states ++ []))) := by
    rw [hfr]; simp
  have hb2 : buf = (pre ++ enc_string (some host) ++ enc_u16 port) ++ (enc_u16 states.length
      ++ (stateinfo_entries states ++ [])) := by
    rw [hfr]; simp
  have hb3 : buf = (pre ++ enc_string (some host) ++ enc_u16 port ++ enc_u16 states.length)
      ++ (stateinfo_entries states ++ []) := by
    rw [hfr]; simp
  have hp1 : 6 + 2 + host.length = (pre ++ enc_string (some host)).length := by
    simp [enc_string, enc_u16, hpl]
    omega
  have hp2 : 6 + 2 + host.length + 2 = (pre ++ enc_string (some host) ++ enc_u16 port).length := by
    simp [enc_string, enc_u16, hpl]
    omega
  have hp3 : 6 + 2 + host.length + 2 + 2
      = (pre ++ enc_string (some host) ++ enc_u16 port ++ enc_u16 states.length).length := by
    simp [enc_string, enc_u16, hpl]
    omega
  unfold handle_state
  dsimp only
  rw [unpack_string_at buf pre _ host 6 hfr hpl.symm hh]
  dsimp only
  rw [unpack_ushort_at buf _ _ _ port hb1 hp1 hp]
  dsimp only
  rw [unpack_ushort_at buf _ _ _ states.length hb2 hp2 hf.1]
  dsimp only
  rw [state_loop_stateinfo s _ states hf.2 hreg buf _ [] _ hb3 hp3]
  simp only [Option.isSome_some, if_true, Link.emit]
  split
  · simp
  · simp

/-- C18 (amended): a well-formed STATEINFO frame (active identity `host`,
`port`, then the entries of `states`), handled on a node that has a provider
registered for every id that comes with data, makes `handle_state` return
after these calls, in this order: for every entry with a non-zero `data_len`,
in frame order, `set_state(id, w, data)` with `w` true exactly when
(`host`, `port`) is the local identity; no call for an entry whose `data_len`
is 0; and then `state_transfer_complete()` once when a listener is installed,
and not at all when there is none. -/
theorem handle_state_delivers (s : Link) (client : Nat) (host : CString) (port : Nat)
    (states : List (Nat × Option (List Nat)))
    (hh : CStringFits host) (hp : port < 65536) (hf : StatesFit states)
    (hreg : ∀ e ∈ states, (e.2.getD []).length ≠ 0 → s.state_map.lookup e.1 ≠ none) :
    handle_state s client ⟨stateinfo_frame (some host) port states, 6⟩
      = some (s.emit (set_state_calls (client_is_me s (some host) port) states
          ++ (if s.dist_manager then [Event.state_transfer_complete] else []))) :=
  handle_state_wellformed s client host port states hh hp hf hreg

/-- C18 (witness): the active node "a" with one provider returning 01 02 03
for id 42 broadcasts `demo_state_frame`; node "b", handling that frame from
client 1, calls `set_state(42, false, [01, 02, 03])` on its provider and then
`state_transfer_complete()`. -/
theorem handle_state_delivers_witness :
    send_state demo_provider = some (demo_provider.emit [Event.write 1 demo_state_frame]) ∧
    Reachable demo_defaults demo_b ∧
    handle_state demo_b 1 ⟨demo_state_frame, 6⟩ = some (demo_b.emit
      [Event.set_state 42 false [1, 2, 3], Event.state_transfer_complete]) ∧
    socket_io demo_driver demo_b 1 true demo_state_frame 0 = some (demo_b.emit
      [Event.set_state 42 false [1, 2, 3], Event.state_transfer_complete]) :=
  ⟨by decide, demo_b_reachable,
    handle_state_delivers demo_b 1 [97] 27273 [(42, some [1, 2, 3])]
      (by unfold CStringFits; decide) (by decide) (by unfold StatesFit; decide) (by decide),
    by decide⟩


theorem getD_append_lt (l x : List Nat) (i : Nat) (h : i < l.length) :
    (l ++ x).getD i 0 = l.getD i 0 := by
  simp [List.getD_eq_getElem?_getD, List.getElem?_append_left h]

theorem getD_set_ne (l : List Nat) (i j v : Nat) (h : j ≠ i) :
    (l.set j v).getD i 0 = l.getD i 0 := by
  simp [List.getD_eq_getElem?_getD, List.getElem?_set_ne h]

theorem packet_command_append (p q : PacketBuffer) (x : List Nat)
    (hq : q.buffer = p.buffer ++ x) (h : 6 ≤ p.buffer.length) :
    packet_command q = packet_command p ∧ 6 ≤ q.buffer.length := by
  unfold packet_command
  rw [hq, getD_append_lt _ _ 4 (by omega), getD_append_lt _ _ 5 (by omega)]
  exact ⟨rfl, by rw [List.length_append]; omega⟩

theorem packet_command_poke (p : PacketBuffer) (pos v : Nat) (h : 6 ≤ pos ∨ pos + 1 < 4) :
    packet_command (p.poke_ushort pos v) = packet_command p ∧
    (p.poke_ushort pos v).buffer.length = p.buffer.length := by
  unfold packet_command PacketBuffer.poke_ushort
  dsimp only
  rw [getD_set_ne _ 4 _ _ (by omega), getD_set_ne _ 4 _ _ (by omega),
    getD_set_ne _ 5 _ _ (by omega), getD_set_ne _ 5 _ _ (by omega)]
  exact ⟨rfl, by simp⟩

theorem client_list_entries_command (client : Nat) (cl : List Client) :
    ∀ (p : PacketBuffer) (count : Nat), 6 ≤ p.buffer.length →
      packet_command (client_list_entries client cl p count).1 = packet_command p ∧
      6 ≤ (client_list_entries client cl p count).1.buffer.length := by
  induction cl with
  | nil => intro p count h; exact ⟨rfl, h⟩
  | cons c cs ih =>
    intro p count h
    unfold client_list_entries
    split
    · dsimp only
      have h1 := packet_command_append p (p.pack_ushort 0) _ (pack_ushort_buffer p 0) h
      have h2 := packet_command_append (p.pack_ushort 0)
        ((p.pack_ushort 0).pack_string c.hostname) _ (pack_string_buffer _ _) h1.2
      have h3 := packet_command_append ((p.pack_ushort 0).pack_string c.hostname)
        (((p.pack_ushort 0).pack_string c.hostname).pack_ushort (to_ushort c.port)) _
        (pack_ushort_buffer _ _) h2.2
      have h4 := packet_command_poke
        (((p.pack_ushort 0).pack_string c.hostname).pack_ushort (to_ushort c.port))
        p.bytes_written
        ((((p.pack_ushort 0).pack_string c.hostname).pack_ushort (to_ushort c.port)).bytes_written
          - p.bytes_written) (Or.inl h)
      have h5 := ih ((((p.pack_ushort 0).pack_string c.hostname).pack_ushort
        (to_ushort c.port)).poke_ushort p.bytes_written
        ((((p.pack_ushort 0).pack_string c.hostname).pack_ushort (to_ushort c.port)).bytes_written
          - p.bytes_written)) (count + 1) (by rw [h4.2]; exact h3.2)
      exact ⟨h5.1.trans (h4.1.trans (h3.1.trans (h2.1.trans h1.1))), h5.2⟩
    · exact ih p count h

theorem init_packet_command (cmd : Nat) (h : cmd < 256) :
    packet_command (init_packet PacketBuffer.create cmd) = cmd ∧
    (init_packet PacketBuffer.create cmd).buffer.length = 6 := by
  rw [packet_command, init_packet_buffer]
  simp [enc_u16]
  omega

theorem client_list_tail (s : Link) (client : Nat) (c : Client) (pk : PacketBuffer)
    (hc : s.get_client client = some c) (hsock : c.socket.isSome = true)
    (h6 : 6 ≤ pk.buffer.length) (hk : packet_command pk = PACKET_CLIENT_LIST) :
    ∃ cl, send_packet s client
        ((client_list_entries client s.clients pk 0).1.poke_ushort 6
          (client_list_entries client s.clients pk 0).2)
        = some (s.emit [Event.write client cl]) ∧
      frame_command cl = PACKET_CLIENT_LIST := by
  rw [send_packet_eq s client _ c hc, if_pos hsock]
  refine ⟨_, rfl, ?_⟩
  have h1 := client_list_entries_command client s.clients pk 0 h6
  have h2 := packet_command_poke (client_list_entries client s.clients pk 0).1 6
    (client_list_entries client s.clients pk 0).2 (Or.inl (le_refl _))
  have h3 := packet_command_poke ((client_list_entries client s.clients pk 0).1.poke_ushort 6
    (client_list_entries client s.clients pk 0).2) 0
    ((client_list_entries client s.clients pk 0).1.poke_ushort 6
      (client_list_entries client s.clients pk 0).2).bytes_written (Or.inr (by omega))
  exact h3.1.trans (h2.1.trans (h1.1.trans hk))

theorem send_client_list_frame (s : Link) (client : Nat) (c : Client)
    (hc : s.get_client client = some c) (hsock : c.socket.isSome = true)
    (hact : ∀ a, s.active_client = some a → (s.get_client a).isSome = true) :
    ∃ cl, send_client_list s client = some (s.emit [Event.write client cl]) ∧
      frame_command cl = PACKET_CLIENT_LIST := by
  have hlen : s.clients.length > 0 := by
    have := List.mem_of_find?_eq_some hc
    exact List.length_pos_of_mem this
  have hi := init_packet_command PACKET_CLIENT_LIST (by decide)
  have p1 := packet_command_append _
    ((init_packet PacketBuffer.create PACKET_CLIENT_LIST).pack_ushort 0) _
    (pack_ushort_buffer _ 0) (le_of_eq hi.2.symm)
  unfold send_client_list
  rw [if_pos hlen]
  dsimp only
  cases hactive : s.active with
  | true =>
    have e : ((CLIENTLIST_FORWARDABLE ||| CLIENTLIST_IAM_ACTIVE) &&& CLIENTLIST_HAS_ACTIVE_REF
        != 0) = false := by decide
    simp only [if_true, e, Bool.false_eq_true, if_false]
    have p2 := packet_command_append _
      (((init_packet PacketBuffer.create PACKET_CLIENT_LIST).pack_ushort 0).pack_ushort
        (CLIENTLIST_FORWARDABLE ||| CLIENTLIST_IAM_ACTIVE)) _ (pack_ushort_buffer _ _) p1.2
    exact client_list_tail s client c _ hc hsock p2.2 (p2.1.trans (p1.1.trans hi.1))
  | false =>
    cases hac : s.active_client with
    | none =>
      have e : (CLIENTLIST_FORWARDABLE &&& CLIENTLIST_HAS_ACTIVE_REF != 0) = false := by decide
      simp only [Bool.false_eq_true, if_false, Option.isSome_none, e]
      have p2 := packet_command_append _
        (((init_packet PacketBuffer.create PACKET_CLIENT_LIST).pack_ushort 0).pack_ushort
          CLIENTLIST_FORWARDABLE) _ (pack_ushort_buffer _ _) p1.2
      exact client_list_tail s client c _ hc hsock p2.2 (p2.1.trans (p1.1.trans hi.1))
    | some a =>
      have e : ((CLIENTLIST_FORWARDABLE ||| CLIENTLIST_HAS_ACTIVE_REF)
          &&& CLIENTLIST_HAS_ACTIVE_REF != 0) = true := by decide
      simp only [Bool.false_eq_true, if_false, Option.isSome_some, if_true, e, Option.bind]
      have ha := hact a hac
      cases hga : s.get_client a with
      | none => rw [hga] at ha; simp at ha
      | some ac =>
        dsimp only
        have p2 := packet_command_append _
          (((init_packet PacketBuffer.create PACKET_CLIENT_LIST).pack_ushort 0).pack_ushort
            (CLIENTLIST_FORWARDABLE ||| CLIENTLIST_HAS_ACTIVE_REF)) _ (pack_ushort_buffer _ _) p1.2
        have p3 := packet_command_append _
          ((((init_packet PacketBuffer.create PACKET_CLIENT_LIST).pack_ushort 0).pack_ushort
            (CLIENTLIST_FORWARDABLE ||| CLIENTLIST_HAS_ACTIVE_REF)).pack_string ac.hostname) _
          (pack_string_buffer _ _) p2.2
        have p4 := packet_command_append _
          (((((init_packet PacketBuffer.create PACKET_CLIENT_LIST).pack_ushort 0).pack_ushort
            (CLIENTLIST_FORWARDABLE ||| CLIENTLIST_HAS_ACTIVE_REF)).pack_string
              ac.hostname).pack_ushort (to_ushort ac.port)) _
          (pack_ushort_buffer _ _) p3.2
        exact client_list_tail s client c _ hc hsock p4.2
          (p4.1.trans (p3.1.trans (p2.1.trans (p1.1.trans hi.1))))


theorem has_identity_iff (h : CString) (port : Int) (c : Client) :
    has_identity h port c = true ↔ c.port = port ∧ c.hostname = some h := by
  simp [has_identity]

theorem get_client_remove_ne (s : Link) (old client : Nat) (hne : old ≠ client) :
    (remove_client s old).2.get_client client = s.get_client client := by
  unfold remove_client Link.get_client
  dsimp only
  induction s.clients with
  | nil => rfl
  | cons a as ih =>
    by_cases ha : a.id = old
    · have hb : (a.id == client) = false := by
        rw [ha]
        simpa using hne
      have ha2 : (a.id == old) = true := by simpa using ha
      rw [List.filter_cons, List.find?_cons, hb, ha2]
      simpa using ih
    · have ha2 : (a.id == old) = false := by simpa using ha
      rw [List.filter_cons, ha2]
      simp only [Bool.not_false, if_true, List.find?_cons]
      rw [ih]

theorem remove_client_activeKnown (s : Link) (old : Nat) (h : ActiveKnown s) :
    ActiveKnown (remove_client s old).2 := by
  intro a ha
  have hao : s.active_client = some a ∧ a ≠ old := by
    unfold remove_client at ha
    dsimp only at ha
    split at ha
    · simp at ha
    · rename_i hne
      refine ⟨ha, ?_⟩
      intro he
      subst he
      simp [ha] at hne
  rw [get_client_remove_ne s old a (fun e => hao.2 e.symm)]
  exact h a hao.1

theorem assign_identity_get (s : Link) (client a : Nat) (host : Option CString) (port : Int) :
    (assign_identity s client host port).get_client a =
      (s.get_client a).map (fun c =>
        if c.id == client then { c with hostname := host, port := port } else c) := by
  unfold assign_identity Link.get_client update_client
  dsimp only
  rw [find_map_id]
  intro x
  split <;> rfl

theorem set_canonical_outcome (s : Link) (client : Nat) (c : Client) (h m : CString)
    (port : Int) (hinv : TableInv s) (hm : s.myname = some m)
    (hs : LookupSafe s.clients port) (hc : s.get_client client = some c)
    (hact : ActiveKnown s) :
    (hello_duplicate s client h port → set_canonical s client (some h) port = some (false, s)) ∧
    (¬ hello_duplicate s client h port → ∃ s0,
      set_canonical s client (some h) port
        = some (true, assign_identity s0 client (some h) port) ∧
      s0.get_client client = some c ∧ s0.trace = s.trace ∧ ActiveKnown s0 ∧
      s0.myname = s.myname ∧ s0.server_port = s.server_port) := by
  obtain ⟨hnd, _, huq⟩ := (tableInv_iff s).mp hinv
  have huniq : ∀ a ∈ s.clients, ∀ b ∈ s.clients, has_identity h port a = true →
      has_identity h port b = true → a = b := by
    intro a ha b hb hia hib
    rw [has_identity_iff] at hia hib
    exact eq_of_id_eq_nodup s.clients hnd a b ha hb
      (huq a ha b hb (by rw [hia.2]; simp) (hia.2.trans hib.2.symm) (hia.1.trans hib.1.symm))
  rw [set_canonical_eq s client h m port hm hs]
  unfold hello_duplicate
  cases hme : client_is_me s (some h) port with
  | true => exact ⟨fun _ => rfl, fun hn => absurd (Or.inl rfl) hn⟩
  | false =>
    rw [if_neg (by simp)]
    rcases last_match_cases h port s.clients none with ⟨hl, hno⟩ | ⟨oc, hoc, hi, hl⟩
    · rw [hl]
      refine ⟨?_, fun _ => ⟨s, rfl, hc, rfl, hact, rfl, rfl⟩⟩
      rintro (hd | ⟨q, hq, _, hqi, _⟩)
      · simp at hd
      · rw [hno q hq] at hqi
        simp at hqi
    · rw [hl]
      dsimp only
      by_cases hoid : oc.id = client
      · have hb : (oc.id != client) = false := by simp [hoid]
        rw [hb]
        refine ⟨?_, fun _ => ⟨s, rfl, hc, rfl, hact, rfl, rfl⟩⟩
        rintro (hd | ⟨q, hq, hqc, hqi, _⟩)
        · simp at hd
        · have := huniq q hq oc hoc hqi hi
          rw [this] at hqc
          exact absurd hoid hqc
      · have hb : (oc.id != client) = true := by simp [hoid]
        rw [hb]
        have hg : s.get_client oc.id = some oc := find_id_of_mem_nodup s.clients hnd oc hoc
        rw [hg]
        dsimp only
        cases hsock : oc.socket.isSome with
        | true =>
          refine ⟨fun _ => rfl, fun hn => absurd (Or.inr ⟨oc, hoc, hoid, hi, hsock⟩) hn⟩
        | false =>
          refine ⟨?_, fun _ => ⟨(remove_client s oc.id).2, rfl, ?_, rfl,
            remove_client_activeKnown s oc.id hact, rfl, rfl⟩⟩
          · rintro (hd | ⟨q, hq, hqc, hqi, hqs⟩)
            · simp at hd
            · have := huniq q hq oc hoc hqi hi
              rw [this, hsock] at hqs
              simp at hqs
          · rw [get_client_remove_ne s oc.id client hoid]
            exact hc


theorem send_welcome_eq (s : Link) (client : Nat) (c : Client)
    (hc : s.get_client client = some c) (hsock : c.socket.isSome = true) :
    send_welcome s client
      = some (s.emit [Event.write client (welcome_frame s.myname s.server_port)]) := by
  unfold send_welcome
  dsimp only
  rw [send_packet_eq s client _ c hc, if_pos hsock]
  congr 4
  apply poke_length_frame
  simp [pack_ushort_buffer, pack_string_buffer, init_packet_buffer]

theorem send_duplicate_eq (s : Link) (client : Nat) (c : Client)
    (hc : s.get_client client = some c) (hsock : c.socket.isSome = true) :
    send_duplicate s client = some (s.emit [Event.write client duplicate_frame]) := by
  unfold send_duplicate
  rw [send_packet_eq s client _ c hc, if_pos hsock]
  congr 4

theorem welcome_and_list (s : Link) (client : Nat) (c : Client)
    (hc : s.get_client client = some c) (hsock : c.socket.isSome = true)
    (hact : ActiveKnown s) :
    ∃ s1 cl, (send_welcome s client).bind (fun s2 => send_client_list s2 client) = some s1 ∧
      s1.trace = s.trace ++ [Event.write client (welcome_frame s.myname s.server_port),
        Event.write client cl] ∧
      frame_command cl = PACKET_CLIENT_LIST ∧ s1.clients = s.clients := by
  rw [send_welcome_eq s client c hc hsock, Option.some_bind]
  obtain ⟨cl, h1, h2⟩ := send_client_list_frame
    (s.emit [Event.write client (welcome_frame s.myname s.server_port)]) client c hc hsock hact
  refine ⟨_, cl, h1, ?_, h2, rfl⟩
  simp [Link.emit]

/-- C14: a HELLO with valid credentials that announces (`h`, `port`), from a
peer `client` of the table that has a live socket, on a node that knows its
own name, whose table satisfies the invariant of reachable states and whose
lookups for `port` meet no NULL hostname. If the identity is the local
node's or that of another peer with a live socket, `handle_hello` returns
after writing exactly one frame, DUPLICATE, to the sender; the sender is
removed, and every other record, that other peer included, stays in the table
as it was. Otherwise `handle_hello` returns after writing exactly two frames
to the sender, WELCOME and then a CLIENT_LIST frame, and the sender is in the
table with the identity (`h`, `port`). -/
theorem handle_hello_outcome (s : Link) (client : Nat) (c : Client) (packet : PacketBuffer)
    (user pass : Option CString) (h m : CString) (port : Nat)
    (hinv : TableInv s) (hm : s.myname = some m) (hs : LookupSafe s.clients port)
    (hc : s.get_client client = some c) (hsock : c.socket.isSome = true)
    (hact : ActiveKnown s) (hf : hello_fields packet = (user, pass, some h, port))
    (hcred : (credential_ok s.username user && credential_ok s.password pass) = true) :
    (hello_duplicate s client h port →
      handle_hello s client packet
        = some (remove_client (s.emit [Event.write client duplicate_frame]) client).2 ∧
      (remove_client (s.emit [Event.write client duplicate_frame]) client).2.trace
        = s.trace ++ [Event.write client duplicate_frame] ∧
      (remove_client (s.emit [Event.write client duplicate_frame]) client).2.get_client client
        = none ∧
      ∀ q ∈ s.clients, q.id ≠ client →
        q ∈ (remove_client (s.emit [Event.write client duplicate_frame]) client).2.clients) ∧
    (¬ hello_duplicate s client h port →
      ∃ s1 cl, handle_hello s client packet = some s1 ∧
        s1.trace = s.trace ++ [Event.write client (welcome_frame (some m) s.server_port),
          Event.write client cl] ∧
        frame_command cl = PACKET_CLIENT_LIST ∧
        s1.get_client client = some { c with hostname := some h, port := port }) := by
  have hid : c.id = client := by
    have := List.find?_some hc
    simpa using this
  obtain ⟨o1, o2⟩ := set_canonical_outcome s client c h m port hinv hm hs hc hact
  have he : handle_hello s client packet = hello_accept s client (some h) port := by
    rw [handle_hello_eq, hf, if_pos hcred]
  rw [he]
  unfold hello_accept
  constructor
  · intro hd
    rw [o1 hd]
    dsimp only
    rw [send_duplicate_eq s client c hc hsock]
    refine ⟨rfl, rfl, remove_client_gone _ _, ?_⟩
    intro q hq hne
    unfold remove_client
    dsimp only
    rw [List.mem_filter]
    exact ⟨hq, by simpa using hne⟩
  · intro hd
    obtain ⟨s0, h0, hc0, ht0, ha0, hm0, hp0⟩ := o2 hd
    rw [h0]
    dsimp only
    have hg : (assign_identity s0 client (some h) port).get_client client
        = some { c with hostname := some h, port := port } := by
      rw [assign_identity_get, hc0]
      simp [hid]
    have hact1 : ActiveKnown (assign_identity s0 client (some h) port) := by
      intro a ha
      rw [assign_identity_get]
      have := ha0 a ha
      cases hga : s0.get_client a with
      | none => rw [hga] at this; simp at this
      | some x => rfl
    obtain ⟨s1, cl, h1, h2, h3, h4⟩ := welcome_and_list
      (assign_identity s0 client (some h) port) client _ hg hsock hact1
    refine ⟨s1, cl, h1, ?_, h3, ?_⟩
    · rw [h2]
      show s0.trace ++ _ = _
      rw [ht0]
      show s.trace ++ [Event.write client (welcome_frame s0.myname s0.server_port), _] = _
      rw [hm0, hp0, hm]
    · unfold Link.get_client
      rw [h4]
      exact hg

/-- C14 (witness): client 2 of the reachable node "a", whose client 1 is the
connected peer ("q", 2), announces ("q", 2): it gets one DUPLICATE frame and
is removed, client 1 stays. Client 1 of the reachable node "a" with one
accepted connection announces ("q", 2): it gets WELCOME and then CLIENT_LIST
and is in the table as ("q", 2). -/
theorem handle_hello_outcome_witness :
    (Reachable demo_defaults demo_connected_accepted ∧
      hello_duplicate demo_connected_accepted 2 [113] 2 ∧
      (handle_hello demo_connected_accepted 2 ⟨demo_hello_frame, 6⟩).map
        (fun s => (s.trace.drop demo_connected_accepted.trace.length, peer_keys s))
        = some ([Event.write 2 [0, 6, 1, 0, 0, 7]], [(1, some [113], 2)]) ∧
      handle_hello demo_connected_accepted 2 ⟨demo_hello_frame, 6⟩ = some (remove_client
        (demo_connected_accepted.emit [Event.write 2 duplicate_frame]) 2).2) ∧
    (Reachable demo_defaults demo_accepted ∧ ¬ hello_duplicate demo_accepted 1 [113] 2 ∧
      (handle_hello demo_accepted 1 ⟨demo_hello_frame, 6⟩).map (fun s => writes s.trace)
        = some [(1, [0, 11, 1, 0, 0, 2, 0, 1, 97, 106, 137]),
                (1, [0, 10, 1, 0, 0, 3, 0, 0, 0, 3])] ∧
      (handle_hello demo_accepted 1 ⟨demo_hello_frame, 6⟩).map peer_keys
        = some [(1, some [113], 2)] ∧
      ∃ s1 cl, handle_hello demo_accepted 1 ⟨demo_hello_frame, 6⟩ = some s1 ∧
        s1.trace = demo_accepted.trace ++
          [Event.write 1 (welcome_frame (some [97]) demo_accepted.server_port),
           Event.write 1 cl] ∧
        frame_command cl = PACKET_CLIENT_LIST ∧
        (s1.get_client 1).map (fun c => (c.hostname, c.port)) = some (some [113], 2)) := by
  have r2 : Reachable demo_defaults demo_connected_accepted :=
    Reachable.step demo_connected demo_connected_accepted (Op.socket_accepted (some 100))
      demo_connected_reachable rfl
  have d2 : hello_duplicate demo_connected_accepted 2 [113] 2 := by
    unfold hello_duplicate; decide
  have n1 : ¬ hello_duplicate demo_accepted 1 [113] 2 := by
    unfold hello_duplicate; decide
  have a2 : ActiveKnown demo_connected_accepted := by
    have hn : demo_connected_accepted.active_client = none := by decide
    intro a ha
    rw [hn] at ha
    cases ha
  have a1 : ActiveKnown demo_accepted := by
    have hn : demo_accepted.active_client = none := by decide
    intro a ha
    rw [hn] at ha
    cases ha
  have w2 := (handle_hello_outcome demo_connected_accepted 2 _ ⟨demo_hello_frame, 6⟩
    (some []) (some []) [113] [97] 2 (reachable_inv r2) (by decide)
    (by unfold LookupSafe; decide) rfl (by decide) a2 (by decide) (by decide)).1 d2
  obtain ⟨s1, cl, h1, h2, h3, h4⟩ := (handle_hello_outcome demo_accepted 1 _
    ⟨demo_hello_frame, 6⟩ (some []) (some []) [113] [97] 2
    (reachable_inv demo_accepted_reachable) (by decide)
    (by unfold LookupSafe; decide) rfl (by decide) a1 (by decide) (by decide)).2 n1
  exact ⟨⟨r2, d2, by decide, w2.1⟩, demo_accepted_reachable, n1, by decide, by decide,
    s1, cl, h1, h2, h3, by rw [h4]; rfl⟩


theorem heartbeat_idle (s : Link) (now : Int) (h : ∀ c ∈ s.clients, c.reconnect_count = 0) :
    ∃ s1, heartbeat s now = some s1 ∧ s1.clients = s.clients ∧
      connects s1.trace = connects s.trace := by
  obtain ⟨s1, d, h1, h2, h3, h4⟩ := heartbeat_eq s now
  have hdue : ∀ c ∈ s.clients, reconnect_due now c = false := by
    intro c hc
    unfold reconnect_due
    simp [h c hc]
  refine ⟨s1, h1, ?_, ?_⟩
  · rw [h2]
    conv_rhs => rw [← List.map_id s.clients]
    apply List.map_congr_left
    intro c hc
    simp [hdue c hc]
  · rw [h3, connects_append, h4]
    have : s.clients.filter (reconnect_due now) = [] := by
      rw [List.filter_eq_nil_iff]
      intro c hc
      simp [hdue c hc]
    rw [this]
    simp

theorem ticks_idle (times : List Int) :
    ∀ s : Link, (∀ c ∈ s.clients, c.reconnect_count = 0) →
      ∃ s1, ticks times s = some s1 ∧ s1.clients = s.clients ∧
        connects s1.trace = connects s.trace := by
  induction times with
  | nil => intro s _; exact ⟨s, rfl, rfl, rfl⟩
  | cons t ts ih =>
    intro s h
    obtain ⟨s1, h1, h2, h3⟩ := heartbeat_idle s t h
    obtain ⟨s2, h4, h5, h6⟩ := ih s1 (by rw [h2]; exact h)
    refine ⟨s2, ?_, h5.trans h2, h6.trans h3⟩
    unfold ticks
    rw [h1]
    exact h4

theorem disconnect_all_eq (s : Link) :
    (disconnect_all s).2.clients = s.clients.map disconnected ∧
    (disconnect_all s).2.active = true ∧ (disconnect_all s).2.active_client = none ∧
    connects (disconnect_all s).2.trace = connects s.trace := by
  unfold disconnect_all set_me_active
  dsimp only
  split
  · refine ⟨rfl, rfl, rfl, ?_⟩
    simp only [Link.emit]
    rw [connects_append]
    simp [connects]
  · exact ⟨rfl, rfl, rfl, rfl⟩

/-- C21: after `disconnect_all()` every record of the peer table has no
socket, `reconnect_count` 0 and `reconnect_time` 0, and is otherwise what it
was: the table holds the same records with the same identities;
`get_number_of_peers()` is 0; the node is SELF_ACTIVE (`active` true,
`active_client` NULL); the result is true exactly when the table was not
empty; and every run of heartbeat ticks that follows returns without a single
`driver.connect` call and leaves the table as it is. -/
theorem disconnect_all_behaviour (s : Link) :
    (disconnect_all s).2.clients = s.clients.map disconnected ∧
    (∀ c ∈ (disconnect_all s).2.clients,
      c.socket = none ∧ c.reconnect_count = 0 ∧ c.reconnect_time = 0) ∧
    peer_keys (disconnect_all s).2 = peer_keys s ∧
    get_number_of_peers (disconnect_all s).2 = 0 ∧
    (disconnect_all s).2.active = true ∧ (disconnect_all s).2.active_client = none ∧
    ((disconnect_all s).1 = true ↔ s.clients ≠ []) ∧
    ∀ times : List Int, ∃ s1, ticks times (disconnect_all s).2 = some s1 ∧
      s1.clients = (disconnect_all s).2.clients ∧
      connects s1.trace = connects s.trace := by
  obtain ⟨h1, h2, h3, h4⟩ := disconnect_all_eq s
  have hall : ∀ c ∈ (disconnect_all s).2.clients,
      c.socket = none ∧ c.reconnect_count = 0 ∧ c.reconnect_time = 0 := by
    intro c hc
    rw [h1] at hc
    obtain ⟨d, _, rfl⟩ := List.mem_map.mp hc
    exact ⟨rfl, rfl, rfl⟩
  refine ⟨h1, hall, ?_, ?_, h2, h3, ?_, ?_⟩
  · unfold peer_keys
    rw [h1, List.map_map]
    rfl
  · unfold get_number_of_peers
    rw [List.length_eq_zero, List.filter_eq_nil_iff]
    intro c hc
    simp [(hall c hc).1]
  · unfold disconnect_all
    dsimp only
    cases s.clients <;> simp
  · intro times
    obtain ⟨s1, h5, h6, h7⟩ := ticks_idle times (disconnect_all s).2 (fun c hc => (hall c hc).2.1)
    exact ⟨s1, h5, h6, h7.trans h4⟩


theorem disable_client_table (s : Link) (client : Nat) (t : Int) :
    (disable_client s client t).clients
      = s.clients.map (fun c => if c.id == client then disabled s t c else c) ∧
    (disable_client s client t).active_client
      = (if s.active_client = some client then none else s.active_client) ∧
    (disable_client s client t).active
      = (if s.active_client = some client then false else s.active) := by
  unfold disable_client
  dsimp only
  by_cases h : s.active_client = some client
  · have hb : (s.active_client == some client) = true := by simp [h]
    rw [hb, if_pos rfl, if_pos h, if_pos h]
    unfold set_active
    dsimp only
    split <;> exact ⟨rfl, rfl, rfl⟩
  · have hb : (s.active_client == some client) = false := by simpa using h
    rw [hb, if_neg (by simp), if_neg h, if_neg h]
    exact ⟨rfl, rfl, rfl⟩

/-- C25: for a peer `client` of the table, `socket_closed`, a read error in
`socket_io` and a read of zero bytes in `socket_io` all return, with the same
outcome: the record of `client` stays in the table with its socket dropped,
`reconnect_count` set to the configured `reconnect_attempts` and
`reconnect_time` to now + `reconnect_interval`, its other fields and every
other record unchanged; if `client` was the active client the role becomes
UNKNOWN (`active` false, `active_client` NULL), otherwise `active` and
`active_client` are unchanged. -/
theorem connection_lost_behaviour (drv : Driver) (s : Link) (client : Nat) (c : Client)
    (t : Int) (data : List Nat) (hc : s.get_client client = some c) :
    socket_closed s client t = some (disable_client s client t) ∧
    socket_io drv s client false data t = some (disable_client s client t) ∧
    socket_io drv s client true [] t = some (disable_client s client t) ∧
    (disable_client s client t).clients
      = s.clients.map (fun x => if x.id == client then disabled s t x else x) ∧
    (disable_client s client t).get_client client = some (disabled s t c) ∧
    (∀ x ∈ s.clients, x.id ≠ client → x ∈ (disable_client s client t).clients) ∧
    peer_keys (disable_client s client t) = peer_keys s ∧
    (s.active_client = some client →
      (disable_client s client t).active = false ∧
      (disable_client s client t).active_client = none) ∧
    (s.active_client ≠ some client →
      (disable_client s client t).active = s.active ∧
      (disable_client s client t).active_client = s.active_client) := by
  obtain ⟨h1, h2, h3⟩ := disable_client_table s client t
  have hid : c.id = client := by
    have := List.find?_some hc
    simpa using this
  refine ⟨?_, ?_, ?_, h1, ?_, ?_, (disable_client_samePeers s client t).1, ?_, ?_⟩
  · unfold socket_closed
    rw [hc]
  · unfold socket_io
    rw [hc]
    rfl
  · unfold socket_io
    rw [hc]
    rfl
  · unfold Link.get_client
    rw [h1, find_map_id]
    · unfold Link.get_client at hc
      rw [hc]
      simp [hid]
    · intro x
      split <;> rfl
  · intro x hx hne
    rw [h1]
    refine List.mem_map.mpr ⟨x, hx, ?_⟩
    have hb : (x.id == client) = false := by simpa using hne
    simp [hb]
  · intro ha
    rw [h2, h3, if_pos ha, if_pos ha]
    exact ⟨rfl, rfl⟩
  · intro ha
    rw [h2, h3, if_neg ha, if_neg ha]
    exact ⟨rfl, rfl⟩

/-- C25 (witness): on the reachable node "a" whose active client is the
connected client 1, `socket_closed` for client 1 at time 7 leaves client 1 in
the table without socket, with 5 attempts and the next attempt at 22, and the
role UNKNOWN. -/
theorem connection_lost_behaviour_witness :
    Reachable demo_defaults demo_claimed ∧ demo_claimed.active_client = some 1 ∧
    socket_closed demo_claimed 1 7 = some (disable_client demo_claimed 1 7) ∧
    ((disable_client demo_claimed 1 7).get_client 1).map
      (fun c => (c.socket, c.reconnect_count, c.reconnect_time)) = some (none, 5, 22) ∧
    (disable_client demo_claimed 1 7).active = false ∧
    (disable_client demo_claimed 1 7).active_client = none := by
  have h := connection_lost_behaviour demo_driver demo_claimed 1 _ 7 [] rfl
  exact ⟨demo_claimed_reachable, by decide, h.1, by decide, (h.2.2.2.2.2.2.2.1 (by decide)).1,
    (h.2.2.2.2.2.2.2.1 (by decide)).2⟩


theorem state_loop_step (s : Link) (w : Bool) (id : Nat) (d : Option (List Nat))
    (es : List (Nat × Option (List Nat))) (hid : id < 65536)
    (hlen : (d.getD []).length < 65536) (buf pre rest : List Nat) (pos : Nat)
    (hb : buf = pre ++ (stateinfo_entries ((id, d) :: es) ++ rest)) (hp : pos = pre.length) :
    ∃ pre1, buf = pre1 ++ (stateinfo_entries es ++ rest) ∧
      pos + 2 + 2 + (d.getD []).length = pre1.length ∧
      state_loop s w (es.length + 1) ⟨buf, pos⟩ =
        (if (d.getD []).length = 0 then
          state_loop s w es.length ⟨buf, pos + 2 + 2 + (d.getD []).length⟩
        else
          match s.state_map.lookup id with
          | none => none
          | some _ =>
            (state_loop s w es.length ⟨buf, pos + 2 + 2 + (d.getD []).length⟩).map
              (fun r => Event.set_state id w (d.getD []) :: r)) := by
  have hent : stateinfo_entries ((id, d) :: es)
      = enc_u16 (d.getD []).length ++ (enc_u16 id ++ (d.getD [] ++ stateinfo_entries es)) := by
    cases d <;> simp [stateinfo_entries]
  rw [hent] at hb
  have hb1 : buf = pre ++ (enc_u16 (d.getD []).length
      ++ (enc_u16 id ++ (d.getD [] ++ stateinfo_entries es) ++ rest)) := by
    rw [hb]; simp
  have hb2 : buf = (pre ++ enc_u16 (d.getD []).length)
      ++ (enc_u16 id ++ (d.getD [] ++ stateinfo_entries es ++ rest)) := by
    rw [hb]; simp
  have hb3 : buf = (pre ++ enc_u16 (d.getD []).length ++ enc_u16 id)
      ++ (d.getD [] ++ (stateinfo_entries es ++ rest)) := by
    rw [hb]; simp
  have hb4 : buf = (pre ++ enc_u16 (d.getD []).length ++ enc_u16 id ++ d.getD [])
      ++ (stateinfo_entries es ++ rest) := by
    rw [hb]; simp
  have hp2 : pos + 2 = (pre ++ enc_u16 (d.getD []).length).length := by
    simp [enc_u16, hp]
  have hp3 : pos + 2 + 2 = (pre ++ enc_u16 (d.getD []).length ++ enc_u16 id).length := by
    simp [enc_u16, hp]
  have hp4 : pos + 2 + 2 + (d.getD []).length
      = (pre ++ enc_u16 (d.getD []).length ++ enc_u16 id ++ d.getD []).length := by
    simp [enc_u16, hp]
    omega
  refine ⟨_, hb4, hp4, ?_⟩
  conv_lhs => unfold state_loop
  dsimp only
  rw [unpack_ushort_at buf pre _ pos _ hb1 hp hlen]
  dsimp only
  rw [unpack_ushort_at buf _ _ (pos + 2) id hb2 hp2 hid]
  dsimp only
  by_cases hz : (d.getD []).length = 0
  · have hz2 : ((d.getD []).length != 0) = false := by simp [hz]
    rw [hz2, if_pos hz]
    simp [hz]
  · have hz2 : ((d.getD []).length != 0) = true := by simp [hz]
    rw [hz2, if_neg hz]
    simp only [if_true]
    rw [unpack_raw_at buf _ _ (d.getD []) (pos + 2 + 2) hb3 hp3]

theorem state_loop_unregistered (s : Link) (w : Bool) (id : Nat) (data : List Nat)
    (later : List (Nat × Option (List Nat))) (hne : data.length ≠ 0)
    (hun : s.state_map.lookup id = none) (good : List (Nat × Option (List Nat))) :
    (∀ e ∈ good ++ (id, some data) :: later, e.1 < 65536 ∧ (e.2.getD []).length < 65536) →
    (∀ e ∈ good, (e.2.getD []).length ≠ 0 → s.state_map.lookup e.1 ≠ none) →
    ∀ (buf pre rest : List Nat) (pos : Nat),
      buf = pre ++ (stateinfo_entries (good ++ (id, some data) :: later) ++ rest) →
      pos = pre.length →
      state_loop s w (good ++ (id, some data) :: later).length ⟨buf, pos⟩ = none := by
  induction good with
  | nil =>
    intro hw _ buf pre rest pos hb hp
    obtain ⟨hid, hlen⟩ := hw _ (List.mem_cons_self _ _)
    obtain ⟨pre1, _, _, h3⟩ := state_loop_step s w id (some data) later hid hlen buf pre rest
      pos hb hp
    rw [List.nil_append, List.length_cons, h3]
    have hz : ¬ ((some data).getD []).length = 0 := hne
    rw [if_neg hz, hun]
  | cons e es ih =>
    intro hw hreg buf pre rest pos hb hp
    obtain ⟨hid, hlen⟩ := hw e (List.mem_cons_self _ _)
    have hr := hreg e (List.mem_cons_self _ _)
    obtain ⟨eid, d⟩ := e
    obtain ⟨pre1, h1, h2, h3⟩ := state_loop_step s w eid d (es ++ (id, some data) :: later)
      hid hlen buf pre rest pos hb hp
    have ihn := ih (fun x hx => hw x (List.mem_cons_of_mem _ hx))
      (fun x hx => hreg x (List.mem_cons_of_mem _ hx)) buf pre1 rest _ h1 h2
    rw [List.cons_append, List.length_cons, h3, ihn]
    split
    · rfl
    · cases s.state_map.lookup eid <;> rfl

theorem handle_state_frame (s : Link) (client : Nat) (host : CString) (port : Nat)
    (states : List (Nat × Option (List Nat)))
    (hh : CStringFits host) (hp : port < 65536) (hn : states.length < 65536) :
    ∃ pre, stateinfo_frame (some host) port states = pre ++ (stateinfo_entries states ++ []) ∧
      handle_state s client ⟨stateinfo_frame (some host) port states, 6⟩ =
        match state_loop s (client_is_me s (some host) port) states.length
          ⟨stateinfo_frame (some host) port states, pre.length⟩ with
        | none => none
        | some es =>
          some (if s.dist_manager then (s.emit es).emit [Event.state_transfer_complete]
            else s.emit es) := by
  have hfr : stateinfo_frame (some host) port states
      = (enc_u16 (6 + (enc_string (some host) ++ enc_u16 port ++ enc_u16 states.length
          ++ stateinfo_entries states).length) ++ [1, 0] ++ enc_u16 PACKET_STATEINFO)
        ++ (enc_string (some host) ++ (enc_u16 port ++ (enc_u16 states.length
          ++ (stateinfo_entries states ++ [])))) := by
    unfold stateinfo_frame frame
    rw [to_ushort_of_nat port hp]
    simp
  generalize hpre : enc_u16 (6 + (enc_string (some host) ++ enc_u16 port ++ enc_u16 states.length
          ++ stateinfo_entries states).length) ++ [1, 0] ++ enc_u16 PACKET_STATEINFO = pre at hfr
  have hpl : pre.length = 6 := by
    rw [← hpre]
    simp [enc_u16]
  generalize stateinfo_frame (some host) port states = buf at hfr
  have hb1 : buf = (pre ++ enc_string (some host)) ++ (enc_u16 port ++ (enc_u16 states.length
      ++ (stateinfo_entries states ++ []))) := by
    rw [hfr]; simp
  have hb2 : buf = (pre ++ enc_string (some host) ++ enc_u16 port) ++ (enc_u16 states.length
      ++ (stateinfo_entries states ++ [])) := by
    rw [hfr]; simp
  have hb3 : buf = (pre ++ enc_string (some host) ++ enc_u16 port ++ enc_u16 states.length)
      ++ (stateinfo_entries states ++ []) := by
    rw [hfr]; simp
  have hp1 : 6 + 2 + host.length = (pre ++ enc_string (some host)).length := by
    simp [enc_string, enc_u16, hpl]
    omega
  have hp2 : 6 + 2 + host.length + 2 = (pre ++ enc_string (some host) ++ enc_u16 port).length := by
    simp [enc_string, enc_u16, hpl]
    omega
  have hp3 : 6 + 2 + host.length + 2 + 2
      = (pre ++ enc_string (some host) ++ enc_u16 port ++ enc_u16 states.length).length := by
    simp [enc_string, enc_u16, hpl]
    omega
  refine ⟨_, hb3, ?_⟩
  unfold handle_state
  dsimp only
  rw [unpack_string_at buf pre _ host 6 hfr hpl.symm hh]
  dsimp only
  rw [unpack_ushort_at buf _ _ _ port hb1 hp1 hp]
  dsimp only
  rw [unpack_ushort_at buf _ _ _ states.length hb2 hp2 hn]
  dsimp only
  rw [hp3]
  simp only [Option.isSome_some, if_true]
  rfl

/-- C27 (divergence): a well-formed STATEINFO frame in which an entry with
data names a state id that has no provider in the registry of the receiving
node, the entries before it being deliverable: `handle_state` reaches
`state_map[id]->set_state(...)` for that entry, a call on a provider that is
not there, and has no defined outcome. -/
theorem handle_state_calls_absent_provider (s : Link) (client : Nat) (host : CString)
    (port id : Nat) (data : List Nat) (good later : List (Nat × Option (List Nat)))
    (hh : CStringFits host) (hp : port < 65536)
    (hf : StatesFit (good ++ (id, some data) :: later))
    (hreg : ∀ e ∈ good, (e.2.getD []).length ≠ 0 → s.state_map.lookup e.1 ≠ none)
    (hne : data ≠ []) (hun : s.state_map.lookup id = none) :
    handle_state s client
      ⟨stateinfo_frame (some host) port (good ++ (id, some data) :: later), 6⟩ = none := by
  obtain ⟨pre, h1, h2⟩ := handle_state_frame s client host port
    (good ++ (id, some data) :: later) hh hp hf.1
  rw [h2, state_loop_unregistered s _ id data later (by simpa using hne) hun good hf.2 hreg
    _ pre [] _ h1 rfl]

/-- C27 (witness): node "b" without any provider (reachable: `init()`, a
listener, one accepted connection) receives from client 1 the STATEINFO
frame of node "a" with the entry (3, 42, 01 02 03): the handler calls the
provider for id 42, which does not exist. -/
theorem handle_state_calls_absent_provider_witness :
    Reachable demo_defaults demo_b_bare ∧ demo_b_bare.state_map.lookup 42 = none ∧
    handle_state demo_b_bare 1 ⟨demo_state_frame, 6⟩ = none ∧
    socket_io demo_driver demo_b_bare 1 true demo_state_frame 0 = none :=
  ⟨Reachable.step _ _ (Op.socket_accepted (some 100))
      (Reachable.step _ _ (Op.set_distribution_manager true)
        (Reachable.init (some [98]) demo_config) rfl) rfl,
    by decide,
    handle_state_calls_absent_provider demo_b_bare 1 [97] 27273 42 [1, 2, 3] [] []
      (by unfold CStringFits; decide) (by decide) (by unfold StatesFit; decide)
      (by simp) (by decide) (by decide),
    by decide⟩


theorem find_loop_null_hostname (name : Option CString) (port : Int) (cl : List Client) :
    ∀ ret : Option Nat, (∃ c ∈ cl, c.port = port ∧ c.hostname = none) →
      find_loop name port cl ret = none := by
  induction cl with
  | nil => intro ret h; obtain ⟨c, hc, _⟩ := h; simp at hc
  | cons a as ih =>
    intro ret h
    obtain ⟨c, hc, hp, hh⟩ := h
    unfold find_loop
    rcases List.mem_cons.mp hc with rfl | hc1
    · simp [hp, hh, strcmp_eq]
    · have hrec : ∀ r, find_loop name port as r = none := fun r => ih r ⟨c, hc1, hp, hh⟩
      split
      · split
        · rfl
        · exact hrec _
        · exact hrec _
      · exact hrec _

/-- C28 (divergence): when a record of the peer table has no hostname and
the port `port`, which is not the local port, every lookup of a name on that
port compares the absent hostname (`strcmp` on NULL) and has no defined
outcome: `find_client_by_canonicalname`, `exists_client`, and with them
`set_canonical` (HELLO, WELCOME) and `set_active` by name (NEW_MASTER,
CLIENT_LIST active reference). -/
theorem lookup_compares_absent_hostname (s : Link) (client : Nat) (name : Option CString)
    (port : Int) (hex : ∃ c ∈ s.clients, c.port = port ∧ c.hostname = none)
    (hp : port ≠ s.server_port) :
    find_client_by_canonicalname s name port = none ∧ exists_client s name port = none ∧
    set_canonical s client name port = none ∧ set_active_name s name port = none := by
  have h1 : find_client_by_canonicalname s name port = none :=
    find_loop_null_hostname name port s.clients none hex
  have hs : is_self s name port = some false := by
    unfold is_self
    have : (port == s.server_port) = false := by simpa using hp
    rw [this]
    rfl
  have h2 : exists_client s name port = none := by
    unfold exists_client
    rw [hs]
    dsimp only
    rw [h1]
  refine ⟨h1, h2, ?_, ?_⟩
  · unfold set_canonical
    dsimp only
    rw [h2]
  · unfold set_active_name
    rw [h1]

/-- C28 (witness): on the reachable node "a" with one accepted connection,
client 1 has no hostname and port 0, and a HELLO from it that announces
("x", 0) makes the lookup compare the absent hostname. A HELLO from client 1
with a truncated name field and port 9 is accepted and leaves client 1
without hostname and with port 9, a reachable table in which a peer without
hostname has a non-zero port; a NEW_MASTER naming ("z", 9) then compares the
absent hostname again. -/
theorem lookup_compares_absent_hostname_witness :
    Reachable demo_defaults demo_accepted ∧
    peer_keys demo_accepted = [(1, none, 0)] ∧
    set_canonical demo_accepted 1 (some [120]) 0 = none ∧
    socket_io demo_driver demo_accepted 1 true (hello_frame none none (some [120]) 0) 0
      = none ∧
    hello_fields ⟨demo_truncated_hello, 6⟩ = (some [], some [], none, 9) ∧
    socket_io demo_driver demo_accepted 1 true demo_truncated_hello 0 = some demo_nameless ∧
    Reachable demo_defaults demo_nameless ∧
    peer_keys demo_nameless = [(1, none, 9)] ∧
    socket_io demo_driver demo_nameless 1 true (new_master_frame (some [122]) 9) 0 = none :=
  ⟨demo_accepted_reachable, by decide,
    (lookup_compares_absent_hostname demo_accepted 1 (some [120]) 0
      ⟨_, List.mem_cons_self _ _, rfl, rfl⟩ (by decide)).2.2.1,
    by decide, by decide, by decide,
    Reachable.step demo_accepted demo_nameless
      (Op.socket_io demo_driver 1 true demo_truncated_hello 0) demo_accepted_reachable
      (by decide),
    by decide, by decide⟩


theorem set_set_at (pre rest : List Nat) (a b x y : Nat) :
    ((pre ++ a :: b :: rest).set pre.length x).set (pre.length + 1) y
      = pre ++ x :: y :: rest := by
  induction pre with
  | nil => rfl
  | cons p ps ih => simpa using ih

theorem poke_ushort_at (p : PacketBuffer) (pre rest : List Nat) (a b v : Nat)
    (hb : p.buffer = pre ++ a :: b :: rest) :
    (p.poke_ushort pre.length v).buffer = pre ++ (enc_u16 v ++ rest) := by
  unfold PacketBuffer.poke_ushort
  dsimp only
  rw [hb, set_set_at]
  rfl

theorem client_list_entries_eq (client : Nat) (cl : List Client) :
    ∀ (p : PacketBuffer) (count : Nat),
      (client_list_entries client cl p count).1.buffer = p.buffer ++
        client_list_entries_bytes (cl.filter (fun c => c.id != client && c.socket.isSome)) ∧
      (client_list_entries client cl p count).2
        = count + (cl.filter (fun c => c.id != client && c.socket.isSome)).length := by
  induction cl with
  | nil => intro p count; exact ⟨by simp [client_list_entries, client_list_entries_bytes], rfl⟩
  | cons c cs ih =>
    intro p count
    unfold client_list_entries
    split
    · rename_i hcond
      dsimp only
      have hq : (((p.pack_ushort 0).pack_string c.hostname).pack_ushort
          (to_ushort c.port)).buffer
          = p.buffer ++ 0 :: 0 :: (enc_string c.hostname ++ enc_u16 (to_ushort c.port)) := by
        rw [pack_ushort_buffer, pack_string_buffer, pack_ushort_buffer]
        simp [enc_u16]
      have hlen : (((p.pack_ushort 0).pack_string c.hostname).pack_ushort
          (to_ushort c.port)).bytes_written - p.bytes_written
          = 2 + (enc_string c.hostname).length + 2 := by
        unfold PacketBuffer.bytes_written
        rw [hq]
        simp [enc_u16]
        omega
      have hpoke : ((((p.pack_ushort 0).pack_string c.hostname).pack_ushort
          (to_ushort c.port)).poke_ushort p.bytes_written
          ((((p.pack_ushort 0).pack_string c.hostname).pack_ushort
            (to_ushort c.port)).bytes_written - p.bytes_written)).buffer
          = p.buffer ++ (enc_u16 (2 + (enc_string c.hostname).length + 2)
            ++ (enc_string c.hostname ++ enc_u16 (to_ushort c.port))) := by
        rw [hlen]
        exact poke_ushort_at _ p.buffer _ 0 0 _ hq
      obtain ⟨i1, i2⟩ := ih ((((p.pack_ushort 0).pack_string c.hostname).pack_ushort
        (to_ushort c.port)).poke_ushort p.bytes_written
        ((((p.pack_ushort 0).pack_string c.hostname).pack_ushort
          (to_ushort c.port)).bytes_written - p.bytes_written)) (count + 1)
      rw [hpoke] at i1
      refine ⟨?_, ?_⟩
      · rw [i1, List.filter_cons, if_pos hcond]
        simp [client_list_entries_bytes, client_list_entry]
      · rw [i2, List.filter_cons, if_pos hcond, List.length_cons]
        omega
    · rename_i hcond
      obtain ⟨i1, i2⟩ := ih p count
      rw [List.filter_cons, if_neg hcond]
      exact ⟨i1, i2⟩


theorem client_list_tail_eq (s : Link) (client : Nat) (c : Client) (pk : PacketBuffer)
    (rest : List Nat) (hc : s.get_client client = some c) (hsock : c.socket.isSome = true)
    (hpk : pk.buffer = ([0, 0, 1, 0] ++ enc_u16 PACKET_CLIENT_LIST) ++ 0 :: 0 :: rest) :
    send_packet s client
        ((client_list_entries client s.clients pk 0).1.poke_ushort 6
          (client_list_entries client s.clients pk 0).2)
      = some (s.emit [Event.write client (frame PACKET_CLIENT_LIST
          (enc_u16 (listed_peers s client).length ++ (rest
            ++ client_list_entries_bytes (listed_peers s client))))]) := by
  rw [send_packet_eq s client _ c hc, if_pos hsock]
  obtain ⟨h1, h2⟩ := client_list_entries_eq client s.clients pk 0
  have hb : (client_list_entries client s.clients pk 0).1.buffer
      = ([0, 0, 1, 0] ++ enc_u16 PACKET_CLIENT_LIST) ++ 0 :: 0 ::
        (rest ++ client_list_entries_bytes (listed_peers s client)) := by
    rw [h1, hpk]
    simp [listed_peers]
  have hp := poke_ushort_at (client_list_entries client s.clients pk 0).1
    ([0, 0, 1, 0] ++ enc_u16 PACKET_CLIENT_LIST) _ 0 0
    (client_list_entries client s.clients pk 0).2 hb
  have h6 : ([0, 0, 1, 0] ++ enc_u16 PACKET_CLIENT_LIST).length = 6 := rfl
  rw [h6] at hp
  congr 4
  apply poke_length_frame
  rw [hp, h2, Nat.zero_add]
  rfl

theorem client_list_flags_cases (s : Link) :
    (s.active = true → client_list_flags s = CLIENTLIST_FORWARDABLE ||| CLIENTLIST_IAM_ACTIVE) ∧
    (s.active = false → s.active_client.isSome = true →
      client_list_flags s = CLIENTLIST_FORWARDABLE ||| CLIENTLIST_HAS_ACTIVE_REF) ∧
    (s.active = false → s.active_client.isSome = false →
      client_list_flags s = CLIENTLIST_FORWARDABLE) := by
  unfold client_list_flags
  refine ⟨fun h => ?_, fun h1 h2 => ?_, fun h1 h2 => ?_⟩
  · rw [h]
    simp only [Bool.not_true, Bool.false_and, Bool.false_eq_true, if_false, if_true]
    decide
  · rw [h1, h2]; decide
  · rw [h1, h2]; decide

theorem send_client_list_eq (s : Link) (client : Nat) (c : Client)
    (hc : s.get_client client = some c) (hsock : c.socket.isSome = true)
    (hact : ActiveKnown s) :
    send_client_list s client
      = some (s.emit [Event.write client (client_list_frame s client)]) := by
  have hlen : s.clients.length > 0 := by
    have := List.mem_of_find?_eq_some hc
    exact List.length_pos_of_mem this
  obtain ⟨f1, f2, f3⟩ := client_list_flags_cases s
  unfold send_client_list
  rw [if_pos hlen]
  dsimp only
  unfold client_list_frame active_ref_bytes
  cases hactive : s.active with
  | true =>
    have e : ((CLIENTLIST_FORWARDABLE ||| CLIENTLIST_IAM_ACTIVE) &&& CLIENTLIST_HAS_ACTIVE_REF
        != 0) = false := by decide
    simp only [if_true, e, Bool.false_eq_true, if_false, Bool.not_true, Bool.false_and]
    rw [f1 hactive, List.append_nil]
    refine (client_list_tail_eq s client c _ (enc_u16 (CLIENTLIST_FORWARDABLE |||
      CLIENTLIST_IAM_ACTIVE)) hc hsock (by
        rw [pack_ushort_buffer, pack_ushort_buffer, init_packet_buffer]
        simp [enc_u16])).trans ?_
    simp
  | false =>
    cases hac : s.active_client with
    | none =>
      have e : (CLIENTLIST_FORWARDABLE &&& CLIENTLIST_HAS_ACTIVE_REF != 0) = false := by decide
      simp only [Bool.false_eq_true, if_false, Option.isSome_none, e, Bool.not_false,
        Bool.and_false]
      rw [f3 hactive (by rw [hac]; rfl), List.append_nil]
      refine (client_list_tail_eq s client c _ (enc_u16 CLIENTLIST_FORWARDABLE) hc hsock (by
        rw [pack_ushort_buffer, pack_ushort_buffer, init_packet_buffer]
        simp [enc_u16])).trans ?_
      simp
    | some a =>
      have e : ((CLIENTLIST_FORWARDABLE ||| CLIENTLIST_HAS_ACTIVE_REF)
          &&& CLIENTLIST_HAS_ACTIVE_REF != 0) = true := by decide
      simp only [Bool.false_eq_true, if_false, Option.isSome_some, if_true, e, Option.bind,
        Bool.not_false, Bool.and_true]
      have ha := hact a hac
      cases hga : s.get_client a with
      | none => rw [hga] at ha; simp at ha
      | some ac =>
        dsimp only
        rw [f2 hactive (by rw [hac]; rfl)]
        refine (client_list_tail_eq s client c _ (enc_u16 (CLIENTLIST_FORWARDABLE |||
          CLIENTLIST_HAS_ACTIVE_REF) ++ (enc_string ac.hostname
            ++ enc_u16 (to_ushort ac.port))) hc hsock (by
          rw [pack_ushort_buffer, pack_string_buffer, pack_ushort_buffer, pack_ushort_buffer,
            init_packet_buffer]
          simp [enc_u16])).trans ?_
        simp


theorem client_list_flags_bits (s : Link) :
    client_list_flags s &&& CLIENTLIST_FORWARDABLE ≠ 0 ∧
    (client_list_flags s &&& CLIENTLIST_IAM_ACTIVE ≠ 0 ↔ s.active = true) ∧
    (client_list_flags s &&& CLIENTLIST_HAS_ACTIVE_REF ≠ 0 ↔
      s.active = false ∧ s.active_client ≠ none) := by
  obtain ⟨f1, f2, f3⟩ := client_list_flags_cases s
  cases ha : s.active with
  | true =>
    rw [f1 ha]
    refine ⟨by decide, ⟨fun _ => rfl, fun _ => by decide⟩, ⟨fun h => absurd ?_ h, fun h => ?_⟩⟩
    · decide
    · simp at h
  | false =>
    cases hc : s.active_client with
    | none =>
      rw [f3 ha (by rw [hc]; rfl)]
      refine ⟨by decide, ⟨fun h => absurd ?_ h, fun h => by simp at h⟩,
        ⟨fun h => absurd ?_ h, fun h => by simp at h⟩⟩
      · decide
      · decide
    | some a =>
      rw [f2 ha (by rw [hc]; rfl)]
      refine ⟨by decide, ⟨fun h => absurd ?_ h, fun h => by simp at h⟩,
        ⟨fun _ => ⟨rfl, by simp⟩, fun _ => by decide⟩⟩
      decide

/-- C24: for a recipient `client` of the table with a live socket, on a node
whose active client (if any) is a record of the table, `send_client_list`
returns after writing to `client` exactly one frame, CLIENT_LIST with the
payload `count, flags, [active reference], entries`: the entries are, in
table order, `{entry_len, host, port}` of exactly the peers other than
`client` that have a live socket, and `count` is their number; the flags
word has FORWARDABLE set, I_AM_ACTIVE set iff `active`, and HAS_ACTIVE_REF
set iff `active` is false and `active_client` is not NULL; the active
reference is the host and port of the active client when HAS_ACTIVE_REF is
set, and is absent otherwise. -/
theorem send_client_list_layout (s : Link) (client : Nat) (c : Client)
    (hc : s.get_client client = some c) (hsock : c.socket.isSome = true)
    (hact : ActiveKnown s) :
    send_client_list s client
      = some (s.emit [Event.write client (client_list_frame s client)]) ∧
    client_list_frame s client = frame PACKET_CLIENT_LIST
      (enc_u16 (listed_peers s client).length ++ enc_u16 (client_list_flags s)
        ++ active_ref_bytes s ++ client_list_entries_bytes (listed_peers s client)) ∧
    (∀ q, q ∈ listed_peers s client ↔ q ∈ s.clients ∧ q.id ≠ client ∧ q.socket ≠ none) ∧
    (listed_peers s client).Sublist s.clients ∧
    client_list_flags s &&& CLIENTLIST_FORWARDABLE ≠ 0 ∧
    (client_list_flags s &&& CLIENTLIST_IAM_ACTIVE ≠ 0 ↔ s.active = true) ∧
    (client_list_flags s &&& CLIENTLIST_HAS_ACTIVE_REF ≠ 0 ↔
      s.active = false ∧ s.active_client ≠ none) ∧
    (∀ a ac, s.active = false → s.active_client = some a → s.get_client a = some ac →
      active_ref_bytes s = enc_string ac.hostname ++ enc_u16 (to_ushort ac.port)) ∧
    ((s.active = true ∨ s.active_client = none) → active_ref_bytes s = []) := by
  obtain ⟨b1, b2, b3⟩ := client_list_flags_bits s
  refine ⟨send_client_list_eq s client c hc hsock hact, rfl, ?_, List.filter_sublist _,
    b1, b2, b3, ?_, ?_⟩
  · intro q
    unfold listed_peers
    rw [List.mem_filter]
    simp [Option.isSome_iff_ne_none]
  · intro a ac h1 h2 h3
    unfold active_ref_bytes
    simp [h1, h2, h3]
  · intro h
    unfold active_ref_bytes
    rcases h with h | h
    · simp [h]
    · simp [h]

/-- C24 (witness): node "a" has the connected peer "q" (client 1, identity
("q", 2)) as its active client and a second connected peer, client 2. The
CLIENT_LIST it builds for client 2 is `00 16 01 00 00 03 | 00 01 | 00 05 |
00 01 'q' 00 02 | 00 07 00 01 'q' 00 02`: one entry, flags FORWARDABLE and
HAS_ACTIVE_REF, the active reference ("q", 2) and the entry ("q", 2). -/
theorem send_client_list_layout_witness :
    Reachable demo_defaults demo_q_active ∧
    peer_keys demo_q_active = [(1, some [113], 2), (2, none, 0)] ∧
    demo_q_active.active = false ∧ demo_q_active.active_client = some 1 ∧
    send_client_list demo_q_active 2 = some (demo_q_active.emit [Event.write 2
      [0, 22, 1, 0, 0, 3, 0, 1, 0, 5, 0, 1, 113, 0, 2, 0, 7, 0, 1, 113, 0, 2]]) := by
  have r : Reachable demo_defaults demo_q_active :=
    Reachable.step demo_connected_accepted demo_q_active
      (Op.socket_io demo_driver 1 true demo_claim_frame 0)
      (Reachable.step demo_connected demo_connected_accepted (Op.socket_accepted (some 100))
        demo_connected_reachable rfl) (by decide)
  have ha : ActiveKnown demo_q_active := by
    intro a h
    have h1 : demo_q_active.active_client = some 1 := by decide
    rw [h1] at h
    cases h
    decide
  exact ⟨r, by decide, by decide, by decide,
    (send_client_list_layout demo_q_active 2 _ rfl (by decide) ha).1⟩


theorem client_list_flags_lt (s : Link) : client_list_flags s < 65536 := by
  obtain ⟨f1, f2, f3⟩ := client_list_flags_cases s
  cases ha : s.active with
  | true => rw [f1 ha]; decide
  | false =>
    cases hc : s.active_client with
    | none => rw [f3 ha (by rw [hc]; rfl)]; decide
    | some a => rw [f2 ha (by rw [hc]; rfl)]; decide

theorem frame_flags_client_list (s : Link) (client : Nat) :
    frame_flags (client_list_frame s client) = client_list_flags s ∧
    frame_command (client_list_frame s client) = PACKET_CLIENT_LIST := by
  have h := client_list_flags_lt s
  unfold frame_flags frame_command client_list_frame frame
  simp only [enc_u16, List.cons_append, List.nil_append, List.getD_cons_succ,
    List.getD_cons_zero, List.append_assoc]
  constructor
  · omega
  · decide

theorem handle_welcome_eq (s : Link) (client : Nat) (packet : PacketBuffer) :
    handle_welcome s client packet =
      match set_canonical s client (welcome_fields packet).1 (welcome_fields packet).2 with
      | none => none
      | some (true, s1) => send_client_list (set_active s1 none) client
      | some (false, s1) =>
        (send_duplicate s1 client).map (fun s2 => (remove_client s2 client).2) := rfl

/-- C23: a WELCOME naming (`h`, `port`) from a peer `client` of the table
that has a live socket, where the identity is accepted (it is not the local
one and no other peer with a live socket has it), on a node that knows its
own name, whose table satisfies the invariant of reachable states and whose
lookups for `port` meet no NULL hostname: whatever the role was before,
`handle_welcome` returns with the role UNKNOWN (`active` false,
`active_client` NULL), after the listener callback `active_changed(false)`
(when a listener is installed) and exactly one write, to `client`: a
CLIENT_LIST frame whose flags word is FORWARDABLE alone, with neither
I_AM_ACTIVE nor HAS_ACTIVE_REF. -/
theorem handle_welcome_accepted (s : Link) (client : Nat) (c : Client) (packet : PacketBuffer)
    (h m : CString) (port : Nat)
    (hinv : TableInv s) (hm : s.myname = some m) (hs : LookupSafe s.clients port)
    (hc : s.get_client client = some c) (hsock : c.socket.isSome = true)
    (hact : ActiveKnown s) (hf : welcome_fields packet = (some h, port))
    (hok : ¬ hello_duplicate s client h port) :
    ∃ s1 cl, handle_welcome s client packet = some s1 ∧
      s1.active = false ∧ s1.active_client = none ∧
      s1.trace = s.trace ++ (if s.dist_manager then [Event.active_changed false] else [])
        ++ [Event.write client cl] ∧
      frame_command cl = PACKET_CLIENT_LIST ∧
      frame_flags cl = CLIENTLIST_FORWARDABLE ∧
      frame_flags cl &&& CLIENTLIST_IAM_ACTIVE = 0 ∧
      frame_flags cl &&& CLIENTLIST_HAS_ACTIVE_REF = 0 := by
  have hid : c.id = client := by
    have := List.find?_some hc
    simpa using this
  obtain ⟨s0, h0, hc0, ht0, ha0, hm0, hp0⟩ :=
    (set_canonical_outcome s client c h m port hinv hm hs hc hact).2 hok
  have hd0 : s0.dist_manager = s.dist_manager := by
    have := set_canonical_grows Event.is_write h0
    exact this.1
  rw [handle_welcome_eq, hf, h0]
  dsimp only
  have hg : (set_active (assign_identity s0 client (some h) port) none).get_client client
      = some { c with hostname := some h, port := port } := by
    have e1 : (set_active (assign_identity s0 client (some h) port) none).get_client client
        = (assign_identity s0 client (some h) port).get_client client := by
      unfold Link.get_client
      rw [(set_active_table _ _).1]
    rw [e1, assign_identity_get, hc0]
    simp [hid]
  have hrole : (set_active (assign_identity s0 client (some h) port) none).active = false ∧
      (set_active (assign_identity s0 client (some h) port) none).active_client = none ∧
      (set_active (assign_identity s0 client (some h) port) none).trace
        = s.trace ++ (if s.dist_manager then [Event.active_changed false] else []) := by
    unfold set_active
    dsimp only
    have hd1 : (assign_identity s0 client (some h) port).dist_manager = s.dist_manager := hd0
    have ht1 : (assign_identity s0 client (some h) port).trace = s.trace := ht0
    rw [hd1]
    split
    · exact ⟨rfl, rfl, by simp [Link.emit, ht1]⟩
    · exact ⟨rfl, rfl, by simp [ht1]⟩
  have hact2 : ActiveKnown (set_active (assign_identity s0 client (some h) port) none) := by
    intro a ha
    rw [hrole.2.1] at ha
    cases ha
  have hsend := send_client_list_eq _ client _ hg hsock hact2
  have hfl := frame_flags_client_list
    (set_active (assign_identity s0 client (some h) port) none) client
  have hflags : client_list_flags (set_active (assign_identity s0 client (some h) port) none)
      = CLIENTLIST_FORWARDABLE :=
    (client_list_flags_cases _).2.2 hrole.1 (by rw [hrole.2.1]; rfl)
  refine ⟨_, _, hsend, hrole.1, hrole.2.1, ?_, hfl.2, hfl.1.trans hflags, ?_, ?_⟩
  · show _ ++ _ = _
    rw [hrole.2.2]
  · rw [hfl.1, hflags]; decide
  · rw [hfl.1, hflags]; decide

/-- C23 (witness): the self-active node "a" with a listener, connected to the
joined peer "q" (client 1), receives the WELCOME of ("q", 2): it ends UNKNOWN
after `active_changed(false)` and one CLIENT_LIST frame to client 1,
`00 0a 01 00 00 03 | 00 00 | 00 01`, flags FORWARDABLE alone. -/
theorem handle_welcome_accepted_witness :
    Reachable demo_defaults demo_listening_connected ∧
    demo_listening_connected.active = true ∧
    ∃ s1 cl, handle_welcome demo_listening_connected 1 ⟨demo_welcome_frame, 6⟩ = some s1 ∧
      s1.active = false ∧ s1.active_client = none ∧
      s1.trace = demo_listening_connected.trace ++ [Event.active_changed false]
        ++ [Event.write 1 cl] ∧
      frame_flags cl = CLIENTLIST_FORWARDABLE ∧
      socket_io demo_driver demo_listening_connected 1 true demo_welcome_frame 0 =
        some (clear_packet s1 1) ∧
      cl = [0, 10, 1, 0, 0, 3, 0, 0, 0, 1] := by
  have r : Reachable demo_defaults demo_listening_connected :=
    Reachable.step demo_connected demo_listening_connected (Op.set_distribution_manager true)
      demo_connected_reachable rfl
  have hn : ¬ hello_duplicate demo_listening_connected 1 [113] 2 := by
    unfold hello_duplicate; decide
  have ha : ActiveKnown demo_listening_connected := by
    have h0 : demo_listening_connected.active_client = none := by decide
    intro a h
    rw [h0] at h
    cases h
  obtain ⟨s1, cl, h1, h2, h3, h4, _, h6, _, _⟩ :=
    handle_welcome_accepted demo_listening_connected 1 _ ⟨demo_welcome_frame, 6⟩ [113] [97] 2
      (reachable_inv r) (by decide) (by unfold LookupSafe; decide) rfl (by decide) ha
      (by decide) hn
  have e : handle_welcome demo_listening_connected 1 ⟨demo_welcome_frame, 6⟩
      = some ((set_active demo_listening_connected none).emit
          [Event.write 1 [0, 10, 1, 0, 0, 3, 0, 0, 0, 1]]) := by decide
  have e2 : socket_io demo_driver demo_listening_connected 1 true demo_welcome_frame 0
      = some (clear_packet ((set_active demo_listening_connected none).emit
          [Event.write 1 [0, 10, 1, 0, 0, 3, 0, 0, 0, 1]]) 1) := by decide
  rw [e] at h1
  have hs1 := Option.some.inj h1
  subst hs1
  have hcl : cl = [0, 10, 1, 0, 0, 3, 0, 0, 0, 1] := by
    have h5 := h4
    simp [Link.emit, set_active, demo_listening_connected, set_distribution_manager] at h5
    exact h5.symm
  exact ⟨r, by decide, _, cl, e, h2, h3, h4, h6, e2, hcl⟩


theorem client_list_loop_reads (drv : Driver) (n : Nat) (s : Link) (packet : PacketBuffer) :
    client_list_loop drv (n + 1) s packet =
      match (if (read_entry packet).1.2.1.isSome && (read_entry packet).1.2.2.1 != 0 then
          match exists_client s (read_entry packet).1.2.1 (read_entry packet).1.2.2.1 with
          | none => none
          | some true => some s
          | some false =>
            add_client drv s (read_entry packet).1.2.1 (read_entry packet).1.2.2.1
        else some s) with
      | none => none
      | some s1 => client_list_loop drv n s1 (read_entry packet).2 := rfl

theorem client_list_role_reads (s : Link) (client : Nat) (packet : PacketBuffer) (s1 : Link)
    (p1 : PacketBuffer)
    (h : client_list_role s client packet.unpack_ushort.2.unpack_ushort.1
      packet.unpack_ushort.2.unpack_ushort.2 = some (s1, p1)) :
    p1 = (read_header packet).2.2.2 := by
  unfold client_list_role at h
  unfold read_header
  dsimp only at h ⊢
  split at h
  · simp at h
    rw [if_pos (by assumption)]
    exact h.2.symm
  · rw [if_neg (by assumption)]
    split at h
    · rw [if_pos (by assumption)]
      simp only [Option.map_eq_some'] at h
      obtain ⟨s3, _, h4⟩ := h
      simp at h4
      exact h4.2.symm
    · rw [if_neg (by assumption)]
      simp at h
      exact h.2.symm

theorem handle_claim_active (s : Link) (c : Nat) (rec : Client) (packet : PacketBuffer)
    (hc : s.get_client c = some rec) (hact : s.active = true) :
    ∃ s1, handle_claim s c packet = some s1 ∧
      s1.active_client = some c ∧ s1.active = false ∧ s1.clients = s.clients ∧
      s1.trace = s.trace ++ (if s.dist_manager then [Event.active_changed false] else []) ++
        broadcast_except s.clients none (stateinfo_frame rec.hostname rec.port s.state_map) ++
        broadcast_except s.clients none (new_master_frame rec.hostname rec.port) := by
  have h1 : (set_active s (some c)).active = false := by
    unfold set_active; dsimp only; split <;> rfl
  have h2 : (set_active s (some c)).active_client = some c := by
    unfold set_active; dsimp only; split <;> rfl
  have h3 : (set_active s (some c)).get_client c = some rec := by
    unfold set_active; dsimp only; split <;> exact hc
  have h4 : (set_active s (some c)).clients = s.clients := (set_active_table s (some c)).1
  have h5 : (set_active s (some c)).state_map = s.state_map := by
    unfold set_active; dsimp only; split <;> rfl
  have h6 : (set_active s (some c)).trace
      = s.trace ++ (if s.dist_manager then [Event.active_changed false] else []) := by
    unfold set_active; dsimp only
    split
    · rename_i hd
      simp [Link.emit, hd]
    · rename_i hd
      simp [hd]
  have hga : get_active (set_active s (some c)) = some (true, rec.hostname, rec.port) := by
    unfold get_active
    rw [h1, h2]
    simp [h3]
  unfold handle_claim
  dsimp only
  rw [if_pos hact, send_state_eq _ _ _ _ hga, Option.some_bind]
  rw [send_new_master_broadcast_remote ((set_active s (some c)).emit
    (broadcast_except (set_active s (some c)).clients none
      (stateinfo_frame rec.hostname rec.port (set_active s (some c)).state_map))) c rec h2 h3]
  refine ⟨_, rfl, h2, h1, h4, ?_⟩
  simp only [Link.emit]
  rw [h4, h5, h6]

theorem handle_new_master_frame (s : Link) (client : Nat) (h : CString) (port : Nat)
    (hh : CStringFits h) (hp : port < 65536) :
    handle_new_master s client ⟨new_master_frame (some h) port, 6⟩
      = set_active_name s (some h) port := by
  have hfr : new_master_frame (some h) port
      = (enc_u16 (6 + (enc_string (some h) ++ enc_u16 port ++ enc_u16 0).length) ++ [1, 0]
          ++ enc_u16 PACKET_NEW_MASTER)
        ++ (enc_string (some h) ++ (enc_u16 port ++ (enc_u16 0 ++ []))) := by
    unfold new_master_frame frame
    rw [to_ushort_of_nat port hp]
    simp
  generalize hpre : enc_u16 (6 + (enc_string (some h) ++ enc_u16 port ++ enc_u16 0).length)
      ++ [1, 0] ++ enc_u16 PACKET_NEW_MASTER = pre at hfr
  have hpl : pre.length = 6 := by
    rw [← hpre]
    simp [enc_u16]
  generalize new_master_frame (some h) port = buf at hfr
  have hb1 : buf = (pre ++ enc_string (some h)) ++ (enc_u16 port ++ (enc_u16 0 ++ [])) := by
    rw [hfr]; simp
  have hp1 : 6 + 2 + h.length = (pre ++ enc_string (some h)).length := by
    simp [enc_string, enc_u16, hpl]
    omega
  unfold handle_new_master
  dsimp only
  rw [unpack_string_at buf pre _ h 6 hfr hpl.symm hh]
  dsimp only
  rw [unpack_ushort_at buf _ _ _ port hb1 hp1 hp]

theorem set_active_name_self (s : Link) (h : CString) (port : Int)
    (hm : s.myname = some h) (hport : s.server_port = port) (hs : LookupSafe s.clients port)
    (hno : ∀ c ∈ s.clients, has_identity h port c = false) :
    set_active_name s (some h) port = some (set_me_active s) := by
  rw [set_active_name_eq s h h port hm hs]
  have hl : last_match h port s.clients none = none := by
    rcases last_match_cases h port s.clients none with ⟨hl, _⟩ | ⟨c, hc, hi, _⟩
    · exact hl
    · rw [hno c hc] at hi
      cases hi
  have hme : client_is_me s (some h) port = true := by
    unfold client_is_me
    simp [hm, hport]
  rw [hl]
  dsimp only
  rw [hme]
  rfl

theorem mem_broadcast (cl : List Client) (c : Client) (fr : List Nat) (hc : c ∈ cl)
    (hsock : c.socket.isSome = true) :
    Event.write c.id fr ∈ broadcast_except cl none fr := by
  unfold broadcast_except
  refine List.mem_map.mpr ⟨c, List.mem_filter.mpr ⟨hc, ?_⟩, rfl⟩
  simp [hsock]


theorem get_active_set_me_active (s : Link) :
    get_active (set_me_active s) = some (true, s.myname, s.server_port) := by
  unfold set_me_active get_active
  dsimp only
  split <;> rfl

/-- C22: node A is self-active and has B in its table as the connected peer
`ib` with the identity (`nb`, `pb`); node B, whose own identity is
(`nb`, `pb`), has A as its active client `ia`, connected. Then `claim()` on B
returns false after writing one CLAIM frame to A; A, handling that frame,
ends with B as its active client after broadcasting the STATEINFO frame that
names (`nb`, `pb`) and then the NEW_MASTER frame that names (`nb`, `pb`),
both of which are written to B; B, handling the STATEINFO frame, delivers
every state with `will_become_active` true; B, handling the NEW_MASTER
frame, becomes self-active; and `get_active()` then returns (`nb`, `pb`) on
both nodes. -/
theorem two_node_claim (a b : Link) (ia ib : Nat) (ca cb : Client) (nb : CString) (pb : Nat)
    (hA_act : a.active = true) (hA_cb : a.get_client ib = some cb)
    (hcb_name : cb.hostname = some nb) (hcb_port : cb.port = pb)
    (hcb_sock : cb.socket.isSome = true) (hA_fit : StatesFit a.state_map)
    (hB_ac : b.active_client = some ia) (hB_ca : b.get_client ia = some ca)
    (hca_sock : ca.socket.isSome = true)
    (hB_name : b.myname = some nb) (hB_port : b.server_port = pb)
    (hB_safe : LookupSafe b.clients pb)
    (hB_noself : ∀ c ∈ b.clients, has_identity nb pb c = false)
    (hB_reg : ∀ e ∈ a.state_map, (e.2.getD []).length ≠ 0 → b.state_map.lookup e.1 ≠ none)
    (hnb : CStringFits nb) (hpb : pb < 65536) :
    ∃ b1 a1 b2 b3,
      claim b = some (false, b1) ∧ b1.trace = b.trace ++ [Event.write ia claim_frame] ∧
      handle_claim a ib ⟨claim_frame, 6⟩ = some a1 ∧
      a1.trace = a.trace ++ (if a.dist_manager then [Event.active_changed false] else []) ++
        broadcast_except a.clients none (stateinfo_frame (some nb) pb a.state_map) ++
        broadcast_except a.clients none (new_master_frame (some nb) pb) ∧
      Event.write ib (stateinfo_frame (some nb) pb a.state_map)
        ∈ broadcast_except a.clients none (stateinfo_frame (some nb) pb a.state_map) ∧
      Event.write ib (new_master_frame (some nb) pb)
        ∈ broadcast_except a.clients none (new_master_frame (some nb) pb) ∧
      handle_state b1 ia ⟨stateinfo_frame (some nb) pb a.state_map, 6⟩ = some b2 ∧
      b2.trace = b1.trace ++ set_state_calls true a.state_map
        ++ (if b.dist_manager then [Event.state_transfer_complete] else []) ∧
      handle_new_master b2 ia ⟨new_master_frame (some nb) pb, 6⟩ = some b3 ∧
      get_active a1 = some (true, some nb, (pb : Int)) ∧
      get_active b3 = some (true, some nb, (pb : Int)) := by
  have hidb : cb.id = ib := by
    have := List.find?_some hA_cb
    simpa using this
  have hmemb : cb ∈ a.clients := List.mem_of_find?_eq_some hA_cb
  -- B claims
  have hclaim := claim_eq_of_remote b ia ca hB_ac hB_ca
  rw [if_pos hca_sock] at hclaim
  -- A handles the CLAIM
  obtain ⟨a1, ha1, ha2, ha3, ha4, ha5⟩ := handle_claim_active a ib cb ⟨claim_frame, 6⟩ hA_cb hA_act
  rw [hcb_name, hcb_port] at ha5
  -- B handles the STATEINFO
  have hme : client_is_me (b.emit [Event.write ia claim_frame]) (some nb) pb = true := by
    unfold client_is_me
    simp [Link.emit, hB_name, hB_port]
  have hstate := handle_state_wellformed (b.emit [Event.write ia claim_frame]) ia nb pb a.state_map
    hnb hpb hA_fit hB_reg
  rw [hme] at hstate
  -- B handles the NEW_MASTER
  have hnm := handle_new_master_frame
    ((b.emit [Event.write ia claim_frame]).emit (set_state_calls true a.state_map
      ++ (if (b.emit [Event.write ia claim_frame]).dist_manager
        then [Event.state_transfer_complete] else []))) ia nb pb hnb hpb
  rw [set_active_name_self ((b.emit [Event.write ia claim_frame]).emit
    (set_state_calls true a.state_map
      ++ (if (b.emit [Event.write ia claim_frame]).dist_manager
        then [Event.state_transfer_complete] else []))) nb pb hB_name hB_port hB_safe
    hB_noself] at hnm
  refine ⟨_, a1, _, _, hclaim, rfl, ha1, ha5, ?_, ?_, hstate, ?_, hnm, ?_, ?_⟩
  · have := mem_broadcast a.clients cb (stateinfo_frame (some nb) pb a.state_map) hmemb hcb_sock
    rw [hidb] at this
    exact this
  · have := mem_broadcast a.clients cb (new_master_frame (some nb) pb) hmemb hcb_sock
    rw [hidb] at this
    exact this
  · simp [Link.emit]
  · unfold get_active
    rw [ha3, ha2]
    have hg : a1.get_client ib = some cb := by
      unfold Link.get_client
      rw [ha4]
      exact hA_cb
    simp [hg, hcb_name, hcb_port]
  · rw [get_active_set_me_active]
    show some (true, b.myname, b.server_port) = _
    rw [hB_name, hB_port]


/-- C22 on the two concrete nodes "a" and "b" (both on port 27273) after "b"
joined "a" and the HELLO / WELCOME / CLIENT_LIST frames each wrote were read
by the other: "a" is self-active, "b" has "a" as its active client; the
claim of "b" writes CLAIM, "a" answers with STATEINFO and NEW_MASTER naming
("b", 27273), "b" delivers the state of id 42 with `will_become_active` true
and reports the completed transfer, and `get_active()` is ("b", 27273) on
both nodes, also when the frames are read through `socket_io`. -/
theorem two_node_claim_witness :
    two_a2.active = true ∧ two_b2.active = false ∧ two_b2.active_client = some 1 ∧
    written_to two_b1 0 1 = [hello_frame none none (some [98]) 27273] ∧
    written_to two_a1 0 1 = [welcome_frame (some [97]) 27273, [0, 10, 1, 0, 0, 3, 0, 0, 0, 3]] ∧
    (∃ b1 a1 b2 b3,
      claim two_b2 = some (false, b1) ∧ b1.trace = two_b2.trace ++ [Event.write 1 claim_frame] ∧
      handle_claim two_a2 1 ⟨claim_frame, 6⟩ = some a1 ∧
      a1.trace = two_a2.trace ++ [Event.active_changed false,
        Event.write 1 (stateinfo_frame (some [98]) 27273 [(42, some [1, 2, 3])]),
        Event.write 1 (new_master_frame (some [98]) 27273)] ∧
      handle_state b1 1 ⟨stateinfo_frame (some [98]) 27273 [(42, some [1, 2, 3])], 6⟩
        = some b2 ∧
      b2.trace = b1.trace ++ [Event.set_state 42 true [1, 2, 3], Event.state_transfer_complete] ∧
      handle_new_master b2 1 ⟨new_master_frame (some [98]) 27273, 6⟩ = some b3 ∧
      get_active a1 = some (true, some [98], 27273) ∧
      get_active b3 = some (true, some [98], 27273)) ∧
    get_active two_a3 = some (true, some [98], 27273) ∧
    get_active two_b4 = some (true, some [98], 27273) := by
  have hsm : two_a2.state_map = [(42, some [1, 2, 3])] := by decide
  have hcl : two_a2.clients = [⟨1, some 100, some [98], 27273, 0, 0, PacketBuffer.create⟩] := by
    decide
  have hdm : two_a2.dist_manager = true := by decide
  have hdb : two_b2.dist_manager = true := by decide
  obtain ⟨b1, a1, b2, b3, h1, h2, h3, h4, _, _, h7, h8, h9, h10, h11⟩ :=
    two_node_claim two_a2 two_b2 1 1 ((two_b2.get_client 1).getD (Client.new 0))
      ((two_a2.get_client 1).getD (Client.new 0)) [98] 27273
      (by decide) (by decide) (by decide) (by decide) (by decide)
      (by unfold StatesFit; decide) (by decide) (by decide) (by decide) (by decide) (by decide)
      (by unfold LookupSafe; decide) (by decide) (by decide) (by unfold CStringFits; decide)
      (by decide)
  rw [hsm] at h4 h7 h8
  rw [hcl, hdm] at h4
  rw [hdb] at h8
  refine ⟨by decide, by decide, by decide, by decide, by decide,
    ⟨b1, a1, b2, b3, h1, h2, h3, ?_, h7, ?_, h9, h10, h11⟩, by decide, by decide⟩
  · rw [h4]; decide
  · rw [h8, List.append_assoc]
    exact congrArg (fun l => b1.trace ++ l) (by decide)

/-! ## The active client and the listener -/

theorem get_client_none_iff (s : Link) (a : Nat) :
    s.get_client a = none ↔ ∀ k ∈ peer_keys s, k.1 ≠ a := by
  unfold Link.get_client peer_keys
  rw [List.find?_eq_none]
  constructor
  · intro h k hk
    obtain ⟨c, hc, rfl⟩ := List.mem_map.mp hk
    simpa using h c hc
  · intro h c hc
    simpa using h _ (List.mem_map_of_mem _ hc)

theorem SamePeers.absent {s s1 : Link} (h : SamePeers s s1) (a : Nat)
    (ha : s.get_client a = none) : s1.get_client a = none := by
  rw [get_client_none_iff] at ha ⊢
  rw [h.1]
  exact ha

theorem remove_client_absent (s : Link) (client a : Nat) (ha : s.get_client a = none) :
    (remove_client s client).2.get_client a = none := by
  by_cases h : a = client
  · rw [h]; exact remove_client_gone s client
  · rw [get_client_remove_ne s client a (fun e => h e.symm)]
    exact ha

theorem assign_identity_absent (s : Link) (client a : Nat) (host : Option CString) (port : Int)
    (ha : s.get_client a = none) : (assign_identity s client host port).get_client a = none := by
  rw [assign_identity_get, ha]
  rfl

theorem set_active_trace (s : Link) (client : Option Nat) :
    (set_active s client).trace
      = s.trace ++ (if s.dist_manager then [Event.active_changed false] else []) := by
  unfold set_active
  dsimp only
  split <;> simp [Link.emit]

theorem set_me_active_trace (s : Link) :
    (set_me_active s).trace
      = s.trace ++ (if s.dist_manager then [Event.active_changed true] else []) := by
  unfold set_me_active
  dsimp only
  split <;> simp [Link.emit]

theorem set_active_listener (s : Link) (client : Option Nat) :
    (set_active s client).dist_manager = s.dist_manager := by
  unfold set_active
  dsimp only
  split <;> rfl

theorem set_me_active_listener (s : Link) :
    (set_me_active s).dist_manager = s.dist_manager := by
  unfold set_me_active
  dsimp only
  split <;> rfl

theorem Heard.heard_refl (s : Link) : Heard s s := ⟨rfl, [], by simp, fun _ _ => rfl⟩

theorem Heard.heard_trans {a b c : Link} (h1 : Heard a b) (h2 : Heard b c) : Heard a c := by
  obtain ⟨m1, d1, t1, p1⟩ := h1
  obtain ⟨m2, d2, t2, p2⟩ := h2
  refine ⟨m2.trans m1, d1 ++ d2, by rw [t2, t1, List.append_assoc], ?_⟩
  intro hm hq
  rw [p2 (m1.trans hm) (fun e he => hq e (List.mem_append_right _ he)),
    p1 hm (fun e he => hq e (List.mem_append_left _ he))]

theorem Heard.of_same {P : Event → Bool} {s s1 : Link}
    (hac : s1.active_client = s.active_client) (hg : Grows P s s1) : Heard s s1 := by
  obtain ⟨m, d, t, _⟩ := hg
  exact ⟨m, d, t, fun _ _ => hac⟩

theorem Heard.of_loud {s s1 : Link} (hm : s1.dist_manager = s.dist_manager) (d : List Event)
    (ht : s1.trace = s.trace ++ d)
    (hl : s.dist_manager = true → ∃ e ∈ d, Event.is_active_changed e = true) : Heard s s1 := by
  refine ⟨hm, d, ht, fun h hq => ?_⟩
  obtain ⟨e, he, hc⟩ := hl h
  rw [hq e he] at hc
  cases hc

theorem set_active_heard (s : Link) (client : Option Nat) : Heard s (set_active s client) := by
  refine Heard.of_loud (set_active_listener s client) _ (set_active_trace s client) ?_
  intro h
  rw [h]
  exact ⟨_, List.mem_singleton_self _, rfl⟩

theorem set_me_active_heard (s : Link) : Heard s (set_me_active s) := by
  refine Heard.of_loud (set_me_active_listener s) _ (set_me_active_trace s) ?_
  intro h
  rw [h]
  exact ⟨_, List.mem_singleton_self _, rfl⟩

theorem set_active_name_heard {s s1 : Link} {hostname : Option CString} {port : Int}
    (h : set_active_name s hostname port = some s1) : Heard s s1 := by
  unfold set_active_name at h
  split at h
  · simp at h
  · simp at h; subst h; exact set_active_heard _ _
  · split at h
    · simp at h
    · simp at h; subst h; exact set_me_active_heard _
    · simp at h; subst h; exact Heard.heard_refl _

theorem client_list_role_heard {s s1 : Link} {client flags : Nat}
    {packet p1 : PacketBuffer}
    (h : client_list_role s client flags packet = some (s1, p1)) : Heard s s1 := by
  unfold client_list_role at h
  dsimp only at h
  split at h
  · simp at h; rw [← h.1]; exact set_active_heard _ _
  · split at h
    · simp only [Option.map_eq_some'] at h
      obtain ⟨s3, h3, h4⟩ := h
      simp at h4
      rw [← h4.1]; exact set_active_name_heard h3
    · simp at h; rw [← h.1]; exact Heard.heard_refl _

theorem handle_client_list_heard {drv : Driver} {s s1 : Link} {client : Nat}
    {packet : PacketBuffer} (h : handle_client_list drv s client packet = some s1) :
    Heard s s1 := by
  unfold handle_client_list at h
  dsimp only at h
  split at h
  · simp at h
  · rename_i s2 p2 hr
    exact ((client_list_role_heard hr).heard_trans
      (Heard.of_same (client_list_forward_sameRole _ _ _ _ _).2
        (client_list_forward_grows _ _ _ _ _))).heard_trans
      (Heard.of_same (client_list_loop_sameRole _ h).2 (client_list_loop_grows _ h))

theorem handle_claim_heard {s s1 : Link} {client : Nat} {packet : PacketBuffer}
    (h : handle_claim s client packet = some s1) : Heard s s1 := by
  unfold handle_claim at h
  simp only [Option.bind_eq_some] at h
  obtain ⟨s2, h2, h3⟩ := h
  refine Heard.heard_trans ?_
    (Heard.of_same (send_new_master_sameRole h3).2 (send_new_master_grows h3))
  split at h2
  · exact (set_active_heard _ _).heard_trans
      (Heard.of_same (send_state_sameRole h2).2 (send_state_grows h2))
  · simp at h2; subst h2; exact set_active_heard _ _

theorem disable_client_heard (s : Link) (client : Nat) (current_time : Int) :
    Heard s (disable_client s client current_time) := by
  unfold disable_client
  dsimp only
  split
  · exact Heard.heard_trans ⟨rfl, [], by simp, fun _ _ => rfl⟩ (set_active_heard _ _)
  · exact ⟨rfl, [], by simp, fun _ _ => rfl⟩

theorem disconnect_all_heard (s : Link) : Heard s (disconnect_all s).2 := by
  unfold disconnect_all
  dsimp only
  have h := set_me_active_heard { s with active_client := none, clients := s.clients.map (fun c =>
    { c with socket := none, reconnect_count := 0, reconnect_time := 0 }) }
  refine Heard.of_loud h.1 _ (set_me_active_trace _) ?_
  intro hm
  have hm2 : ({ s with active_client := none, clients := s.clients.map (fun c =>
    { c with socket := none, reconnect_count := 0, reconnect_time := 0 }) } : Link).dist_manager
      = true := hm
  rw [hm2]
  exact ⟨_, List.mem_singleton_self _, rfl⟩

theorem set_enabled_heard (s : Link) (enabled listen_ok : Bool) :
    Heard s (set_enabled s enabled listen_ok).2 := by
  unfold set_enabled
  dsimp only
  split
  · exact ⟨rfl, [Event.listen s.server_port], rfl, fun _ _ => rfl⟩
  · split
    · have h1 : Heard s { s with server_socket := false } := ⟨rfl, [], by simp, fun _ _ => rfl⟩
      have h2 := disconnect_all_heard { s with server_socket := false }
      have h3 := set_me_active_heard (disconnect_all { s with server_socket := false }).2
      obtain ⟨m, d, t, p⟩ := (h1.heard_trans h2).heard_trans h3
      exact ⟨m, d, t, p⟩
    · exact ⟨rfl, [], by simp, fun _ _ => rfl⟩

theorem read_configuration_heard (K : Defaults) (s : Link) (cfg : ConfigInput) :
    Heard s (read_configuration K s cfg) := by
  unfold read_configuration
  dsimp only
  split
  · have h1 := set_enabled_heard
      { s with server_port := match cfg.env_port with
                              | some p => p
                              | none => cfg.port.getD K.DEFAULT_PORT } false cfg.listen_ok
    have h2 := set_enabled_heard (set_enabled
      { s with server_port := match cfg.env_port with
                              | some p => p
                              | none => cfg.port.getD K.DEFAULT_PORT } false cfg.listen_ok).2
      true cfg.listen_ok
    have h0 : Heard s { s with server_port := match cfg.env_port with
                              | some p => p
                              | none => cfg.port.getD K.DEFAULT_PORT } :=
      ⟨rfl, [], by simp, fun _ _ => rfl⟩
    obtain ⟨m, d, t, p⟩ := (h0.heard_trans h1).heard_trans h2
    exact ⟨m, d, t, p⟩
  · exact ⟨rfl, [], by simp, fun _ _ => rfl⟩

theorem Told.of_heard {s s1 : Link} (h : Heard s s1) : Told s s1 := by
  obtain ⟨m, d, t, p⟩ := h
  exact ⟨m, d, t, fun hm hq => Or.inl (p hm hq)⟩

theorem Told.heard_then {a b c : Link} (h1 : Heard a b) (h2 : Told b c) : Told a c := by
  obtain ⟨m1, d1, t1, p1⟩ := h1
  obtain ⟨m2, d2, t2, p2⟩ := h2
  refine ⟨m2.trans m1, d1 ++ d2, by rw [t2, t1, List.append_assoc], ?_⟩
  intro hm hq
  have e1 := p1 hm (fun e he => hq e (List.mem_append_left _ he))
  rcases p2 (m1.trans hm) (fun e he => hq e (List.mem_append_right _ he)) with e2 | ⟨e2, x, e3, e4⟩
  · exact Or.inl (e2.trans e1)
  · exact Or.inr ⟨e2, x, e3.symm.trans e1 ▸ rfl, e4⟩

theorem Told.then_same {P : Event → Bool} {a b c : Link} (h1 : Told a b)
    (hac : c.active_client = b.active_client) (hg : Grows P b c)
    (hab : ∀ x, b.get_client x = none → c.get_client x = none) : Told a c := by
  obtain ⟨m1, d1, t1, p1⟩ := h1
  obtain ⟨m2, d2, t2, _⟩ := hg
  refine ⟨m2.trans m1, d1 ++ d2, by rw [t2, t1, List.append_assoc], ?_⟩
  intro hm hq
  rcases p1 hm (fun e he => hq e (List.mem_append_left _ he)) with e1 | ⟨e1, x, e3, e4⟩
  · exact Or.inl (hac.trans e1)
  · exact Or.inr ⟨hac.trans e1, x, e3, hab x e4⟩

theorem Told.then_remove {a b : Link} (h1 : Told a b) (client : Nat) :
    Told a (remove_client b client).2 := by
  obtain ⟨m1, d1, t1, p1⟩ := h1
  refine ⟨m1, d1, t1, ?_⟩
  intro hm hq
  have hrm : (remove_client b client).2.active_client
      = if b.active_client == some client then none else b.active_client := rfl
  rcases p1 hm hq with e1 | ⟨e1, x, e3, e4⟩
  · by_cases hb : b.active_client = some client
    · right
      refine ⟨by rw [hrm, hb]; simp, client, by rw [← e1, hb], remove_client_gone b client⟩
    · left
      rw [hrm, if_neg (by simpa using hb)]
      exact e1
  · right
    refine ⟨by rw [hrm, e1]; simp, x, e3, remove_client_absent b client x e4⟩

theorem remove_client_told (s : Link) (client : Nat) : Told s (remove_client s client).2 :=
  Told.then_remove (Told.of_heard (Heard.heard_refl s)) client

theorem Told.then_assign {a b : Link} (h1 : Told a b) (client : Nat) (host : Option CString)
    (port : Int) : Told a (assign_identity b client host port) :=
  Told.then_same h1 rfl (Grows.of_eq Event.is_write rfl rfl)
    (fun x hx => assign_identity_absent b client x host port hx)

theorem set_canonical_told {s s1 : Link} {client : Nat} {host : Option CString}
    {port : Int} {r : Bool} (h : set_canonical s client host port = some (r, s1)) :
    Told s s1 := by
  have h0 : Told s s := Told.of_heard (Heard.heard_refl s)
  unfold set_canonical at h
  simp only at h
  split at h
  · simp at h
  · simp at h; obtain ⟨_, rfl⟩ := h; exact h0.then_assign _ _ _
  · split at h
    · simp at h
    · simp at h; obtain ⟨_, rfl⟩ := h; exact h0
    · simp at h
    · split at h
      · simp at h; obtain ⟨_, rfl⟩ := h; exact h0
      · split at h
        · split at h
          · simp at h
          · split at h
            · simp at h; obtain ⟨_, rfl⟩ := h; exact h0
            · simp at h; obtain ⟨_, rfl⟩ := h
              exact (remove_client_told s _).then_assign _ _ _
        · simp at h; obtain ⟨_, rfl⟩ := h; exact h0.then_assign _ _ _

theorem Told.then_send {a b c : Link} {client : Nat} {packet : PacketBuffer} (h1 : Told a b)
    (h : send_packet b client packet = some c) : Told a c :=
  Told.then_same h1 (send_packet_sameRole h).2 (send_packet_grows h)
    (fun x hx => (send_packet_samePeers h).absent x hx)

theorem Told.then_send_list {a b c : Link} {client : Nat} (h1 : Told a b)
    (h : send_client_list b client = some c) : Told a c :=
  Told.then_same h1 (send_client_list_sameRole h).2 (send_client_list_grows h)
    (fun x hx => (send_client_list_samePeers h).absent x hx)

theorem handle_hello_told {s s1 : Link} {client : Nat} {packet : PacketBuffer}
    (h : handle_hello s client packet = some s1) : Told s s1 := by
  unfold handle_hello at h
  simp only at h
  split at h
  · split at h
    · simp at h
    · rename_i s2 hc
      simp only [Option.bind_eq_some] at h
      obtain ⟨s3, h3, h4⟩ := h
      exact ((set_canonical_told hc).then_send h3).then_send_list h4
    · rename_i s2 hc
      simp only [Option.map_eq_some'] at h
      obtain ⟨s3, h3, rfl⟩ := h
      exact ((set_canonical_told hc).then_send h3).then_remove _
  · simp at h; subst h; exact remove_client_told _ _

theorem handle_welcome_told {s s1 : Link} {client : Nat} {packet : PacketBuffer}
    (h : handle_welcome s client packet = some s1) : Told s s1 := by
  unfold handle_welcome at h
  simp only at h
  split at h
  · simp at h
  · rename_i s2 hc
    obtain ⟨m0, d0, t0, _⟩ := set_canonical_grows Event.is_write hc
    obtain ⟨m2, d2, t2, _⟩ := send_client_list_grows h
    refine Told.of_heard (Heard.of_loud ?_
      (d0 ++ ((if s2.dist_manager then [Event.active_changed false] else []) ++ d2)) ?_ ?_)
    · rw [m2, set_active_listener, m0]
    · rw [t2, set_active_trace, t0]
      simp
    · intro hm
      rw [m0, hm]
      exact ⟨Event.active_changed false, by simp, rfl⟩
  · rename_i s2 hc
    simp only [Option.map_eq_some'] at h
    obtain ⟨s3, h3, rfl⟩ := h
    exact ((set_canonical_told hc).then_send h3).then_remove _

theorem dispatch_told {drv : Driver} {s s1 : Link} {client type : Nat}
    {packet : PacketBuffer} (h : dispatch drv s client type packet = some s1) :
    Told s s1 := by
  unfold dispatch at h
  split at h
  · exact handle_hello_told h
  · split at h
    · exact Told.of_heard (handle_claim_heard h)
    · split at h
      · exact handle_welcome_told h
      · split at h
        · exact Told.of_heard (handle_client_list_heard h)
        · split at h
          · unfold handle_new_master at h; exact Told.of_heard (set_active_name_heard h)
          · split at h
            · exact Told.of_heard
                (Heard.of_same (handle_state_sameRole h).2 (handle_state_grows h))
            · split at h
              · unfold handle_duplicate at h
                simp at h; subst h; exact remove_client_told _ _
              · simp at h; subst h; exact Told.of_heard (Heard.heard_refl _)

theorem process_client_packet_told {drv : Driver} {s s1 : Link} {client : Nat}
    (h : process_client_packet drv s client = some s1) : Told s s1 := by
  unfold process_client_packet at h
  split at h
  · simp at h
  · dsimp only at h
    split at h
    · simp at h
    · simp only [Option.bind_eq_some, Option.map_eq_some'] at h
      obtain ⟨s2, h2, _, _, rfl⟩ := h
      have h3 : Told s s2 := by
        unfold process_body at h2
        dsimp only at h2
        split at h2
        · exact dispatch_told h2
        · simp at h2; subst h2; exact Told.of_heard (Heard.heard_refl _)
      refine Told.then_same h3 rfl (Grows.of_eq Event.is_write rfl rfl) ?_
      intro x hx
      have hk := update_client_samePeers s2 client (fun c => { c with packet := c.packet.clear })
        (fun _ => rfl)
      have hp : SamePeers s2 (clear_packet s2 client) := ⟨hk, rfl⟩
      exact hp.absent x hx

theorem socket_io_told {drv : Driver} {s s1 : Link} {client : Nat} {ok : Bool}
    {data : List Nat} {current_time : Int}
    (h : socket_io drv s client ok data current_time = some s1) : Told s s1 := by
  unfold socket_io at h
  split at h
  · simp at h
  · split at h
    · simp at h; subst h; exact Told.of_heard (disable_client_heard _ _ _)
    · split at h
      · simp at h; subst h; exact Told.of_heard (disable_client_heard _ _ _)
      · dsimp only at h
        split at h
        · simp at h
        · split at h
          · have h2 := process_client_packet_told h
            exact Told.heard_then ⟨rfl, [], by simp, fun _ _ => rfl⟩ h2
          · simp at h; subst h; exact ⟨rfl, [], by simp, fun _ _ => Or.inl rfl⟩

theorem run_told {K : Defaults} {s s1 : Link} {op : Op} (h : run K s op = some s1)
    (hop : op.sets_active_directly = false) (hm : s.dist_manager = true) :
    ∃ d, s1.trace = s.trace ++ d ∧ ((∀ e ∈ d, Event.is_active_changed e = false) →
      s1.active_client = s.active_client ∨ ActiveRemoved s s1) := by
  have key : Told s s1 → ∃ d, s1.trace = s.trace ++ d ∧
      ((∀ e ∈ d, Event.is_active_changed e = false) →
        s1.active_client = s.active_client ∨ ActiveRemoved s s1) :=
    fun ⟨_, d, t, p⟩ => ⟨d, t, p hm⟩
  have same : ∀ t : Link, t.trace = s.trace → t.active_client = s.active_client →
      ∃ d, t.trace = s.trace ++ d ∧ ((∀ e ∈ d, Event.is_active_changed e = false) →
        t.active_client = s.active_client ∨ ActiveRemoved s t) :=
    fun t h1 h2 => ⟨[], by simp [h1], fun _ => Or.inl h2⟩
  cases op with
  | init name cfg => simp [Op.sets_active_directly] at hop
  | claim => simp [Op.sets_active_directly] at hop
  | heartbeat ct =>
    obtain ⟨_, d, t, _⟩ := heartbeat_notified h
    exact ⟨d, t, fun _ => Or.inl (heartbeat_sameRole h).2⟩
  | join drv url =>
    obtain ⟨_, d, t, _⟩ := join_notified h
    exact ⟨d, t, fun _ => Or.inl (join_sameRole h).2⟩
  | disconnect_all =>
    simp [run] at h; subst h; exact key (Told.of_heard (disconnect_all_heard _))
  | reconnect_all ct => simp [run] at h; subst h; exact same _ rfl rfl
  | set_user user pw => simp [run] at h; subst h; exact same _ rfl rfl
  | set_distribution_manager dll => simp [run] at h; subst h; exact same _ rfl rfl
  | set_enabled enabled listen_ok =>
    simp [run] at h; subst h; exact key (Told.of_heard (set_enabled_heard _ _ _))
  | register_state id ds => simp [run] at h; subst h; exact same _ rfl rfl
  | unregister_state id => simp [run] at h; subst h; exact same _ rfl rfl
  | config_changed_notify cfg =>
    simp [run] at h; subst h; exact key (Told.of_heard (read_configuration_heard _ _ _))
  | socket_accepted ccon =>
    simp [run] at h; subst h
    unfold socket_accepted
    split
    · exact same _ rfl rfl
    · exact same _ rfl rfl
  | socket_io drv client ok data ct => exact key (socket_io_told h)
  | socket_connected client con =>
    simp only [run] at h
    unfold socket_connected at h
    split at h
    · simp at h
    · have h2 : Heard _ s1 := Heard.of_same (send_packet_sameRole h).2 (send_packet_grows h)
      exact key (Told.of_heard (Heard.heard_trans ⟨rfl, [], by simp, fun _ _ => rfl⟩ h2))
  | socket_closed client ct =>
    simp only [run] at h
    unfold socket_closed at h
    split at h
    · simp at h
    · simp at h; subst h; exact key (Told.of_heard (disable_client_heard _ _ _))
  | process_client_packet drv client => exact key (process_client_packet_told h)

theorem demo_remote_listening_reachable : Reachable demo_defaults demo_remote_listening :=
  Reachable.step demo_remote demo_remote_listening (Op.set_distribution_manager true)
    demo_remote_reachable rfl

/-- C5 (counterexample): on reachable nodes with a listener installed,
(1) `claim()` takes the node from UNKNOWN to SELF_ACTIVE and the only thing
it does to the outside is the NEW_MASTER write: `active_changed` is not
called. (2) The active client is the joined, not connected peer "q"
(client 1); the accepted client 2 sends a HELLO announcing ("q", 2), so
`set_canonical` deletes the record of client 1 and `remove_client` resets
`active_client`: the role goes from REMOTE_ACTIVE to UNKNOWN and the node
only writes WELCOME and CLIENT_LIST, with no call. (3) A second `init()` on
a node in state UNKNOWN makes it SELF_ACTIVE and does nothing to the
outside. -/
theorem claim_and_removal_make_no_callback :
    (Reachable demo_defaults demo_unknown_listening ∧
      demo_unknown_listening.dist_manager = true ∧
      demo_unknown_listening.active = false ∧
      demo_unknown_listening.active_client = none ∧
      (claim demo_unknown_listening).map
          (fun r => (r.1, r.2.active, r.2.trace.drop demo_unknown_listening.trace.length))
        = some (true, true, [Event.write 2 (new_master_frame (some [97]) 27273)])) ∧
    (Reachable demo_defaults demo_remote_listening ∧
      demo_remote_listening.dist_manager = true ∧
      demo_remote_listening.active = false ∧
      demo_remote_listening.active_client = some 1 ∧
      (socket_io demo_driver demo_remote_listening 2 true demo_hello_frame 0).map
          (fun t => (t.active, t.active_client)) = some (false, none) ∧
      (socket_io demo_driver demo_remote_listening 2 true demo_hello_frame 0).map peer_keys
        = some [(2, some [113], 2)] ∧
      (socket_io demo_driver demo_remote_listening 2 true demo_hello_frame 0).map
          (fun t => (t.trace.drop demo_remote_listening.trace.length).map Event.is_write)
        = some [true, true]) ∧
    ((run demo_defaults demo_unknown_listening (Op.init (some [97]) demo_config)).map
        (fun t => (t.active, t.active_client, t.trace.drop demo_unknown_listening.trace.length))
      = some (true, none, [])) :=
  ⟨⟨demo_unknown_listening_reachable, by decide, by decide, by decide, by decide⟩,
    ⟨demo_remote_listening_reachable, by decide, by decide, by decide, by decide, by decide,
      by decide⟩,
    by decide⟩

/-- C5 (amended): every operation other than `init()` and `claim()` that
changes the active-role state (`active`, `active_client`) calls
`listener.active_changed` when a listener is installed, and the last such
call carries the new value of `active`, with one exception: when the record
of the active client is deleted (`remove_client`), `active_client` is reset
to NULL without a call and `active` stays as it was. `claim()` itself, also
when it moves the node from UNKNOWN to SELF_ACTIVE, only writes frames: it
reports through its result. -/
theorem active_change_reported (K : Defaults) :
    (∀ (s s1 : Link) (op : Op), run K s op = some s1 → op.sets_active_directly = false →
      s.dist_manager = true →
      (s1.active ≠ s.active ∨ s1.active_client ≠ s.active_client) →
      (∃ d1 d2, s1.trace = s.trace ++ (d1 ++ Event.active_changed s1.active :: d2) ∧
        ∀ e ∈ d2, Event.is_active_changed e = false) ∨
      (s1.active = s.active ∧ s1.active_client = none ∧
        ∃ a, s.active_client = some a ∧ s1.get_client a = none)) ∧
    (∀ (s s1 : Link) (r : Bool), claim s = some (r, s1) →
      ∃ d, s1.trace = s.trace ++ d ∧ ∀ e ∈ d, Event.is_write e = true) := by
  refine ⟨?_, ?_⟩
  · intro s s1 op h hop hm hch
    obtain ⟨d, t, p⟩ := run_notified h hop hm
    obtain ⟨d', t', q⟩ := run_told h hop hm
    have hd : d' = d := List.append_cancel_left (t'.symm.trans t)
    subst hd
    rcases listener_view_last s.active d' with ⟨h1, hq⟩ | ⟨d1, d2, h1, h2⟩
    · right
      rw [h1] at p
      rcases q hq with e | e
      · rcases hch with c | c
        · exact absurd p c
        · exact absurd e c
      · exact ⟨p, e.1, e.2⟩
    · left
      rw [← p] at h1
      exact ⟨d1, d2, by rw [t, h1], h2⟩
  · intro s s1 r h
    exact (claim_grows h).2

/-- C5 (witness): the self-active node with a listener receives a CLAIM from
client 1 and tells the listener `active_changed(false)`; the node whose
active client is the connected client 1 loses that connection, keeps the
record, and tells the listener `active_changed(false)` although `active` was
false before; `claim()` on the node in state UNKNOWN only writes. -/
theorem active_change_reported_witness :
    (demo_accepted_listening.dist_manager = true ∧ demo_accepted_listening.active = true ∧
      ∃ s1, run demo_defaults demo_accepted_listening
          (Op.socket_io demo_driver 1 true demo_claim_frame 0) = some s1 ∧
        s1.active = false ∧
        ∃ d1 d2, s1.trace = demo_accepted_listening.trace ++
            (d1 ++ Event.active_changed false :: d2) ∧
          ∀ e ∈ d2, Event.is_active_changed e = false) ∧
    (demo_claimed_listening.dist_manager = true ∧ demo_claimed_listening.active = false ∧
      demo_claimed_listening.active_client = some 1 ∧
      ∃ s1, run demo_defaults demo_claimed_listening (Op.socket_closed 1 50) = some s1 ∧
        s1.active = false ∧ s1.active_client = none ∧ (s1.get_client 1).isSome = true ∧
        ∃ d1 d2, s1.trace = demo_claimed_listening.trace ++
            (d1 ++ Event.active_changed false :: d2) ∧
          ∀ e ∈ d2, Event.is_active_changed e = false) ∧
    (∃ s1, claim demo_unknown_listening = some (true, s1) ∧
      ∃ d, s1.trace = demo_unknown_listening.trace ++ d ∧ ∀ e ∈ d, Event.is_write e = true) := by
  refine ⟨?_, ?_, ?_⟩
  · refine ⟨by decide, by decide, ?_⟩
    have h0 : (run demo_defaults demo_accepted_listening
        (Op.socket_io demo_driver 1 true demo_claim_frame 0)).isSome = true := by decide
    obtain ⟨s1, hs1⟩ := Option.isSome_iff_exists.mp h0
    have ha : (run demo_defaults demo_accepted_listening
        (Op.socket_io demo_driver 1 true demo_claim_frame 0)).map (fun t => t.active)
        = some false := by decide
    rw [hs1] at ha
    have ha1 : s1.active = false := by simpa using ha
    refine ⟨s1, hs1, ha1, ?_⟩
    have hs : demo_accepted_listening.active = true := by decide
    rcases (active_change_reported demo_defaults).1 demo_accepted_listening s1 _ hs1 rfl
      (by decide) (Or.inl (by rw [ha1, hs]; decide)) with hw | hw
    · rw [ha1] at hw
      exact hw
    · rw [ha1, hs] at hw
      exact absurd hw.1 (by decide)
  · refine ⟨by decide, by decide, by decide, ?_⟩
    have h0 : (run demo_defaults demo_claimed_listening (Op.socket_closed 1 50)).isSome
        = true := by decide
    obtain ⟨s1, hs1⟩ := Option.isSome_iff_exists.mp h0
    have ha : (run demo_defaults demo_claimed_listening (Op.socket_closed 1 50)).map
        (fun t => (t.active, t.active_client, (t.get_client 1).isSome))
        = some (false, none, true) := by decide
    rw [hs1] at ha
    simp only [Option.map_some', Option.some.injEq, Prod.mk.injEq] at ha
    obtain ⟨ha1, ha2, ha3⟩ := ha
    refine ⟨s1, hs1, ha1, ha2, ha3, ?_⟩
    have hs : demo_claimed_listening.active_client = some 1 := by decide
    rcases (active_change_reported demo_defaults).1 demo_claimed_listening s1 _ hs1 rfl
      (by decide) (Or.inr (by rw [ha2, hs]; decide)) with hw | hw
    · rw [ha1] at hw
      exact hw
    · obtain ⟨_, _, a, h3, h4⟩ := hw
      rw [hs] at h3
      cases h3
      rw [h4] at ha3
      cases ha3
  · have h0 : (claim demo_unknown_listening).isSome = true := by decide
    obtain ⟨r, hr⟩ := Option.isSome_iff_exists.mp h0
    have h1 : (claim demo_unknown_listening).map (fun t => t.1) = some true := by decide
    rw [hr] at h1
    have h2 : r.1 = true := by simpa using h1
    have h3 : claim demo_unknown_listening = some (true, r.2) := by rw [hr, ← h2]
    exact ⟨r.2, h3, (active_change_reported demo_defaults).2 _ _ _ h3⟩

theorem stateinfo_entry_wraps (id : Nat) (d : List Nat) (k : Nat)
    (rest : List (Nat × Option (List Nat))) (hd : d.length = 65536 + k) :
    stateinfo_entries ((id, some d) :: rest)
      = enc_u16 k ++ enc_u16 id ++ d ++ stateinfo_entries rest := by
  have e : enc_u16 d.length = enc_u16 k := by
    unfold enc_u16
    rw [hd]
    have h1 : (65536 + k) / 256 % 256 = k / 256 % 256 := by omega
    have h2 : (65536 + k) % 256 = k % 256 := by omega
    rw [h1, h2]
  show enc_u16 d.length ++ enc_u16 id ++ d ++ stateinfo_entries rest = _
  rw [e]

theorem demo_big_state_length : demo_big_state.length = 65539 :=
  List.length_replicate 65539 7

theorem oversized_state_layout (d : List Nat) (hl : d.length = 65539) :
    Reachable demo_defaults (register_state demo_accepted 42 (some d)).2 ∧
    (register_state demo_accepted 42 (some d)).2.state_map = [(42, some d)] ∧
    send_state (register_state demo_accepted 42 (some d)).2
      = some ((register_state demo_accepted 42 (some d)).2.emit [Event.write 1
          (stateinfo_frame (some [97]) 27273 [(42, some d)])]) ∧
    stateinfo_entries [(42, some d)] = [0, 3, 0, 42] ++ d ∧
    dec_u16 (stateinfo_entries [(42, some d)]) = 3 ∧
    ((stateinfo_entries [(42, some d)]).drop 4).length = 65539 ∧
    read_entries 1 (stateinfo_entries [(42, some d)]) = some ([(3, 42, d.take 3)], d.drop 3) ∧
    (d.drop 3).length = 65536 := by
  have hr : Reachable demo_defaults (register_state demo_accepted 42 (some d)).2 :=
    Reachable.step demo_accepted _ (Op.register_state 42 (some d)) demo_accepted_reachable rfl
  have hsm : (register_state demo_accepted 42 (some d)).2.state_map = [(42, some d)] := rfl
  have hga : get_active (register_state demo_accepted 42 (some d)).2
      = some (true, some [97], 27273) := rfl
  have hcl : (register_state demo_accepted 42 (some d)).2.clients
      = [⟨1, some 100, none, 0, 0, 0, PacketBuffer.create⟩] := rfl
  have hse := send_state_eq (register_state demo_accepted 42 (some d)).2 true (some [97]) 27273
    hga
  rw [hcl, hsm] at hse
  have he : stateinfo_entries [(42, some d)] = [0, 3, 0, 42] ++ d := by
    rw [stateinfo_entry_wraps 42 d 3 [] hl]
    simp [enc_u16, stateinfo_entries]
  refine ⟨hr, hsm, hse, he, ?_, ?_, ?_, ?_⟩
  · rw [he]
    simp [dec_u16]
  · rw [he]
    simp [hl]
  · rw [he]
    have h3 : dec_u16 ([0, 3, 0, 42] ++ d) = 3 := by simp [dec_u16]
    have h4 : dec_u16 (([0, 3, 0, 42] ++ d).drop 2) = 42 := by simp [dec_u16]
    have h5 : ([0, 3, 0, 42] ++ d).drop 4 = d := rfl
    have h6 : ([0, 3, 0, 42] ++ d).drop (4 + 3) = d.drop 3 := rfl
    unfold read_entries
    rw [h3, h4, h5, h6, if_pos (by simp [hl])]
    rfl
  · simp [hl]

/-- C17 (counterexample): the reachable active node "a" has one connected
peer and one provider, for id 42, that returns 65539 bytes. `send_state`
broadcasts the STATEINFO frame whose only entry is `00 03 | 00 2a` followed
by the 65539 bytes: `data_len` is 3 (the size truncated to 16 bits), while
65539 bytes lie between the `state_id` field and the end of the frame; read
back, the entry has 3 bytes of data and 65536 bytes are left over. -/
theorem oversized_state_wraps_data_len :
    Reachable demo_defaults demo_big_provider ∧
    demo_big_provider.state_map = [(42, some demo_big_state)] ∧
    demo_big_state.length = 65539 ∧
    send_state demo_big_provider = some (demo_big_provider.emit [Event.write 1
      (stateinfo_frame (some [97]) 27273 [(42, some demo_big_state)])]) ∧
    stateinfo_entries [(42, some demo_big_state)] = [0, 3, 0, 42] ++ demo_big_state ∧
    dec_u16 (stateinfo_entries [(42, some demo_big_state)]) = 3 ∧
    ((stateinfo_entries [(42, some demo_big_state)]).drop 4).length = 65539 ∧
    read_entries 1 (stateinfo_entries [(42, some demo_big_state)])
      = some ([(3, 42, demo_big_state.take 3)], demo_big_state.drop 3) ∧
    (demo_big_state.drop 3).length = 65536 :=
  ⟨(oversized_state_layout demo_big_state demo_big_state_length).1,
    (oversized_state_layout demo_big_state demo_big_state_length).2.1,
    demo_big_state_length,
    (oversized_state_layout demo_big_state demo_big_state_length).2.2⟩

theorem KeysKept.keys_refl (x : Option Nat) (s : Link) : KeysKept x s s :=
  ⟨le_refl _, fun _ hk _ _ => hk⟩

theorem KeysKept.keys_trans {x : Option Nat} {a b c : Link} (h1 : KeysKept x a b)
    (h2 : KeysKept x b c) : KeysKept x a c :=
  ⟨le_trans h1.1 h2.1,
    fun k hk hlt hne => h1.2 k (h2.2 k hk (lt_of_lt_of_le hlt h1.1) hne) hlt hne⟩

theorem KeysKept.keys_of_samePeers (x : Option Nat) {s s1 : Link} (h : SamePeers s s1) :
    KeysKept x s s1 :=
  ⟨by rw [h.2], fun k hk _ _ => by rw [← h.1]; exact hk⟩

theorem KeysKept.weaken (x : Option Nat) {s s1 : Link} (h : KeysKept none s s1) :
    KeysKept x s s1 :=
  ⟨h.1, fun k hk hlt _ => h.2 k hk hlt (by simp)⟩

theorem append_client_keys (s : Link) (c : Client) (hid : c.id = s.next_id) :
    KeysKept none s { s with clients := s.clients ++ [c], next_id := s.next_id + 1 } := by
  refine ⟨Nat.le_succ _, fun k hk hlt _ => ?_⟩
  unfold peer_keys at hk ⊢
  simp only [List.map_append, List.map_cons, List.map_nil, List.mem_append,
    List.mem_singleton] at hk
  rcases hk with hk | hk
  · exact hk
  · rw [hk] at hlt
    simp only [hid] at hlt
    exact absurd hlt (lt_irrefl _)

theorem add_client_keys {drv : Driver} {s s1 : Link} {host : Option CString} {port : Int}
    (h : add_client drv s host port = some s1) : KeysKept none s s1 := by
  unfold add_client at h
  split at h
  · simp at h
  · simp at h; subst h; exact KeysKept.keys_refl _ _
  · dsimp only at h
    split at h
    · simp at h
    · simp at h; subst h; exact KeysKept.keys_refl _ _
    · rename_i host1 hsk
      simp at h; subst h
      exact (append_client_keys s { Client.new s.next_id with hostname := host1, port := port }
        rfl).keys_trans (KeysKept.keys_of_samePeers _ (emit_samePeers _ _))

theorem remove_client_keys (s : Link) (client : Nat) :
    KeysKept none s (remove_client s client).2 := by
  refine ⟨le_refl _, fun k hk _ _ => ?_⟩
  unfold peer_keys remove_client at *
  dsimp only at hk
  obtain ⟨c, hc, rfl⟩ := List.mem_map.mp hk
  exact List.mem_map_of_mem _ (List.mem_filter.mp hc).1

theorem assign_identity_keys (s : Link) (client : Nat) (host : Option CString) (port : Int) :
    KeysKept (some client) s (assign_identity s client host port) := by
  refine ⟨le_refl _, fun k hk _ hne => ?_⟩
  unfold peer_keys assign_identity update_client at *
  dsimp only at hk
  rw [List.map_map] at hk
  obtain ⟨c, hc, rfl⟩ := List.mem_map.mp hk
  dsimp only [Function.comp] at hne ⊢
  by_cases hid : (c.id == client) = true
  · exfalso
    apply hne
    rw [if_pos hid]
    simpa using hid
  · rw [if_neg hid]
    exact List.mem_map_of_mem _ hc

theorem set_canonical_keys {s s1 : Link} {client : Nat} {host : Option CString}
    {port : Int} {r : Bool} (h : set_canonical s client host port = some (r, s1)) :
    KeysKept (some client) s s1 := by
  unfold set_canonical at h
  simp only at h
  split at h
  · simp at h
  · simp at h; obtain ⟨_, rfl⟩ := h; exact assign_identity_keys _ _ _ _
  · split at h
    · simp at h
    · simp at h; obtain ⟨_, rfl⟩ := h; exact KeysKept.keys_refl _ _
    · simp at h
    · split at h
      · simp at h; obtain ⟨_, rfl⟩ := h; exact KeysKept.keys_refl _ _
      · split at h
        · split at h
          · simp at h
          · split at h
            · simp at h; obtain ⟨_, rfl⟩ := h; exact KeysKept.keys_refl _ _
            · simp at h; obtain ⟨_, rfl⟩ := h
              exact (KeysKept.weaken _ (remove_client_keys s _)).keys_trans
                (assign_identity_keys _ _ _ _)
        · simp at h; obtain ⟨_, rfl⟩ := h; exact assign_identity_keys _ _ _ _

theorem handle_hello_keys {s s1 : Link} {client : Nat} {packet : PacketBuffer}
    (h : handle_hello s client packet = some s1) : KeysKept (some client) s s1 := by
  unfold handle_hello at h
  simp only at h
  split at h
  · split at h
    · simp at h
    · rename_i s2 hc
      simp only [Option.bind_eq_some] at h
      obtain ⟨s3, h3, h4⟩ := h
      exact ((set_canonical_keys hc).keys_trans
        (KeysKept.keys_of_samePeers _ (send_packet_samePeers h3))).keys_trans
        (KeysKept.keys_of_samePeers _ (send_client_list_samePeers h4))
    · rename_i s2 hc
      simp only [Option.map_eq_some'] at h
      obtain ⟨s3, h3, rfl⟩ := h
      exact ((set_canonical_keys hc).keys_trans
        (KeysKept.keys_of_samePeers _ (send_packet_samePeers h3))).keys_trans
        (KeysKept.weaken _ (remove_client_keys _ _))
  · simp at h; subst h; exact KeysKept.weaken _ (remove_client_keys _ _)

theorem handle_welcome_keys {s s1 : Link} {client : Nat} {packet : PacketBuffer}
    (h : handle_welcome s client packet = some s1) : KeysKept (some client) s s1 := by
  unfold handle_welcome at h
  simp only at h
  split at h
  · simp at h
  · rename_i s2 hc
    exact ((set_canonical_keys hc).keys_trans
      (KeysKept.keys_of_samePeers _ (set_active_samePeers _ _))).keys_trans
      (KeysKept.keys_of_samePeers _ (send_client_list_samePeers h))
  · rename_i s2 hc
    simp only [Option.map_eq_some'] at h
    obtain ⟨s3, h3, rfl⟩ := h
    exact ((set_canonical_keys hc).keys_trans
      (KeysKept.keys_of_samePeers _ (send_packet_samePeers h3))).keys_trans
      (KeysKept.weaken _ (remove_client_keys _ _))

theorem client_list_loop_keys {drv : Driver} (n : Nat) :
    ∀ {s s1 : Link} {packet : PacketBuffer},
      client_list_loop drv n s packet = some s1 → KeysKept none s s1 := by
  induction n with
  | zero =>
    intro s s1 packet h
    simp [client_list_loop] at h
    subst h; exact KeysKept.keys_refl _ _
  | succ n ih =>
    intro s s1 packet h
    unfold client_list_loop at h
    simp only at h
    split at h
    · simp at h
    · rename_i s2 hs2
      refine KeysKept.keys_trans ?_ (ih h)
      split at hs2
      · split at hs2
        · simp at hs2
        · simp at hs2; subst hs2; exact KeysKept.keys_refl _ _
        · exact add_client_keys hs2
      · simp at hs2; subst hs2; exact KeysKept.keys_refl _ _

theorem handle_client_list_keys {drv : Driver} {s s1 : Link} {client : Nat}
    {packet : PacketBuffer} (h : handle_client_list drv s client packet = some s1) :
    KeysKept none s s1 := by
  unfold handle_client_list at h
  dsimp only at h
  split at h
  · simp at h
  · rename_i s2 p2 hr
    exact ((KeysKept.keys_of_samePeers _ (client_list_role_samePeers hr)).keys_trans
      (KeysKept.keys_of_samePeers _ (client_list_forward_samePeers _ _ _ _ _))).keys_trans
      (client_list_loop_keys _ h)

theorem dispatch_keys_other {drv : Driver} {s s1 : Link} {client type : Nat}
    {packet : PacketBuffer} (h : dispatch drv s client type packet = some s1)
    (hh : type ≠ PACKET_HELLO) (hw : type ≠ PACKET_WELCOME) : KeysKept none s s1 := by
  unfold dispatch at h
  rw [if_neg (by simpa using hh)] at h
  split at h
  · exact KeysKept.keys_of_samePeers _ (handle_claim_samePeers h)
  · rw [if_neg (by simpa using hw)] at h
    split at h
    · exact handle_client_list_keys h
    · split at h
      · unfold handle_new_master at h
        exact KeysKept.keys_of_samePeers _ (set_active_name_samePeers h)
      · split at h
        · exact KeysKept.keys_of_samePeers _ (handle_state_samePeers h)
        · split at h
          · unfold handle_duplicate at h
            simp at h; subst h; exact remove_client_keys _ _
          · simp at h; subst h; exact KeysKept.keys_refl _ _

theorem dispatch_keys {drv : Driver} {s s1 : Link} {client type : Nat}
    {packet : PacketBuffer} (h : dispatch drv s client type packet = some s1) :
    KeysKept (some client) s s1 := by
  by_cases hh : type = PACKET_HELLO
  · unfold dispatch at h
    rw [if_pos (by simpa using hh)] at h
    exact handle_hello_keys h
  · by_cases hw : type = PACKET_WELCOME
    · unfold dispatch at h
      rw [if_neg (by simpa using hh)] at h
      split at h
      · exact KeysKept.keys_of_samePeers _ (handle_claim_samePeers h)
      · rw [if_pos (by simpa using hw)] at h
        exact handle_welcome_keys h
    · exact KeysKept.weaken _ (dispatch_keys_other h hh hw)

theorem process_client_packet_keys {drv : Driver} {s s1 : Link} {client : Nat}
    (h : process_client_packet drv s client = some s1) : KeysKept (some client) s s1 := by
  unfold process_client_packet at h
  split at h
  · simp at h
  · dsimp only at h
    split at h
    · simp at h
    · simp only [Option.bind_eq_some, Option.map_eq_some'] at h
      obtain ⟨s2, h2, _, _, rfl⟩ := h
      have h3 : KeysKept (some client) s s2 := by
        unfold process_body at h2
        dsimp only at h2
        split at h2
        · exact dispatch_keys h2
        · simp at h2; subst h2; exact KeysKept.keys_refl _ _
      have hk := update_client_samePeers s2 client (fun c => { c with packet := c.packet.clear })
        (fun _ => rfl)
      have hp : SamePeers s2 (clear_packet s2 client) := ⟨hk, rfl⟩
      exact h3.keys_trans (KeysKept.keys_of_samePeers _ hp)

theorem socket_io_keys {drv : Driver} {s s1 : Link} {client : Nat} {ok : Bool}
    {data : List Nat} {current_time : Int}
    (h : socket_io drv s client ok data current_time = some s1) :
    KeysKept (some client) s s1 := by
  unfold socket_io at h
  split at h
  · simp at h
  · split at h
    · simp at h; subst h; exact KeysKept.keys_of_samePeers _ (disable_client_samePeers _ _ _)
    · split at h
      · simp at h; subst h; exact KeysKept.keys_of_samePeers _ (disable_client_samePeers _ _ _)
      · dsimp only at h
        have hk := update_client_samePeers s client
          (fun c => { c with packet := { c.packet with buffer := c.packet.buffer ++ data } })
          (fun _ => rfl)
        split at h
        · simp at h
        · split at h
          · exact KeysKept.keys_trans (KeysKept.keys_of_samePeers _ ⟨hk, rfl⟩)
              (process_client_packet_keys h)
          · simp at h; subst h
            exact KeysKept.keys_of_samePeers _ ⟨hk, rfl⟩

theorem run_keys {K : Defaults} {s s1 : Link} {op : Op} (h : run K s op = some s1) :
    KeysKept op.sender s s1 := by
  cases op with
  | init name cfg =>
    simp [run] at h; subst h
    unfold init
    dsimp only
    exact KeysKept.keys_trans (KeysKept.keys_of_samePeers _ ⟨rfl, rfl⟩)
      (KeysKept.keys_of_samePeers _ (read_configuration_samePeers K _ cfg))
  | heartbeat ct => exact KeysKept.keys_of_samePeers _ (heartbeat_samePeers h)
  | join drv url =>
    simp only [run] at h
    unfold join at h
    split at h
    · simp at h; subst h; exact KeysKept.keys_refl _ _
    · exact add_client_keys h
  | disconnect_all =>
    simp [run] at h; subst h; exact KeysKept.keys_of_samePeers _ (disconnect_all_samePeers _)
  | reconnect_all ct =>
    simp [run] at h; subst h
    unfold reconnect_all
    exact KeysKept.keys_of_samePeers _ ⟨map_samePeers _ _ (fun _ => rfl), rfl⟩
  | claim =>
    simp only [run, Option.map_eq_some'] at h
    obtain ⟨r, hr, rfl⟩ := h
    exact KeysKept.keys_of_samePeers _ (claim_samePeers hr)
  | set_user user pw => simp [run] at h; subst h; exact KeysKept.keys_of_samePeers _ ⟨rfl, rfl⟩
  | set_distribution_manager dll =>
    simp [run] at h; subst h; exact KeysKept.keys_of_samePeers _ ⟨rfl, rfl⟩
  | set_enabled enabled listen_ok =>
    simp [run] at h; subst h; exact KeysKept.keys_of_samePeers _ (set_enabled_samePeers _ _ _)
  | register_state id ds => simp [run] at h; subst h; exact KeysKept.keys_of_samePeers _ ⟨rfl, rfl⟩
  | unregister_state id => simp [run] at h; subst h; exact KeysKept.keys_refl _ _
  | config_changed_notify cfg =>
    simp [run] at h; subst h
    exact KeysKept.keys_of_samePeers _ (read_configuration_samePeers _ _ _)
  | socket_accepted ccon =>
    simp [run] at h; subst h
    unfold socket_accepted
    split
    · exact KeysKept.keys_refl _ _
    · exact append_client_keys s _ rfl
  | socket_io drv client ok data ct => exact socket_io_keys h
  | socket_connected client con =>
    simp only [run] at h
    unfold socket_connected at h
    split at h
    · simp at h
    · have hk := update_client_samePeers s client
        (fun c => { c with reconnect_count := 0, reconnect_time := 0, socket := some con })
        (fun _ => rfl)
      exact KeysKept.keys_trans (KeysKept.keys_of_samePeers _ ⟨hk, rfl⟩)
        (KeysKept.keys_of_samePeers _ (send_packet_samePeers h))
  | socket_closed client ct =>
    simp only [run] at h
    unfold socket_closed at h
    split at h
    · simp at h
    · simp at h; subst h; exact KeysKept.keys_of_samePeers _ (disable_client_samePeers _ _ _)
  | process_client_packet drv client => exact process_client_packet_keys h

/-- C12 (amended): in every reachable state, a peer of the table that has a
live socket and a known hostname has an identity (hostname, port) that no
other record of the table has; the peer that `socket_accepted` adds for a
new connection has a live socket and no identity (hostname NULL, port 0);
and the identity of a record changes only while a frame received from that
very peer is processed, and there only in the HELLO and WELCOME handlers:
after any operation every record of the table is a record of the table
before with the same hostname and port, or is new, or is the record of the
peer whose frame was processed; and after any handler other than those of
HELLO and WELCOME every record is as before or new. -/
theorem connected_peer_identity (K : Defaults) (s : Link) (h : Reachable K s) :
    (∀ a ∈ s.clients, a.socket ≠ none → a.hostname ≠ none →
      ∀ b ∈ s.clients, b.hostname = a.hostname → b.port = a.port → b = a) ∧
    (∀ con : Nat, Reachable K (socket_accepted s (some con)) ∧
      (socket_accepted s (some con)).clients = s.clients ++
        [{ id := s.next_id, socket := some con, hostname := none, port := 0,
           reconnect_count := 0, reconnect_time := 0, packet := PacketBuffer.create }]) ∧
    (∀ (op : Op) (s1 : Link), run K s op = some s1 →
      ∀ k ∈ peer_keys s1, k ∈ peer_keys s ∨ s.next_id ≤ k.1 ∨ op.sender = some k.1) ∧
    (∀ (drv : Driver) (client type : Nat) (packet : PacketBuffer) (s1 : Link),
      dispatch drv s client type packet = some s1 →
      type ≠ PACKET_HELLO → type ≠ PACKET_WELCOME →
      ∀ k ∈ peer_keys s1, k ∈ peer_keys s ∨ s.next_id ≤ k.1) := by
  refine ⟨?_, fun con => ⟨Reachable.step s _ (Op.socket_accepted (some con)) h rfl, rfl⟩,
    ?_, ?_⟩
  · intro a ha _ hn b hb hh hp
    exact (uniquePeers_of_inv (reachable_inv h) a ha b hb hn hh.symm hp.symm).symm
  · intro op s1 hrun k hk
    by_cases hlt : k.1 < s.next_id
    · by_cases hs : some k.1 = op.sender
      · exact Or.inr (Or.inr hs.symm)
      · exact Or.inl ((run_keys hrun).2 k hk hlt hs)
    · exact Or.inr (Or.inl (Nat.le_of_not_lt hlt))
  · intro drv client type packet s1 hd hh hw k hk
    by_cases hlt : k.1 < s.next_id
    · exact Or.inl ((dispatch_keys_other hd hh hw).2 k hk hlt (by simp))
    · exact Or.inr (Nat.le_of_not_lt hlt)

/-- C12 (witness): on the reachable node "a" whose joined peer "q" is
connected (client 1, socket 200, identity ("q", 2)) the statement holds; a
connection accepted next gives client 2 with the socket 100 and no
identity, and the record of client 1 is as before. On the reachable node
"a" with one accepted connection, a WELCOME naming ("q", 2) from client 1
gives that record the identity ("q", 2): client 1 is the peer whose frame
was processed. -/
theorem connected_peer_identity_witness :
    Reachable demo_defaults demo_connected ∧
    (demo_connected.get_client 1).map (fun c => (c.socket, c.hostname, c.port))
      = some (some 200, some [113], 2) ∧
    (∀ a ∈ demo_connected.clients, a.socket ≠ none → a.hostname ≠ none →
      ∀ b ∈ demo_connected.clients, b.hostname = a.hostname → b.port = a.port → b = a) ∧
    peer_keys demo_connected = [(1, some [113], 2)] ∧
    peer_keys (socket_accepted demo_connected (some 100))
      = [(1, some [113], 2), (2, none, 0)] ∧
    (∀ k ∈ peer_keys (socket_accepted demo_connected (some 100)),
      k ∈ peer_keys demo_connected ∨ demo_connected.next_id ≤ k.1 ∨
        (Op.socket_accepted (some 100)).sender = some k.1) ∧
    Reachable demo_defaults demo_accepted ∧
    peer_keys demo_accepted = [(1, none, 0)] ∧
    (run demo_defaults demo_accepted
        (Op.socket_io demo_driver 1 true demo_welcome_frame 0)).map peer_keys
      = some [(1, some [113], 2)] ∧
    (Op.socket_io demo_driver 1 true demo_welcome_frame 0).sender = some 1 :=
  ⟨demo_connected_reachable, by decide,
    (connected_peer_identity demo_defaults demo_connected demo_connected_reachable).1,
    by decide, by decide,
    (connected_peer_identity demo_defaults demo_connected demo_connected_reachable).2.2.1
      (Op.socket_accepted (some 100)) _ rfl,
    demo_accepted_reachable, by decide, by decide, rfl⟩

end DistributionSocketLink
